import Mathlib

/-! # Kernel of `so_t1_t2` (t2 version): shallow embedding of `src/t2/src/so.c`

The kernel state `so_t` is passed explicitly.  Everything the kernel reaches
through a pointer to a collaborator (`cpu`, `mem`, `mmu`, `es`, `console`, the
program files) lives in one value `mundo : W`; the collaborators' functions and
the constants of the headers that are not part of the kernel sources are the
fields of `Hw W`.  C `int` is `Int` (signed overflow is undefined behaviour in C
and is not modelled); `/` and `%` are `Int.tdiv` and `Int.tmod`.  `char` is a
signed 8-bit type: an `int` stored in a `char` keeps its low 8 bits (`char_de`).

A pointer to a descriptor stored in the process table is the index of its slot;
a dereference the C code does not guard (`NULL`, or an index outside the array)
makes the function return `none`.  `console_printf` calls are omitted.  The idle
loop of the trap handler may run forever, so the handler takes a bound on its
iterations.

The definitions come first: the embedding of the sources, a concrete machine with
example states, and the notions the theorems are stated with.  The theorems
follow: the scheduler, the invariant that only the current process is RUNNING,
the quantum, boot, the system calls, the two passes of `so_trata_pendencias`, the
join law, the invariants on descriptors and pids, the loaders and the frame
counter, the internal-error flag, the CPU fault, the save area, the state
TERMINATED, the idle loop, and the ring-buffer queue of `src/t1/src/queue.c`.
-/

namespace SO

/-! ## `process.h` -/

/-- Enumeration `Process_State` of `process.h`. -/
inductive Process_State
  | NEW
  | READY
  | RUNNING
  | BLOCKING
  | TERMINATED
deriving DecidableEq, Repr

/-- Numeric value of each enumerator: `0`, `1 << 0`, `1 << 1`, `1 << 2`, `1 << 3`. -/
def Process_State.valor : Process_State → Nat
  | .NEW => 0
  | .READY => 1 <<< 0
  | .RUNNING => 1 <<< 1
  | .BLOCKING => 1 <<< 2
  | .TERMINATED => 1 <<< 3

/-- Enumeration `Process_Blocking_On` of `process.h`. -/
inductive Process_Blocking_On
  | NOT_BLOCKING
  | INPUT
  | OUTPUT
  | PROCESS
deriving DecidableEq, Repr

/-- Struct `Process_Blocking`; the field `kind` is the C field `on` (a reserved word here). -/
structure Process_Blocking where
  kind : Process_Blocking_On
  id : Int
deriving DecidableEq, Repr

/-- Struct `Process_Context`; `err` holds the `err_t` code as an integer. -/
structure Process_Context where
  pc : Int
  a : Int
  x : Int
  err : Int
deriving DecidableEq, Repr

/-- Modelled from the spec: the type `tabpag_t` of `tabpag.h`, which is not among
the sources.  The page table is "a mapping from virtual page numbers to physical
frame numbers, with a validity bit per page": here an association list from page
to frame, a page being valid exactly when it has an entry. -/
abbrev tabpag_t := List (Int × Int)

/-- Modelled from the spec: the function `tabpag_cria` of `tabpag.h`, which is not
among the sources; a new page table maps no page. -/
def tabpag_cria : tabpag_t := []

/-- Struct `Process`.  `in_dev` is the C field `in`; `priority` is the C `float`
in tenths (the source only ever stores `0.5`, and never reads it). -/
structure Process where
  pid : Int
  priority : Int
  state : Process_State
  blocking : Process_Blocking
  context : Process_Context
  in_dev : Int
  out : Int
  page_table : tabpag_t
deriving DecidableEq, Repr

/-! ## Collaborators -/

/-- Access mode of the MMU. -/
inductive Modo
  | usuario
  | supervisor
deriving DecidableEq, Repr

/-- Outcome of a read through a collaborator: `ok` is `result == ERR_OK`, `valor`
is what the call stored in its destination.  When `ok` is false the destination
was not written; where the C code reads an uninitialised destination after a
failed call, the model uses `valor`, which the collaborator is free to choose. -/
structure Leitura where
  ok : Bool
  valor : Int
deriving DecidableEq, Repr

/-- Content of a destination that held `antes` before the read. -/
def Leitura.destino (r : Leitura) (antes : Int) : Int :=
  if r.ok then r.valor else antes

/-- Program image handed out by `prog_cria`: `prog_end_carga`, `prog_tamanho`, `prog_dado`. -/
structure programa_t where
  end_carga : Int
  tamanho : Int
  dado : Int → Int

/-- The machine the kernel runs on: constants of the missing headers and the
functions of the collaborators, acting on the machine state `W`.  Writes return
`result == ERR_OK` and the new machine state. -/
structure Hw (W : Type) where
  TAM_PAGINA : Int
  IRQ_END_PC : Int
  IRQ_END_A : Int
  IRQ_END_X : Int
  IRQ_END_erro : Int
  IRQ_END_TRATADOR : Int
  IRQ_RESET : Int
  IRQ_SISTEMA : Int
  IRQ_ERR_CPU : Int
  IRQ_RELOGIO : Int
  D_RELOGIO_TIMER : Int
  D_RELOGIO_INTERRUPCAO : Int
  D_TERM_A_TECLADO : Int
  D_TERM_A_TELA : Int
  SO_LE : Int
  SO_ESCR : Int
  SO_CRIA_PROC : Int
  SO_MATA_PROC : Int
  SO_ESPERA_PROC : Int
  mmu_le : W → Int → Modo → Leitura
  mmu_escreve : W → Int → Int → Modo → Bool × W
  mmu_define_tabpag : W → tabpag_t → W
  es_le : W → Int → Leitura × W
  es_escreve : W → Int → Int → Bool × W
  mem_escreve : W → Int → Int → Bool × W
  console_tictac : W → W
  prog_cria : W → List Int → Option programa_t

/-! ## `so.c`: constants and state -/

/-- Constant `INTERVALO_INTERRUPCAO`. -/
def INTERVALO_INTERRUPCAO : Int := 50

/-- Constant `MAX_PROCESSES`. -/
abbrev MAX_PROCESSES : Nat := 4

/-- Constant `SCHEADULER_QUANTUM`. -/
def SCHEADULER_QUANTUM : Int := 2

/-- Constant `NO_PROCESS_RUNNING`. -/
def NO_PROCESS_RUNNING : Int := -1

/-- The array `Process* process_table[MAX_PROCESSES]`; `none` is `NULL`. -/
abbrev Tabela := Fin MAX_PROCESSES → Option Process

/-- Struct `so_t` together with the global `process_counter` of `process.c`. -/
structure so_t (W : Type) where
  mundo : W
  erro_interno : Bool
  process_table : Tabela
  current_process : Int
  quantum : Int
  quadro_livre : Int
  process_counter : Int

/-- The slots in the order of `for (int i = 0; i < MAX_PROCESSES; i++)`. -/
def indices : List (Fin MAX_PROCESSES) := [0, 1, 2, 3]

/-- An `int` used as array index: `none` when it is outside the array. -/
def indice (i : Int) : Option (Fin MAX_PROCESSES) :=
  if h : 0 ≤ i ∧ i < 4 then some ⟨i.toNat, by show i.toNat < 4; omega⟩ else none

/-- Value of `process_table[i]` where the C code tests it against `NULL`.  An index
outside the array reads as `NULL` here; the states the kernel reaches keep
`current_process` in `-1..3`, so those reads stay inside the array. -/
def entrada (t : Tabela) (i : Int) : Option Process :=
  match indice i with
  | some k => t k
  | none => none

/-- Characters of a C string literal. -/
def nome_de (s : String) : List Int := s.toList.map (fun c => (c.toNat : Int))

/-! ## `process.c` -/

/-- Function `process_create`: the descriptor built by the compound literal (fields
not named there are zero) and the incremented `process_counter`. -/
def process_create (process_counter : Int) (in_dev out : Int) : Process × Int :=
  ({ pid := process_counter
     priority := 5
     state := .NEW
     blocking := { kind := .NOT_BLOCKING, id := 0 }
     context := { pc := 0, a := 0, x := 0, err := 0 }
     in_dev := in_dev
     out := out
     page_table := tabpag_cria },
   process_counter + 1)

/-! ## Program loading -/

/-- Write loop shared by the loaders: `n` iterations starting at virtual address
`end_virt` and physical address `end_fis`; `false` as soon as `mem_escreve` fails. -/
def carrega_laco {W : Type} (hw : Hw W) (programa : programa_t) :
    Nat → Int → Int → W → Bool × W
  | 0, _, _, w => (true, w)
  | n + 1, end_virt, end_fis, w =>
    match hw.mem_escreve w end_fis (programa.dado end_virt) with
    | (true, w1) => carrega_laco hw programa n (end_virt + 1) (end_fis + 1) w1
    | (false, w1) => (false, w1)

/-- Function `so_carrega_programa_na_memoria_fisica`. -/
def so_carrega_programa_na_memoria_fisica {W : Type} (hw : Hw W) (self : so_t W)
    (programa : programa_t) : Int × so_t W :=
  let end_ini := programa.end_carga
  let end_fim := end_ini + programa.tamanho
  match carrega_laco hw programa (end_fim - end_ini).toNat end_ini end_ini self.mundo with
  | (true, w) => (end_ini, { self with mundo := w })
  | (false, w) => (-1, { self with mundo := w })

/-- Frame loop `for (pagina = pagina_ini; pagina <= pagina_fim; pagina++) quadro++`,
with `n` iterations left (the call that would install the mapping is commented
out in the source). -/
def quadros_laco : Nat → Int → Int
  | 0, quadro => quadro
  | n + 1, quadro => quadros_laco n (quadro + 1)

/-- Function `so_carrega_programa_na_memoria_virtual`. -/
def so_carrega_programa_na_memoria_virtual {W : Type} (hw : Hw W) (self : so_t W)
    (programa : programa_t) (_processo : Process) : Int × so_t W :=
  let end_virt_ini := programa.end_carga
  let end_virt_fim := end_virt_ini + programa.tamanho - 1
  let pagina_ini := end_virt_ini.tdiv hw.TAM_PAGINA
  let pagina_fim := end_virt_fim.tdiv hw.TAM_PAGINA
  let quadro_ini := self.quadro_livre
  let quadro := quadros_laco (pagina_fim + 1 - pagina_ini).toNat quadro_ini
  let end_fis_ini := quadro_ini * hw.TAM_PAGINA
  match carrega_laco hw programa (end_virt_fim + 1 - end_virt_ini).toNat end_virt_ini
      end_fis_ini self.mundo with
  | (true, w) => (end_virt_ini, { self with mundo := w, quadro_livre := quadro })
  | (false, w) => (-1, { self with mundo := w, quadro_livre := quadro })

/-- Function `so_carrega_programa`; `processo = none` is the `NULL` argument. -/
def so_carrega_programa {W : Type} (hw : Hw W) (self : so_t W) (processo : Option Process)
    (nome_do_executavel : List Int) : Int × so_t W :=
  match hw.prog_cria self.mundo nome_do_executavel with
  | none => (-1, self)
  | some programa =>
    match processo with
    | none => so_carrega_programa_na_memoria_fisica hw self programa
    | some p => so_carrega_programa_na_memoria_virtual hw self programa p

/-- Conversion of an `int` to `char` in the assignment `str[indice_str] = caractere`.
`char` is the signed 8-bit type of the build: the conversion keeps the low 8 bits,
so a value in `0..127` is stored as it is and a value in `128..255` is stored as
that value minus 256. -/
def char_de (v : Int) : Int := (v + 128) % 256 - 128

/-- The `for` loop of `so_copia_str_do_processo` with `tam` iterations left: the
result of the function and the elements stored in `str`, in order. -/
def so_copia_str_laco {W : Type} (hw : Hw W) (w : W) : Nat → Int → Bool × List Int
  | 0, _ => (false, [])
  | tam + 1, end_virt =>
    let r := hw.mmu_le w end_virt .usuario
    if r.ok = false then (false, [])
    else if r.valor < 0 ∨ r.valor > 255 then (false, [])
    else if r.valor = 0 then (true, [char_de r.valor])
    else
      let resto := so_copia_str_laco hw w tam (end_virt + 1)
      (resto.1, char_de r.valor :: resto.2)

/-- Function `so_copia_str_do_processo`: the result of the function and the elements
stored in `str`, in order; `processo = none` is the `NULL` argument, for which
nothing is read and nothing is stored. -/
def so_copia_str_do_processo {W : Type} (hw : Hw W) (w : W) (tam : Nat) (end_virt : Int)
    (processo : Option Process) : Bool × List Int :=
  match processo with
  | none => (false, [])
  | some _ => so_copia_str_laco hw w tam end_virt

/-- The file name passed on to `so_carrega_programa`: the characters before the `0`. -/
def nome_copiado (str : List Int) : List Int := str.takeWhile (fun c => c != 0)

/-! ## Creation -/

/-- Function `so_cria`.  `malloc` leaves `process_table` and, until the last
assignment, `quadro_livre` uninitialised; the model starts them at `NULL` and `0`. -/
def so_cria {W : Type} (hw : Hw W) (w : W) : so_t W :=
  let self : so_t W :=
    { mundo := w
      erro_interno := false
      process_table := fun _ => none
      current_process := NO_PROCESS_RUNNING
      quantum := SCHEADULER_QUANTUM
      quadro_livre := 0
      process_counter := 0 }
  let r := so_carrega_programa hw self none (nome_de "trata_int.maq")
  let self1 : so_t W :=
    if r.1 ≠ hw.IRQ_END_TRATADOR then { r.2 with erro_interno := true } else r.2
  let e := hw.es_escreve self1.mundo hw.D_RELOGIO_TIMER INTERVALO_INTERRUPCAO
  let self2 : so_t W :=
    if e.1 = false then { self1 with mundo := e.2, erro_interno := true }
    else { self1 with mundo := e.2 }
  { self2 with quadro_livre := (99 : Int).tdiv hw.TAM_PAGINA + 1 }

/-! ## Process table helpers -/

/-- Assignment through a pointer to the descriptor stored in slot `k`. -/
def altera (t : Tabela) (k : Fin MAX_PROCESSES) (f : Process → Process) : Tabela :=
  Function.update t k ((t k).map f)

/-- The unguarded read `self->process_table[self->current_process]` followed by a
dereference: the slot and its descriptor, `none` when the index is outside the
array or the slot is `NULL`. -/
def corrente {W : Type} (self : so_t W) : Option (Fin MAX_PROCESSES × Process) :=
  match indice self.current_process with
  | none => none
  | some k =>
    match self.process_table k with
    | none => none
    | some proc => some (k, proc)

/-- Function `process_table_find`: the slot of the first descriptor with that pid. -/
def process_table_find (t : Tabela) (pid : Int) : Option (Fin MAX_PROCESSES) :=
  indices.find? (fun i =>
    match t i with
    | some proc => decide (proc.pid = pid)
    | none => false)

/-! ## Trap handler phases -/

/-- Function `so_salva_estado_da_cpu`. -/
def so_salva_estado_da_cpu {W : Type} (hw : Hw W) (self : so_t W) : so_t W :=
  if self.current_process = NO_PROCESS_RUNNING then self
  else
    match indice self.current_process with
    | none => self
    | some k =>
      match self.process_table k with
      | none => self
      | some proc =>
        let ctx : Process_Context :=
          { pc := (hw.mmu_le self.mundo hw.IRQ_END_PC .supervisor).valor
            a := (hw.mmu_le self.mundo hw.IRQ_END_A .supervisor).valor
            x := (hw.mmu_le self.mundo hw.IRQ_END_X .supervisor).valor
            err := (hw.mmu_le self.mundo hw.IRQ_END_erro .supervisor).valor }
        { self with
          process_table := Function.update self.process_table k (some { proc with context := ctx }) }

/-- Function `process_receive_input`. -/
def process_receive_input {W : Type} (hw : Hw W) (w : W) (proc : Process) : Process × W :=
  let r := hw.es_le w proc.in_dev
  if r.1.ok then ({ proc with context := { proc.context with a := r.1.valor } }, r.2)
  else ({ proc with state := .TERMINATED }, r.2)

/-- Function `process_send_output`. -/
def process_send_output {W : Type} (hw : Hw W) (w : W) (proc : Process) : Process × W :=
  let r := hw.es_escreve w proc.out proc.context.x
  if r.1 then ({ proc with context := { proc.context with a := 0 } }, r.2)
  else ({ proc with state := .TERMINATED }, r.2)

/-- The two assignments `proc->state = READY; proc->blocking.on = NOT_BLOCKING`. -/
def acorda (proc : Process) : Process :=
  { proc with state := .READY, blocking := { proc.blocking with kind := .NOT_BLOCKING } }

/-- Body of the first loop of `so_trata_pendencias` for slot `i`. -/
def pendencias_acorda {W : Type} (hw : Hw W) (self : so_t W) (i : Fin MAX_PROCESSES) : so_t W :=
  match self.process_table i with
  | none => self
  | some proc =>
    if proc.state ≠ .BLOCKING then self
    else
      match proc.blocking.kind with
      | .INPUT =>
        let r := hw.es_le self.mundo proc.blocking.id
        if r.1.destino 0 ≠ 0 then
          let q := process_receive_input hw r.2 proc
          { self with
            mundo := q.2
            process_table := Function.update self.process_table i (some (acorda q.1)) }
        else { self with mundo := r.2 }
      | .OUTPUT =>
        let r := hw.es_le self.mundo proc.blocking.id
        if r.1.destino 0 ≠ 0 then
          let q := process_send_output hw r.2 proc
          { self with
            mundo := q.2
            process_table := Function.update self.process_table i (some (acorda q.1)) }
        else { self with mundo := r.2 }
      | .PROCESS =>
        match process_table_find self.process_table proc.blocking.id with
        | none => self
        | some t =>
          match self.process_table t with
          | none => self
          | some target =>
            if target.state = .TERMINATED then
              { self with
                process_table := Function.update self.process_table i (some (acorda proc)) }
            else self
      | .NOT_BLOCKING => self

/-- Body of the second loop of `so_trata_pendencias` for slot `i`
(`process_destroy` frees the descriptor and its page table). -/
def pendencias_destroi {W : Type} (self : so_t W) (i : Fin MAX_PROCESSES) : so_t W :=
  match self.process_table i with
  | none => self
  | some proc =>
    if proc.state = .TERMINATED then
      { self with process_table := Function.update self.process_table i none }
    else self

/-- Function `so_trata_pendencias`: the wake loop, then the destroy loop. -/
def so_trata_pendencias {W : Type} (hw : Hw W) (self : so_t W) : so_t W :=
  indices.foldl pendencias_destroi (indices.foldl (pendencias_acorda hw) self)

/-- The test `proc->state & (Process_State_READY | Process_State_RUNNING)`. -/
def pronto_ou_executando (proc : Process) : Bool :=
  proc.state.valor &&& (Process_State.READY.valor ||| Process_State.RUNNING.valor) != 0

/-- Search loop of `so_escalona` with `n` iterations left: the final value of
`next_process` and of `found` (`remaining` only guards a log line and is omitted). -/
def escalona_laco (t : Tabela) : Nat → Int → Int × Bool
  | 0, next_process => (next_process, false)
  | n + 1, next_process =>
    match entrada t next_process with
    | some proc =>
      if pronto_ou_executando proc then (next_process, true)
      else escalona_laco t n ((next_process + 1).tmod 4)
    | none => escalona_laco t n ((next_process + 1).tmod 4)

/-- The guard of the early return of `so_escalona`. -/
def mantem_corrente {W : Type} (self : so_t W) : Bool :=
  decide (self.current_process ≠ NO_PROCESS_RUNNING)
  && (match entrada self.process_table self.current_process with
      | some proc => decide (proc.state = .RUNNING)
      | none => false)
  && decide (self.quantum > 0)

/-- The block `if (previous->state == RUNNING) previous->state = READY` of `so_escalona`. -/
def rebaixa (previous : Process) : Process :=
  if previous.state = .RUNNING then { previous with state := .READY } else previous

/-- The block of `so_escalona` that sends the previous process from RUNNING to
READY: the process table after it. -/
def rebaixa_anterior {W : Type} (self : so_t W) : Tabela :=
  if self.current_process ≠ NO_PROCESS_RUNNING then
    match indice self.current_process with
    | some c => altera self.process_table c rebaixa
    | none => self.process_table
  else self.process_table

/-- The assignment `->state = Process_State_RUNNING`. -/
def executa (proc : Process) : Process := { proc with state := .RUNNING }

/-- Function `so_escalona`. -/
def so_escalona {W : Type} (self : so_t W) : so_t W :=
  if mantem_corrente self then self
  else
    let r := escalona_laco self.process_table MAX_PROCESSES ((self.current_process + 1).tmod 4)
    if r.2 then
      let t1 : Tabela := rebaixa_anterior self
      let t2 : Tabela :=
        match indice r.1 with
        | some k => altera t1 k executa
        | none => t1
      { self with current_process := r.1, process_table := t2, quantum := SCHEADULER_QUANTUM }
    else
      { self with current_process := NO_PROCESS_RUNNING, quantum := SCHEADULER_QUANTUM }

/-- Function `so_despacha`: the returned value and the state. -/
def so_despacha {W : Type} (hw : Hw W) (self : so_t W) : Option (Int × so_t W) :=
  if self.erro_interno then some (1, self)
  else
    match corrente self with
    | none => none
    | some (_, proc) =>
      let w1 := (hw.mmu_escreve self.mundo hw.IRQ_END_PC proc.context.pc .supervisor).2
      let w2 := (hw.mmu_escreve w1 hw.IRQ_END_A proc.context.a .supervisor).2
      let w3 := (hw.mmu_escreve w2 hw.IRQ_END_X proc.context.x .supervisor).2
      some (0, { self with mundo := hw.mmu_define_tabpag w3 proc.page_table })

/-! ## System calls -/

/-- Function `so_chamada_le`. -/
def so_chamada_le {W : Type} (hw : Hw W) (self : so_t W) : Option (so_t W) :=
  match corrente self with
  | none => none
  | some (k, proc) =>
    let r := hw.es_le self.mundo (proc.in_dev + 1)
    if r.1.ok = false then
      some { self with
        mundo := r.2
        process_table := Function.update self.process_table k (some { proc with state := .TERMINATED }) }
    else if r.1.valor = 0 then
      some { self with
        mundo := r.2
        process_table := Function.update self.process_table k
          (some { proc with
            state := .BLOCKING
            blocking := { kind := .INPUT, id := proc.in_dev + 1 } }) }
    else
      let q := process_receive_input hw r.2 proc
      some { self with mundo := q.2, process_table := Function.update self.process_table k (some q.1) }

/-- Function `so_chamada_escr`. -/
def so_chamada_escr {W : Type} (hw : Hw W) (self : so_t W) : Option (so_t W) :=
  match corrente self with
  | none => none
  | some (k, proc) =>
    let r := hw.es_le self.mundo (proc.out + 1)
    if r.1.ok = false then
      some { self with
        mundo := r.2
        process_table := Function.update self.process_table k (some { proc with state := .TERMINATED }) }
    else if r.1.valor = 0 then
      some { self with
        mundo := r.2
        process_table := Function.update self.process_table k
          (some { proc with
            state := .BLOCKING
            blocking := { kind := .OUTPUT, id := proc.out + 1 } }) }
    else
      let q := process_send_output hw r.2 proc
      some { self with mundo := q.2, process_table := Function.update self.process_table k (some q.1) }

/-- Slot search of `so_chamada_cria_proc`: the loop has no `break`, so every free
slot overwrites `table_entry`. -/
def procura_entrada (t : Tabela) : Int :=
  indices.foldl (fun table_entry i => if t i = none then (i.val : Int) else table_entry) (-1)

/-- The label `fail` of `so_chamada_cria_proc`: `proc->context.a = -1` on the caller in slot `k`. -/
def cria_proc_falha {W : Type} (self : so_t W) (k : Fin MAX_PROCESSES) : so_t W :=
  { self with
    process_table := altera self.process_table k
      (fun proc => { proc with context := { proc.context with a := -1 } }) }

/-- Function `so_chamada_cria_proc`. -/
def so_chamada_cria_proc {W : Type} (hw : Hw W) (self : so_t W) : Option (so_t W) :=
  match corrente self with
  | none => none
  | some (k, proc) =>
    let filename_address := proc.context.x
    let filename := so_copia_str_do_processo hw self.mundo 256 filename_address (some proc)
    if filename.1 = false then some (cria_proc_falha self k)
    else
      let table_entry := procura_entrada self.process_table
      if table_entry = -1 then some (cria_proc_falha self k)
      else
        let in_dev := table_entry.tmod 4 * 4
        let out := in_dev + 2
        let criado := process_create self.process_counter in_dev out
        let carga := so_carrega_programa hw { self with process_counter := criado.2 }
          (some criado.1) (nome_copiado filename.2)
        let program_address := carga.1
        if program_address < 0 then some (cria_proc_falha carga.2 k)
        else
          let new_proc : Process :=
            { criado.1 with
              context := { criado.1.context with pc := program_address }
              state := .READY }
          match indice table_entry with
          | none => none
          | some e =>
            let t1 := Function.update carga.2.process_table e (some new_proc)
            some { carga.2 with
              process_table := altera t1 k
                (fun p => { p with context := { p.context with a := new_proc.pid } }) }

/-- The assignment `->state = Process_State_TERMINATED`. -/
def termina (proc : Process) : Process := { proc with state := .TERMINATED }

/-- Function `so_chamada_mata_proc`. -/
def so_chamada_mata_proc {W : Type} (self : so_t W) : Option (so_t W) :=
  match corrente self with
  | none => none
  | some (k, proc) =>
    let pid := proc.context.x
    if pid = 0 then some { self with process_table := altera self.process_table k termina }
    else
      match process_table_find self.process_table pid with
      | some target =>
        let t1 := altera self.process_table target termina
        some { self with
          process_table := altera t1 k (fun p => { p with context := { p.context with a := 0 } }) }
      | none => some { self with process_table := altera self.process_table k termina }

/-- Function `so_chamada_espera_proc`. -/
def so_chamada_espera_proc {W : Type} (self : so_t W) : Option (so_t W) :=
  match corrente self with
  | none => none
  | some (k, proc) =>
    let bloqueia (target : Process) : Process :=
      { proc with
        state := .BLOCKING
        blocking := { kind := .PROCESS, id := target.pid }
        context := { proc.context with a := 0 } }
    match (process_table_find self.process_table proc.context.x).bind self.process_table with
    | some target =>
      if target.pid ≠ proc.pid then
        some { self with process_table := Function.update self.process_table k (some (bloqueia target)) }
      else some { self with process_table := Function.update self.process_table k (some (termina proc)) }
    | none =>
      some { self with process_table := Function.update self.process_table k (some (termina proc)) }

/-- Function `so_trata_irq_chamada_sistema`. -/
def so_trata_irq_chamada_sistema {W : Type} (hw : Hw W) (self : so_t W) : Option (so_t W) :=
  match corrente self with
  | none => none
  | some (k, proc) =>
    let id_chamada := proc.context.a
    if id_chamada = hw.SO_LE then so_chamada_le hw self
    else if id_chamada = hw.SO_ESCR then so_chamada_escr hw self
    else if id_chamada = hw.SO_CRIA_PROC then so_chamada_cria_proc hw self
    else if id_chamada = hw.SO_MATA_PROC then so_chamada_mata_proc self
    else if id_chamada = hw.SO_ESPERA_PROC then so_chamada_espera_proc self
    else
      some { self with
        process_table := Function.update self.process_table k (some (termina proc))
        erro_interno := true }

/-! ## Interrupt service routines -/

/-- Function `so_trata_irq_reset`. -/
def so_trata_irq_reset {W : Type} (hw : Hw W) (self : so_t W) : so_t W :=
  let criado := process_create self.process_counter hw.D_TERM_A_TECLADO hw.D_TERM_A_TELA
  let self1 : so_t W :=
    { self with
      process_counter := criado.2
      current_process := 0
      process_table := Function.update (fun _ => none) 0 (some criado.1) }
  let carga := so_carrega_programa hw self1 (some criado.1) (nome_de "init.maq")
  if carga.1 ≠ 100 then { carga.2 with erro_interno := true }
  else
    { carga.2 with
      process_table := altera carga.2.process_table 0 (fun proc => { proc with state := .READY }) }

/-- Function `so_trata_irq_err_cpu`. -/
def so_trata_irq_err_cpu {W : Type} (self : so_t W) : Option (so_t W) :=
  if self.current_process ≠ NO_PROCESS_RUNNING then
    match corrente self with
    | none => none
    | some (k, ps) =>
      some { self with
        process_table := Function.update self.process_table k (some (termina ps))
        erro_interno := true }
  else some { self with erro_interno := true }

/-- Function `so_trata_irq_relogio`. -/
def so_trata_irq_relogio {W : Type} (hw : Hw W) (self : so_t W) : so_t W :=
  let e1 := hw.es_escreve self.mundo hw.D_RELOGIO_INTERRUPCAO 0
  let e2 := hw.es_escreve e1.2 hw.D_RELOGIO_TIMER INTERVALO_INTERRUPCAO
  { self with
    mundo := e2.2
    erro_interno := if e1.1 = false ∨ e2.1 = false then true else self.erro_interno
    quantum := self.quantum - 1 }

/-- Function `so_trata_irq_desconhecida`. -/
def so_trata_irq_desconhecida {W : Type} (self : so_t W) (_irq : Int) : so_t W :=
  { self with erro_interno := true }

/-- Function `so_trata_irq`: the `switch`, its labels tried in source order. -/
def so_trata_irq {W : Type} (hw : Hw W) (self : so_t W) (irq : Int) : Option (so_t W) :=
  if irq = hw.IRQ_RESET then some (so_trata_irq_reset hw self)
  else if irq = hw.IRQ_SISTEMA then so_trata_irq_chamada_sistema hw self
  else if irq = hw.IRQ_ERR_CPU then so_trata_irq_err_cpu self
  else if irq = hw.IRQ_RELOGIO then some (so_trata_irq_relogio hw self)
  else some (so_trata_irq_desconhecida self irq)

/-! ## Trap handler -/

/-- The condition of the idle loop of `so_trata_interrupcao`. -/
def ocioso {W : Type} (self : so_t W) : Bool :=
  !self.erro_interno && decide (self.current_process = NO_PROCESS_RUNNING)

/-- One iteration of the idle loop: `console_tictac`, `so_trata_pendencias`, `so_escalona`. -/
def espera_passo {W : Type} (hw : Hw W) (self : so_t W) : so_t W :=
  so_escalona (so_trata_pendencias hw { self with mundo := hw.console_tictac self.mundo })

/-- The idle loop with at most `n` iterations: `none` when the condition still
holds after `n` iterations. -/
def espera_ativa {W : Type} (hw : Hw W) : Nat → so_t W → Option (so_t W)
  | 0, self => if ocioso self then none else some self
  | n + 1, self => if ocioso self then espera_ativa hw n (espera_passo hw self) else some self

/-- Function `so_trata_interrupcao`, its idle loop bounded by `n` iterations:
the value returned to the CPU and the state, `none` when the C code has no
defined result or the loop needs more iterations. -/
def so_trata_interrupcao {W : Type} (hw : Hw W) (n : Nat) (self : so_t W) (irq : Int) :
    Option (Int × so_t W) :=
  match so_trata_irq hw (so_salva_estado_da_cpu hw self) irq with
  | none => none
  | some s1 =>
    match espera_ativa hw n (so_escalona (so_trata_pendencias hw s1)) with
    | none => none
    | some s2 => so_despacha hw s2

/-! ## A concrete machine

A small machine on which the kernel can be run: memory and device registers are
total maps, every access succeeds, user-mode addresses are physical addresses,
and three program files exist. -/

/-- State of the concrete machine: memory, device registers, and the page table
installed in the MMU. -/
structure Maquina where
  mem : Int → Int
  es : Int → Int
  tabpag : tabpag_t

/-- Program files of the concrete machine. -/
def arquivos (nome : List Int) : Option programa_t :=
  if nome = nome_de "trata_int.maq" then
    some { end_carga := 10, tamanho := 2, dado := fun _ => 1 }
  else if nome = nome_de "init.maq" then
    some { end_carga := 100, tamanho := 3, dado := fun e => e }
  else if nome = nome_de "p1.maq" then
    some { end_carga := 5, tamanho := 12, dado := fun e => e + 1 }
  else none

/-- The concrete machine: pages of 10 words, save area at addresses 0 to 3. -/
def hwT : Hw Maquina where
  TAM_PAGINA := 10
  IRQ_END_PC := 0
  IRQ_END_A := 1
  IRQ_END_X := 2
  IRQ_END_erro := 3
  IRQ_END_TRATADOR := 10
  IRQ_RESET := 0
  IRQ_ERR_CPU := 1
  IRQ_SISTEMA := 2
  IRQ_RELOGIO := 3
  D_RELOGIO_TIMER := 18
  D_RELOGIO_INTERRUPCAO := 19
  D_TERM_A_TECLADO := 0
  D_TERM_A_TELA := 2
  SO_LE := 1
  SO_ESCR := 2
  SO_CRIA_PROC := 3
  SO_MATA_PROC := 4
  SO_ESPERA_PROC := 5
  mmu_le := fun w a _ => { ok := true, valor := w.mem a }
  mmu_escreve := fun w a v _ => (true, { w with mem := Function.update w.mem a v })
  mmu_define_tabpag := fun w t => { w with tabpag := t }
  es_le := fun w d => ({ ok := true, valor := w.es d }, w)
  es_escreve := fun w d v => (true, { w with es := Function.update w.es d v })
  mem_escreve := fun w a v => (true, { w with mem := Function.update w.mem a v })
  console_tictac := fun w => w
  prog_cria := fun _ nome => arquivos nome

/-- Machine state at power-up: memory and device registers all zero. -/
def maquina0 : Maquina := { mem := fun _ => 0, es := fun _ => 0, tabpag := [] }

/-- The kernel created on the concrete machine at power-up. -/
def so_inicial : so_t Maquina := so_cria hwT maquina0

/-- The kernel on the concrete machine when the RESET trap has returned. -/
def so_boot : so_t Maquina :=
  match so_trata_interrupcao hwT 0 so_inicial hwT.IRQ_RESET with
  | some r => r.2
  | none => so_inicial

/-! ## Notions of the specification -/

/-- Runnable slot as the specification words it: occupied, with state READY or RUNNING. -/
def apto (o : Option Process) : Bool :=
  match o with
  | some proc => decide (proc.state = .READY ∨ proc.state = .RUNNING)
  | none => false

/-- Slot number `i mod 4`. -/
def mod4 (i : Int) : Fin MAX_PROCESSES :=
  ⟨(i % 4).toNat, by show (i % 4).toNat < 4; omega⟩

/-- The circular order `(current+1) mod 4, ..., (current+4) mod 4` of the specification. -/
def ordem_circular (current : Int) : List (Fin MAX_PROCESSES) :=
  [mod4 (current + 1), mod4 (current + 2), mod4 (current + 3), mod4 (current + 4)]

/-- First runnable slot in the circular order after `current`. -/
def primeiro_apto (t : Tabela) (current : Int) : Option (Fin MAX_PROCESSES) :=
  (ordem_circular current).find? (fun i => apto (t i))

/-- The slots the circular order after `c0` visits before it reaches `c1`. -/
def entre (c0 c1 : Fin MAX_PROCESSES) : List (Fin MAX_PROCESSES) :=
  (ordem_circular ((c0 : Nat) : Int)).takeWhile (fun j => j != c1)

/-- Slot `i` holds a descriptor with this pid and this state. -/
def ocupa (t : Tabela) (i : Fin MAX_PROCESSES) (pid : Int) (state : Process_State) : Prop :=
  ∃ proc, t i = some proc ∧ proc.pid = pid ∧ proc.state = state

/-- The kernel state when `so_escalona` is called for the first time in a CLOCK trap
taken in state `s`: context saved, interrupt served, pending work handled. -/
def antes_de_escalonar {W : Type} (hw : Hw W) (s : so_t W) : so_t W :=
  so_trata_pendencias hw (so_trata_irq_relogio hw (so_salva_estado_da_cpu hw s))

/-- A descriptor for examples: terminal pair of its slot, registers zero. -/
def processo_de (pid : Int) (state : Process_State) (slot : Int) : Process :=
  { pid := pid
    priority := 5
    state := state
    blocking := { kind := .NOT_BLOCKING, id := 0 }
    context := { pc := 0, a := 0, x := 0, err := 0 }
    in_dev := slot * 4
    out := slot * 4 + 2
    page_table := [] }

/-- Example table: pid 0 RUNNING in slot 0, pid 1 READY in slot 2. -/
def tabela_dois : Tabela := fun i =>
  if i = 0 then some (processo_de 0 .RUNNING 0)
  else if i = 2 then some (processo_de 1 .READY 2)
  else none

/-- Example kernel state on the concrete machine with the table `tabela_dois`,
slot 0 current, and the given quantum. -/
def so_dois (quantum : Int) : so_t Maquina :=
  { mundo := maquina0
    erro_interno := false
    process_table := tabela_dois
    current_process := 0
    quantum := quantum
    quadro_livre := 12
    process_counter := 2 }

/-- Machine state in which the keyboard of terminal B has a character: its status
register 5 reads 1 and its data register 4 reads 65. -/
def maquina_tecla : Maquina :=
  { mem := fun _ => 0
    es := fun d => if d = 5 then 1 else if d = 4 then 65 else 0
    tabpag := [] }

/-- Example kernel state: pid 0 RUNNING and current in slot 0, pid 1 BLOCKED in slot 1
on the keyboard status register 5, pid 2 READY in slot 2, quantum 2; the machine
is `maquina_tecla`. -/
def so_tres : so_t Maquina :=
  { mundo := maquina_tecla
    erro_interno := false
    process_table := fun i =>
      if i = 0 then some (processo_de 0 .RUNNING 0)
      else if i = 1 then
        some { processo_de 1 .BLOCKING 1 with blocking := { kind := .INPUT, id := 5 } }
      else if i = 2 then some (processo_de 2 .READY 2)
      else none
    current_process := 0
    quantum := 2
    quadro_livre := 13
    process_counter := 3 }

/-- The call `so_carrega_programa(self, new_proc, filename)` of `so_chamada_cria_proc`
for the caller `proc`, with the arguments the function has computed when it
reaches that line: its result and the kernel state after it. -/
def carga_de_cria_proc {W : Type} (hw : Hw W) (self : so_t W) (proc : Process) :
    Int × so_t W :=
  let table_entry := procura_entrada self.process_table
  let criado := process_create self.process_counter (table_entry.tmod 4 * 4)
    (table_entry.tmod 4 * 4 + 2)
  so_carrega_programa hw { self with process_counter := criado.2 } (some criado.1)
    (nome_copiado (so_copia_str_do_processo hw self.mundo 256 proc.context.x (some proc)).2)

/-- Machine state whose memory holds the string "p1.maq" at address 200. -/
def maquina_nome : Maquina :=
  { mem := fun a =>
      if 200 ≤ a then ((nome_de "p1.maq").get? (a - 200).toNat).getD 0 else 0
    es := fun _ => 0
    tabpag := [] }

/-- Example kernel state: pid 0 RUNNING and current in slot 0 with register `x`
holding address 200, the other three slots free. -/
def so_chama : so_t Maquina :=
  { mundo := maquina_nome
    erro_interno := false
    process_table := fun i =>
      if i = 0 then
        some { processo_de 0 .RUNNING 0 with context := { pc := 0, a := 3, x := 200, err := 0 } }
      else none
    current_process := 0
    quantum := 2
    quadro_livre := 11
    process_counter := 1 }

/-- Example kernel state with no free slot: as `so_chama`, with pids 1, 2 and 3 READY
in slots 1, 2 and 3. -/
def so_cheio : so_t Maquina :=
  { so_chama with
    process_table := fun i =>
      if i = 0 then
        some { processo_de 0 .RUNNING 0 with context := { pc := 0, a := 3, x := 200, err := 0 } }
      else some (processo_de ((i : Nat) : Int) .READY ((i : Nat) : Int))
    process_counter := 4 }

/-- Example caller: pid 0, RUNNING, terminal A, register `x` holding 1. -/
def chamador_um : Process :=
  { processo_de 0 .RUNNING 0 with context := { pc := 0, a := 4, x := 1, err := 0 } }

/-- Example kernel state: `chamador_um` current in slot 0 and pid 1 READY in slot 2. -/
def so_alvo : so_t Maquina :=
  { so_dois 2 with
    process_table := fun i =>
      if i = 0 then some chamador_um
      else if i = 2 then some (processo_de 1 .READY 2)
      else none }

/-- Every descriptor of the table has `context.pc = v`. -/
def todos_pc (t : Tabela) (v : Int) : Prop :=
  ∀ j q, t j = some q → q.context.pc = v

/-- Every pid in the table is below `c`. -/
def pids_abaixo (t : Tabela) (c : Int) : Prop :=
  ∀ j q, t j = some q → q.pid < c

/-- Example kernel state one trap before `so_tres`: pid 2 RUNNING and current in
slot 2 with quantum 1, pid 0 READY in slot 0, pid 1 BLOCKED in slot 1; the
keyboard of terminal B has no character yet. -/
def so_antes : so_t Maquina :=
  { so_tres with
    mundo := maquina0
    process_table := fun i =>
      if i = 0 then some (processo_de 0 .READY 0)
      else if i = 1 then
        some { processo_de 1 .BLOCKING 1 with blocking := { kind := .INPUT, id := 5 } }
      else if i = 2 then some (processo_de 2 .RUNNING 2)
      else none
    current_process := 2
    quantum := 1 }

/-- Slot `i` holds a descriptor whose state is RUNNING. -/
def executando (t : Tabela) (i : Fin MAX_PROCESSES) : Prop :=
  ∃ proc, t i = some proc ∧ proc.state = .RUNNING

/-- No slot is RUNNING in `t2` unless it was RUNNING in `t1`. -/
def nao_cria_executando (t1 t2 : Tabela) : Prop :=
  ∀ i, executando t2 i → executando t1 i

/-- The pairs `(r, s)` of a value returned by the trap handler and the kernel
state at that return, in a run that starts from a freshly created kernel.
Between two traps the machine (user program, devices) changes `mundo` freely. -/
inductive Retorno {W : Type} (hw : Hw W) : Int → so_t W → Prop
  | primeiro (w : W) (n : Nat) (irq r : Int) (s : so_t W) :
      so_trata_interrupcao hw n (so_cria hw w) irq = some (r, s) → Retorno hw r s
  | seguinte (r0 : Int) (s0 : so_t W) (w : W) (n : Nat) (irq r : Int) (s : so_t W) :
      Retorno hw r0 s0 →
      so_trata_interrupcao hw n { s0 with mundo := w } irq = some (r, s) → Retorno hw r s

/-! ## Invariants of the trap handler -/

/-- Only the slot `current_process` may hold a RUNNING descriptor. -/
def so_corrente_executa {W : Type} (s : so_t W) : Prop :=
  ∀ i, executando s.process_table i → s.current_process = ((i : Nat) : Int)

/-- A phase that keeps `current_process` and makes no slot RUNNING. -/
def fase_neutra {W : Type} (s s2 : so_t W) : Prop :=
  s2.current_process = s.current_process ∧
    nao_cria_executando s.process_table s2.process_table

/-- What holds when `so_escalona` has run: only the current slot may be RUNNING,
and there is either no current process or the current slot is RUNNING. -/
def apos_escalona {W : Type} (s : so_t W) : Prop :=
  so_corrente_executa s ∧
    (s.current_process = NO_PROCESS_RUNNING ∨
      ∃ k : Fin MAX_PROCESSES, s.current_process = ((k : Nat) : Int) ∧
        executando s.process_table k)

/-! ## The two loops of `so_trata_pendencias` -/

/-- The first loop of `so_trata_pendencias` (Pass A): the kernel state after it. -/
def passo_A {W : Type} (hw : Hw W) (s : so_t W) : so_t W :=
  indices.foldl (pendencias_acorda hw) s

/-- The kernel state when the first loop of `so_trata_pendencias` reaches slot `i`:
the slots before `i` have been handled. -/
def passo_A_antes {W : Type} (hw : Hw W) (s : so_t W) (i : Fin MAX_PROCESSES) : so_t W :=
  (indices.take i).foldl (pendencias_acorda hw) s

/-- Machine state in which the screen of terminal A is ready: its status register 3
reads 1. -/
def maquina_tela : Maquina :=
  { mem := fun _ => 0
    es := fun d => if d = 3 then 1 else 0
    tabpag := [] }

/-- Example kernel state: as `so_alvo`, on the machine `maquina_tela`. -/
def so_escreve : so_t Maquina := { so_alvo with mundo := maquina_tela }

/-- The concrete machine with a broken keyboard on terminal B: every read of its
data register 4 fails. -/
def hwF : Hw Maquina :=
  { hwT with
    es_le := fun w d =>
      if d = 4 then ({ ok := false, valor := 0 }, w) else ({ ok := true, valor := w.es d }, w) }

/-- What `process_table_find` and the test `target->state == TERMINATED` can see of a
slot: the pid of its descriptor and whether it is TERMINATED. -/
def resumo (o : Option Process) : Option (Int × Bool) :=
  o.map (fun proc => (proc.pid, decide (proc.state = .TERMINATED)))

/-- The test `target && target->state == Process_State_TERMINATED` of Pass A for the
target pid `pid`. -/
def alvo_terminado (t : Tabela) (pid : Int) : Bool :=
  match (process_table_find t pid).bind t with
  | some target => decide (target.state = .TERMINATED)
  | none => false

/-- Example kernel state: pid 0 RUNNING and current in slot 0, pid 1 BLOCKED in slot 1
on a JOIN with pid 7, and no descriptor with pid 7. -/
def so_orfao : so_t Maquina :=
  { so_dois 2 with
    process_table := fun i =>
      if i = 0 then some (processo_de 0 .RUNNING 0)
      else if i = 1 then
        some { processo_de 1 .BLOCKING 1 with blocking := { kind := .PROCESS, id := 7 } }
      else none }

/-- Example kernel state: pid 0 RUNNING and current in slot 0, pid 1 BLOCKED in slot 1
on a JOIN with pid 2, and pid 2 in slot 2 with the given state. -/
def so_junta (estado_do_alvo : Process_State) (w : Maquina) : so_t Maquina :=
  { so_dois 2 with
    mundo := w
    process_table := fun i =>
      if i = 0 then some (processo_de 0 .RUNNING 0)
      else if i = 1 then
        some { processo_de 1 .BLOCKING 1 with blocking := { kind := .PROCESS, id := 2 } }
      else if i = 2 then some (processo_de 2 estado_do_alvo 2)
      else none
    process_counter := 3 }

/-! ## Invariants on the descriptors -/

/-- The invariant of the specification on one descriptor: it is BLOCKED exactly when
its blocking kind is not NOT_BLOCKING. -/
def coerente (proc : Process) : Prop :=
  proc.state = .BLOCKING ↔ proc.blocking.kind ≠ .NOT_BLOCKING

/-- Inside the trap handler a TERMINATED descriptor may still carry the blocking
kind it had; every other descriptor satisfies `coerente`. -/
def quase_coerente (proc : Process) : Prop :=
  proc.state = .TERMINATED ∨ coerente proc

/-- Every descriptor of the table satisfies `quase_coerente`. -/
def tabela_quase (t : Tabela) : Prop :=
  ∀ j proc, t j = some proc → quase_coerente proc

/-- Every descriptor of the table satisfies `coerente`. -/
def tabela_coerente (t : Tabela) : Prop :=
  ∀ j proc, t j = some proc → coerente proc

/-- A process `joiner` in slot `i` waits, in table `t`, for a live target: slot `j`
holds the first descriptor with pid `joiner.blocking.id`, and it is not TERMINATED. -/
def espera_viva (t : Tabela) (i j : Fin MAX_PROCESSES) (joiner : Process) : Prop :=
  t i = some joiner ∧
  (∃ q, t j = some q ∧ q.pid = joiner.blocking.id ∧ q.state ≠ .TERMINATED) ∧
  (∀ j2 r, j2 < j → t j2 = some r → r.pid ≠ joiner.blocking.id)

/-- In table `t` slot `j` is empty and slot `i` holds the woken `joiner`: READY or
RUNNING, not blocked, same pid and registers. -/
def acordado (t : Tabela) (i j : Fin MAX_PROCESSES) (joiner : Process) : Prop :=
  t j = none ∧
  ∃ p, t i = some p ∧ (p.state = .READY ∨ p.state = .RUNNING) ∧
    p.blocking.kind = .NOT_BLOCKING ∧ p.context = joiner.context ∧ p.pid = joiner.pid

/-- Machine state whose save area holds `a = 4` (KILL_PROC) and the given `x`. -/
def maquina_mata (x : Int) : Maquina :=
  { mem := fun e => if e = 1 then 4 else if e = 2 then x else 0
    es := fun _ => 0
    tabpag := [] }

/-- The kernel state a trap taken in state `s` on the concrete machine returns in
(`s` itself when the trap has no result). -/
def so_apos (s : so_t Maquina) (irq : Int) : so_t Maquina :=
  match so_trata_interrupcao hwT 0 s irq with
  | some r => r.2
  | none => s

/-- The kernel state after the interrupt service of a trap taken in state `s` on the
concrete machine (`s` itself when the service has no result). -/
def so_servido (s : so_t Maquina) (irq : Int) : so_t Maquina :=
  match so_trata_irq hwT (so_salva_estado_da_cpu hwT s) irq with
  | some s1 => s1
  | none => s

/-- No two descriptors of the table have the same pid. -/
def pids_distintos (t : Tabela) : Prop :=
  ∀ i j p q, t i = some p → t j = some q → p.pid = q.pid → i = j

/-- Consecutive calls of `process_create`, one for each pair of devices of the list,
the first with the counter value `c`: the descriptors created, in the order of the
calls, and the final value of the counter. -/
def cria_em_serie : List (Int × Int) → Int → List Process × Int
  | [], c => ([], c)
  | d :: resto, c =>
    let criado := process_create c d.1 d.2
    let seguintes := cria_em_serie resto criado.2
    (criado.1 :: seguintes.1, seguintes.2)

/-- Machine state whose save area holds `a = 3` (CREATE_PROC) and `x = 200`, the
address of the string "p1.maq". -/
def maquina_cria : Maquina :=
  { maquina_nome with
    mem := fun e => if e = 1 then 3 else if e = 2 then 200 else maquina_nome.mem e }

/-- The kernel on the concrete machine when, after the boot, pid 0 has created a
process from "p1.maq" and that trap has returned. -/
def so_criou : so_t Maquina :=
  so_apos { so_boot with mundo := maquina_cria } hwT.IRQ_SISTEMA

/-- Machine state whose save area holds `a = 1` (READ); no keyboard has a character. -/
def maquina_le : Maquina :=
  { mem := fun e => if e = 1 then 1 else 0
    es := fun _ => 0
    tabpag := [] }

/-- The kernel on the concrete machine when, after `so_criou`, pid 0 has called READ
with no character available and that trap has returned: pid 0 is BLOCKED and
pid 1 runs. -/
def so_leu : so_t Maquina :=
  so_apos { so_criou with mundo := maquina_le } hwT.IRQ_SISTEMA

/-- The kernel states in which a trap is taken, in a run that starts from a freshly
created kernel: the fresh kernel, and every state reached at a return of the trap
handler, with whatever the machine has done to `mundo` since. -/
inductive Entrada {W : Type} (hw : Hw W) : so_t W → Prop
  | primeira (w : W) : Entrada hw (so_cria hw w)
  | seguinte (r0 : Int) (s0 : so_t W) (w : W) :
      Retorno hw r0 s0 → Entrada hw { s0 with mundo := w }

/-- Every descriptor of the table whose blocking kind is PROCESS has register `a`
equal to 0. -/
def espera_zero (t : Tabela) : Prop :=
  ∀ j p, t j = some p → p.blocking.kind = .PROCESS → p.context.a = 0

/-- The current process, if there is one, is not blocked on anything. -/
def corrente_livre {W : Type} (s : so_t W) : Prop :=
  ∀ k proc, corrente s = some (k, proc) → proc.blocking.kind = .NOT_BLOCKING

/-- Machine state whose save area holds `a = 5` (WAIT_PROC) and the given `x`. -/
def maquina_espera (x : Int) : Maquina :=
  { mem := fun e => if e = 1 then 5 else if e = 2 then x else 0
    es := fun _ => 0
    tabpag := [] }

/-- The kernel on the concrete machine when, after `so_criou`, pid 0 has called
WAIT_PROC for pid 1 and that trap has returned: pid 0 is BLOCKED and pid 1 runs. -/
def so_espera_filho : so_t Maquina :=
  so_apos { so_criou with mundo := maquina_espera 1 } hwT.IRQ_SISTEMA

/-- The kernel on the concrete machine when, after `so_criou`, pid 0 has created a
second process, pid 2, and that trap has returned. -/
def so_dois_filhos : so_t Maquina :=
  so_apos { so_criou with mundo := maquina_cria } hwT.IRQ_SISTEMA

/-- The kernel on the concrete machine when, after `so_dois_filhos`, pid 0 has called
READ with no character available and that trap has returned: pid 2 runs. -/
def so_pai_le : so_t Maquina :=
  so_apos { so_dois_filhos with mundo := maquina_le } hwT.IRQ_SISTEMA

/-- The kernel on the concrete machine when, after `so_pai_le`, pid 2 has called
WAIT_PROC for pid 1 and that trap has returned: pid 2 is BLOCKED and pid 1 runs. -/
def so_filho_espera : so_t Maquina :=
  so_apos { so_pai_le with mundo := maquina_espera 1 } hwT.IRQ_SISTEMA

/-! ## Notions for `so_copia_str_do_processo` -/

/-- The read of the word at `end_virt + j` in user mode succeeds and gives a
character in `1..255`. -/
def caractere_em {W : Type} (hw : Hw W) (w : W) (end_virt : Int) (j : Nat) : Prop :=
  (hw.mmu_le w (end_virt + j) .usuario).ok = true ∧
    1 ≤ (hw.mmu_le w (end_virt + j) .usuario).valor ∧
    (hw.mmu_le w (end_virt + j) .usuario).valor ≤ 255

/-- The read of the word at `end_virt + k` in user mode succeeds and gives 0. -/
def zero_em {W : Type} (hw : Hw W) (w : W) (end_virt : Int) (k : Nat) : Prop :=
  (hw.mmu_le w (end_virt + k) .usuario).ok = true ∧
    (hw.mmu_le w (end_virt + k) .usuario).valor = 0

instance {W : Type} (hw : Hw W) (w : W) (end_virt : Int) (j : Nat) :
    Decidable (caractere_em hw w end_virt j) := by
  unfold caractere_em
  infer_instance

instance {W : Type} (hw : Hw W) (w : W) (end_virt : Int) (k : Nat) :
    Decidable (zero_em hw w end_virt k) := by
  unfold zero_em
  infer_instance

/-- Machine state whose memory holds the word 255 at address 200 and 0 elsewhere. -/
def maquina_ff : Maquina :=
  { mem := fun a => if a = 200 then 255 else 0, es := fun _ => 0, tabpag := [] }

/-- Machine state whose memory holds the character 65 at every address. -/
def maquina_cheia : Maquina := { mem := fun _ => 65, es := fun _ => 0, tabpag := [] }

/-! ## A machine that keeps a journal of the writes to physical memory -/

/-- The machine `hw` with a journal next to its state: every call of `mem_escreve`
appends the address and the value it was given; all calls are passed on to `hw`
unchanged. -/
def registra {W : Type} (hw : Hw W) : Hw (W × List (Int × Int)) where
  TAM_PAGINA := hw.TAM_PAGINA
  IRQ_END_PC := hw.IRQ_END_PC
  IRQ_END_A := hw.IRQ_END_A
  IRQ_END_X := hw.IRQ_END_X
  IRQ_END_erro := hw.IRQ_END_erro
  IRQ_END_TRATADOR := hw.IRQ_END_TRATADOR
  IRQ_RESET := hw.IRQ_RESET
  IRQ_SISTEMA := hw.IRQ_SISTEMA
  IRQ_ERR_CPU := hw.IRQ_ERR_CPU
  IRQ_RELOGIO := hw.IRQ_RELOGIO
  D_RELOGIO_TIMER := hw.D_RELOGIO_TIMER
  D_RELOGIO_INTERRUPCAO := hw.D_RELOGIO_INTERRUPCAO
  D_TERM_A_TECLADO := hw.D_TERM_A_TECLADO
  D_TERM_A_TELA := hw.D_TERM_A_TELA
  SO_LE := hw.SO_LE
  SO_ESCR := hw.SO_ESCR
  SO_CRIA_PROC := hw.SO_CRIA_PROC
  SO_MATA_PROC := hw.SO_MATA_PROC
  SO_ESPERA_PROC := hw.SO_ESPERA_PROC
  mmu_le := fun w a m => hw.mmu_le w.1 a m
  mmu_escreve := fun w a v m => ((hw.mmu_escreve w.1 a v m).1, ((hw.mmu_escreve w.1 a v m).2, w.2))
  mmu_define_tabpag := fun w t => (hw.mmu_define_tabpag w.1 t, w.2)
  es_le := fun w d => ((hw.es_le w.1 d).1, ((hw.es_le w.1 d).2, w.2))
  es_escreve := fun w d v => ((hw.es_escreve w.1 d v).1, ((hw.es_escreve w.1 d v).2, w.2))
  mem_escreve := fun w a v =>
    ((hw.mem_escreve w.1 a v).1, ((hw.mem_escreve w.1 a v).2, w.2 ++ [(a, v)]))
  console_tictac := fun w => (hw.console_tictac w.1, w.2)
  prog_cria := fun w nome => hw.prog_cria w.1 nome

/-- The writes of the copy loop of the loaders, for `m` words: word `i` of the image,
counted from the virtual address `end_virt`, goes to the physical address
`end_fis + i`. -/
def escritas (programa : programa_t) (m : Nat) (end_virt end_fis : Int) : List (Int × Int) :=
  (List.range m).map (fun i => (end_fis + (i : Nat), programa.dado (end_virt + (i : Nat))))

/-- Number of virtual pages an image with load address `L` and size `n` covers. -/
def paginas_cobertas {W : Type} (hw : Hw W) (L n : Int) : Int :=
  (L + n - 1).tdiv hw.TAM_PAGINA - L.tdiv hw.TAM_PAGINA + 1

/-- The image of the file "p1.maq" of the concrete machine: load address 5, 12 words. -/
def imagem_p1 : programa_t := { end_carga := 5, tamanho := 12, dado := fun e => e + 1 }

/-- A kernel state on the concrete machine with a journal: the state `so_boot`, the
journal empty. -/
def so_boot_diario : so_t (Maquina × List (Int × Int)) :=
  { mundo := (so_boot.mundo, [])
    erro_interno := so_boot.erro_interno
    process_table := so_boot.process_table
    current_process := so_boot.current_process
    quantum := so_boot.quantum
    quadro_livre := so_boot.quadro_livre
    process_counter := so_boot.process_counter }

/-- Every descriptor of the table has the page table `tabpag_cria` gave it: no page
is mapped. -/
def sem_mapa (t : Tabela) : Prop :=
  ∀ j p, t j = some p → p.page_table = tabpag_cria

/-- The pairs `(r, s)` of a value returned by the trap handler and the kernel state
at that return, for the traps taken after the kernel was in state `s0`; between
two traps the machine changes `mundo` freely. -/
inductive Depois {W : Type} (hw : Hw W) (s0 : so_t W) : Int → so_t W → Prop
  | proximo (w : W) (n : Nat) (irq r : Int) (s : so_t W) :
      so_trata_interrupcao hw n { s0 with mundo := w } irq = some (r, s) → Depois hw s0 r s
  | seguinte (r1 : Int) (s1 : so_t W) (w : W) (n : Nat) (irq r : Int) (s : so_t W) :
      Depois hw s0 r1 s1 →
      so_trata_interrupcao hw n { s1 with mundo := w } irq = some (r, s) → Depois hw s0 r s

/-- The kernel state in which `so_despacha` is called in a trap taken in state `s` on
the concrete machine, the idle loop having at most `n` iterations (`s` itself when
that point is not reached). -/
def so_antes_de_despachar (n : Nat) (s : so_t Maquina) (irq : Int) : so_t Maquina :=
  match so_trata_irq hwT (so_salva_estado_da_cpu hwT s) irq with
  | none => s
  | some s1 =>
    match espera_ativa hwT n (so_escalona (so_trata_pendencias hwT s1)) with
    | none => s
    | some s3 => s3

/-- The kernel on the concrete machine when, after `so_criou`, pid 0 has taken a CPU
error and that trap has returned: the internal-error flag is set. -/
def so_falhou : so_t Maquina :=
  so_apos { so_criou with mundo := maquina0 } hwT.IRQ_ERR_CPU

/-- Supervisor accesses of the MMU behave as a memory: a read gives the value last
written to its address, and installing a page table does not change what the
supervisor reads. -/
def memoria_supervisor {W : Type} (hw : Hw W) : Prop :=
  (∀ w a v b, (hw.mmu_le (hw.mmu_escreve w a v .supervisor).2 b .supervisor).valor
    = if b = a then v else (hw.mmu_le w b .supervisor).valor) ∧
  (∀ w t b, (hw.mmu_le (hw.mmu_define_tabpag w t) b .supervisor).valor
    = (hw.mmu_le w b .supervisor).valor)

/-- Machine state whose save area holds `pc = 7`, `a = 8`, `x = 9` and `err = 6`. -/
def maquina_salva : Maquina :=
  { mem := fun e => if e = 0 then 7 else if e = 1 then 8 else if e = 2 then 9
      else if e = 3 then 6 else 0
    es := fun _ => 0
    tabpag := [] }

/-- From table `t` to table `t2` every TERMINATED descriptor is either still in its
slot, TERMINATED and with the same pid, or its slot is empty. -/
def terminados_ficam (t t2 : Tabela) : Prop :=
  ∀ j p, t j = some p → p.state = .TERMINATED →
    t2 j = none ∨ ∃ q, t2 j = some q ∧ q.state = .TERMINATED ∧ q.pid = p.pid

/-- The process that makes a system call, the current one, is not TERMINATED. -/
def chamador_vivo {W : Type} (s : so_t W) : Prop :=
  ∀ k p, corrente s = some (k, p) → p.state ≠ .TERMINATED

/-! ## `queue.c` (t1): the ring-buffer queue -/

/-- Struct `queue`.  `items` is the content of the array of `capacity` integers; a
read or a write at an index outside `0 .. capacity - 1` is outside the array. -/
structure Queue where
  items : Int → Int
  capacity : Int
  size : Int
  front : Int
  back : Int

/-- Function `queue_create`; `lixo` is what `malloc` left in the array. -/
def queue_create (capacity : Int) (lixo : Int → Int) : Queue :=
  { items := lixo, capacity := capacity, size := 0, front := -1, back := -1 }

/-- Function `queue_capacity`. -/
def queue_capacity (queue : Queue) : Int := queue.capacity

/-- Function `queue_size`. -/
def queue_size (queue : Queue) : Int := queue.size

/-- Function `queue_push`: the value returned and the queue; `none` when the C code
has no defined result (`% 0`, or a write outside the array). -/
def queue_push (queue : Queue) (value : Int) : Option (Bool × Queue) :=
  if queue.size = queue.capacity then some (false, queue)
  else
    let front := if queue.front = -1 then 0 else queue.front
    if queue.capacity = 0 then none
    else
      let back := (queue.back + 1).tmod queue.capacity
      if 0 ≤ back ∧ back < queue.capacity then
        some (true,
          { queue with
            front := front
            back := back
            items := Function.update queue.items back value
            size := queue.size + 1 })
      else none

/-- Function `queue_pop`: the value returned and the queue; `none` when the `assert`
fails or the read is outside the array. -/
def queue_pop (queue : Queue) : Option (Int × Queue) :=
  if ¬ (queue.size > 0) then none
  else if ¬ (0 ≤ queue.front ∧ queue.front < queue.capacity) then none
  else
    let x := queue.items queue.front
    if queue.front = queue.back then
      some (x, { queue with front := -1, back := -1, size := queue.size - 1 })
    else
      some (x,
        { queue with
          front := (queue.front + 1).tmod queue.capacity
          size := queue.size - 1 })

/-- A call on a queue: `queue_push(queue, value)` or `queue_pop(queue)`. -/
inductive Chamada
  | push (value : Int)
  | pop
deriving DecidableEq, Repr

/-- What a call returned: the `bool` of `queue_push` or the `int` of `queue_pop`. -/
inductive Resposta
  | push (ok : Bool)
  | pop (x : Int)
deriving DecidableEq, Repr

/-- A sequence of calls on a queue: the queue after them and what they returned, in
order; `none` when one of the calls has no result. -/
def queue_executa : Queue → List Chamada → Option (Queue × List Resposta)
  | queue, [] => some (queue, [])
  | queue, .push value :: resto =>
    match queue_push queue value with
    | none => none
    | some (ok, q2) =>
      match queue_executa q2 resto with
      | none => none
      | some (q3, respostas) => some (q3, .push ok :: respostas)
  | queue, .pop :: resto =>
    match queue_pop queue with
    | none => none
    | some (x, q2) =>
      match queue_executa q2 resto with
      | none => none
      | some (q3, respostas) => some (q3, .pop x :: respostas)

/-! ## The bounded FIFO list the queue is compared with -/

/-- Push on a FIFO list bounded by `c`: refused, the list unchanged, exactly when
the list has `c` elements; otherwise the value is appended. -/
def fila_push (c : Int) (l : List Int) (v : Int) : Bool × List Int :=
  if (l.length : Int) = c then (false, l) else (true, l ++ [v])

/-- Pop on a FIFO list: the oldest element; not allowed on the empty list. -/
def fila_pop (l : List Int) : Option (Int × List Int) :=
  match l with
  | [] => none
  | x :: r => some (x, r)

/-- A sequence of calls on a FIFO list bounded by `c`: the list after them and what
they returned; `none` when a pop is issued on the empty list. -/
def fila_executa (c : Int) : List Int → List Chamada → Option (List Int × List Resposta)
  | l, [] => some (l, [])
  | l, .push v :: resto =>
    match fila_executa c (fila_push c l v).2 resto with
    | none => none
    | some (l3, respostas) => some (l3, .push (fila_push c l v).1 :: respostas)
  | l, .pop :: resto =>
    match fila_pop l with
    | none => none
    | some (x, l2) =>
      match fila_executa c l2 resto with
      | none => none
      | some (l3, respostas) => some (l3, .pop x :: respostas)

/-- The list a queue stands for: its `size` elements from `front` on, around the
end of the array. -/
def conteudo (q : Queue) : List Int :=
  (List.range q.size.toNat).map (fun i => q.items ((q.front + (i : Nat)) % q.capacity))

/-- The shape of the queues that `queue_push` and `queue_pop` produce from a queue
created with a capacity of at least 1. -/
def bem_formada (q : Queue) : Prop :=
  1 ≤ q.capacity ∧ 0 ≤ q.size ∧ q.size ≤ q.capacity ∧
  (q.size = 0 → q.front = -1 ∧ q.back = -1) ∧
  (0 < q.size →
    0 ≤ q.front ∧ q.front < q.capacity ∧ q.back = (q.front + q.size - 1) % q.capacity)

/-- Number of successful pushes among the answers. -/
def sucessos : List Resposta → Int
  | [] => 0
  | .push true :: r => sucessos r + 1
  | .push false :: r => sucessos r
  | .pop _ :: r => sucessos r

/-- Number of pops among the answers. -/
def retiradas : List Resposta → Int
  | [] => 0
  | .push _ :: r => retiradas r
  | .pop _ :: r => retiradas r + 1

/-- The kernel state `so_chamada_cria_proc` returns in state `s` on the concrete
machine (`s` itself when it has no result). -/
def so_cria_proc_apos (s : so_t Maquina) : so_t Maquina :=
  match so_chamada_cria_proc hwT s with
  | some s2 => s2
  | none => s

/-- The state `so_chama` after a CREATE_PROC that has succeeded, on a machine whose
memory holds the empty string at address 200: no file has that name. -/
def so_chama_sem_arquivo : so_t Maquina :=
  { so_cria_proc_apos so_chama with mundo := maquina0 }

/-- The state `so_chama_sem_arquivo` after a CREATE_PROC that has failed in the load
step, on the machine whose memory holds "p1.maq" at address 200 again. -/
def so_chama_de_novo : so_t Maquina :=
  { so_cria_proc_apos so_chama_sem_arquivo with mundo := maquina_nome }

end SO


/-! # Theorems -/

namespace SO

/-! ## Indexing and the scheduler loop -/

theorem indice_coe (k : Fin MAX_PROCESSES) : indice ((k : Nat) : Int) = some k := by
  have hk : (k : Nat) < 4 := k.isLt
  unfold indice
  rw [dif_pos (by omega)]
  simp

theorem indice_eq_some {i : Int} {k : Fin MAX_PROCESSES} (h : indice i = some k) :
    i = ((k : Nat) : Int) := by
  unfold indice at h
  split at h
  · rename_i hi
    simp only [Option.some.injEq] at h
    subst h
    simp [Int.toNat_of_nonneg hi.1]
  · simp at h

theorem entrada_coe (t : Tabela) (k : Fin MAX_PROCESSES) : entrada t ((k : Nat) : Int) = t k := by
  simp [entrada, indice_coe]

theorem pronto_ou_executando_iff (proc : Process) :
    pronto_ou_executando proc = true ↔ proc.state = .READY ∨ proc.state = .RUNNING := by
  unfold pronto_ou_executando
  cases proc.state <;> decide

theorem succ_tmod (v : Fin MAX_PROCESSES) :
    (((v : Nat) : Int) + 1).tmod 4 = (((v + 1 : Fin MAX_PROCESSES) : Nat) : Int) := by
  revert v; decide

theorem escalona_laco_succ (t : Tabela) (n : Nat) (v : Fin MAX_PROCESSES) :
    escalona_laco t (n + 1) ((v : Nat) : Int) =
      if apto (t v) then (((v : Nat) : Int), true)
      else escalona_laco t n (((v + 1 : Fin MAX_PROCESSES) : Nat) : Int) := by
  rw [escalona_laco, entrada_coe, succ_tmod]
  cases h : t v with
  | none => simp [apto]
  | some proc =>
    by_cases hp : pronto_ou_executando proc = true
    · have := (pronto_ou_executando_iff proc).1 hp
      simp [apto, hp, this]
    · have := mt (pronto_ou_executando_iff proc).2 hp
      simp [apto, hp, this]

theorem escalona_laco_find (t : Tabela) (n : Nat) (v : Fin MAX_PROCESSES) :
    escalona_laco t n ((v : Nat) : Int) =
      match (List.iterate (· + 1) v n).find? (fun i => apto (t i)) with
      | some k => (((k : Nat) : Int), true)
      | none => ((((fun i => i + 1)^[n] v : Fin MAX_PROCESSES) : Nat), false) := by
  induction n generalizing v with
  | zero => simp [escalona_laco]
  | succ n ih =>
    rw [escalona_laco_succ, List.iterate, List.find?]
    by_cases hp : apto (t v) = true
    · simp [hp]
    · simp only [hp, Bool.false_eq_true, if_false, ih, Function.iterate_succ, Function.comp]

theorem ordem_circular_eq (c : Int) (hc : -1 ≤ c ∧ c < 4) :
    ∃ v : Fin MAX_PROCESSES, (c + 1).tmod 4 = ((v : Nat) : Int) ∧
      ordem_circular c = List.iterate (· + 1) v 4 := by
  obtain ⟨h1, h2⟩ := hc
  have : c = -1 ∨ c = 0 ∨ c = 1 ∨ c = 2 ∨ c = 3 := by omega
  rcases this with h | h | h | h | h <;> subst h
  · exact ⟨0, by decide, by decide⟩
  · exact ⟨1, by decide, by decide⟩
  · exact ⟨2, by decide, by decide⟩
  · exact ⟨3, by decide, by decide⟩
  · exact ⟨0, by decide, by decide⟩

theorem escalona_laco_ordem (t : Tabela) (c : Int) (hc : -1 ≤ c ∧ c < 4) :
    (∀ k, primeiro_apto t c = some k →
      escalona_laco t MAX_PROCESSES ((c + 1).tmod 4) = (((k : Nat) : Int), true)) ∧
    (primeiro_apto t c = none →
      (escalona_laco t MAX_PROCESSES ((c + 1).tmod 4)).2 = false) := by
  obtain ⟨v, hv, ho⟩ := ordem_circular_eq c hc
  rw [hv, escalona_laco_find]
  unfold primeiro_apto
  rw [ho]
  constructor
  · intro k hk
    rw [hk]
  · intro hk
    rw [hk]

theorem altera_apply (t : Tabela) (k : Fin MAX_PROCESSES) (f : Process → Process)
    (j : Fin MAX_PROCESSES) : altera t k f j = if j = k then (t k).map f else t j := by
  unfold altera
  by_cases h : j = k
  · subst h; simp
  · simp [h, Function.update_noteq h]

theorem executa_rebaixa (previous : Process) : executa (rebaixa previous) = executa previous := by
  unfold rebaixa executa
  split <;> rfl

theorem mantem_corrente_false {W : Type} (s : so_t W)
    (hn : s.current_process = NO_PROCESS_RUNNING ∨
      entrada s.process_table s.current_process = none ∨
      (∃ p, entrada s.process_table s.current_process = some p ∧ p.state ≠ .RUNNING) ∨
      s.quantum ≤ 0) : mantem_corrente s = false := by
  unfold mantem_corrente
  rcases hn with h | h | ⟨p, h, hp⟩ | h
  · simp [h]
  · simp [h]
  · simp [h, hp]
  · have : ¬ s.quantum > 0 := by omega
    simp [this]

theorem rebaixa_anterior_apply {W : Type} (s : so_t W)
    (hc : -1 ≤ s.current_process ∧ s.current_process < 4) (j : Fin MAX_PROCESSES) :
    rebaixa_anterior s j =
      if s.current_process = ((j : Nat) : Int) then (s.process_table j).map rebaixa
      else s.process_table j := by
  have hj : (j : Nat) < 4 := j.isLt
  unfold rebaixa_anterior
  by_cases h : s.current_process = NO_PROCESS_RUNNING
  · have : ¬ s.current_process = ((j : Nat) : Int) := by unfold NO_PROCESS_RUNNING at h; omega
    rw [if_neg (by simpa using h), if_neg this]
  · have h0 : 0 ≤ s.current_process := by unfold NO_PROCESS_RUNNING at h; omega
    obtain ⟨n, hn⟩ := Int.eq_ofNat_of_zero_le h0
    have hn4 : n < 4 := by omega
    have hi : indice s.current_process = some ⟨n, hn4⟩ := by
      rw [hn]; exact indice_coe ⟨n, hn4⟩
    rw [if_pos h, hi]
    simp only [altera_apply]
    by_cases hjn : j = ⟨n, hn4⟩
    · subst hjn; simp [hn]
    · have : ¬ s.current_process = ((j : Nat) : Int) := by
        intro hh
        apply hjn
        apply Fin.ext
        simp only
        omega
      rw [if_neg hjn, if_neg this]

theorem so_escalona_achou {W : Type} (s : so_t W) (hm : mantem_corrente s = false)
    (k : Fin MAX_PROCESSES)
    (hl : escalona_laco s.process_table MAX_PROCESSES ((s.current_process + 1).tmod 4)
      = (((k : Nat) : Int), true)) :
    so_escalona s =
      { s with
        current_process := ((k : Nat) : Int)
        process_table := altera (rebaixa_anterior s) k executa
        quantum := SCHEADULER_QUANTUM } := by
  unfold so_escalona
  rw [if_neg (by simp [hm])]
  simp only [hl, if_true, indice_coe]

theorem so_escalona_nada {W : Type} (s : so_t W) (hm : mantem_corrente s = false)
    (hl : (escalona_laco s.process_table MAX_PROCESSES ((s.current_process + 1).tmod 4)).2
      = false) :
    so_escalona s =
      { s with current_process := NO_PROCESS_RUNNING, quantum := SCHEADULER_QUANTUM } := by
  unfold so_escalona
  rw [if_neg (by simp [hm])]
  simp only [hl, Bool.false_eq_true, if_false]

theorem apto_some {t : Tabela} {k : Fin MAX_PROCESSES} (h : apto (t k) = true) :
    ∃ p, t k = some p ∧ (p.state = .READY ∨ p.state = .RUNNING) := by
  cases hk : t k with
  | none => simp [hk, apto] at h
  | some p => exact ⟨p, rfl, by simpa [hk, apto] using h⟩

theorem mantem_corrente_de {W : Type} (s : so_t W) (k : Fin MAX_PROCESSES) (p : Process)
    (hc : s.current_process = ((k : Nat) : Int)) (hp : s.process_table k = some p)
    (hr : p.state = .RUNNING) (hq : s.quantum > 0) : mantem_corrente s = true := by
  have hk : (k : Nat) < 4 := k.isLt
  have hne : ¬ ((k : Nat) : Int) = NO_PROCESS_RUNNING := by
    unfold NO_PROCESS_RUNNING; omega
  unfold mantem_corrente
  simp [hne, hc, entrada_coe, hp, hr, hq]

theorem so_escalona_de_mantem {W : Type} (s : so_t W) (hm : mantem_corrente s = true) :
    so_escalona s = s := by
  unfold so_escalona
  simp [hm]

/-! ## Only the current process is RUNNING -/

theorem nao_cria_refl (t : Tabela) : nao_cria_executando t t := fun _ h => h

theorem nao_cria_trans {t1 t2 t3 : Tabela} (h12 : nao_cria_executando t1 t2)
    (h23 : nao_cria_executando t2 t3) : nao_cria_executando t1 t3 :=
  fun i h => h12 i (h23 i h)

theorem nao_cria_update_some (t : Tabela) (k : Fin MAX_PROCESSES) (q : Process)
    (h : q.state = .RUNNING → executando t k) :
    nao_cria_executando t (Function.update t k (some q)) := by
  intro i hi
  by_cases hik : i = k
  · subst hik
    obtain ⟨p, hp, hr⟩ := hi
    simp only [Function.update_same, Option.some.injEq] at hp
    subst hp
    exact h hr
  · obtain ⟨p, hp, hr⟩ := hi
    rw [Function.update_noteq hik] at hp
    exact ⟨p, hp, hr⟩

theorem nao_cria_update_none (t : Tabela) (k : Fin MAX_PROCESSES) :
    nao_cria_executando t (Function.update t k none) := by
  intro i hi
  by_cases hik : i = k
  · subst hik
    obtain ⟨p, hp, _⟩ := hi
    simp at hp
  · obtain ⟨p, hp, hr⟩ := hi
    rw [Function.update_noteq hik] at hp
    exact ⟨p, hp, hr⟩

theorem nao_cria_altera (t : Tabela) (k : Fin MAX_PROCESSES) (f : Process → Process)
    (h : ∀ p, (f p).state = .RUNNING → p.state = .RUNNING) :
    nao_cria_executando t (altera t k f) := by
  intro i hi
  obtain ⟨p, hp, hr⟩ := hi
  rw [altera_apply] at hp
  by_cases hik : i = k
  · subst hik
    rw [if_pos rfl] at hp
    cases ht : t i with
    | none => simp [ht] at hp
    | some q =>
      simp only [ht, Option.map_some', Option.some.injEq] at hp
      subst hp
      exact ⟨q, ht, h q hr⟩
  · rw [if_neg hik] at hp
    exact ⟨p, hp, hr⟩

theorem fase_neutra_refl {W : Type} (s : so_t W) : fase_neutra s s :=
  ⟨rfl, nao_cria_refl _⟩

theorem fase_neutra_trans {W : Type} {s1 s2 s3 : so_t W} (h12 : fase_neutra s1 s2)
    (h23 : fase_neutra s2 s3) : fase_neutra s1 s3 :=
  ⟨h23.1.trans h12.1, nao_cria_trans h12.2 h23.2⟩

theorem fase_neutra_inv {W : Type} {s s2 : so_t W} (h : fase_neutra s s2)
    (hs : so_corrente_executa s) : so_corrente_executa s2 := by
  intro i hi
  rw [h.1]
  exact hs i (h.2 i hi)

theorem fase_neutra_foldl {W : Type} (f : so_t W → Fin MAX_PROCESSES → so_t W)
    (hf : ∀ s i, fase_neutra s (f s i)) (l : List (Fin MAX_PROCESSES)) (s : so_t W) :
    fase_neutra s (l.foldl f s) := by
  induction l generalizing s with
  | nil => exact fase_neutra_refl s
  | cons a l ih => exact fase_neutra_trans (hf s a) (ih (f s a))

theorem so_salva_neutra {W : Type} (hw : Hw W) (s : so_t W) :
    fase_neutra s (so_salva_estado_da_cpu hw s) := by
  unfold so_salva_estado_da_cpu
  split
  · exact fase_neutra_refl s
  · split
    · exact fase_neutra_refl s
    · split
      · exact fase_neutra_refl s
      · rename_i k proc hk
        refine ⟨rfl, nao_cria_update_some _ _ _ ?_⟩
        intro hr
        exact ⟨proc, hk, hr⟩

theorem process_receive_input_state {W : Type} (hw : Hw W) (w : W) (proc : Process) :
    (process_receive_input hw w proc).1.state = .RUNNING → proc.state = .RUNNING := by
  unfold process_receive_input
  dsimp only
  split
  · exact id
  · intro h; cases h

theorem process_send_output_state {W : Type} (hw : Hw W) (w : W) (proc : Process) :
    (process_send_output hw w proc).1.state = .RUNNING → proc.state = .RUNNING := by
  unfold process_send_output
  dsimp only
  split
  · exact id
  · intro h; cases h

theorem pendencias_acorda_neutra {W : Type} (hw : Hw W) (s : so_t W) (i : Fin MAX_PROCESSES) :
    fase_neutra s (pendencias_acorda hw s i) := by
  unfold pendencias_acorda
  split
  · exact fase_neutra_refl s
  · split
    · exact fase_neutra_refl s
    · split
      · dsimp only
        split
        · exact ⟨rfl, nao_cria_update_some _ _ _ (fun h => by cases h)⟩
        · exact fase_neutra_refl s
      · dsimp only
        split
        · exact ⟨rfl, nao_cria_update_some _ _ _ (fun h => by cases h)⟩
        · exact fase_neutra_refl s
      · split
        · exact fase_neutra_refl s
        · split
          · exact fase_neutra_refl s
          · split
            · exact ⟨rfl, nao_cria_update_some _ _ _ (fun h => by cases h)⟩
            · exact fase_neutra_refl s
      · exact fase_neutra_refl s

theorem pendencias_destroi_neutra {W : Type} (s : so_t W) (i : Fin MAX_PROCESSES) :
    fase_neutra s (pendencias_destroi s i) := by
  unfold pendencias_destroi
  split
  · exact fase_neutra_refl s
  · split
    · exact ⟨rfl, nao_cria_update_none _ _⟩
    · exact fase_neutra_refl s

theorem so_trata_pendencias_neutra {W : Type} (hw : Hw W) (s : so_t W) :
    fase_neutra s (so_trata_pendencias hw s) := by
  unfold so_trata_pendencias
  exact fase_neutra_trans (fase_neutra_foldl _ (pendencias_acorda_neutra hw) _ _)
    (fase_neutra_foldl _ pendencias_destroi_neutra _ _)

/-- The loader only touches the machine and the frame counter. -/
theorem so_carrega_programa_campos {W : Type} (hw : Hw W) (s : so_t W) (processo : Option Process)
    (nome : List Int) :
    (so_carrega_programa hw s processo nome).2.process_table = s.process_table ∧
    (so_carrega_programa hw s processo nome).2.current_process = s.current_process ∧
    (so_carrega_programa hw s processo nome).2.erro_interno = s.erro_interno ∧
    (so_carrega_programa hw s processo nome).2.quantum = s.quantum ∧
    (so_carrega_programa hw s processo nome).2.process_counter = s.process_counter := by
  unfold so_carrega_programa
  split
  · exact ⟨rfl, rfl, rfl, rfl, rfl⟩
  · split
    · unfold so_carrega_programa_na_memoria_fisica
      dsimp only
      split <;> exact ⟨rfl, rfl, rfl, rfl, rfl⟩
    · unfold so_carrega_programa_na_memoria_virtual
      dsimp only
      split <;> exact ⟨rfl, rfl, rfl, rfl, rfl⟩

theorem so_cria_tabela {W : Type} (hw : Hw W) (w : W) :
    (so_cria hw w).process_table = fun _ => none := by
  unfold so_cria
  dsimp only
  have h := (so_carrega_programa_campos hw
    { mundo := w, erro_interno := false, process_table := fun _ => none,
      current_process := NO_PROCESS_RUNNING, quantum := SCHEADULER_QUANTUM,
      quadro_livre := 0, process_counter := 0 } none (nome_de "trata_int.maq")).1
  split <;> split <;> exact h

theorem so_cria_corrente_executa {W : Type} (hw : Hw W) (w : W) :
    so_corrente_executa (so_cria hw w) := by
  intro i hi
  obtain ⟨p, hp, _⟩ := hi
  rw [so_cria_tabela] at hp
  cases hp

theorem corrente_some {W : Type} {s : so_t W} {k : Fin MAX_PROCESSES} {proc : Process}
    (h : corrente s = some (k, proc)) :
    s.current_process = ((k : Nat) : Int) ∧ s.process_table k = some proc := by
  unfold corrente at h
  split at h
  · cases h
  · rename_i k2 hk2
    split at h
    · cases h
    · rename_i p2 hp2
      simp only [Option.some.injEq, Prod.mk.injEq] at h
      obtain ⟨h1, h2⟩ := h
      subst h1 h2
      exact ⟨indice_eq_some hk2, hp2⟩

theorem so_chamada_le_neutra {W : Type} (hw : Hw W) (s s2 : so_t W)
    (h : so_chamada_le hw s = some s2) : fase_neutra s s2 := by
  unfold so_chamada_le at h
  split at h
  · cases h
  · rename_i k proc hk
    have hp := (corrente_some hk).2
    dsimp only at h
    split at h
    · cases h
      exact ⟨rfl, nao_cria_update_some _ _ _ (fun h => by cases h)⟩
    · split at h
      · cases h
        exact ⟨rfl, nao_cria_update_some _ _ _ (fun h => by cases h)⟩
      · cases h
        exact ⟨rfl, nao_cria_update_some _ _ _
          (fun h => ⟨proc, hp, process_receive_input_state hw _ proc h⟩)⟩

theorem so_chamada_escr_neutra {W : Type} (hw : Hw W) (s s2 : so_t W)
    (h : so_chamada_escr hw s = some s2) : fase_neutra s s2 := by
  unfold so_chamada_escr at h
  split at h
  · cases h
  · rename_i k proc hk
    have hp := (corrente_some hk).2
    dsimp only at h
    split at h
    · cases h
      exact ⟨rfl, nao_cria_update_some _ _ _ (fun h => by cases h)⟩
    · split at h
      · cases h
        exact ⟨rfl, nao_cria_update_some _ _ _ (fun h => by cases h)⟩
      · cases h
        exact ⟨rfl, nao_cria_update_some _ _ _
          (fun h => ⟨proc, hp, process_send_output_state hw _ proc h⟩)⟩

theorem cria_proc_falha_neutra {W : Type} (s : so_t W) (k : Fin MAX_PROCESSES) :
    fase_neutra s (cria_proc_falha s k) :=
  ⟨rfl, nao_cria_altera _ _ _ (fun _ h => h)⟩

theorem so_chamada_cria_proc_neutra {W : Type} (hw : Hw W) (s s2 : so_t W)
    (h : so_chamada_cria_proc hw s = some s2) : fase_neutra s s2 := by
  unfold so_chamada_cria_proc at h
  split at h
  · cases h
  · rename_i k proc hk
    dsimp only at h
    split at h
    · cases h
      exact cria_proc_falha_neutra s k
    · split at h
      · cases h
        exact cria_proc_falha_neutra s k
      · split at h
        · cases h
          rename_i hneg
          have hc := so_carrega_programa_campos hw
            { s with process_counter := (process_create s.process_counter
              ((procura_entrada s.process_table).tmod 4 * 4)
              ((procura_entrada s.process_table).tmod 4 * 4 + 2)).2 }
            (some (process_create s.process_counter
              ((procura_entrada s.process_table).tmod 4 * 4)
              ((procura_entrada s.process_table).tmod 4 * 4 + 2)).1)
            (nome_copiado (so_copia_str_do_processo hw s.mundo 256 proc.context.x (some proc)).2)
          refine fase_neutra_trans ⟨hc.2.1, ?_⟩ (cria_proc_falha_neutra _ k)
          rw [hc.1]
          exact nao_cria_refl _
        · split at h
          · cases h
          · cases h
            have hc := so_carrega_programa_campos hw
              { s with process_counter := (process_create s.process_counter
                ((procura_entrada s.process_table).tmod 4 * 4)
                ((procura_entrada s.process_table).tmod 4 * 4 + 2)).2 }
              (some (process_create s.process_counter
                ((procura_entrada s.process_table).tmod 4 * 4)
                ((procura_entrada s.process_table).tmod 4 * 4 + 2)).1)
              (nome_copiado (so_copia_str_do_processo hw s.mundo 256 proc.context.x (some proc)).2)
            refine ⟨hc.2.1, ?_⟩
            dsimp only
            rw [hc.1]
            exact nao_cria_trans (nao_cria_update_some _ _ _ (fun h => by cases h))
              (nao_cria_altera _ _ _ (fun _ h => h))

theorem so_chamada_mata_proc_neutra {W : Type} (s s2 : so_t W)
    (h : so_chamada_mata_proc s = some s2) : fase_neutra s s2 := by
  unfold so_chamada_mata_proc at h
  split at h
  · cases h
  · dsimp only at h
    split at h
    · cases h
      exact ⟨rfl, nao_cria_altera _ _ _ (fun _ h => by cases h)⟩
    · split at h
      · cases h
        exact ⟨rfl, nao_cria_trans (nao_cria_altera _ _ _ (fun _ h => by cases h))
          (nao_cria_altera _ _ _ (fun _ h => h))⟩
      · cases h
        exact ⟨rfl, nao_cria_altera _ _ _ (fun _ h => by cases h)⟩

theorem so_chamada_espera_proc_neutra {W : Type} (s s2 : so_t W)
    (h : so_chamada_espera_proc s = some s2) : fase_neutra s s2 := by
  unfold so_chamada_espera_proc at h
  split at h
  · cases h
  · dsimp only at h
    split at h
    · split at h
      · cases h
        exact ⟨rfl, nao_cria_update_some _ _ _ (fun h => by cases h)⟩
      · cases h
        exact ⟨rfl, nao_cria_update_some _ _ _ (fun h => by cases h)⟩
    · cases h
      exact ⟨rfl, nao_cria_update_some _ _ _ (fun h => by cases h)⟩

theorem so_trata_irq_chamada_sistema_neutra {W : Type} (hw : Hw W) (s s2 : so_t W)
    (h : so_trata_irq_chamada_sistema hw s = some s2) : fase_neutra s s2 := by
  unfold so_trata_irq_chamada_sistema at h
  split at h
  · cases h
  · dsimp only at h
    split at h
    · exact so_chamada_le_neutra hw s s2 h
    · split at h
      · exact so_chamada_escr_neutra hw s s2 h
      · split at h
        · exact so_chamada_cria_proc_neutra hw s s2 h
        · split at h
          · exact so_chamada_mata_proc_neutra s s2 h
          · split at h
            · exact so_chamada_espera_proc_neutra s s2 h
            · cases h
              exact ⟨rfl, nao_cria_update_some _ _ _ (fun h => by cases h)⟩

theorem so_trata_irq_reset_sem_executando {W : Type} (hw : Hw W) (s : so_t W)
    (i : Fin MAX_PROCESSES) : ¬ executando (so_trata_irq_reset hw s).process_table i := by
  have hc : (so_carrega_programa hw
      { s with
        process_counter := (process_create s.process_counter hw.D_TERM_A_TECLADO hw.D_TERM_A_TELA).2
        current_process := 0
        process_table := Function.update (fun _ => none) 0
          (some (process_create s.process_counter hw.D_TERM_A_TECLADO hw.D_TERM_A_TELA).1) }
      (some (process_create s.process_counter hw.D_TERM_A_TECLADO hw.D_TERM_A_TELA).1)
      (nome_de "init.maq")).2.process_table
      = Function.update (fun _ => none) 0
          (some (process_create s.process_counter hw.D_TERM_A_TECLADO hw.D_TERM_A_TELA).1) :=
    (so_carrega_programa_campos hw _ _ _).1
  have h0 : ∀ j, ¬ executando (Function.update (fun _ => none) (0 : Fin MAX_PROCESSES)
      (some (process_create s.process_counter hw.D_TERM_A_TECLADO hw.D_TERM_A_TELA).1)) j := by
    intro j hj
    obtain ⟨p, hp, hr⟩ := hj
    by_cases hj0 : j = 0
    · subst hj0
      simp only [Function.update_same, Option.some.injEq] at hp
      subst hp
      cases hr
    · rw [Function.update_noteq hj0] at hp
      cases hp
  unfold so_trata_irq_reset
  dsimp only
  split
  · intro hi
    apply h0 i
    obtain ⟨p, hp, hr⟩ := hi
    change (so_carrega_programa hw _ _ _).2.process_table i = some p at hp
    rw [hc] at hp
    exact ⟨p, hp, hr⟩
  · intro hi
    have := nao_cria_altera _ 0 (fun proc => { proc with state := Process_State.READY })
      (fun _ h => by cases h) i hi
    apply h0 i
    obtain ⟨p, hp, hr⟩ := this
    rw [hc] at hp
    exact ⟨p, hp, hr⟩

theorem so_trata_irq_err_cpu_neutra {W : Type} (s s2 : so_t W)
    (h : so_trata_irq_err_cpu s = some s2) : fase_neutra s s2 := by
  unfold so_trata_irq_err_cpu at h
  split at h
  · split at h
    · cases h
    · cases h
      exact ⟨rfl, nao_cria_update_some _ _ _ (fun h => by cases h)⟩
  · cases h
    exact fase_neutra_refl s

theorem so_trata_irq_corrente_executa {W : Type} (hw : Hw W) (s s2 : so_t W) (irq : Int)
    (hs : so_corrente_executa s) (h : so_trata_irq hw s irq = some s2) :
    so_corrente_executa s2 := by
  unfold so_trata_irq at h
  split at h
  · cases h
    intro i hi
    exact absurd hi (so_trata_irq_reset_sem_executando hw s i)
  · split at h
    · exact fase_neutra_inv (so_trata_irq_chamada_sistema_neutra hw s s2 h) hs
    · split at h
      · exact fase_neutra_inv (so_trata_irq_err_cpu_neutra s s2 h) hs
      · split at h
        · cases h
          exact hs
        · cases h
          exact hs

theorem entrada_some {t : Tabela} {i : Int} {p : Process} (h : entrada t i = some p) :
    ∃ k : Fin MAX_PROCESSES, i = ((k : Nat) : Int) ∧ t k = some p := by
  unfold entrada at h
  split at h
  · rename_i k hk
    exact ⟨k, indice_eq_some hk, h⟩
  · cases h

theorem escalona_laco_achou (t : Tabela) (n : Nat) (v : Int)
    (h : (escalona_laco t n v).2 = true) :
    ∃ k : Fin MAX_PROCESSES, (escalona_laco t n v).1 = ((k : Nat) : Int) ∧ (t k).isSome := by
  induction n generalizing v with
  | zero => simp [escalona_laco] at h
  | succ n ih =>
    rw [escalona_laco] at h ⊢
    split at h
    · rename_i proc hp
      obtain ⟨k, hk, htk⟩ := entrada_some hp
      split at h
      · rw [if_pos (by assumption)]
        exact ⟨k, hk, by simp [htk]⟩
      · rw [if_neg (by assumption)]
        exact ih _ h
    · exact ih _ h

theorem rebaixa_anterior_sem_executando {W : Type} (s : so_t W) (hs : so_corrente_executa s)
    (i : Fin MAX_PROCESSES) : ¬ executando (rebaixa_anterior s) i := by
  intro hi
  unfold rebaixa_anterior at hi
  have key : executando s.process_table i → False := by
    intro hr
    have hc := hs i hr
    rw [hc] at hi
    have hne : ((i : Nat) : Int) ≠ NO_PROCESS_RUNNING := by
      unfold NO_PROCESS_RUNNING; omega
    rw [if_pos hne, indice_coe] at hi
    obtain ⟨p, hp, hst⟩ := hi
    dsimp only at hp
    rw [altera_apply, if_pos rfl] at hp
    obtain ⟨q, hq, _⟩ := hr
    rw [hq] at hp
    simp only [Option.map_some', Option.some.injEq] at hp
    subst hp
    unfold rebaixa at hst
    split at hst
    · cases hst
    · contradiction
  split at hi
  · split at hi
    · rename_i c hc
      apply key
      obtain ⟨p, hp, hst⟩ := hi
      rw [altera_apply] at hp
      by_cases hic : i = c
      · subst hic
        rw [if_pos rfl] at hp
        cases ht : s.process_table i with
        | none => simp [ht] at hp
        | some q =>
          simp only [ht, Option.map_some', Option.some.injEq] at hp
          subst hp
          refine ⟨q, ht, ?_⟩
          unfold rebaixa at hst
          split at hst
          · assumption
          · exact hst
      · rw [if_neg hic] at hp
        exact ⟨p, hp, hst⟩
    · exact key hi
  · exact key hi

theorem rebaixa_anterior_isSome {W : Type} (s : so_t W) (i : Fin MAX_PROCESSES) :
    (rebaixa_anterior s i).isSome = (s.process_table i).isSome := by
  unfold rebaixa_anterior
  by_cases h : s.current_process ≠ NO_PROCESS_RUNNING
  · rw [if_pos h]
    cases indice s.current_process with
    | none => rfl
    | some c =>
      show (altera s.process_table c rebaixa i).isSome = _
      rw [altera_apply]
      by_cases hic : i = c
      · subst hic; simp
      · rw [if_neg hic]
  · rw [if_neg h]

theorem membro_ordem_circular (i : Fin MAX_PROCESSES) : i ∈ ordem_circular ((i : Nat) : Int) := by
  revert i; decide

theorem so_escalona_apos {W : Type} (s : so_t W) (hs : so_corrente_executa s) :
    apos_escalona (so_escalona s) := by
  cases hm : mantem_corrente s with
  | true =>
    have he : so_escalona s = s := by unfold so_escalona; simp [hm]
    rw [he]
    refine ⟨hs, Or.inr ?_⟩
    unfold mantem_corrente at hm
    simp only [Bool.and_eq_true, decide_eq_true_eq] at hm
    obtain ⟨⟨_, h2⟩, _⟩ := hm
    split at h2
    · rename_i proc hp
      obtain ⟨k, hk, htk⟩ := entrada_some hp
      exact ⟨k, hk, proc, htk, by simpa using h2⟩
    · cases h2
  | false =>
    cases hl : (escalona_laco s.process_table MAX_PROCESSES
        ((s.current_process + 1).tmod 4)).2 with
    | true =>
      obtain ⟨k, hk, hsome⟩ := escalona_laco_achou _ _ _ hl
      have hl2 : escalona_laco s.process_table MAX_PROCESSES ((s.current_process + 1).tmod 4)
          = (((k : Nat) : Int), true) := Prod.ext hk hl
      rw [so_escalona_achou s hm k hl2]
      have hkk : ∃ q, rebaixa_anterior s k = some q := by
        have := rebaixa_anterior_isSome s k
        rw [hsome] at this
        exact Option.isSome_iff_exists.1 this
      obtain ⟨q, hq⟩ := hkk
      have hrun : executando (altera (rebaixa_anterior s) k executa) k :=
        ⟨executa q, by rw [altera_apply, if_pos rfl, hq]; rfl, rfl⟩
      refine ⟨?_, Or.inr ⟨k, rfl, hrun⟩⟩
      intro i hi
      by_cases hik : i = k
      · subst hik; rfl
      · exfalso
        apply rebaixa_anterior_sem_executando s hs i
        obtain ⟨p, hp, hst⟩ := hi
        change altera (rebaixa_anterior s) k executa i = some p at hp
        rw [altera_apply, if_neg hik] at hp
        exact ⟨p, hp, hst⟩
    | false =>
      rw [so_escalona_nada s hm hl]
      refine ⟨?_, Or.inl rfl⟩
      intro i hi
      exfalso
      have hc : s.current_process = ((i : Nat) : Int) := hs i hi
      have hi4 : (i : Nat) < 4 := i.isLt
      have hrange : -1 ≤ s.current_process ∧ s.current_process < 4 := by omega
      obtain ⟨hsome, _⟩ := escalona_laco_ordem s.process_table s.current_process hrange
      cases hp : primeiro_apto s.process_table s.current_process with
      | some k =>
        have := hsome k hp
        rw [this] at hl
        cases hl
      | none =>
        unfold primeiro_apto at hp
        rw [List.find?_eq_none] at hp
        have hmem : i ∈ ordem_circular s.current_process := by
          rw [hc]; exact membro_ordem_circular i
        have := hp i hmem
        obtain ⟨p, hpi, hst⟩ := hi
        change s.process_table i = some p at hpi
        simp [apto, hpi, hst] at this

theorem espera_passo_apos {W : Type} (hw : Hw W) (s : so_t W) (hs : so_corrente_executa s) :
    apos_escalona (espera_passo hw s) := by
  unfold espera_passo
  apply so_escalona_apos
  exact fase_neutra_inv (so_trata_pendencias_neutra hw _) hs

theorem espera_ativa_apos {W : Type} (hw : Hw W) (n : Nat) (s s2 : so_t W)
    (hs : apos_escalona s) (h : espera_ativa hw n s = some s2) :
    apos_escalona s2 ∧ ocioso s2 = false := by
  induction n generalizing s with
  | zero =>
    unfold espera_ativa at h
    split at h
    · cases h
    · cases h
      rename_i hoc
      exact ⟨hs, by simpa using hoc⟩
  | succ n ih =>
    unfold espera_ativa at h
    split at h
    · exact ih _ (espera_passo_apos hw s hs.1) h
    · cases h
      rename_i hoc
      exact ⟨hs, by simpa using hoc⟩

theorem so_despacha_campos {W : Type} (hw : Hw W) (s s2 : so_t W) (r : Int)
    (h : so_despacha hw s = some (r, s2)) :
    s2.process_table = s.process_table ∧ s2.current_process = s.current_process ∧
    s2.erro_interno = s.erro_interno ∧ s2.quantum = s.quantum ∧
    (r = 0 → s.erro_interno = false) := by
  unfold so_despacha at h
  split at h
  · simp only [Option.some.injEq, Prod.mk.injEq] at h
    obtain ⟨h1, h2⟩ := h
    subst h1 h2
    exact ⟨rfl, rfl, rfl, rfl, fun h => by cases h⟩
  · split at h
    · cases h
    · simp only [Option.some.injEq, Prod.mk.injEq] at h
      obtain ⟨h1, h2⟩ := h
      subst h1 h2
      exact ⟨rfl, rfl, rfl, rfl, fun _ => by simpa using ‹¬ s.erro_interno = true›⟩

theorem so_trata_interrupcao_apos {W : Type} (hw : Hw W) (n : Nat) (s s2 : so_t W)
    (irq r : Int) (hs : so_corrente_executa s)
    (h : so_trata_interrupcao hw n s irq = some (r, s2)) :
    apos_escalona s2 ∧ (r = 0 → s2.current_process ≠ NO_PROCESS_RUNNING) := by
  unfold so_trata_interrupcao at h
  split at h
  · cases h
  · rename_i s1 h1
    split at h
    · cases h
    · rename_i s3 h3
      have hs0 := fase_neutra_inv (so_salva_neutra hw s) hs
      have hs1 := so_trata_irq_corrente_executa hw _ s1 irq hs0 h1
      have hs1b := fase_neutra_inv (so_trata_pendencias_neutra hw s1) hs1
      obtain ⟨ha, ho⟩ := espera_ativa_apos hw n _ s3 (so_escalona_apos _ hs1b) h3
      obtain ⟨ht, hc, he, _, hr⟩ := so_despacha_campos hw s3 s2 r h
      constructor
      · unfold apos_escalona so_corrente_executa
        rw [ht, hc]
        exact ha
      · intro hr0
        have hf := hr hr0
        unfold ocioso at ho
        rw [hf] at ho
        rw [hc]
        simpa using ho

theorem retorno_apos {W : Type} (hw : Hw W) (r : Int) (s : so_t W) (h : Retorno hw r s) :
    apos_escalona s ∧ (r = 0 → s.current_process ≠ NO_PROCESS_RUNNING) := by
  induction h with
  | primeiro w n irq r s h =>
    exact so_trata_interrupcao_apos hw n _ s irq r (so_cria_corrente_executa hw w) h
  | seguinte r0 s0 w n irq r s _ h ih =>
    exact so_trata_interrupcao_apos hw n { s0 with mundo := w } s irq r ih.1.1 h

/-- Claim C1: at every return of the trap handler in a run that starts from a
freshly created kernel, at most one descriptor of the process table is RUNNING;
and when the handler returns 0, exactly one is, the one in slot `current_process`. -/
theorem um_so_executando {W : Type} (hw : Hw W) (r : Int) (s : so_t W)
    (h : Retorno hw r s) :
    (∀ i j, executando s.process_table i → executando s.process_table j → i = j) ∧
    (r = 0 → ∃ k : Fin MAX_PROCESSES, s.current_process = ((k : Nat) : Int) ∧
      executando s.process_table k ∧ ∀ j, executando s.process_table j → j = k) := by
  obtain ⟨⟨hs, hcur⟩, hr⟩ := retorno_apos hw r s h
  have huniq : ∀ i j, executando s.process_table i → executando s.process_table j → i = j := by
    intro i j hi hj
    have h1 := hs i hi
    have h2 := hs j hj
    apply Fin.ext
    omega
  refine ⟨huniq, ?_⟩
  intro hr0
  rcases hcur with hc | ⟨k, hk, hrun⟩
  · exact absurd hc (hr hr0)
  · exact ⟨k, hk, hrun, fun j hj => huniq j k hj hrun⟩

theorem retorno_boot : Retorno hwT 0 so_boot :=
  Retorno.primeiro maquina0 0 hwT.IRQ_RESET 0 so_boot rfl

/-- Witness for C1: the kernel of the concrete machine after the RESET trap. -/
theorem um_so_executando_boot :
    (∀ i j, executando so_boot.process_table i → executando so_boot.process_table j → i = j) ∧
    (∃ k : Fin MAX_PROCESSES, so_boot.current_process = ((k : Nat) : Int) ∧
      executando so_boot.process_table k ∧ ∀ j, executando so_boot.process_table j → j = k) :=
  ⟨(um_so_executando hwT 0 so_boot retorno_boot).1,
    (um_so_executando hwT 0 so_boot retorno_boot).2 rfl⟩


/-! ## Two clock ticks -/

theorem pendencias_acorda_campos {W : Type} (hw : Hw W) (s : so_t W) (i : Fin MAX_PROCESSES) :
    (pendencias_acorda hw s i).current_process = s.current_process ∧
    (pendencias_acorda hw s i).quantum = s.quantum ∧
    (pendencias_acorda hw s i).erro_interno = s.erro_interno ∧
    (pendencias_acorda hw s i).quadro_livre = s.quadro_livre ∧
    (pendencias_acorda hw s i).process_counter = s.process_counter := by
  unfold pendencias_acorda
  split
  · exact ⟨rfl, rfl, rfl, rfl, rfl⟩
  · split
    · exact ⟨rfl, rfl, rfl, rfl, rfl⟩
    · split
      · dsimp only
        split <;> exact ⟨rfl, rfl, rfl, rfl, rfl⟩
      · dsimp only
        split <;> exact ⟨rfl, rfl, rfl, rfl, rfl⟩
      · split
        · exact ⟨rfl, rfl, rfl, rfl, rfl⟩
        · split
          · exact ⟨rfl, rfl, rfl, rfl, rfl⟩
          · split <;> exact ⟨rfl, rfl, rfl, rfl, rfl⟩
      · exact ⟨rfl, rfl, rfl, rfl, rfl⟩

theorem pendencias_destroi_campos {W : Type} (s : so_t W) (i : Fin MAX_PROCESSES) :
    (pendencias_destroi s i).current_process = s.current_process ∧
    (pendencias_destroi s i).quantum = s.quantum ∧
    (pendencias_destroi s i).erro_interno = s.erro_interno ∧
    (pendencias_destroi s i).quadro_livre = s.quadro_livre ∧
    (pendencias_destroi s i).process_counter = s.process_counter := by
  unfold pendencias_destroi
  split
  · exact ⟨rfl, rfl, rfl, rfl, rfl⟩
  · split <;> exact ⟨rfl, rfl, rfl, rfl, rfl⟩

/-- The fields of the kernel state that `so_trata_pendencias` never writes. -/
theorem campos_foldl {W : Type} (f : so_t W → Fin MAX_PROCESSES → so_t W)
    (hf : ∀ s i, (f s i).current_process = s.current_process ∧
      (f s i).quantum = s.quantum ∧ (f s i).erro_interno = s.erro_interno ∧
      (f s i).quadro_livre = s.quadro_livre ∧ (f s i).process_counter = s.process_counter)
    (l : List (Fin MAX_PROCESSES)) (s : so_t W) :
    (l.foldl f s).current_process = s.current_process ∧
    (l.foldl f s).quantum = s.quantum ∧ (l.foldl f s).erro_interno = s.erro_interno ∧
    (l.foldl f s).quadro_livre = s.quadro_livre ∧
    (l.foldl f s).process_counter = s.process_counter := by
  induction l generalizing s with
  | nil => exact ⟨rfl, rfl, rfl, rfl, rfl⟩
  | cons a l ih =>
    obtain ⟨h1, h2, h3, h4, h5⟩ := ih (f s a)
    obtain ⟨g1, g2, g3, g4, g5⟩ := hf s a
    exact ⟨h1.trans g1, h2.trans g2, h3.trans g3, h4.trans g4, h5.trans g5⟩

theorem so_trata_pendencias_campos {W : Type} (hw : Hw W) (s : so_t W) :
    (so_trata_pendencias hw s).current_process = s.current_process ∧
    (so_trata_pendencias hw s).quantum = s.quantum ∧
    (so_trata_pendencias hw s).erro_interno = s.erro_interno ∧
    (so_trata_pendencias hw s).quadro_livre = s.quadro_livre ∧
    (so_trata_pendencias hw s).process_counter = s.process_counter := by
  unfold so_trata_pendencias
  obtain ⟨h1, h2, h3, h4, h5⟩ :=
    campos_foldl pendencias_destroi pendencias_destroi_campos indices
      (indices.foldl (pendencias_acorda hw) s)
  obtain ⟨g1, g2, g3, g4, g5⟩ :=
    campos_foldl (pendencias_acorda hw) (pendencias_acorda_campos hw) indices s
  exact ⟨h1.trans g1, h2.trans g2, h3.trans g3, h4.trans g4, h5.trans g5⟩

/-- Descriptors that are neither BLOCKED nor TERMINATED are left alone by the wake loop. -/
theorem pendencias_acorda_mantem {W : Type} (hw : Hw W) (s : so_t W) (j i : Fin MAX_PROCESSES)
    (p : Process) (h : s.process_table i = some p) (hst : p.state ≠ .BLOCKING) :
    (pendencias_acorda hw s j).process_table i = some p := by
  by_cases hij : i = j
  · subst hij
    unfold pendencias_acorda
    rw [h]
    dsimp only
    rw [if_pos hst]
    exact h
  · unfold pendencias_acorda
    split
    · exact h
    · split
      · exact h
      · split
        · dsimp only
          split
          · show Function.update s.process_table j _ i = some p
            rw [Function.update_noteq hij]; exact h
          · exact h
        · dsimp only
          split
          · show Function.update s.process_table j _ i = some p
            rw [Function.update_noteq hij]; exact h
          · exact h
        · split
          · exact h
          · split
            · exact h
            · split
              · show Function.update s.process_table j _ i = some p
                rw [Function.update_noteq hij]; exact h
              · exact h
        · exact h

theorem pendencias_destroi_mantem {W : Type} (s : so_t W) (j i : Fin MAX_PROCESSES)
    (p : Process) (h : s.process_table i = some p) (hst : p.state ≠ .TERMINATED) :
    (pendencias_destroi s j).process_table i = some p := by
  unfold pendencias_destroi
  split
  · exact h
  · rename_i q hq
    split
    · rename_i hq2
      by_cases hij : i = j
      · subst hij
        rw [h] at hq
        cases hq
        exact absurd hq2 hst
      · show Function.update s.process_table j _ i = some p
        rw [Function.update_noteq hij]; exact h
    · exact h

theorem mantem_foldl {W : Type} (f : so_t W → Fin MAX_PROCESSES → so_t W)
    (i : Fin MAX_PROCESSES) (p : Process)
    (hf : ∀ s j, s.process_table i = some p → (f s j).process_table i = some p)
    (l : List (Fin MAX_PROCESSES)) (s : so_t W) (h : s.process_table i = some p) :
    (l.foldl f s).process_table i = some p := by
  induction l generalizing s with
  | nil => exact h
  | cons a l ih => exact ih (f s a) (hf s a h)

theorem so_trata_pendencias_mantem {W : Type} (hw : Hw W) (s : so_t W) (i : Fin MAX_PROCESSES)
    (p : Process) (h : s.process_table i = some p) (hb : p.state ≠ .BLOCKING)
    (ht : p.state ≠ .TERMINATED) : (so_trata_pendencias hw s).process_table i = some p := by
  unfold so_trata_pendencias
  apply mantem_foldl pendencias_destroi i p
    (fun s j h => pendencias_destroi_mantem s j i p h ht)
  exact mantem_foldl (pendencias_acorda hw) i p
    (fun s j h => pendencias_acorda_mantem hw s j i p h hb) indices s h

theorem so_salva_ocupa {W : Type} (hw : Hw W) (s : so_t W) (i : Fin MAX_PROCESSES)
    (pid : Int) (state : Process_State) (h : ocupa s.process_table i pid state) :
    ocupa (so_salva_estado_da_cpu hw s).process_table i pid state := by
  unfold so_salva_estado_da_cpu
  split
  · exact h
  · split
    · exact h
    · split
      · exact h
      · rename_i k _ _ proc hk
        obtain ⟨p, hp, hpid, hst⟩ := h
        by_cases hik : i = k
        · subst hik
          rw [hk] at hp
          cases hp
          exact ⟨_, Function.update_same _ _ _, hpid, hst⟩
        · refine ⟨p, ?_, hpid, hst⟩
          show Function.update s.process_table k _ i = some p
          rw [Function.update_noteq hik]
          exact hp

theorem so_salva_campos {W : Type} (hw : Hw W) (s : so_t W) :
    (so_salva_estado_da_cpu hw s).current_process = s.current_process ∧
    (so_salva_estado_da_cpu hw s).quantum = s.quantum ∧
    (so_salva_estado_da_cpu hw s).erro_interno = s.erro_interno := by
  unfold so_salva_estado_da_cpu
  split
  · exact ⟨rfl, rfl, rfl⟩
  · split
    · exact ⟨rfl, rfl, rfl⟩
    · split <;> exact ⟨rfl, rfl, rfl⟩

/-- What the phases of a CLOCK trap before the scheduler do to a slot that is
READY or RUNNING, to `current_process` and to the quantum. -/
theorem antes_de_escalonar_ocupa {W : Type} (hw : Hw W) (s : so_t W) (i : Fin MAX_PROCESSES)
    (pid : Int) (state : Process_State) (h : ocupa s.process_table i pid state)
    (hb : state ≠ .BLOCKING) (ht : state ≠ .TERMINATED) :
    ocupa (antes_de_escalonar hw s).process_table i pid state := by
  obtain ⟨p, hp, hpid, hst⟩ := so_salva_ocupa hw s i pid state h
  unfold antes_de_escalonar
  refine ⟨p, ?_, hpid, hst⟩
  apply so_trata_pendencias_mantem hw _ i p _ (by rw [hst]; exact hb) (by rw [hst]; exact ht)
  exact hp

theorem antes_de_escalonar_campos {W : Type} (hw : Hw W) (s : so_t W) :
    (antes_de_escalonar hw s).current_process = s.current_process ∧
    (antes_de_escalonar hw s).quantum = s.quantum - 1 := by
  unfold antes_de_escalonar
  obtain ⟨h1, h2, _⟩ := so_trata_pendencias_campos hw
    (so_trata_irq_relogio hw (so_salva_estado_da_cpu hw s))
  obtain ⟨g1, g2, _⟩ := so_salva_campos hw s
  rw [h1, h2]
  unfold so_trata_irq_relogio
  dsimp only
  rw [g1, g2]
  exact ⟨rfl, rfl⟩

theorem so_trata_interrupcao_relogio {W : Type} (hw : Hw W) (n : Nat) (s : so_t W)
    (hirq : hw.IRQ_RELOGIO ≠ hw.IRQ_RESET ∧ hw.IRQ_RELOGIO ≠ hw.IRQ_SISTEMA ∧
      hw.IRQ_RELOGIO ≠ hw.IRQ_ERR_CPU) :
    so_trata_interrupcao hw n s hw.IRQ_RELOGIO =
      match espera_ativa hw n (so_escalona (antes_de_escalonar hw s)) with
      | none => none
      | some s2 => so_despacha hw s2 := by
  unfold so_trata_interrupcao so_trata_irq
  rw [if_neg hirq.1, if_neg hirq.2.1, if_neg hirq.2.2, if_pos rfl]
  rfl

theorem espera_ativa_nao_ocioso {W : Type} (hw : Hw W) (n : Nat) (s : so_t W)
    (h : ocioso s = false) : espera_ativa hw n s = some s := by
  cases n <;> simp [espera_ativa, h]

theorem corrente_de {W : Type} (s : so_t W) (k : Fin MAX_PROCESSES) (p : Process)
    (hc : s.current_process = ((k : Nat) : Int)) (hp : s.process_table k = some p) :
    corrente s = some (k, p) := by
  unfold corrente
  rw [hc, indice_coe]
  dsimp only
  rw [hp]

theorem so_despacha_retorna {W : Type} (hw : Hw W) (s : so_t W) (k : Fin MAX_PROCESSES)
    (p : Process) (hc : s.current_process = ((k : Nat) : Int))
    (hp : s.process_table k = some p) :
    ∃ r s2, so_despacha hw s = some (r, s2) ∧ s2.process_table = s.process_table ∧
      s2.current_process = s.current_process ∧ s2.quantum = s.quantum := by
  have hcor := corrente_de s k p hc hp
  unfold so_despacha
  split
  · exact ⟨1, s, rfl, rfl, rfl, rfl⟩
  · rw [hcor]
    exact ⟨0, _, rfl, rfl, rfl, rfl⟩

theorem nao_ocioso_de {W : Type} (s : so_t W) (k : Fin MAX_PROCESSES)
    (hc : s.current_process = ((k : Nat) : Int)) : ocioso s = false := by
  have hk : (k : Nat) < 4 := k.isLt
  have : ¬ s.current_process = NO_PROCESS_RUNNING := by
    rw [hc]; unfold NO_PROCESS_RUNNING; omega
  unfold ocioso
  simp [this]

theorem find_apos_takeWhile (l : List (Fin MAX_PROCESSES)) (f : Fin MAX_PROCESSES → Bool)
    (c : Fin MAX_PROCESSES) (hmem : c ∈ l) (hf : f c = true)
    (hn : ∀ j ∈ l.takeWhile (fun j => j != c), f j = false) : l.find? f = some c := by
  induction l with
  | nil => cases hmem
  | cons a l ih =>
    by_cases hac : a = c
    · subst hac
      simp [List.find?, hf]
    · have hne : (a != c) = true := by simpa using hac
      have hfa : f a = false := hn a (by simp [List.takeWhile, hne])
      rw [List.find?, hfa]
      apply ih
      · rcases List.mem_cons.1 hmem with h | h
        · exact absurd h.symm hac
        · exact h
      · intro j hj
        exact hn j (by simp [List.takeWhile, hne, hj])

theorem todos_na_ordem_circular (c0 c1 : Fin MAX_PROCESSES) :
    c1 ∈ ordem_circular ((c0 : Nat) : Int) := by
  revert c0 c1; decide

/-- Claim C4, amended: from a state with quantum 2, `p0` current and RUNNING in slot
`c0` and `p1` READY in slot `c1`, the first CLOCK trap returns with `p0` still
current and RUNNING and quantum 1; and if, when the scheduler runs in the second
CLOCK trap, no slot between `c0` and `c1` in the circular order is READY or
RUNNING, the second trap returns with `p1` current and RUNNING, `p0` READY and
quantum 2.  The machine may change freely between the traps, and the clock
writes may even fail. -/
theorem lei_do_quantum {W : Type} (hw : Hw W) (s : so_t W) (c0 c1 : Fin MAX_PROCESSES)
    (pid0 pid1 : Int) (n1 n2 : Nat) (w2 : W)
    (hirq : hw.IRQ_RELOGIO ≠ hw.IRQ_RESET ∧ hw.IRQ_RELOGIO ≠ hw.IRQ_SISTEMA ∧
      hw.IRQ_RELOGIO ≠ hw.IRQ_ERR_CPU)
    (hq : s.quantum = 2) (hc : s.current_process = ((c0 : Nat) : Int))
    (h0 : ocupa s.process_table c0 pid0 .RUNNING)
    (h1 : ocupa s.process_table c1 pid1 .READY) :
    ∃ r1 s1, so_trata_interrupcao hw n1 s hw.IRQ_RELOGIO = some (r1, s1) ∧
      s1.current_process = ((c0 : Nat) : Int) ∧
      ocupa s1.process_table c0 pid0 .RUNNING ∧ s1.quantum = 1 ∧
      ((∀ j ∈ entre c0 c1,
          apto ((antes_de_escalonar hw { s1 with mundo := w2 }).process_table j) = false) →
        ∃ r2 s2, so_trata_interrupcao hw n2 { s1 with mundo := w2 } hw.IRQ_RELOGIO
            = some (r2, s2) ∧
          s2.current_process = ((c1 : Nat) : Int) ∧
          ocupa s2.process_table c1 pid1 .RUNNING ∧
          ocupa s2.process_table c0 pid0 .READY ∧ s2.quantum = 2) := by
  have hc4 : (c0 : Nat) < 4 := c0.isLt
  have hne : c0 ≠ c1 := by
    rintro rfl
    obtain ⟨p, hp, _, hs⟩ := h0
    obtain ⟨q, hq', _, hs'⟩ := h1
    rw [hp] at hq'
    cases hq'
    rw [hs] at hs'
    cases hs'
  -- first trap
  obtain ⟨hA1c, hA1q⟩ := antes_de_escalonar_campos hw s
  have hA10 := antes_de_escalonar_ocupa hw s c0 pid0 .RUNNING h0 (by decide) (by decide)
  have hA11 := antes_de_escalonar_ocupa hw s c1 pid1 .READY h1 (by decide) (by decide)
  obtain ⟨p0, hp0, hpid0, hst0⟩ := hA10
  have hkeep : so_escalona (antes_de_escalonar hw s) = antes_de_escalonar hw s :=
    so_escalona_de_mantem _
      (mantem_corrente_de _ c0 p0 (hA1c.trans hc) hp0 hst0 (by rw [hA1q, hq]; decide))
  obtain ⟨r1, s1, hd1, ht1, hc1, hq1⟩ :=
    so_despacha_retorna hw (antes_de_escalonar hw s) c0 p0 (hA1c.trans hc) hp0
  have hs1c : s1.current_process = ((c0 : Nat) : Int) := by rw [hc1, hA1c, hc]
  have hs1q : s1.quantum = 1 := by rw [hq1, hA1q, hq]; rfl
  have hs10 : ocupa s1.process_table c0 pid0 .RUNNING := by
    rw [ht1]; exact ⟨p0, hp0, hpid0, hst0⟩
  have hs11 : ocupa s1.process_table c1 pid1 .READY := by
    rw [ht1]; exact hA11
  refine ⟨r1, s1, ?_, hs1c, hs10, hs1q, ?_⟩
  · rw [so_trata_interrupcao_relogio hw n1 s hirq, hkeep,
      espera_ativa_nao_ocioso hw n1 _ (nao_ocioso_de _ c0 (hA1c.trans hc))]
    exact hd1
  -- second trap
  intro hentre
  obtain ⟨hA2c, hA2q⟩ := antes_de_escalonar_campos hw { s1 with mundo := w2 }
  have hA2c2 : (antes_de_escalonar hw { s1 with mundo := w2 }).current_process
      = ((c0 : Nat) : Int) := hA2c.trans hs1c
  have hA2q2 : (antes_de_escalonar hw { s1 with mundo := w2 }).quantum = 0 := by
    rw [hA2q]; show s1.quantum - 1 = 0; rw [hs1q]; rfl
  obtain ⟨q0, hq0, hqpid0, hqst0⟩ :=
    antes_de_escalonar_ocupa hw { s1 with mundo := w2 } c0 pid0 .RUNNING hs10
      (by decide) (by decide)
  obtain ⟨q1, hq1', hqpid1, hqst1⟩ :=
    antes_de_escalonar_ocupa hw { s1 with mundo := w2 } c1 pid1 .READY hs11
      (by decide) (by decide)
  have hprim : primeiro_apto (antes_de_escalonar hw { s1 with mundo := w2 }).process_table
      (antes_de_escalonar hw { s1 with mundo := w2 }).current_process = some c1 := by
    rw [hA2c2]
    unfold primeiro_apto
    apply find_apos_takeWhile _ _ c1 (todos_na_ordem_circular c0 c1)
    · simp [apto, hq1', hqst1]
    · exact hentre
  have hrange : -1 ≤ (antes_de_escalonar hw { s1 with mundo := w2 }).current_process ∧
      (antes_de_escalonar hw { s1 with mundo := w2 }).current_process < 4 := by
    rw [hA2c2]; omega
  have hm := mantem_corrente_false (antes_de_escalonar hw { s1 with mundo := w2 })
    (Or.inr (Or.inr (Or.inr (by rw [hA2q2]))))
  have hE := so_escalona_achou _ hm c1 ((escalona_laco_ordem _ _ hrange).1 c1 hprim)
  have hcur : (so_escalona (antes_de_escalonar hw { s1 with mundo := w2 })).current_process
      = ((c1 : Nat) : Int) := by rw [hE]
  have hquant : (so_escalona (antes_de_escalonar hw { s1 with mundo := w2 })).quantum = 2 := by
    rw [hE]; rfl
  have hne2 : ¬ (antes_de_escalonar hw { s1 with mundo := w2 }).current_process
      = ((c1 : Nat) : Int) := by
    rw [hA2c2]
    intro h
    apply hne
    apply Fin.ext
    omega
  have hrun : (so_escalona (antes_de_escalonar hw { s1 with mundo := w2 })).process_table c1
      = some (executa q1) := by
    rw [hE]
    show altera (rebaixa_anterior _) c1 executa c1 = _
    rw [altera_apply, if_pos rfl, rebaixa_anterior_apply _ hrange c1, if_neg hne2, hq1']
    rfl
  have hprev : (so_escalona (antes_de_escalonar hw { s1 with mundo := w2 })).process_table c0
      = some (rebaixa q0) := by
    rw [hE]
    show altera (rebaixa_anterior _) c1 executa c0 = _
    rw [altera_apply, if_neg hne, rebaixa_anterior_apply _ hrange c0, if_pos hA2c2, hq0]
    rfl
  obtain ⟨r2, s2, hd2, ht2, hc2, hq2⟩ :=
    so_despacha_retorna hw (so_escalona (antes_de_escalonar hw { s1 with mundo := w2 }))
      c1 _ hcur hrun
  refine ⟨r2, s2, ?_, by rw [hc2, hcur], ?_, ?_, by rw [hq2, hquant]⟩
  · rw [so_trata_interrupcao_relogio hw n2 _ hirq,
      espera_ativa_nao_ocioso hw n2 _ (nao_ocioso_de _ c1 hcur)]
    exact hd2
  · rw [ht2]
    exact ⟨_, hrun, hqpid1, rfl⟩
  · rw [ht2]
    refine ⟨_, hprev, ?_, ?_⟩
    · unfold rebaixa
      rw [if_pos hqst0]
      exact hqpid0
    · unfold rebaixa
      rw [if_pos hqst0]

/-- Witness for C4: the table with pid 0 RUNNING in slot 0 and pid 1 READY in slot 2
on the concrete machine; after the two CLOCK traps slot 2 is current. -/
theorem lei_do_quantum_dois :
    (∃ r1 s1, so_trata_interrupcao hwT 0 (so_dois 2) hwT.IRQ_RELOGIO = some (r1, s1) ∧
      s1.current_process = (((0 : Fin MAX_PROCESSES) : Nat) : Int) ∧
      ocupa s1.process_table 0 0 .RUNNING ∧ s1.quantum = 1 ∧
      ((∀ j ∈ entre 0 2,
          apto ((antes_de_escalonar hwT { s1 with mundo := maquina0 }).process_table j)
            = false) →
        ∃ r2 s2, so_trata_interrupcao hwT 0 { s1 with mundo := maquina0 } hwT.IRQ_RELOGIO
            = some (r2, s2) ∧
          s2.current_process = (((2 : Fin MAX_PROCESSES) : Nat) : Int) ∧
          ocupa s2.process_table 2 1 .RUNNING ∧
          ocupa s2.process_table 0 0 .READY ∧ s2.quantum = 2)) ∧
    ((so_trata_interrupcao hwT 0 (so_dois 2) hwT.IRQ_RELOGIO).bind
        (fun r => so_trata_interrupcao hwT 0 r.2 hwT.IRQ_RELOGIO)).map
      (fun r => (r.2.current_process, r.2.quantum)) = some (2, 2) :=
  ⟨lei_do_quantum hwT (so_dois 2) 0 2 0 1 0 0 maquina0 (by decide) rfl rfl
    ⟨_, rfl, rfl, rfl⟩ ⟨_, rfl, rfl, rfl⟩, by decide⟩

/-- Counterexample to C4 as stated.  The kernel state of `so_tres` is the one in
which a CLOCK trap taken in `so_antes` returns, so it is a trap-exit state; its
quantum is 2, pid 0 is current and RUNNING in slot 0, pid 2 is READY in slot 2 and
slot 2 is the first runnable slot after slot 0 (slot 1 is BLOCKED on the
keyboard); the machine accepts the clock writes.  Once the keyboard has a
character, the first CLOCK trap wakes slot 1, and after the second CLOCK trap
slot 1 is current and RUNNING while pid 2 is still READY. -/
theorem lei_do_quantum_contra :
    (so_trata_interrupcao hwT 0 so_antes hwT.IRQ_RELOGIO).map
      (fun r => (r.1, r.2.current_process, r.2.quantum, r.2.erro_interno))
      = some (0, so_tres.current_process, so_tres.quantum, so_tres.erro_interno) ∧
    (so_trata_interrupcao hwT 0 so_antes hwT.IRQ_RELOGIO).map
      (fun r => (r.2.process_table 0, r.2.process_table 1, r.2.process_table 2,
        r.2.process_table 3))
      = some (so_tres.process_table 0, so_tres.process_table 1, so_tres.process_table 2,
        so_tres.process_table 3) ∧
    so_tres.quantum = 2 ∧ so_tres.current_process = 0 ∧
    so_tres.process_table 0 = some (processo_de 0 .RUNNING 0) ∧
    so_tres.process_table 2 = some (processo_de 2 .READY 2) ∧
    primeiro_apto so_tres.process_table so_tres.current_process = some 2 ∧
    (so_trata_interrupcao hwT 0 so_tres hwT.IRQ_RELOGIO).map
      (fun r => (r.1, r.2.current_process, r.2.quantum,
        (r.2.process_table 0).map (fun p => p.state),
        (r.2.process_table 1).map (fun p => p.state)))
      = some (0, 0, 1, some .RUNNING, some .READY) ∧
    ((so_trata_interrupcao hwT 0 so_tres hwT.IRQ_RELOGIO).bind
        (fun r => so_trata_interrupcao hwT 0 r.2 hwT.IRQ_RELOGIO)).map
      (fun r => (r.1, r.2.current_process, r.2.quantum,
        (r.2.process_table 1).map (fun p => p.state),
        r.2.process_table 2))
      = some (0, 1, 2, some .RUNNING, some (processo_de 2 .READY 2)) := by
  refine ⟨by decide, by decide, by decide, by decide, by decide, by decide, by decide,
    by decide, by decide⟩

/-! ## Scheduler claims -/

/-- Claim C2: when `so_escalona` does not keep the current process, it selects the
first slot in the circular order `(current+1) mod 4, ..., (current+4) mod 4` whose
descriptor is READY or RUNNING: that slot becomes `current_process` with state
RUNNING, the quantum is 2, the previous current descriptor, if it was RUNNING and
is another slot, is READY, and every other slot is unchanged.  When no slot
qualifies, `current_process` is -1 and the table is unchanged. -/
theorem so_escalona_seleciona {W : Type} (s : so_t W)
    (hc : -1 ≤ s.current_process ∧ s.current_process < 4)
    (hn : s.current_process = NO_PROCESS_RUNNING ∨
      entrada s.process_table s.current_process = none ∨
      (∃ p, entrada s.process_table s.current_process = some p ∧ p.state ≠ .RUNNING) ∨
      s.quantum ≤ 0) :
    (∀ k, primeiro_apto s.process_table s.current_process = some k →
      (so_escalona s).current_process = ((k : Nat) : Int) ∧
      (so_escalona s).quantum = 2 ∧
      (∃ p, s.process_table k = some p ∧ (p.state = .READY ∨ p.state = .RUNNING) ∧
        (so_escalona s).process_table k = some { p with state := .RUNNING }) ∧
      (∀ j, j ≠ k → (so_escalona s).process_table j =
        if s.current_process = ((j : Nat) : Int) then
          (s.process_table j).map
            (fun p => if p.state = .RUNNING then { p with state := .READY } else p)
        else s.process_table j)) ∧
    (primeiro_apto s.process_table s.current_process = none →
      (so_escalona s).current_process = -1 ∧
      (so_escalona s).process_table = s.process_table) := by
  have hm := mantem_corrente_false s hn
  obtain ⟨hsome, hnone⟩ := escalona_laco_ordem s.process_table s.current_process hc
  constructor
  · intro k hk
    obtain ⟨p, hp, hst⟩ := apto_some (by simpa using List.find?_some hk)
    rw [so_escalona_achou s hm k (hsome k hk)]
    refine ⟨rfl, rfl, ⟨p, hp, hst, ?_⟩, ?_⟩
    · show altera (rebaixa_anterior s) k executa k = _
      rw [altera_apply, if_pos rfl, rebaixa_anterior_apply s hc k, hp]
      by_cases hck : s.current_process = ((k : Nat) : Int)
      · rw [if_pos hck]
        simp only [Option.map_some']
        rw [executa_rebaixa]
        rfl
      · rw [if_neg hck]
        rfl
    · intro j hj
      show altera (rebaixa_anterior s) k executa j = _
      rw [altera_apply, if_neg hj, rebaixa_anterior_apply s hc j]
      rfl
  · intro hk
    rw [so_escalona_nada s hm (hnone hk)]
    exact ⟨rfl, rfl⟩

/-- Witness for C2: with the quantum used up, slot 0 RUNNING and current, and slot 2
READY, the scheduler selects slot 2 and sends slot 0 back to READY. -/
theorem so_escalona_seleciona_dois :
    (so_escalona (so_dois 0)).current_process = 2 ∧
    (so_escalona (so_dois 0)).quantum = 2 ∧
    (so_escalona (so_dois 0)).process_table 2 = some (processo_de 1 .RUNNING 2) ∧
    (so_escalona (so_dois 0)).process_table 0 = some (processo_de 0 .READY 0) :=
  ⟨((so_escalona_seleciona (so_dois 0) (by decide)
      (Or.inr (Or.inr (Or.inr (by decide))))).1 2 (by decide)).1,
    by decide, by decide, by decide⟩

/-- Claim C3: when `current_process` indexes a non-empty slot whose descriptor is
RUNNING and the quantum is positive, `so_escalona` returns the state it was given. -/
theorem so_escalona_mantem {W : Type} (s : so_t W) (k : Fin MAX_PROCESSES) (p : Process)
    (hc : s.current_process = ((k : Nat) : Int)) (hp : s.process_table k = some p)
    (hr : p.state = .RUNNING) (hq : s.quantum > 0) : so_escalona s = s := by
  have hm : mantem_corrente s = true := mantem_corrente_de s k p hc hp hr hq
  exact so_escalona_de_mantem s hm

/-- Witness for C3: slot 0 RUNNING and current, quantum 2. -/
theorem so_escalona_mantem_dois : so_escalona (so_dois 2) = so_dois 2 :=
  so_escalona_mantem (so_dois 2) 0 (processo_de 0 .RUNNING 0) rfl rfl rfl (by decide)

/-! ## Boot -/

theorem todos_pc_update_some (t : Tabela) (v : Int) (k : Fin MAX_PROCESSES) (q : Process)
    (h : todos_pc t v) (hq : q.context.pc = v) :
    todos_pc (Function.update t k (some q)) v := by
  intro j p hp
  by_cases hjk : j = k
  · subst hjk
    rw [Function.update_same] at hp
    cases hp
    exact hq
  · rw [Function.update_noteq hjk] at hp
    exact h j p hp

theorem todos_pc_update_none (t : Tabela) (v : Int) (k : Fin MAX_PROCESSES)
    (h : todos_pc t v) : todos_pc (Function.update t k none) v := by
  intro j p hp
  by_cases hjk : j = k
  · subst hjk
    rw [Function.update_same] at hp
    cases hp
  · rw [Function.update_noteq hjk] at hp
    exact h j p hp

theorem todos_pc_altera (t : Tabela) (v : Int) (k : Fin MAX_PROCESSES) (f : Process → Process)
    (h : todos_pc t v) (hf : ∀ p, (f p).context.pc = p.context.pc) :
    todos_pc (altera t k f) v := by
  intro j p hp
  rw [altera_apply] at hp
  by_cases hjk : j = k
  · subst hjk
    rw [if_pos rfl] at hp
    cases ht : t j with
    | none => simp [ht] at hp
    | some q =>
      simp only [ht, Option.map_some', Option.some.injEq] at hp
      subst hp
      rw [hf q]
      exact h j q ht
  · rw [if_neg hjk] at hp
    exact h j p hp

theorem process_receive_input_pc {W : Type} (hw : Hw W) (w : W) (proc : Process) :
    (process_receive_input hw w proc).1.context.pc = proc.context.pc := by
  unfold process_receive_input
  dsimp only
  split <;> rfl

theorem process_send_output_pc {W : Type} (hw : Hw W) (w : W) (proc : Process) :
    (process_send_output hw w proc).1.context.pc = proc.context.pc := by
  unfold process_send_output
  dsimp only
  split <;> rfl

theorem pendencias_acorda_pc {W : Type} (hw : Hw W) (s : so_t W) (i : Fin MAX_PROCESSES)
    (v : Int) (h : todos_pc s.process_table v) :
    todos_pc (pendencias_acorda hw s i).process_table v := by
  unfold pendencias_acorda
  split
  · exact h
  · rename_i proc hp
    have hv := h i proc hp
    split
    · exact h
    · split
      · dsimp only
        split
        · exact todos_pc_update_some _ _ _ _ h
            ((process_receive_input_pc hw _ proc).trans hv)
        · exact h
      · dsimp only
        split
        · exact todos_pc_update_some _ _ _ _ h
            ((process_send_output_pc hw _ proc).trans hv)
        · exact h
      · split
        · exact h
        · split
          · exact h
          · split
            · exact todos_pc_update_some _ _ _ _ h hv
            · exact h
      · exact h

theorem pendencias_destroi_pc {W : Type} (s : so_t W) (i : Fin MAX_PROCESSES)
    (v : Int) (h : todos_pc s.process_table v) :
    todos_pc (pendencias_destroi s i).process_table v := by
  unfold pendencias_destroi
  split
  · exact h
  · split
    · exact todos_pc_update_none _ _ _ h
    · exact h

theorem todos_pc_foldl {W : Type} (f : so_t W → Fin MAX_PROCESSES → so_t W) (v : Int)
    (hf : ∀ s i, todos_pc s.process_table v → todos_pc (f s i).process_table v)
    (l : List (Fin MAX_PROCESSES)) (s : so_t W) (h : todos_pc s.process_table v) :
    todos_pc (l.foldl f s).process_table v := by
  induction l generalizing s with
  | nil => exact h
  | cons a l ih => exact ih (f s a) (hf s a h)

theorem so_trata_pendencias_pc {W : Type} (hw : Hw W) (s : so_t W) (v : Int)
    (h : todos_pc s.process_table v) : todos_pc (so_trata_pendencias hw s).process_table v := by
  unfold so_trata_pendencias
  apply todos_pc_foldl pendencias_destroi v (fun s i h => pendencias_destroi_pc s i v h)
  exact todos_pc_foldl (pendencias_acorda hw) v (fun s i h => pendencias_acorda_pc hw s i v h)
    indices s h

theorem so_escalona_pc {W : Type} (s : so_t W) (v : Int) (h : todos_pc s.process_table v) :
    todos_pc (so_escalona s).process_table v := by
  have hreb : todos_pc (rebaixa_anterior s) v := by
    unfold rebaixa_anterior
    split
    · split
      · apply todos_pc_altera _ _ _ _ h
        intro p
        unfold rebaixa
        split <;> rfl
      · exact h
    · exact h
  unfold so_escalona
  split
  · exact h
  · dsimp only
    split
    · split
      · exact todos_pc_altera _ _ _ _ hreb (fun _ => rfl)
      · exact hreb
    · exact h

theorem espera_ativa_pc {W : Type} (hw : Hw W) (n : Nat) (s s2 : so_t W) (v : Int)
    (h : todos_pc s.process_table v) (he : espera_ativa hw n s = some s2) :
    todos_pc s2.process_table v := by
  induction n generalizing s with
  | zero =>
    unfold espera_ativa at he
    split at he
    · cases he
    · cases he
      exact h
  | succ n ih =>
    unfold espera_ativa at he
    split at he
    · apply ih _ _ he
      unfold espera_passo
      exact so_escalona_pc _ v (so_trata_pendencias_pc hw _ v h)
    · cases he
      exact h

theorem so_trata_irq_reset_pc {W : Type} (hw : Hw W) (s : so_t W) :
    todos_pc (so_trata_irq_reset hw s).process_table 0 := by
  have hc : (so_carrega_programa hw
      { s with
        process_counter := (process_create s.process_counter hw.D_TERM_A_TECLADO hw.D_TERM_A_TELA).2
        current_process := 0
        process_table := Function.update (fun _ => none) 0
          (some (process_create s.process_counter hw.D_TERM_A_TECLADO hw.D_TERM_A_TELA).1) }
      (some (process_create s.process_counter hw.D_TERM_A_TECLADO hw.D_TERM_A_TELA).1)
      (nome_de "init.maq")).2.process_table
      = Function.update (fun _ => none) 0
          (some (process_create s.process_counter hw.D_TERM_A_TECLADO hw.D_TERM_A_TELA).1) :=
    (so_carrega_programa_campos hw _ _ _).1
  have h0 : todos_pc (Function.update (fun _ => none) (0 : Fin MAX_PROCESSES)
      (some (process_create s.process_counter hw.D_TERM_A_TECLADO hw.D_TERM_A_TELA).1)) 0 :=
    todos_pc_update_some _ _ _ _ (fun _ _ h => by cases h) rfl
  unfold so_trata_irq_reset
  dsimp only
  split
  · show todos_pc (so_carrega_programa hw _ _ _).2.process_table 0
    rw [hc]
    exact h0
  · show todos_pc (altera (so_carrega_programa hw _ _ _).2.process_table 0 _) 0
    rw [hc]
    exact todos_pc_altera _ _ _ _ h0 (fun _ => rfl)

theorem so_despacha_zero {W : Type} (hw : Hw W) (s s2 : so_t W)
    (h : so_despacha hw s = some (0, s2)) :
    ∃ k p, corrente s = some (k, p) ∧ corrente s2 = some (k, p) ∧
      s2.mundo = hw.mmu_define_tabpag
        (hw.mmu_escreve
          (hw.mmu_escreve
            (hw.mmu_escreve s.mundo hw.IRQ_END_PC p.context.pc .supervisor).2
            hw.IRQ_END_A p.context.a .supervisor).2
          hw.IRQ_END_X p.context.x .supervisor).2
        p.page_table := by
  unfold so_despacha at h
  split at h
  · simp at h
  · split at h
    · cases h
    · rename_i k p hk
      simp only [Option.some.injEq, Prod.mk.injEq, true_and] at h
      subst h
      refine ⟨k, p, hk, ?_, rfl⟩
      unfold corrente at hk ⊢
      exact hk

/-- Claim C5, the part the code departs from: whatever the machine and the state
in which the RESET trap is taken, when the handler returns every descriptor of
the process table has `context.pc = 0`; and when it returns 0, the value that
`so_despacha` has written to the save-area cell `IRQ_END_PC` is the `pc` of the
current descriptor, that is 0, not the load address 100 of `init.maq`. -/
theorem reset_despacha_pc_zero {W : Type} (hw : Hw W) (n : Nat) (s s2 : so_t W) (r : Int)
    (h : so_trata_interrupcao hw n s hw.IRQ_RESET = some (r, s2)) :
    todos_pc s2.process_table 0 ∧
    (r = 0 → ∃ (w : W) (k : Fin MAX_PROCESSES) (p : Process),
      corrente s2 = some (k, p) ∧ p.context.pc = 0 ∧
      s2.mundo = hw.mmu_define_tabpag
        (hw.mmu_escreve
          (hw.mmu_escreve
            (hw.mmu_escreve w hw.IRQ_END_PC 0 .supervisor).2
            hw.IRQ_END_A p.context.a .supervisor).2
          hw.IRQ_END_X p.context.x .supervisor).2
        p.page_table) := by
  unfold so_trata_interrupcao so_trata_irq at h
  rw [if_pos rfl] at h
  dsimp only at h
  split at h
  · cases h
  · rename_i s3 h3
    have hpc3 : todos_pc s3.process_table 0 :=
      espera_ativa_pc hw n _ s3 0
        (so_escalona_pc _ 0 (so_trata_pendencias_pc hw _ 0 (so_trata_irq_reset_pc hw _))) h3
    obtain ⟨ht, _⟩ := so_despacha_campos hw s3 s2 r h
    refine ⟨by rw [ht]; exact hpc3, ?_⟩
    intro hr
    subst hr
    obtain ⟨k, p, hk3, hk2, hm⟩ := so_despacha_zero hw s3 s2 h
    have hp0 : p.context.pc = 0 := hpc3 k p (corrente_some hk3).2
    rw [hp0] at hm
    exact ⟨s3.mundo, k, p, hk2, hp0, hm⟩

theorem boot_retorna : so_trata_interrupcao hwT 0 so_inicial hwT.IRQ_RESET = some (0, so_boot) :=
  rfl

/-- Witness for C5: the boot of the concrete machine.  The kernel is fresh,
`init.maq` loads at 100, the RESET routine leaves pid 0 READY in slot 0, the trap
returns 0, and the save-area cell `IRQ_END_PC` holds 0. -/
theorem reset_despacha_pc_zero_boot :
    (todos_pc so_boot.process_table 0 ∧
      ((0 : Int) = 0 → ∃ (w : Maquina) (k : Fin MAX_PROCESSES) (p : Process),
        corrente so_boot = some (k, p) ∧ p.context.pc = 0 ∧
        so_boot.mundo = hwT.mmu_define_tabpag
          (hwT.mmu_escreve
            (hwT.mmu_escreve
              (hwT.mmu_escreve w hwT.IRQ_END_PC 0 .supervisor).2
              hwT.IRQ_END_A p.context.a .supervisor).2
            hwT.IRQ_END_X p.context.x .supervisor).2
          p.page_table)) ∧
    (so_inicial.process_counter = 0 ∧ so_inicial.current_process = -1 ∧
      so_inicial.erro_interno = false) ∧
    (so_carrega_programa hwT so_inicial (some (processo_de 0 .NEW 0))
      (nome_de "init.maq")).1 = 100 ∧
    (so_trata_irq_reset hwT so_inicial).process_table 0 = some (processo_de 0 .READY 0) ∧
    (so_trata_interrupcao hwT 0 so_inicial hwT.IRQ_RESET).map
      (fun r => (r.1, hwT.mmu_le r.2.mundo hwT.IRQ_END_PC .supervisor))
      = some (0, { ok := true, valor := 0 }) :=
  ⟨reset_despacha_pc_zero hwT 0 so_inicial so_boot 0 boot_retorna,
    ⟨by decide, by decide, by decide⟩, by decide, by decide, by decide⟩

/-! ## Pids stay below the pid counter -/

theorem pids_abaixo_mono {t : Tabela} {c c2 : Int} (h : pids_abaixo t c) (hc : c ≤ c2) :
    pids_abaixo t c2 := fun j q hq => lt_of_lt_of_le (h j q hq) hc

theorem pids_abaixo_update_some (t : Tabela) (c : Int) (k : Fin MAX_PROCESSES) (q : Process)
    (h : pids_abaixo t c) (hq : q.pid < c) : pids_abaixo (Function.update t k (some q)) c := by
  intro j p hp
  by_cases hjk : j = k
  · subst hjk
    rw [Function.update_same] at hp
    cases hp
    exact hq
  · rw [Function.update_noteq hjk] at hp
    exact h j p hp

theorem pids_abaixo_update_none (t : Tabela) (c : Int) (k : Fin MAX_PROCESSES)
    (h : pids_abaixo t c) : pids_abaixo (Function.update t k none) c := by
  intro j p hp
  by_cases hjk : j = k
  · subst hjk
    rw [Function.update_same] at hp
    cases hp
  · rw [Function.update_noteq hjk] at hp
    exact h j p hp

theorem pids_abaixo_altera (t : Tabela) (c : Int) (k : Fin MAX_PROCESSES) (f : Process → Process)
    (h : pids_abaixo t c) (hf : ∀ p, (f p).pid = p.pid) : pids_abaixo (altera t k f) c := by
  intro j p hp
  rw [altera_apply] at hp
  by_cases hjk : j = k
  · subst hjk
    rw [if_pos rfl] at hp
    cases ht : t j with
    | none => simp [ht] at hp
    | some q =>
      simp only [ht, Option.map_some', Option.some.injEq] at hp
      subst hp
      rw [hf q]
      exact h j q ht
  · rw [if_neg hjk] at hp
    exact h j p hp

/-- The pids of the table are below the pid counter. -/
theorem so_salva_pids {W : Type} (hw : Hw W) (s : so_t W)
    (h : pids_abaixo s.process_table s.process_counter) :
    pids_abaixo (so_salva_estado_da_cpu hw s).process_table
      (so_salva_estado_da_cpu hw s).process_counter := by
  unfold so_salva_estado_da_cpu
  split
  · exact h
  · split
    · exact h
    · split
      · exact h
      · rename_i k _ _ proc hk
        exact pids_abaixo_update_some _ _ _ _ h (h k proc hk)

theorem process_receive_input_pid {W : Type} (hw : Hw W) (w : W) (proc : Process) :
    (process_receive_input hw w proc).1.pid = proc.pid := by
  unfold process_receive_input
  dsimp only
  split <;> rfl

theorem process_send_output_pid {W : Type} (hw : Hw W) (w : W) (proc : Process) :
    (process_send_output hw w proc).1.pid = proc.pid := by
  unfold process_send_output
  dsimp only
  split <;> rfl

theorem pendencias_acorda_pids {W : Type} (hw : Hw W) (s : so_t W) (i : Fin MAX_PROCESSES)
    (c : Int) (h : pids_abaixo s.process_table c) :
    pids_abaixo (pendencias_acorda hw s i).process_table c := by
  unfold pendencias_acorda
  split
  · exact h
  · rename_i proc hp
    have hv := h i proc hp
    split
    · exact h
    · split
      · dsimp only
        split
        · refine pids_abaixo_update_some _ _ _ _ h ?_
          show (process_receive_input hw _ proc).1.pid < c
          rw [process_receive_input_pid]
          exact hv
        · exact h
      · dsimp only
        split
        · refine pids_abaixo_update_some _ _ _ _ h ?_
          show (process_send_output hw _ proc).1.pid < c
          rw [process_send_output_pid]
          exact hv
        · exact h
      · split
        · exact h
        · split
          · exact h
          · split
            · exact pids_abaixo_update_some _ _ _ _ h hv
            · exact h
      · exact h

theorem pendencias_destroi_pids {W : Type} (s : so_t W) (i : Fin MAX_PROCESSES)
    (c : Int) (h : pids_abaixo s.process_table c) :
    pids_abaixo (pendencias_destroi s i).process_table c := by
  unfold pendencias_destroi
  split
  · exact h
  · split
    · exact pids_abaixo_update_none _ _ _ h
    · exact h

theorem pids_abaixo_foldl {W : Type} (f : so_t W → Fin MAX_PROCESSES → so_t W) (c : Int)
    (hf : ∀ s i, pids_abaixo s.process_table c → pids_abaixo (f s i).process_table c)
    (l : List (Fin MAX_PROCESSES)) (s : so_t W) (h : pids_abaixo s.process_table c) :
    pids_abaixo (l.foldl f s).process_table c := by
  induction l generalizing s with
  | nil => exact h
  | cons a l ih => exact ih (f s a) (hf s a h)

theorem so_trata_pendencias_pids {W : Type} (hw : Hw W) (s : so_t W)
    (h : pids_abaixo s.process_table s.process_counter) :
    pids_abaixo (so_trata_pendencias hw s).process_table
      (so_trata_pendencias hw s).process_counter := by
  rw [(so_trata_pendencias_campos hw s).2.2.2.2]
  unfold so_trata_pendencias
  apply pids_abaixo_foldl pendencias_destroi _ (fun s i h => pendencias_destroi_pids s i _ h)
  exact pids_abaixo_foldl (pendencias_acorda hw) _
    (fun s i h => pendencias_acorda_pids hw s i _ h) indices s h

theorem so_escalona_pids {W : Type} (s : so_t W)
    (h : pids_abaixo s.process_table s.process_counter) :
    pids_abaixo (so_escalona s).process_table (so_escalona s).process_counter := by
  have hreb : pids_abaixo (rebaixa_anterior s) s.process_counter := by
    unfold rebaixa_anterior
    split
    · split
      · apply pids_abaixo_altera _ _ _ _ h
        intro p
        unfold rebaixa
        split <;> rfl
      · exact h
    · exact h
  unfold so_escalona
  split
  · exact h
  · dsimp only
    split
    · split
      · exact pids_abaixo_altera _ _ _ _ hreb (fun _ => rfl)
      · exact hreb
    · exact h

theorem espera_ativa_pids {W : Type} (hw : Hw W) (n : Nat) (s s2 : so_t W)
    (h : pids_abaixo s.process_table s.process_counter) (he : espera_ativa hw n s = some s2) :
    pids_abaixo s2.process_table s2.process_counter := by
  induction n generalizing s with
  | zero =>
    unfold espera_ativa at he
    split at he
    · cases he
    · cases he
      exact h
  | succ n ih =>
    unfold espera_ativa at he
    split at he
    · apply ih _ _ he
      unfold espera_passo
      exact so_escalona_pids _ (so_trata_pendencias_pids hw _ h)
    · cases he
      exact h

theorem so_trata_irq_reset_pids {W : Type} (hw : Hw W) (s : so_t W) :
    pids_abaixo (so_trata_irq_reset hw s).process_table
      (so_trata_irq_reset hw s).process_counter := by
  have hc := so_carrega_programa_campos hw
      { s with
        process_counter := (process_create s.process_counter hw.D_TERM_A_TECLADO hw.D_TERM_A_TELA).2
        current_process := 0
        process_table := Function.update (fun _ => none) 0
          (some (process_create s.process_counter hw.D_TERM_A_TECLADO hw.D_TERM_A_TELA).1) }
      (some (process_create s.process_counter hw.D_TERM_A_TECLADO hw.D_TERM_A_TELA).1)
      (nome_de "init.maq")
  have ht : (so_carrega_programa hw _ _ _).2.process_table = Function.update (fun _ => none) 0
      (some (process_create s.process_counter hw.D_TERM_A_TECLADO hw.D_TERM_A_TELA).1) := hc.1
  have hn : (so_carrega_programa hw _ _ _).2.process_counter = s.process_counter + 1 := hc.2.2.2.2
  have h0 : pids_abaixo (Function.update (fun _ => none) (0 : Fin MAX_PROCESSES)
      (some (process_create s.process_counter hw.D_TERM_A_TECLADO hw.D_TERM_A_TELA).1))
      (s.process_counter + 1) :=
    pids_abaixo_update_some _ _ _ _ (fun _ _ h => by cases h)
      (by show s.process_counter < s.process_counter + 1; omega)
  unfold so_trata_irq_reset
  dsimp only
  split
  · show pids_abaixo (so_carrega_programa hw _ _ _).2.process_table
      (so_carrega_programa hw _ _ _).2.process_counter
    rw [ht, hn]
    exact h0
  · show pids_abaixo (altera (so_carrega_programa hw _ _ _).2.process_table 0 _)
      (so_carrega_programa hw _ _ _).2.process_counter
    rw [ht, hn]
    exact pids_abaixo_altera _ _ _ _ h0 (fun _ => rfl)

theorem so_chamada_cria_proc_pids {W : Type} (hw : Hw W) (s s2 : so_t W)
    (h : pids_abaixo s.process_table s.process_counter)
    (h2 : so_chamada_cria_proc hw s = some s2) :
    pids_abaixo s2.process_table s2.process_counter := by
  unfold so_chamada_cria_proc at h2
  split at h2
  · cases h2
  · rename_i k proc hk
    dsimp only at h2
    have hc := so_carrega_programa_campos hw
      { s with process_counter := (process_create s.process_counter
        ((procura_entrada s.process_table).tmod 4 * 4)
        ((procura_entrada s.process_table).tmod 4 * 4 + 2)).2 }
      (some (process_create s.process_counter
        ((procura_entrada s.process_table).tmod 4 * 4)
        ((procura_entrada s.process_table).tmod 4 * 4 + 2)).1)
      (nome_copiado (so_copia_str_do_processo hw s.mundo 256 proc.context.x (some proc)).2)
    have ht : (so_carrega_programa hw _ _ _).2.process_table = s.process_table := hc.1
    have hn : (so_carrega_programa hw _ _ _).2.process_counter = s.process_counter + 1 :=
      hc.2.2.2.2
    have hmais : pids_abaixo s.process_table (s.process_counter + 1) :=
      pids_abaixo_mono h (by omega)
    split at h2
    · cases h2
      exact pids_abaixo_altera _ _ _ _ h (fun _ => rfl)
    · split at h2
      · cases h2
        exact pids_abaixo_altera _ _ _ _ h (fun _ => rfl)
      · split at h2
        · cases h2
          show pids_abaixo (altera (so_carrega_programa hw _ _ _).2.process_table k _)
            (so_carrega_programa hw _ _ _).2.process_counter
          rw [ht, hn]
          exact pids_abaixo_altera _ _ _ _ hmais (fun _ => rfl)
        · split at h2
          · cases h2
          · cases h2
            show pids_abaixo (altera (Function.update
              (so_carrega_programa hw _ _ _).2.process_table _ _) k _)
              (so_carrega_programa hw _ _ _).2.process_counter
            rw [ht, hn]
            refine pids_abaixo_altera _ _ _ _ ?_ (fun _ => rfl)
            refine pids_abaixo_update_some _ _ _ _ hmais ?_
            show s.process_counter < s.process_counter + 1
            omega

theorem so_trata_irq_chamada_sistema_pids {W : Type} (hw : Hw W) (s s2 : so_t W)
    (h : pids_abaixo s.process_table s.process_counter)
    (h2 : so_trata_irq_chamada_sistema hw s = some s2) :
    pids_abaixo s2.process_table s2.process_counter := by
  unfold so_trata_irq_chamada_sistema at h2
  split at h2
  · cases h2
  · rename_i k proc hk
    have hkp := (corrente_some hk).2
    have hv := h k proc hkp
    dsimp only at h2
    split at h2
    · unfold so_chamada_le at h2
      rw [hk] at h2
      dsimp only at h2
      split at h2
      · cases h2
        exact pids_abaixo_update_some _ _ _ _ h hv
      · split at h2
        · cases h2
          exact pids_abaixo_update_some _ _ _ _ h hv
        · cases h2
          refine pids_abaixo_update_some _ _ _ _ h ?_
          show (process_receive_input hw _ proc).1.pid < s.process_counter
          rw [process_receive_input_pid]
          exact hv
    · split at h2
      · unfold so_chamada_escr at h2
        rw [hk] at h2
        dsimp only at h2
        split at h2
        · cases h2
          exact pids_abaixo_update_some _ _ _ _ h hv
        · split at h2
          · cases h2
            exact pids_abaixo_update_some _ _ _ _ h hv
          · cases h2
            refine pids_abaixo_update_some _ _ _ _ h ?_
            show (process_send_output hw _ proc).1.pid < s.process_counter
            rw [process_send_output_pid]
            exact hv
      · split at h2
        · exact so_chamada_cria_proc_pids hw s s2 h h2
        · split at h2
          · unfold so_chamada_mata_proc at h2
            rw [hk] at h2
            dsimp only at h2
            split at h2
            · cases h2
              exact pids_abaixo_altera _ _ _ _ h (fun _ => rfl)
            · split at h2
              · cases h2
                exact pids_abaixo_altera _ _ _ _
                  (pids_abaixo_altera _ _ _ _ h (fun _ => rfl)) (fun _ => rfl)
              · cases h2
                exact pids_abaixo_altera _ _ _ _ h (fun _ => rfl)
          · split at h2
            · unfold so_chamada_espera_proc at h2
              rw [hk] at h2
              dsimp only at h2
              split at h2
              · split at h2
                · cases h2
                  exact pids_abaixo_update_some _ _ _ _ h hv
                · cases h2
                  exact pids_abaixo_update_some _ _ _ _ h hv
              · cases h2
                exact pids_abaixo_update_some _ _ _ _ h hv
            · cases h2
              exact pids_abaixo_update_some _ _ _ _ h hv

theorem so_trata_irq_pids {W : Type} (hw : Hw W) (s s2 : so_t W) (irq : Int)
    (h : pids_abaixo s.process_table s.process_counter)
    (h2 : so_trata_irq hw s irq = some s2) :
    pids_abaixo s2.process_table s2.process_counter := by
  unfold so_trata_irq at h2
  split at h2
  · cases h2
    exact so_trata_irq_reset_pids hw s
  · split at h2
    · exact so_trata_irq_chamada_sistema_pids hw s s2 h h2
    · split at h2
      · unfold so_trata_irq_err_cpu at h2
        split at h2
        · split at h2
          · cases h2
          · rename_i k ps hk
            cases h2
            exact pids_abaixo_update_some _ _ _ _ h (h k ps (corrente_some hk).2)
        · cases h2
          exact h
      · split at h2
        · cases h2
          exact h
        · cases h2
          exact h

/-- The hypothesis of C7 on the pids holds whenever a system call is served in a
run that starts from a freshly created kernel: it holds at every return of the
trap handler, and `so_salva_estado_da_cpu` keeps it. -/
theorem retorno_pids {W : Type} (hw : Hw W) (r : Int) (s : so_t W) (h : Retorno hw r s) :
    pids_abaixo s.process_table s.process_counter := by
  have passo : ∀ (n : Nat) (s0 s1 : so_t W) (irq r : Int),
      pids_abaixo s0.process_table s0.process_counter →
      so_trata_interrupcao hw n s0 irq = some (r, s1) →
      pids_abaixo s1.process_table s1.process_counter := by
    intro n s0 s1 irq r h0 h1
    unfold so_trata_interrupcao at h1
    split at h1
    · cases h1
    · rename_i sa ha
      split at h1
      · cases h1
      · rename_i sb hb
        have h3 := espera_ativa_pids hw n _ sb
          (so_escalona_pids _ (so_trata_pendencias_pids hw _
            (so_trata_irq_pids hw _ sa irq (so_salva_pids hw s0 h0) ha))) hb
        unfold so_despacha at h1
        split at h1
        · cases h1
          exact h3
        · split at h1
          · cases h1
          · cases h1
            exact h3
  induction h with
  | primeiro w n irq r s h =>
    apply passo n _ s irq r _ h
    rw [so_cria_tabela]
    intro j q hq
    cases hq
  | seguinte r0 s0 w n irq r s _ h ih =>
    exact passo n { s0 with mundo := w } s irq r ih h

/-! ## CREATE_PROC -/

theorem procura_entrada_cheia (t : Tabela) (h : ∀ i, t i ≠ none) : procura_entrada t = -1 := by
  unfold procura_entrada indices
  simp [List.foldl, h]

theorem procura_entrada_livre (t : Tabela) (h : ∃ i, t i = none) :
    ∃ e : Fin MAX_PROCESSES, procura_entrada t = ((e : Nat) : Int) ∧ t e = none ∧
      ∀ j, t j = none → j ≤ e := by
  have f3 : ∀ j : Fin MAX_PROCESSES, j ≤ 3 := by decide
  have f2 : ∀ j : Fin MAX_PROCESSES, j ≠ 3 → j ≤ 2 := by decide
  have f1 : ∀ j : Fin MAX_PROCESSES, j ≠ 3 → j ≠ 2 → j ≤ 1 := by decide
  have f0 : ∀ j : Fin MAX_PROCESSES, j ≠ 3 → j ≠ 2 → j ≠ 1 → j = 0 := by decide
  unfold procura_entrada indices
  simp only [List.foldl]
  by_cases h3 : t 3 = none
  · exact ⟨3, by simp [h3], h3, fun j _ => f3 j⟩
  · by_cases h2 : t 2 = none
    · exact ⟨2, by simp [h3, h2], h2, fun j hj => f2 j (fun hh => h3 (hh ▸ hj))⟩
    · by_cases h1 : t 1 = none
      · exact ⟨1, by simp [h3, h2, h1], h1,
          fun j hj => f1 j (fun hh => h3 (hh ▸ hj)) (fun hh => h2 (hh ▸ hj))⟩
      · obtain ⟨i, hi⟩ := h
        have e0 : i = 0 :=
          f0 i (fun hh => h3 (hh ▸ hi)) (fun hh => h2 (hh ▸ hi)) (fun hh => h1 (hh ▸ hi))
        subst e0
        refine ⟨0, by simp [h3, h2, h1, hi], hi, fun j hj => ?_⟩
        exact le_of_eq
          (f0 j (fun hh => h3 (hh ▸ hj)) (fun hh => h2 (hh ▸ hj)) (fun hh => h1 (hh ▸ hj)))

theorem carga_de_cria_proc_tabela {W : Type} (hw : Hw W) (s : so_t W) (proc : Process) :
    (carga_de_cria_proc hw s proc).2.process_table = s.process_table :=
  (so_carrega_programa_campos hw _ _ _).1

/-- The state `so_chamada_cria_proc` returns when one of its steps fails. -/
theorem so_chamada_cria_proc_falhou {W : Type} (hw : Hw W) (s : so_t W)
    (k : Fin MAX_PROCESSES) (proc : Process) (hk : corrente s = some (k, proc))
    (hf : (so_copia_str_do_processo hw s.mundo 256 proc.context.x (some proc)).1 = false ∨
      (∀ i, s.process_table i ≠ none) ∨ (carga_de_cria_proc hw s proc).1 < 0) :
    ∃ s2, so_chamada_cria_proc hw s = some s2 ∧
      s2.process_table = altera s.process_table k
        (fun p => { p with context := { p.context with a := -1 } }) := by
  unfold so_chamada_cria_proc
  rw [hk]
  dsimp only
  by_cases h1 : (so_copia_str_do_processo hw s.mundo 256 proc.context.x (some proc)).1 = false
  · rw [if_pos h1]
    exact ⟨_, rfl, rfl⟩
  · rw [if_neg h1]
    by_cases h2 : procura_entrada s.process_table = -1
    · rw [if_pos h2]
      exact ⟨_, rfl, rfl⟩
    · rw [if_neg h2]
      have h3 : (carga_de_cria_proc hw s proc).1 < 0 := by
        rcases hf with h | h | h
        · exact absurd h h1
        · exact absurd (procura_entrada_cheia _ h) h2
        · exact h
      have h3b := h3
      unfold carga_de_cria_proc at h3b
      dsimp only at h3b
      rw [if_pos h3b]
      refine ⟨_, rfl, ?_⟩
      show altera (carga_de_cria_proc hw s proc).2.process_table k _ = _
      rw [carga_de_cria_proc_tabela]

/-- The state `so_chamada_cria_proc` returns when every step succeeds: the new
descriptor sits in the highest free slot `e`. -/
theorem so_chamada_cria_proc_criou {W : Type} (hw : Hw W) (s : so_t W)
    (k : Fin MAX_PROCESSES) (proc : Process) (hk : corrente s = some (k, proc))
    (hcopia : (so_copia_str_do_processo hw s.mundo 256 proc.context.x (some proc)).1 = true)
    (hlivre : ∃ i, s.process_table i = none)
    (hcarga : 0 ≤ (carga_de_cria_proc hw s proc).1) :
    ∃ (e : Fin MAX_PROCESSES) (s2 : so_t W), so_chamada_cria_proc hw s = some s2 ∧
      s.process_table e = none ∧ (∀ j, s.process_table j = none → j ≤ e) ∧
      s2.process_table = altera
        (Function.update s.process_table e
          (some
            { pid := s.process_counter
              priority := 5
              state := .READY
              blocking := { kind := .NOT_BLOCKING, id := 0 }
              context := { pc := (carga_de_cria_proc hw s proc).1, a := 0, x := 0, err := 0 }
              in_dev := ((e : Nat) : Int) % 4 * 4
              out := ((e : Nat) : Int) % 4 * 4 + 2
              page_table := tabpag_cria }))
        k (fun p => { p with context := { p.context with a := s.process_counter } }) := by
  obtain ⟨e, he, hnone, hmax⟩ := procura_entrada_livre s.process_table hlivre
  have he4 : (e : Nat) < 4 := e.isLt
  have hne : ¬ procura_entrada s.process_table = -1 := by rw [he]; omega
  have hc2 : ¬ (carga_de_cria_proc hw s proc).1 < 0 := by omega
  have hmod : (((e : Nat) : Int)).tmod 4 = ((e : Nat) : Int) % 4 := by
    rw [Int.tmod_eq_emod] <;> omega
  have hcarga2 := hc2
  have htab := carga_de_cria_proc_tabela hw s proc
  unfold carga_de_cria_proc at hcarga2 htab
  dsimp only at hcarga2 htab
  refine ⟨e, ?_⟩
  unfold so_chamada_cria_proc
  rw [hk]
  dsimp only
  have hind : indice (procura_entrada s.process_table) = some e := by
    rw [he]; exact indice_coe e
  rw [if_neg (by simp [hcopia]), if_neg hne, if_neg hcarga2, hind]
  dsimp only
  refine ⟨_, rfl, hnone, hmax, ?_⟩
  rw [htab]
  unfold carga_de_cria_proc
  dsimp only
  rw [he, hmod]
  rfl

/-- Claim C6, amended: when CREATE_PROC succeeds, the new descriptor (the one with
the pid taken from the counter) is placed in the last free slot of the process
table, the highest index whose slot is empty; the other free slots stay free. -/
theorem cria_proc_ultima_livre {W : Type} (hw : Hw W) (s : so_t W)
    (k : Fin MAX_PROCESSES) (proc : Process) (hk : corrente s = some (k, proc))
    (hcopia : (so_copia_str_do_processo hw s.mundo 256 proc.context.x (some proc)).1 = true)
    (hlivre : ∃ i, s.process_table i = none)
    (hcarga : 0 ≤ (carga_de_cria_proc hw s proc).1) :
    ∃ (e : Fin MAX_PROCESSES) (s2 : so_t W), so_chamada_cria_proc hw s = some s2 ∧
      s.process_table e = none ∧ (∀ j, s.process_table j = none → j ≤ e) ∧
      (∃ q, s2.process_table e = some q ∧ q.pid = s.process_counter ∧ q.state = .READY) ∧
      (∀ j, j ≠ e → s.process_table j = none → s2.process_table j = none) := by
  obtain ⟨e, s2, h2, hnone, hmax, htab⟩ :=
    so_chamada_cria_proc_criou hw s k proc hk hcopia hlivre hcarga
  have hkp := (corrente_some hk).2
  have hek : e ≠ k := by
    rintro rfl
    rw [hnone] at hkp
    cases hkp
  refine ⟨e, s2, h2, hnone, hmax, ?_, ?_⟩
  · rw [htab, altera_apply, if_neg hek, Function.update_same]
    exact ⟨_, rfl, rfl, rfl⟩
  · intro j hje hj
    have hjk : j ≠ k := by
      rintro rfl
      rw [hj] at hkp
      cases hkp
    rw [htab, altera_apply, if_neg hjk, Function.update_noteq hje]
    exact hj

/-- Witness for C6: the caller in slot 0 and slots 1, 2, 3 free. -/
theorem cria_proc_ultima_livre_chama :
    ∃ (e : Fin MAX_PROCESSES) (s2 : so_t Maquina),
      so_chamada_cria_proc hwT so_chama = some s2 ∧
      so_chama.process_table e = none ∧ (∀ j, so_chama.process_table j = none → j ≤ e) ∧
      (∃ q, s2.process_table e = some q ∧ q.pid = so_chama.process_counter ∧
        q.state = .READY) ∧
      (∀ j, j ≠ e → so_chama.process_table j = none → s2.process_table j = none) :=
  cria_proc_ultima_livre hwT so_chama 0
    { processo_de 0 .RUNNING 0 with context := { pc := 0, a := 3, x := 200, err := 0 } }
    (by decide) (by decide) ⟨1, by decide⟩ (by decide)

/-- Counterexample to C6 as stated: in `so_chama` the file name is copied, the
program loads, and slot 1 is the first free slot (slot 0 is occupied); after the
call slot 1 is still empty and the new descriptor, pid 1, is in slot 3. -/
theorem cria_proc_primeira_livre_contra :
    so_chama.process_table 0 ≠ none ∧ so_chama.process_table 1 = none ∧
    (so_chamada_cria_proc hwT so_chama).map
      (fun s => (s.process_table 1, (s.process_table 3).map (fun p => (p.pid, p.state))))
      = some (none, some (1, .READY)) := by
  refine ⟨by decide, by decide, by decide⟩

/-- Claim C7: when CREATE_PROC succeeds (file name copied, a free slot exists, the
load returns a non-negative address), the chosen slot `e` holds a new descriptor
that is READY, has `context.pc` equal to the load address and the terminal pair
`(e mod 4) * 4`, `(e mod 4) * 4 + 2`, and whose pid differs from every other pid in
the table; register `a` of the caller holds that pid and nothing else changes in
the caller or in the other slots.  The pids of the table are below the pid
counter, as in every state the kernel reaches. -/
theorem cria_proc_sucesso {W : Type} (hw : Hw W) (s : so_t W)
    (k : Fin MAX_PROCESSES) (proc : Process) (hk : corrente s = some (k, proc))
    (hcopia : (so_copia_str_do_processo hw s.mundo 256 proc.context.x (some proc)).1 = true)
    (hlivre : ∃ i, s.process_table i = none)
    (hcarga : 0 ≤ (carga_de_cria_proc hw s proc).1)
    (hpid : ∀ j q, s.process_table j = some q → q.pid < s.process_counter) :
    ∃ (e : Fin MAX_PROCESSES) (s2 : so_t W) (novo : Process),
      so_chamada_cria_proc hw s = some s2 ∧
      s.process_table e = none ∧ s2.process_table e = some novo ∧
      novo.state = .READY ∧ novo.context.pc = (carga_de_cria_proc hw s proc).1 ∧
      novo.in_dev = ((e : Nat) : Int) % 4 * 4 ∧ novo.out = ((e : Nat) : Int) % 4 * 4 + 2 ∧
      (∀ j q, j ≠ e → s2.process_table j = some q → q.pid ≠ novo.pid) ∧
      s2.process_table k = some { proc with context := { proc.context with a := novo.pid } } ∧
      (∀ j, j ≠ e → j ≠ k → s2.process_table j = s.process_table j) := by
  obtain ⟨e, s2, h2, hnone, _, htab⟩ :=
    so_chamada_cria_proc_criou hw s k proc hk hcopia hlivre hcarga
  have hkp := (corrente_some hk).2
  have hek : e ≠ k := by
    rintro rfl
    rw [hnone] at hkp
    cases hkp
  refine ⟨e, s2,
    { pid := s.process_counter
      priority := 5
      state := .READY
      blocking := { kind := .NOT_BLOCKING, id := 0 }
      context := { pc := (carga_de_cria_proc hw s proc).1, a := 0, x := 0, err := 0 }
      in_dev := ((e : Nat) : Int) % 4 * 4
      out := ((e : Nat) : Int) % 4 * 4 + 2
      page_table := tabpag_cria },
    h2, hnone, ?_, rfl, rfl, rfl, rfl, ?_, ?_, ?_⟩
  · rw [htab, altera_apply, if_neg hek, Function.update_same]
  · intro j q hje hq
    rw [htab, altera_apply] at hq
    show q.pid ≠ s.process_counter
    by_cases hjk : j = k
    · subst hjk
      rw [if_pos rfl, Function.update_noteq hje, hkp] at hq
      simp only [Option.map_some', Option.some.injEq] at hq
      subst hq
      exact ne_of_lt (hpid j proc hkp)
    · rw [if_neg hjk, Function.update_noteq hje] at hq
      exact ne_of_lt (hpid j q hq)
  · rw [htab, altera_apply, if_pos rfl, Function.update_noteq (Ne.symm hek), hkp]
    rfl
  · intro j hje hjk
    rw [htab, altera_apply, if_neg hjk, Function.update_noteq hje]

/-- Witness for C7: the call of `so_chama` creates pid 1 with `pc = 5` on terminal D. -/
theorem cria_proc_sucesso_chama :
    ∃ (e : Fin MAX_PROCESSES) (s2 : so_t Maquina) (novo : Process),
      so_chamada_cria_proc hwT so_chama = some s2 ∧
      so_chama.process_table e = none ∧ s2.process_table e = some novo ∧
      novo.state = .READY ∧
      novo.context.pc = (carga_de_cria_proc hwT so_chama
        { processo_de 0 .RUNNING 0 with context := { pc := 0, a := 3, x := 200, err := 0 } }).1 ∧
      novo.in_dev = ((e : Nat) : Int) % 4 * 4 ∧ novo.out = ((e : Nat) : Int) % 4 * 4 + 2 ∧
      (∀ j q, j ≠ e → s2.process_table j = some q → q.pid ≠ novo.pid) ∧
      s2.process_table 0 = some
        { processo_de 0 .RUNNING 0 with context := { pc := 0, a := novo.pid, x := 200, err := 0 } } ∧
      (∀ j, j ≠ e → j ≠ 0 → s2.process_table j = so_chama.process_table j) :=
  cria_proc_sucesso hwT so_chama 0
    { processo_de 0 .RUNNING 0 with context := { pc := 0, a := 3, x := 200, err := 0 } }
    (by decide) (by decide) ⟨1, by decide⟩ (by decide) (by decide)

/-- Claim C8: whenever CREATE_PROC fails (the file name cannot be copied, all four
slots are occupied, or the load returns a negative address), register `a` of the
caller is -1, the caller is otherwise unchanged (so it keeps its state), and every
other slot of the process table is as before. -/
theorem cria_proc_falha_menos_um {W : Type} (hw : Hw W) (s : so_t W)
    (k : Fin MAX_PROCESSES) (proc : Process) (hk : corrente s = some (k, proc))
    (hf : (so_copia_str_do_processo hw s.mundo 256 proc.context.x (some proc)).1 = false ∨
      (∀ i, s.process_table i ≠ none) ∨ (carga_de_cria_proc hw s proc).1 < 0) :
    ∃ s2, so_chamada_cria_proc hw s = some s2 ∧
      s2.process_table k = some { proc with context := { proc.context with a := -1 } } ∧
      (∀ j, j ≠ k → s2.process_table j = s.process_table j) := by
  obtain ⟨s2, h2, htab⟩ := so_chamada_cria_proc_falhou hw s k proc hk hf
  have hkp := (corrente_some hk).2
  refine ⟨s2, h2, ?_, ?_⟩
  · rw [htab, altera_apply, if_pos rfl, hkp]
    rfl
  · intro j hjk
    rw [htab, altera_apply, if_neg hjk]

/-- Witness for C8: the full table of `so_cheio`; the caller stays RUNNING with `a = -1`. -/
theorem cria_proc_falha_menos_um_cheio :
    ∃ s2, so_chamada_cria_proc hwT so_cheio = some s2 ∧
      s2.process_table 0 = some
        { processo_de 0 .RUNNING 0 with context := { pc := 0, a := -1, x := 200, err := 0 } } ∧
      (∀ j, j ≠ 0 → s2.process_table j = so_cheio.process_table j) :=
  cria_proc_falha_menos_um hwT so_cheio 0
    { processo_de 0 .RUNNING 0 with context := { pc := 0, a := 3, x := 200, err := 0 } }
    (by decide) (Or.inr (Or.inl (by decide)))

/-! ## KILL_PROC and WAIT_PROC -/

theorem todos_em_indices (j : Fin MAX_PROCESSES) : j ∈ indices := by
  revert j; decide

theorem find_indices (f : Fin MAX_PROCESSES → Bool) (k : Fin MAX_PROCESSES)
    (h : indices.find? f = some k) : f k = true ∧ ∀ j, j < k → f j = false := by
  have F : ∀ j k : Fin MAX_PROCESSES, j < k →
      k ≠ 0 ∧ (k = 1 → j = 0) ∧ (k = 2 → j = 0 ∨ j = 1) ∧ (k = 3 → j = 0 ∨ j = 1 ∨ j = 2) := by
    decide
  refine ⟨by simpa using List.find?_some h, ?_⟩
  intro j hjk
  obtain ⟨F0, F1, F2, F3⟩ := F j k hjk
  unfold indices at h
  simp only [List.find?] at h
  cases h0 : f 0 with
  | true =>
    rw [h0] at h
    simp only [Option.some.injEq] at h
    exact absurd h.symm F0
  | false =>
    rw [h0] at h
    dsimp only at h
    cases h1 : f 1 with
    | true =>
      rw [h1] at h
      simp only [Option.some.injEq] at h
      rw [F1 h.symm]
      exact h0
    | false =>
      rw [h1] at h
      dsimp only at h
      cases h2 : f 2 with
      | true =>
        rw [h2] at h
        simp only [Option.some.injEq] at h
        rcases F2 h.symm with e | e <;> rw [e] <;> assumption
      | false =>
        rw [h2] at h
        dsimp only at h
        cases h3 : f 3 with
        | true =>
          rw [h3] at h
          simp only [Option.some.injEq] at h
          rcases F3 h.symm with e | e | e <;> rw [e] <;> assumption
        | false =>
          rw [h3] at h
          cases h

theorem process_table_find_none (t : Tabela) (pid : Int)
    (h : process_table_find t pid = none) : ∀ j q, t j = some q → q.pid ≠ pid := by
  unfold process_table_find at h
  rw [List.find?_eq_none] at h
  intro j q hq hpid
  have := h j (todos_em_indices j)
  simp [hq, hpid] at this

theorem process_table_find_some (t : Tabela) (pid : Int) (k : Fin MAX_PROCESSES)
    (h : process_table_find t pid = some k) :
    (∃ q, t k = some q ∧ q.pid = pid) ∧ ∀ j q, j < k → t j = some q → q.pid ≠ pid := by
  obtain ⟨hk, hfirst⟩ := find_indices _ k h
  constructor
  · cases htk : t k with
    | none => simp [htk] at hk
    | some q => exact ⟨q, rfl, by simpa [htk] using hk⟩
  · intro j q hjk hq hpid
    have := hfirst j hjk
    simp [hq, hpid] at this

/-- Claim C9: KILL_PROC with argument `x` in the caller's register `x`.  If `x = 0`
the caller becomes TERMINATED.  If `x ≠ 0` and some descriptor has pid `x`, the
first such descriptor becomes TERMINATED and register `a` of the caller becomes
0, the caller keeping its state unless it is that descriptor.  If `x ≠ 0` and no
descriptor has pid `x`, the caller becomes TERMINATED.  Nothing else changes. -/
theorem mata_proc_efeito {W : Type} (s : so_t W) (k : Fin MAX_PROCESSES) (proc : Process)
    (hk : corrente s = some (k, proc)) :
    ∃ s2, so_chamada_mata_proc s = some s2 ∧
      (proc.context.x = 0 →
        s2.process_table =
          Function.update s.process_table k (some { proc with state := .TERMINATED })) ∧
      (proc.context.x ≠ 0 → (∃ j q, s.process_table j = some q ∧ q.pid = proc.context.x) →
        ∃ t q, s.process_table t = some q ∧ q.pid = proc.context.x ∧
          (∀ j r, j < t → s.process_table j = some r → r.pid ≠ proc.context.x) ∧
          (t ≠ k → s2.process_table t = some { q with state := .TERMINATED } ∧
            s2.process_table k = some { proc with context := { proc.context with a := 0 } }) ∧
          (t = k → s2.process_table k =
            some { proc with state := .TERMINATED, context := { proc.context with a := 0 } }) ∧
          (∀ j, j ≠ t → j ≠ k → s2.process_table j = s.process_table j)) ∧
      (proc.context.x ≠ 0 → (∀ j q, s.process_table j = some q → q.pid ≠ proc.context.x) →
        s2.process_table =
          Function.update s.process_table k (some { proc with state := .TERMINATED })) := by
  have hkp := (corrente_some hk).2
  have hterm : altera s.process_table k termina =
      Function.update s.process_table k (some { proc with state := .TERMINATED }) := by
    unfold altera
    rw [hkp]
    rfl
  unfold so_chamada_mata_proc
  rw [hk]
  dsimp only
  by_cases hx : proc.context.x = 0
  · rw [if_pos hx]
    exact ⟨_, rfl, fun _ => hterm, fun h => absurd hx h, fun h => absurd hx h⟩
  · rw [if_neg hx]
    cases hfind : process_table_find s.process_table proc.context.x with
    | none =>
      have hno := process_table_find_none _ _ hfind
      refine ⟨_, rfl, fun h => absurd h hx, ?_, fun _ _ => hterm⟩
      rintro _ ⟨j, q, hq, hpid⟩
      exact absurd hpid (hno j q hq)
    | some t =>
      obtain ⟨⟨q, hq, hpid⟩, hfirst⟩ := process_table_find_some _ _ _ hfind
      refine ⟨_, rfl, fun h => absurd h hx, ?_, ?_⟩
      · intro _ _
        refine ⟨t, q, hq, hpid, hfirst, ?_, ?_, ?_⟩
        · intro htk
          constructor
          · show altera (altera s.process_table t termina) k _ t = _
            rw [altera_apply, if_neg htk, altera_apply, if_pos rfl, hq]
            rfl
          · show altera (altera s.process_table t termina) k _ k = _
            rw [altera_apply, if_pos rfl, altera_apply, if_neg (Ne.symm htk), hkp]
            rfl
        · intro htk
          subst htk
          rw [hkp] at hq
          cases hq
          show altera (altera s.process_table t termina) t _ t = _
          rw [altera_apply, if_pos rfl, altera_apply, if_pos rfl, hkp]
          rfl
        · intro j hjt hjk
          show altera (altera s.process_table t termina) k _ j = _
          rw [altera_apply, if_neg hjk, altera_apply, if_neg hjt]
      · intro _ hno
        exact absurd hpid (hno t q hq)

/-- Witness for C9: the caller of slot 0 kills pid 1, which sits in slot 2. -/
theorem mata_proc_efeito_alvo :
    (∃ s2, so_chamada_mata_proc so_alvo = some s2 ∧
      (chamador_um.context.x = 0 →
        s2.process_table =
          Function.update so_alvo.process_table 0
            (some { chamador_um with state := .TERMINATED })) ∧
      (chamador_um.context.x ≠ 0 →
        (∃ j q, so_alvo.process_table j = some q ∧ q.pid = chamador_um.context.x) →
        ∃ t q, so_alvo.process_table t = some q ∧ q.pid = chamador_um.context.x ∧
          (∀ j r, j < t → so_alvo.process_table j = some r → r.pid ≠ chamador_um.context.x) ∧
          (t ≠ 0 → s2.process_table t = some { q with state := .TERMINATED } ∧
            s2.process_table 0 =
              some { chamador_um with context := { chamador_um.context with a := 0 } }) ∧
          (t = 0 → s2.process_table 0 =
            some { chamador_um with
              state := .TERMINATED, context := { chamador_um.context with a := 0 } }) ∧
          (∀ j, j ≠ t → j ≠ 0 → s2.process_table j = so_alvo.process_table j)) ∧
      (chamador_um.context.x ≠ 0 →
        (∀ j q, so_alvo.process_table j = some q → q.pid ≠ chamador_um.context.x) →
        s2.process_table =
          Function.update so_alvo.process_table 0
            (some { chamador_um with state := .TERMINATED }))) ∧
    (so_chamada_mata_proc so_alvo).map
      (fun s => ((s.process_table 0).map (fun p => (p.state, p.context.a)),
        (s.process_table 2).map (fun p => (p.pid, p.state))))
      = some (some (.RUNNING, 0), some (1, .TERMINATED)) :=
  ⟨mata_proc_efeito so_alvo 0 chamador_um (by decide), by decide⟩

/-- Claim C10: WAIT_PROC with target pid `x`.  If a descriptor with pid `x` exists
and `x` is not the caller's pid, the caller becomes BLOCKED with blocking
`{PROCESS, x}` (the JOIN kind) and its register `a` becomes 0; in every other case
the caller becomes TERMINATED.  No other slot changes. -/
theorem espera_proc_efeito {W : Type} (s : so_t W) (k : Fin MAX_PROCESSES) (proc : Process)
    (hk : corrente s = some (k, proc)) :
    ∃ s2, so_chamada_espera_proc s = some s2 ∧
      ((∃ j q, s.process_table j = some q ∧ q.pid = proc.context.x) ∧
          proc.context.x ≠ proc.pid →
        s2.process_table = Function.update s.process_table k
          (some { proc with
            state := .BLOCKING
            blocking := { kind := .PROCESS, id := proc.context.x }
            context := { proc.context with a := 0 } })) ∧
      (¬ ((∃ j q, s.process_table j = some q ∧ q.pid = proc.context.x) ∧
          proc.context.x ≠ proc.pid) →
        s2.process_table =
          Function.update s.process_table k (some { proc with state := .TERMINATED })) := by
  unfold so_chamada_espera_proc
  rw [hk]
  dsimp only
  cases hfind : process_table_find s.process_table proc.context.x with
  | none =>
    have hno := process_table_find_none _ _ hfind
    simp only [Option.bind]
    refine ⟨_, rfl, ?_, fun _ => rfl⟩
    rintro ⟨⟨j, q, hq, hpid⟩, _⟩
    exact absurd hpid (hno j q hq)
  | some t =>
    obtain ⟨⟨q, hq, hpid⟩, _⟩ := process_table_find_some _ _ _ hfind
    simp only [Option.bind, hq]
    by_cases hself : q.pid ≠ proc.pid
    · rw [if_pos hself]
      refine ⟨_, rfl, ?_, ?_⟩
      · intro _
        rw [hpid]
      · intro hneg
        exfalso
        apply hneg
        exact ⟨⟨t, q, hq, hpid⟩, by rw [← hpid]; exact hself⟩
    · rw [if_neg hself]
      refine ⟨_, rfl, ?_, fun _ => rfl⟩
      rintro ⟨_, hne⟩
      exfalso
      apply hself
      rw [hpid]
      exact hne

/-- Witness for C10: the caller of slot 0 waits for pid 1, which sits in slot 2. -/
theorem espera_proc_efeito_alvo :
    (∃ s2, so_chamada_espera_proc so_alvo = some s2 ∧
      ((∃ j q, so_alvo.process_table j = some q ∧ q.pid = chamador_um.context.x) ∧
          chamador_um.context.x ≠ chamador_um.pid →
        s2.process_table = Function.update so_alvo.process_table 0
          (some { chamador_um with
            state := .BLOCKING
            blocking := { kind := .PROCESS, id := chamador_um.context.x }
            context := { chamador_um.context with a := 0 } })) ∧
      (¬ ((∃ j q, so_alvo.process_table j = some q ∧ q.pid = chamador_um.context.x) ∧
          chamador_um.context.x ≠ chamador_um.pid) →
        s2.process_table =
          Function.update so_alvo.process_table 0
            (some { chamador_um with state := .TERMINATED }))) ∧
    (so_chamada_espera_proc so_alvo).map
      (fun s => ((s.process_table 0).map (fun p => (p.state, p.blocking, p.context.a)),
        s.process_table 2))
      = some (some (.BLOCKING, { kind := .PROCESS, id := 1 }, 0),
          some (processo_de 1 .READY 2)) :=
  ⟨espera_proc_efeito so_alvo 0 chamador_um (by decide), by decide⟩

/-! ## READ and WRITE -/

/-- Claim C11: READ on the current process with input device `d = in_dev`.  If the
read of status register `d + 1` fails, the process becomes TERMINATED; if it
succeeds and reads zero, the process becomes BLOCKED with blocking
`{INPUT, d + 1}` and its registers are unchanged; if it reads non-zero and the
read of data register `d` succeeds, register `a` holds the data word and the
state is unchanged.  No other slot changes. -/
theorem chamada_le_efeito {W : Type} (hw : Hw W) (s : so_t W) (k : Fin MAX_PROCESSES)
    (proc : Process) (hk : corrente s = some (k, proc)) :
    ∃ s2, so_chamada_le hw s = some s2 ∧
      ((hw.es_le s.mundo (proc.in_dev + 1)).1.ok = false →
        s2.process_table =
          Function.update s.process_table k (some { proc with state := .TERMINATED })) ∧
      ((hw.es_le s.mundo (proc.in_dev + 1)).1.ok = true →
        (hw.es_le s.mundo (proc.in_dev + 1)).1.valor = 0 →
        s2.process_table = Function.update s.process_table k
          (some { proc with
            state := .BLOCKING
            blocking := { kind := .INPUT, id := proc.in_dev + 1 } })) ∧
      ((hw.es_le s.mundo (proc.in_dev + 1)).1.ok = true →
        (hw.es_le s.mundo (proc.in_dev + 1)).1.valor ≠ 0 →
        (hw.es_le (hw.es_le s.mundo (proc.in_dev + 1)).2 proc.in_dev).1.ok = true →
        s2.process_table = Function.update s.process_table k
          (some { proc with
            context := { proc.context with
              a := (hw.es_le (hw.es_le s.mundo (proc.in_dev + 1)).2 proc.in_dev).1.valor } })) := by
  unfold so_chamada_le
  rw [hk]
  dsimp only
  by_cases h1 : (hw.es_le s.mundo (proc.in_dev + 1)).1.ok = false
  · rw [if_pos h1]
    refine ⟨_, rfl, fun _ => rfl, ?_, ?_⟩
    · intro h; rw [h1] at h; cases h
    · intro h; rw [h1] at h; cases h
  · rw [if_neg h1]
    by_cases h2 : (hw.es_le s.mundo (proc.in_dev + 1)).1.valor = 0
    · rw [if_pos h2]
      exact ⟨_, rfl, fun h => absurd h h1, fun _ _ => rfl, fun _ h => absurd h2 h⟩
    · rw [if_neg h2]
      refine ⟨_, rfl, fun h => absurd h h1, fun _ h => absurd h h2, ?_⟩
      intro _ _ h3
      show Function.update s.process_table k (some (process_receive_input hw _ proc).1) = _
      unfold process_receive_input
      dsimp only
      rw [if_pos h3]

/-- Witness for C11: the process of slot 0 reads terminal A, whose keyboard status
register 1 reads zero; it becomes BLOCKED on `{INPUT, 1}`. -/
theorem chamada_le_efeito_dois :
    (∃ s2, so_chamada_le hwT (so_dois 2) = some s2 ∧
      ((hwT.es_le (so_dois 2).mundo ((processo_de 0 .RUNNING 0).in_dev + 1)).1.ok = false →
        s2.process_table =
          Function.update (so_dois 2).process_table 0
            (some { processo_de 0 .RUNNING 0 with state := .TERMINATED })) ∧
      ((hwT.es_le (so_dois 2).mundo ((processo_de 0 .RUNNING 0).in_dev + 1)).1.ok = true →
        (hwT.es_le (so_dois 2).mundo ((processo_de 0 .RUNNING 0).in_dev + 1)).1.valor = 0 →
        s2.process_table = Function.update (so_dois 2).process_table 0
          (some { processo_de 0 .RUNNING 0 with
            state := .BLOCKING
            blocking := { kind := .INPUT, id := (processo_de 0 .RUNNING 0).in_dev + 1 } })) ∧
      ((hwT.es_le (so_dois 2).mundo ((processo_de 0 .RUNNING 0).in_dev + 1)).1.ok = true →
        (hwT.es_le (so_dois 2).mundo ((processo_de 0 .RUNNING 0).in_dev + 1)).1.valor ≠ 0 →
        (hwT.es_le (hwT.es_le (so_dois 2).mundo ((processo_de 0 .RUNNING 0).in_dev + 1)).2
          (processo_de 0 .RUNNING 0).in_dev).1.ok = true →
        s2.process_table = Function.update (so_dois 2).process_table 0
          (some { processo_de 0 .RUNNING 0 with
            context := { (processo_de 0 .RUNNING 0).context with
              a := (hwT.es_le
                (hwT.es_le (so_dois 2).mundo ((processo_de 0 .RUNNING 0).in_dev + 1)).2
                (processo_de 0 .RUNNING 0).in_dev).1.valor } }))) ∧
    (so_chamada_le hwT (so_dois 2)).map
      (fun s => (s.process_table 0).map (fun p => (p.state, p.blocking, p.context)))
      = some (some (.BLOCKING, { kind := .INPUT, id := 1 }, { pc := 0, a := 0, x := 0, err := 0 })) :=
  ⟨chamada_le_efeito hwT (so_dois 2) 0 (processo_de 0 .RUNNING 0) (by decide), by decide⟩

/-- Claim C12: WRITE on the current process with output device `d = out`.  If the
read of status register `d + 1` fails, the process becomes TERMINATED; if it
reads zero, the process becomes BLOCKED with blocking `{OUTPUT, d + 1}` and its
registers, `x` among them, are unchanged; if it reads non-zero, register `x` is
written to device register `d` and, when that write succeeds, register `a`
becomes 0 and the state is unchanged.  No other slot changes. -/
theorem chamada_escr_efeito {W : Type} (hw : Hw W) (s : so_t W) (k : Fin MAX_PROCESSES)
    (proc : Process) (hk : corrente s = some (k, proc)) :
    ∃ s2, so_chamada_escr hw s = some s2 ∧
      ((hw.es_le s.mundo (proc.out + 1)).1.ok = false →
        s2.process_table =
          Function.update s.process_table k (some { proc with state := .TERMINATED })) ∧
      ((hw.es_le s.mundo (proc.out + 1)).1.ok = true →
        (hw.es_le s.mundo (proc.out + 1)).1.valor = 0 →
        s2.process_table = Function.update s.process_table k
          (some { proc with
            state := .BLOCKING
            blocking := { kind := .OUTPUT, id := proc.out + 1 } })) ∧
      ((hw.es_le s.mundo (proc.out + 1)).1.ok = true →
        (hw.es_le s.mundo (proc.out + 1)).1.valor ≠ 0 →
        s2.mundo =
          (hw.es_escreve (hw.es_le s.mundo (proc.out + 1)).2 proc.out proc.context.x).2 ∧
        ((hw.es_escreve (hw.es_le s.mundo (proc.out + 1)).2 proc.out proc.context.x).1 = true →
          s2.process_table = Function.update s.process_table k
            (some { proc with context := { proc.context with a := 0 } }))) := by
  unfold so_chamada_escr
  rw [hk]
  dsimp only
  by_cases h1 : (hw.es_le s.mundo (proc.out + 1)).1.ok = false
  · rw [if_pos h1]
    refine ⟨_, rfl, fun _ => rfl, ?_, ?_⟩
    · intro h; rw [h1] at h; cases h
    · intro h; rw [h1] at h; cases h
  · rw [if_neg h1]
    by_cases h2 : (hw.es_le s.mundo (proc.out + 1)).1.valor = 0
    · rw [if_pos h2]
      exact ⟨_, rfl, fun h => absurd h h1, fun _ _ => rfl, fun _ h => absurd h2 h⟩
    · rw [if_neg h2]
      refine ⟨_, rfl, fun h => absurd h h1, fun _ h => absurd h h2, ?_⟩
      intro _ _
      constructor
      · show (process_send_output hw _ proc).2 = _
        unfold process_send_output
        dsimp only
        split <;> rfl
      · intro h3
        show Function.update s.process_table k (some (process_send_output hw _ proc).1) = _
        unfold process_send_output
        dsimp only
        rw [if_pos h3]

/-- Witness for C12: the process of slot 0 writes its register `x = 1` to terminal A,
whose screen is ready; register 2 receives 1 and register `a` becomes 0. -/
theorem chamada_escr_efeito_tela :
    ∃ s2, so_chamada_escr hwT so_escreve = some s2 ∧
      s2.mundo.es 2 = 1 ∧
      s2.process_table = Function.update so_escreve.process_table 0
        (some { chamador_um with context := { chamador_um.context with a := 0 } }) := by
  obtain ⟨s2, h, _, _, h3⟩ := chamada_escr_efeito hwT so_escreve 0 chamador_um (by decide)
  obtain ⟨hm, ht⟩ := h3 (by decide) (by decide)
  refine ⟨s2, h, ?_, ht (by decide)⟩
  rw [hm]
  decide

/-! ## The loops of `so_trata_pendencias`, slot by slot -/

theorem indices_decompoe (i : Fin MAX_PROCESSES) :
    indices = indices.take i ++ i :: indices.drop (i + 1) ∧
    i ∉ indices.take i ∧ i ∉ indices.drop (i + 1) := by
  revert i; decide

theorem foldl_fora {W : Type} (f : so_t W → Fin MAX_PROCESSES → so_t W)
    (hf : ∀ s k i, i ≠ k → (f s k).process_table i = s.process_table i)
    (i : Fin MAX_PROCESSES) (l : List (Fin MAX_PROCESSES)) (hi : i ∉ l) (s : so_t W) :
    (l.foldl f s).process_table i = s.process_table i := by
  induction l generalizing s with
  | nil => rfl
  | cons a l ih =>
    have hia : i ≠ a := fun h => hi (h ▸ List.mem_cons_self _ _)
    have hil : i ∉ l := fun h => hi (List.mem_cons_of_mem _ h)
    rw [List.foldl, ih hil, hf s a i hia]

/-- A loop over the slots whose body only writes the slot it handles: the final
content of slot `i` is the one its own iteration leaves, and that iteration finds
the slot as it was before the loop. -/
theorem foldl_slot {W : Type} (f : so_t W → Fin MAX_PROCESSES → so_t W)
    (hf : ∀ s k i, i ≠ k → (f s k).process_table i = s.process_table i)
    (i : Fin MAX_PROCESSES) (s : so_t W) :
    (indices.foldl f s).process_table i
      = (f ((indices.take i).foldl f s) i).process_table i ∧
    ((indices.take i).foldl f s).process_table i = s.process_table i := by
  obtain ⟨hd, h1, h2⟩ := indices_decompoe i
  constructor
  · conv_lhs => rw [hd]
    rw [List.foldl_append, List.foldl, foldl_fora f hf i _ h2]
  · exact foldl_fora f hf i _ h1 s

theorem pendencias_acorda_outro {W : Type} (hw : Hw W) (s : so_t W) (k i : Fin MAX_PROCESSES)
    (hik : i ≠ k) : (pendencias_acorda hw s k).process_table i = s.process_table i := by
  unfold pendencias_acorda
  split
  · rfl
  · split
    · rfl
    · split
      · dsimp only
        split
        · exact Function.update_noteq hik _ _
        · rfl
      · dsimp only
        split
        · exact Function.update_noteq hik _ _
        · rfl
      · split
        · rfl
        · split
          · rfl
          · split
            · exact Function.update_noteq hik _ _
            · rfl
      · rfl

theorem pendencias_destroi_outro {W : Type} (s : so_t W) (k i : Fin MAX_PROCESSES)
    (hik : i ≠ k) : (pendencias_destroi s k).process_table i = s.process_table i := by
  unfold pendencias_destroi
  split
  · rfl
  · split
    · exact Function.update_noteq hik _ _
    · rfl

theorem passo_A_slot {W : Type} (hw : Hw W) (s : so_t W) (i : Fin MAX_PROCESSES) :
    (passo_A hw s).process_table i
      = (pendencias_acorda hw (passo_A_antes hw s i) i).process_table i ∧
    (passo_A_antes hw s i).process_table i = s.process_table i :=
  foldl_slot (pendencias_acorda hw) (pendencias_acorda_outro hw) i s

theorem pendencias_destroi_mesmo {W : Type} (s : so_t W) (i : Fin MAX_PROCESSES) :
    (pendencias_destroi s i).process_table i =
      match s.process_table i with
      | some proc => if proc.state = .TERMINATED then none else some proc
      | none => none := by
  unfold pendencias_destroi
  cases h : s.process_table i with
  | none => exact h
  | some proc =>
    dsimp only
    split
    · exact Function.update_same _ _ _
    · exact h

/-- The second loop of `so_trata_pendencias` empties exactly the slots whose
descriptor is TERMINATED when the first loop ends. -/
theorem so_trata_pendencias_slot {W : Type} (hw : Hw W) (s : so_t W) (i : Fin MAX_PROCESSES) :
    (so_trata_pendencias hw s).process_table i =
      match (passo_A hw s).process_table i with
      | some proc => if proc.state = .TERMINATED then none else some proc
      | none => none := by
  obtain ⟨h1, h2⟩ := foldl_slot pendencias_destroi pendencias_destroi_outro i (passo_A hw s)
  show (indices.foldl pendencias_destroi (passo_A hw s)).process_table i = _
  rw [h1, pendencias_destroi_mesmo, h2]

/-- Claim C16: for every kernel state, when `so_trata_pendencias` has returned no
slot of the process table holds a TERMINATED descriptor: a descriptor that is
TERMINATED at the end of Pass A has had its slot emptied, and every other slot
is as Pass A left it, so no descriptor that is not TERMINATED has been removed. -/
theorem sem_terminados {W : Type} (hw : Hw W) (s : so_t W) (i : Fin MAX_PROCESSES) :
    (match (so_trata_pendencias hw s).process_table i with
      | some proc => decide (proc.state = .TERMINATED)
      | none => false) = false ∧
    (so_trata_pendencias hw s).process_table i =
      match (passo_A hw s).process_table i with
      | some proc => if proc.state = .TERMINATED then none else some proc
      | none => none := by
  have h := so_trata_pendencias_slot hw s i
  refine ⟨?_, h⟩
  rw [h]
  cases (passo_A hw s).process_table i with
  | none => rfl
  | some proc =>
    dsimp only
    by_cases ht : proc.state = .TERMINATED
    · rw [if_pos ht]
    · rw [if_neg ht]
      simpa using ht

/-! ## Pass A: processes blocked on a device -/

theorem destino_zero (r : Leitura) : r.destino 0 ≠ 0 ↔ r.ok = true ∧ r.valor ≠ 0 := by
  unfold Leitura.destino
  by_cases h : r.ok = true
  · simp [h]
  · simp [h]

theorem pendencias_acorda_input {W : Type} (hw : Hw W) (s : so_t W) (i : Fin MAX_PROCESSES)
    (proc : Process) (hp : s.process_table i = some proc) (hb : proc.state = .BLOCKING)
    (hk : proc.blocking.kind = .INPUT) :
    pendencias_acorda hw s i =
      if (hw.es_le s.mundo proc.blocking.id).1.destino 0 ≠ 0 then
        { s with
          mundo := (process_receive_input hw (hw.es_le s.mundo proc.blocking.id).2 proc).2
          process_table := Function.update s.process_table i
            (some (acorda
              (process_receive_input hw (hw.es_le s.mundo proc.blocking.id).2 proc).1)) }
      else { s with mundo := (hw.es_le s.mundo proc.blocking.id).2 } := by
  unfold pendencias_acorda
  rw [hp]
  dsimp only
  rw [if_neg (by simp [hb]), hk]

theorem pendencias_acorda_output {W : Type} (hw : Hw W) (s : so_t W) (i : Fin MAX_PROCESSES)
    (proc : Process) (hp : s.process_table i = some proc) (hb : proc.state = .BLOCKING)
    (hk : proc.blocking.kind = .OUTPUT) :
    pendencias_acorda hw s i =
      if (hw.es_le s.mundo proc.blocking.id).1.destino 0 ≠ 0 then
        { s with
          mundo := (process_send_output hw (hw.es_le s.mundo proc.blocking.id).2 proc).2
          process_table := Function.update s.process_table i
            (some (acorda
              (process_send_output hw (hw.es_le s.mundo proc.blocking.id).2 proc).1)) }
      else { s with mundo := (hw.es_le s.mundo proc.blocking.id).2 } := by
  unfold pendencias_acorda
  rw [hp]
  dsimp only
  rw [if_neg (by simp [hb]), hk]

/-- Claim C14: in Pass A of `so_trata_pendencias`, a process BLOCKED on INPUT (resp.
OUTPUT) with id `r` is woken exactly when status register `r`, read on the
machine as it is when the loop reaches the slot, reads non-zero.  Then its state
is READY and its blocking kind NOT_BLOCKING, and if the device transfer succeeds
register `a` holds the word read from `in_dev` (resp. register `x` is written to
`out` and `a` is 0).  When the status does not read non-zero the descriptor is
unchanged and the iteration has only read the status register. -/
theorem acorda_dispositivo {W : Type} (hw : Hw W) (s : so_t W) (i : Fin MAX_PROCESSES)
    (proc : Process) (hp : s.process_table i = some proc) (hb : proc.state = .BLOCKING) :
    (proc.blocking.kind = .INPUT →
      (((hw.es_le (passo_A_antes hw s i).mundo proc.blocking.id).1.ok = true ∧
          (hw.es_le (passo_A_antes hw s i).mundo proc.blocking.id).1.valor ≠ 0) →
        (∃ p, (passo_A hw s).process_table i = some p ∧ p.state = .READY ∧
          p.blocking.kind = .NOT_BLOCKING) ∧
        ((hw.es_le (hw.es_le (passo_A_antes hw s i).mundo proc.blocking.id).2
            proc.in_dev).1.ok = true →
          (passo_A hw s).process_table i = some
            { proc with
              state := .READY
              blocking := { proc.blocking with kind := .NOT_BLOCKING }
              context := { proc.context with
                a := (hw.es_le (hw.es_le (passo_A_antes hw s i).mundo proc.blocking.id).2
                  proc.in_dev).1.valor } })) ∧
      (¬ ((hw.es_le (passo_A_antes hw s i).mundo proc.blocking.id).1.ok = true ∧
          (hw.es_le (passo_A_antes hw s i).mundo proc.blocking.id).1.valor ≠ 0) →
        (passo_A hw s).process_table i = some proc ∧
        (pendencias_acorda hw (passo_A_antes hw s i) i).mundo
          = (hw.es_le (passo_A_antes hw s i).mundo proc.blocking.id).2)) ∧
    (proc.blocking.kind = .OUTPUT →
      (((hw.es_le (passo_A_antes hw s i).mundo proc.blocking.id).1.ok = true ∧
          (hw.es_le (passo_A_antes hw s i).mundo proc.blocking.id).1.valor ≠ 0) →
        (∃ p, (passo_A hw s).process_table i = some p ∧ p.state = .READY ∧
          p.blocking.kind = .NOT_BLOCKING) ∧
        (pendencias_acorda hw (passo_A_antes hw s i) i).mundo
          = (hw.es_escreve (hw.es_le (passo_A_antes hw s i).mundo proc.blocking.id).2
              proc.out proc.context.x).2 ∧
        ((hw.es_escreve (hw.es_le (passo_A_antes hw s i).mundo proc.blocking.id).2
            proc.out proc.context.x).1 = true →
          (passo_A hw s).process_table i = some
            { proc with
              state := .READY
              blocking := { proc.blocking with kind := .NOT_BLOCKING }
              context := { proc.context with a := 0 } })) ∧
      (¬ ((hw.es_le (passo_A_antes hw s i).mundo proc.blocking.id).1.ok = true ∧
          (hw.es_le (passo_A_antes hw s i).mundo proc.blocking.id).1.valor ≠ 0) →
        (passo_A hw s).process_table i = some proc ∧
        (pendencias_acorda hw (passo_A_antes hw s i) i).mundo
          = (hw.es_le (passo_A_antes hw s i).mundo proc.blocking.id).2)) := by
  obtain ⟨h1, h2⟩ := passo_A_slot hw s i
  have hp2 := h2.trans hp
  constructor
  · intro hk
    have he := pendencias_acorda_input hw _ i proc hp2 hb hk
    constructor
    · intro hnz
      have hd := (destino_zero _).2 hnz
      rw [if_pos hd] at he
      rw [h1, he]
      constructor
      · exact ⟨_, Function.update_same _ _ _, rfl, rfl⟩
      · intro hok
        show Function.update _ i _ i = _
        rw [Function.update_same]
        unfold process_receive_input
        dsimp only
        rw [if_pos hok]
        rfl
    · intro hz
      have hd : ¬ (hw.es_le (passo_A_antes hw s i).mundo proc.blocking.id).1.destino 0 ≠ 0 :=
        fun h => hz ((destino_zero _).1 h)
      rw [if_neg hd] at he
      rw [h1, he]
      exact ⟨hp2, rfl⟩
  · intro hk
    have he := pendencias_acorda_output hw _ i proc hp2 hb hk
    constructor
    · intro hnz
      have hd := (destino_zero _).2 hnz
      rw [if_pos hd] at he
      rw [h1, he]
      refine ⟨⟨_, Function.update_same _ _ _, rfl, rfl⟩, ?_, ?_⟩
      · show (process_send_output hw _ proc).2 = _
        unfold process_send_output
        dsimp only
        split <;> rfl
      · intro hok
        show Function.update _ i _ i = _
        rw [Function.update_same]
        unfold process_send_output
        dsimp only
        rw [if_pos hok]
        rfl
    · intro hz
      have hd : ¬ (hw.es_le (passo_A_antes hw s i).mundo proc.blocking.id).1.destino 0 ≠ 0 :=
        fun h => hz ((destino_zero _).1 h)
      rw [if_neg hd] at he
      rw [h1, he]
      exact ⟨hp2, rfl⟩

/-- Witness for C14: in `so_tres` the process of slot 1 waits for the keyboard of
terminal B, whose status register 5 reads 1 and whose data register 4 reads 65;
Pass A leaves it READY with `a = 65`. -/
theorem acorda_dispositivo_tecla :
    (passo_A hwT so_tres).process_table 1 = some
      { processo_de 1 .READY 1 with
        blocking := { kind := .NOT_BLOCKING, id := 5 }
        context := { pc := 0, a := 65, x := 0, err := 0 } } := by
  have h := (acorda_dispositivo hwT so_tres 1
    { processo_de 1 .BLOCKING 1 with blocking := { kind := .INPUT, id := 5 } }
    (by decide) (by decide)).1 (by decide)
  have h2 := (h.1 (by decide)).2 (by decide)
  rw [h2]
  decide

/-! ## Pass A: a failed device transfer -/

/-- Claim C15, what the code does instead: in Pass A of `so_trata_pendencias`, when a
process BLOCKED on INPUT or OUTPUT has its status register read non-zero and the
data-register read (or write) itself fails, the state TERMINATED stored by
`process_receive_input` (or `process_send_output`) is overwritten: the process ends
Pass A READY and not blocked, its registers unchanged, and Pass B of the same
call does not reap it. -/
theorem transferencia_falha_acorda {W : Type} (hw : Hw W) (s : so_t W)
    (i : Fin MAX_PROCESSES) (proc : Process) (hp : s.process_table i = some proc)
    (hb : proc.state = .BLOCKING)
    (hnz : (hw.es_le (passo_A_antes hw s i).mundo proc.blocking.id).1.ok = true ∧
      (hw.es_le (passo_A_antes hw s i).mundo proc.blocking.id).1.valor ≠ 0)
    (hfalha : (proc.blocking.kind = .INPUT ∧
        (hw.es_le (hw.es_le (passo_A_antes hw s i).mundo proc.blocking.id).2
          proc.in_dev).1.ok = false) ∨
      (proc.blocking.kind = .OUTPUT ∧
        (hw.es_escreve (hw.es_le (passo_A_antes hw s i).mundo proc.blocking.id).2
          proc.out proc.context.x).1 = false)) :
    (passo_A hw s).process_table i = some
      { proc with state := .READY, blocking := { proc.blocking with kind := .NOT_BLOCKING } } ∧
    (so_trata_pendencias hw s).process_table i = some
      { proc with state := .READY, blocking := { proc.blocking with kind := .NOT_BLOCKING } } := by
  obtain ⟨h1, h2⟩ := passo_A_slot hw s i
  have hp2 := h2.trans hp
  have hd := (destino_zero _).2 hnz
  have hA : (passo_A hw s).process_table i = some
      { proc with state := .READY, blocking := { proc.blocking with kind := .NOT_BLOCKING } } := by
    rcases hfalha with ⟨hk, hf⟩ | ⟨hk, hf⟩
    · have he := pendencias_acorda_input hw _ i proc hp2 hb hk
      rw [if_pos hd] at he
      rw [h1, he]
      show Function.update _ i _ i = _
      rw [Function.update_same]
      unfold process_receive_input
      dsimp only
      rw [if_neg (by simp [hf])]
      rfl
    · have he := pendencias_acorda_output hw _ i proc hp2 hb hk
      rw [if_pos hd] at he
      rw [h1, he]
      show Function.update _ i _ i = _
      rw [Function.update_same]
      unfold process_send_output
      dsimp only
      rw [if_neg (by simp [hf])]
      rfl
  refine ⟨hA, ?_⟩
  rw [so_trata_pendencias_slot, hA]
  rfl

/-- Witness for C15: on the machine `hwF` the keyboard of terminal B reports a
character (status register 5 reads 1) and the read of its data register 4
fails; the process of slot 1 of `so_tres` ends `so_trata_pendencias` READY. -/
theorem transferencia_falha_acorda_tecla :
    (passo_A hwF so_tres).process_table 1 = some
      { processo_de 1 .READY 1 with blocking := { kind := .NOT_BLOCKING, id := 5 } } ∧
    (so_trata_pendencias hwF so_tres).process_table 1 = some
      { processo_de 1 .READY 1 with blocking := { kind := .NOT_BLOCKING, id := 5 } } :=
  transferencia_falha_acorda hwF so_tres 1
    { processo_de 1 .BLOCKING 1 with blocking := { kind := .INPUT, id := 5 } }
    (by decide) (by decide) ⟨by decide, by decide⟩ (Or.inl ⟨by decide, by decide⟩)

/-! ## Pass A: processes blocked on a JOIN -/

theorem resumo_update (t : Tabela) (k : Fin MAX_PROCESSES) (q : Process)
    (h : resumo (t k) = resumo (some q)) (j : Fin MAX_PROCESSES) :
    resumo (Function.update t k (some q) j) = resumo (t j) := by
  by_cases hjk : j = k
  · subst hjk
    rw [Function.update_same, h]
  · rw [Function.update_noteq hjk]

theorem pendencias_acorda_resumo {W : Type} (hw : Hw W) (s : so_t W)
    (k j : Fin MAX_PROCESSES) :
    resumo ((pendencias_acorda hw s k).process_table j) = resumo (s.process_table j) := by
  unfold pendencias_acorda
  split
  · rfl
  · rename_i proc hp
    split
    · rfl
    · rename_i hb
      have hb2 : proc.state = .BLOCKING := by simpa using hb
      have hacorda : ∀ q : Process, q.pid = proc.pid →
          resumo (s.process_table k) = resumo (some (acorda q)) := by
        intro q hq
        rw [hp]
        simp [resumo, acorda, hq, hb2]
      split
      · dsimp only
        split
        · exact resumo_update _ _ _ (hacorda _ (process_receive_input_pid hw _ proc)) j
        · rfl
      · dsimp only
        split
        · exact resumo_update _ _ _ (hacorda _ (process_send_output_pid hw _ proc)) j
        · rfl
      · split
        · rfl
        · split
          · rfl
          · split
            · exact resumo_update _ _ _ (hacorda _ rfl) j
            · rfl
      · rfl

theorem resumo_foldl {W : Type} (hw : Hw W) (l : List (Fin MAX_PROCESSES)) (s : so_t W)
    (j : Fin MAX_PROCESSES) :
    resumo ((l.foldl (pendencias_acorda hw) s).process_table j) = resumo (s.process_table j) := by
  induction l generalizing s with
  | nil => rfl
  | cons a l ih => rw [List.foldl, ih, pendencias_acorda_resumo]

theorem process_table_find_resumo (t t2 : Tabela) (pid : Int)
    (h : ∀ j, resumo (t2 j) = resumo (t j)) :
    process_table_find t2 pid = process_table_find t pid := by
  unfold process_table_find
  congr 1
  funext i
  have hi := h i
  cases h1 : t i with
  | none =>
    cases h2 : t2 i with
    | none => rfl
    | some q => simp [resumo, h1, h2] at hi
  | some p =>
    cases h2 : t2 i with
    | none => simp [resumo, h1, h2] at hi
    | some q =>
      simp only [resumo, h1, h2, Option.map_some', Option.some.injEq, Prod.mk.injEq] at hi
      simp [hi.1]

theorem alvo_terminado_resumo (t t2 : Tabela) (pid : Int)
    (h : ∀ j, resumo (t2 j) = resumo (t j)) :
    alvo_terminado t2 pid = alvo_terminado t pid := by
  unfold alvo_terminado
  rw [process_table_find_resumo t t2 pid h]
  cases process_table_find t pid with
  | none => rfl
  | some k =>
    have hk := h k
    simp only [Option.bind]
    cases h1 : t k with
    | none =>
      cases h2 : t2 k with
      | none => rfl
      | some q => simp [resumo, h1, h2] at hk
    | some p =>
      cases h2 : t2 k with
      | none => simp [resumo, h1, h2] at hk
      | some q =>
        simp only [resumo, h1, h2, Option.map_some', Option.some.injEq, Prod.mk.injEq] at hk
        exact hk.2

/-- The test of Pass A, in words: the first descriptor with that pid exists and is
TERMINATED. -/
theorem alvo_terminado_iff (t : Tabela) (pid : Int) :
    alvo_terminado t pid = true ↔
      ∃ j q, t j = some q ∧ q.pid = pid ∧
        (∀ j2 r, j2 < j → t j2 = some r → r.pid ≠ pid) ∧ q.state = .TERMINATED := by
  unfold alvo_terminado
  cases hf : process_table_find t pid with
  | none =>
    have hno := process_table_find_none t pid hf
    simp only [Option.bind]
    constructor
    · intro h; cases h
    · rintro ⟨j, q, hq, hpid, _, _⟩
      exact absurd hpid (hno j q hq)
  | some k =>
    obtain ⟨⟨q, hq, hpid⟩, hfirst⟩ := process_table_find_some t pid k hf
    simp only [Option.bind, hq]
    constructor
    · intro h
      exact ⟨k, q, hq, hpid, hfirst, by simpa using h⟩
    · rintro ⟨j, q2, hq2, hpid2, hfirst2, hterm⟩
      have hjk : j = k := by
        rcases lt_trichotomy j k with h | h | h
        · exact absurd hpid2 (hfirst j q2 h hq2)
        · exact h
        · exact absurd hpid (hfirst2 k q h hq)
      subst hjk
      rw [hq] at hq2
      cases hq2
      simpa using hterm

theorem pendencias_acorda_processo {W : Type} (hw : Hw W) (s : so_t W) (i : Fin MAX_PROCESSES)
    (proc : Process) (hp : s.process_table i = some proc) (hb : proc.state = .BLOCKING)
    (hk : proc.blocking.kind = .PROCESS) :
    (pendencias_acorda hw s i).process_table i =
      if alvo_terminado s.process_table proc.blocking.id then some (acorda proc)
      else some proc := by
  unfold pendencias_acorda alvo_terminado
  rw [hp]
  dsimp only
  rw [if_neg (by simp [hb]), hk]
  dsimp only
  cases hf : process_table_find s.process_table proc.blocking.id with
  | none =>
    simp only [Option.bind]
    exact hp
  | some k =>
    simp only [Option.bind]
    rcases Option.eq_none_or_eq_some (s.process_table k) with hq | ⟨q, hq⟩
    · simp only [hq]
      exact hp
    · simp only [hq]
      by_cases ht : q.state = .TERMINATED
      · rw [if_pos ht]
        simp [ht]
      · rw [if_neg ht]
        simp [ht, hp]

/-- What Pass A does to a process blocked on a JOIN, in terms of the table at the
start of the pass. -/
theorem passo_A_processo {W : Type} (hw : Hw W) (s : so_t W) (i : Fin MAX_PROCESSES)
    (proc : Process) (hp : s.process_table i = some proc) (hb : proc.state = .BLOCKING)
    (hk : proc.blocking.kind = .PROCESS) :
    (passo_A hw s).process_table i =
      if alvo_terminado s.process_table proc.blocking.id then some (acorda proc)
      else some proc := by
  obtain ⟨h1, h2⟩ := passo_A_slot hw s i
  have hr : alvo_terminado (passo_A_antes hw s i).process_table proc.blocking.id
      = alvo_terminado s.process_table proc.blocking.id :=
    alvo_terminado_resumo _ _ _ (fun j => resumo_foldl hw (indices.take i) s j)
  rw [h1, pendencias_acorda_processo hw _ i proc (h2.trans hp) hb hk, hr]

/-- Claim C13, amended: in Pass A of `so_trata_pendencias`, a process BLOCKED on JOIN
with id `t` is woken (state READY, blocking kind NOT_BLOCKING, nothing else
changed) if and only if the table holds a descriptor with pid `t`, the first one
in slot order, whose state is TERMINATED; otherwise, and in particular when no
descriptor has pid `t`, it is left as it is. -/
theorem acorda_join {W : Type} (hw : Hw W) (s : so_t W) (i : Fin MAX_PROCESSES)
    (proc : Process) (hp : s.process_table i = some proc) (hb : proc.state = .BLOCKING)
    (hk : proc.blocking.kind = .PROCESS) :
    ((∃ j q, s.process_table j = some q ∧ q.pid = proc.blocking.id ∧
        (∀ j2 r, j2 < j → s.process_table j2 = some r → r.pid ≠ proc.blocking.id) ∧
        q.state = .TERMINATED) →
      (passo_A hw s).process_table i = some
        { proc with
          state := .READY, blocking := { proc.blocking with kind := .NOT_BLOCKING } }) ∧
    (¬ (∃ j q, s.process_table j = some q ∧ q.pid = proc.blocking.id ∧
        (∀ j2 r, j2 < j → s.process_table j2 = some r → r.pid ≠ proc.blocking.id) ∧
        q.state = .TERMINATED) →
      (passo_A hw s).process_table i = some proc) := by
  have h := passo_A_processo hw s i proc hp hb hk
  constructor
  · intro hex
    rw [h, if_pos ((alvo_terminado_iff _ _).2 hex)]
    rfl
  · intro hex
    rw [h, if_neg (fun hh => hex ((alvo_terminado_iff _ _).1 hh))]

theorem so_junta_primeiro (e : Process_State) (w : Maquina) (j2 : Fin MAX_PROCESSES)
    (r : Process) (hlt : j2 < 2) (hr : (so_junta e w).process_table j2 = some r) :
    r.pid ≠ 2 := by
  have F : ∀ j : Fin MAX_PROCESSES, j < 2 → j = 0 ∨ j = 1 := by decide
  rcases F j2 hlt with rfl | rfl
  · have h0 : (so_junta e w).process_table 0 = some (processo_de 0 .RUNNING 0) := rfl
    rw [h0] at hr
    cases hr
    decide
  · have h1 : (so_junta e w).process_table 1 = some
        { processo_de 1 .BLOCKING 1 with blocking := { kind := .PROCESS, id := 2 } } := rfl
    rw [h1] at hr
    cases hr
    decide

/-- Witness for C13: pid 1 in slot 1 waits for pid 2, which is TERMINATED in slot 2. -/
theorem acorda_join_junta :
    (passo_A hwT (so_junta .TERMINATED maquina0)).process_table 1 = some
      { processo_de 1 .READY 1 with blocking := { kind := .NOT_BLOCKING, id := 2 } } :=
  (acorda_join hwT (so_junta .TERMINATED maquina0) 1
    { processo_de 1 .BLOCKING 1 with blocking := { kind := .PROCESS, id := 2 } }
    (by decide) (by decide) (by decide)).1
    ⟨2, processo_de 2 .TERMINATED 2, by decide, by decide,
      so_junta_primeiro .TERMINATED maquina0, by decide⟩

/-- Counterexample to C13 as stated: in `so_orfao` the process of slot 1 is BLOCKED
on a JOIN with pid 7 and no slot holds a descriptor with pid 7; Pass A, and the
whole of `so_trata_pendencias`, leave it BLOCKED. -/
theorem acorda_join_contra :
    so_orfao.process_table 1 = some
      { processo_de 1 .BLOCKING 1 with blocking := { kind := .PROCESS, id := 7 } } ∧
    (∀ j, (so_orfao.process_table j).map (fun p => p.pid) ≠ some 7) ∧
    (passo_A hwT so_orfao).process_table 1 = some
      { processo_de 1 .BLOCKING 1 with blocking := { kind := .PROCESS, id := 7 } } ∧
    (so_trata_pendencias hwT so_orfao).process_table 1 = some
      { processo_de 1 .BLOCKING 1 with blocking := { kind := .PROCESS, id := 7 } } := by
  refine ⟨by decide, by decide, by decide, by decide⟩

/-! ## What the scheduler does to one descriptor -/

theorem escalona_laco_pronto (t : Tabela) (n : Nat) (v : Int)
    (h : (escalona_laco t n v).2 = true) :
    ∃ (k : Fin MAX_PROCESSES) (p : Process),
      (escalona_laco t n v).1 = ((k : Nat) : Int) ∧ t k = some p ∧
      (p.state = .READY ∨ p.state = .RUNNING) := by
  induction n generalizing v with
  | zero => simp [escalona_laco] at h
  | succ n ih =>
    rw [escalona_laco] at h ⊢
    split at h
    · rename_i proc hp
      obtain ⟨k, hk, htk⟩ := entrada_some hp
      split at h
      · rename_i hpr
        rw [if_pos hpr]
        exact ⟨k, proc, hk, htk, (pronto_ou_executando_iff proc).1 hpr⟩
      · rename_i hpr
        rw [if_neg hpr]
        exact ih _ h
    · exact ih _ h

theorem rebaixa_anterior_descritor {W : Type} (s : so_t W) (i : Fin MAX_PROCESSES) :
    rebaixa_anterior s i = s.process_table i ∨
    rebaixa_anterior s i = (s.process_table i).map rebaixa := by
  unfold rebaixa_anterior
  by_cases h : s.current_process ≠ NO_PROCESS_RUNNING
  · rw [if_pos h]
    cases indice s.current_process with
    | none => exact Or.inl rfl
    | some c =>
      show altera s.process_table c rebaixa i = _ ∨ altera s.process_table c rebaixa i = _
      rw [altera_apply]
      by_cases hic : i = c
      · subst hic
        rw [if_pos rfl]
        exact Or.inr rfl
      · rw [if_neg hic]
        exact Or.inl rfl
  · rw [if_neg h]
    exact Or.inl rfl

theorem mesmo_estado (p : Process) : ({ p with state := p.state } : Process) = p := by
  cases p; rfl

/-- The scheduler only rewrites the field `state`, and only from READY or RUNNING to
READY or RUNNING. -/
theorem so_escalona_descritor {W : Type} (s : so_t W) (i : Fin MAX_PROCESSES) (p : Process)
    (hp : s.process_table i = some p) :
    ∃ st, (so_escalona s).process_table i = some { p with state := st } ∧
      (st = p.state ∨
        ((p.state = .READY ∨ p.state = .RUNNING) ∧ (st = .READY ∨ st = .RUNNING))) := by
  have hreb : ∃ st, rebaixa_anterior s i = some { p with state := st } ∧
      (st = p.state ∨ ((p.state = .READY ∨ p.state = .RUNNING) ∧
        (st = .READY ∨ st = .RUNNING))) := by
    rcases rebaixa_anterior_descritor s i with h | h
    · exact ⟨p.state, by rw [h, hp, mesmo_estado], Or.inl rfl⟩
    · rw [hp] at h
      by_cases hr : p.state = .RUNNING
      · refine ⟨.READY, ?_, Or.inr ⟨Or.inr hr, Or.inl rfl⟩⟩
        rw [h]
        simp [rebaixa, hr]
      · refine ⟨p.state, ?_, Or.inl rfl⟩
        rw [h]
        simp [rebaixa, hr, mesmo_estado]
  cases hm : mantem_corrente s with
  | true =>
    rw [so_escalona_de_mantem s hm]
    exact ⟨p.state, by rw [hp, mesmo_estado], Or.inl rfl⟩
  | false =>
    cases hl : (escalona_laco s.process_table MAX_PROCESSES
        ((s.current_process + 1).tmod 4)).2 with
    | false =>
      rw [so_escalona_nada s hm hl]
      exact ⟨p.state, by show s.process_table i = _; rw [hp, mesmo_estado], Or.inl rfl⟩
    | true =>
      obtain ⟨k, q, hk, hq, hst⟩ := escalona_laco_pronto _ _ _ hl
      rw [so_escalona_achou s hm k (Prod.ext hk hl)]
      show ∃ st, altera (rebaixa_anterior s) k executa i = _ ∧ _
      rw [altera_apply]
      by_cases hik : i = k
      · subst hik
        rw [if_pos rfl]
        rw [hp] at hq
        cases hq
        obtain ⟨st, h1, _⟩ := hreb
        refine ⟨.RUNNING, ?_, Or.inr ⟨hst, Or.inr rfl⟩⟩
        rw [h1]
        rfl
      · rw [if_neg hik]
        exact hreb

theorem so_escalona_vazio {W : Type} (s : so_t W) (i : Fin MAX_PROCESSES)
    (hp : s.process_table i = none) : (so_escalona s).process_table i = none := by
  have hreb : rebaixa_anterior s i = none := by
    rcases rebaixa_anterior_descritor s i with h | h
    · rw [h, hp]
    · rw [h, hp]; rfl
  cases hm : mantem_corrente s with
  | true =>
    rw [so_escalona_de_mantem s hm]
    exact hp
  | false =>
    cases hl : (escalona_laco s.process_table MAX_PROCESSES
        ((s.current_process + 1).tmod 4)).2 with
    | false =>
      rw [so_escalona_nada s hm hl]
      exact hp
    | true =>
      obtain ⟨k, q, hk, hq, _⟩ := escalona_laco_pronto _ _ _ hl
      rw [so_escalona_achou s hm k (Prod.ext hk hl)]
      show altera (rebaixa_anterior s) k executa i = none
      rw [altera_apply]
      by_cases hik : i = k
      · subst hik
        rw [hp] at hq
        cases hq
      · rw [if_neg hik]
        exact hreb

/-! ## BLOCKED exactly when a blocking kind is set -/

theorem tabela_quase_update_some (t : Tabela) (k : Fin MAX_PROCESSES) (q : Process)
    (h : tabela_quase t) (hq : quase_coerente q) :
    tabela_quase (Function.update t k (some q)) := by
  intro j p hp
  by_cases hjk : j = k
  · subst hjk
    rw [Function.update_same] at hp
    cases hp
    exact hq
  · rw [Function.update_noteq hjk] at hp
    exact h j p hp

theorem tabela_quase_update_none (t : Tabela) (k : Fin MAX_PROCESSES)
    (h : tabela_quase t) : tabela_quase (Function.update t k none) := by
  intro j p hp
  by_cases hjk : j = k
  · subst hjk
    rw [Function.update_same] at hp
    cases hp
  · rw [Function.update_noteq hjk] at hp
    exact h j p hp

theorem tabela_quase_altera (t : Tabela) (k : Fin MAX_PROCESSES) (f : Process → Process)
    (h : tabela_quase t) (hf : ∀ p, quase_coerente p → quase_coerente (f p)) :
    tabela_quase (altera t k f) := by
  intro j p hp
  rw [altera_apply] at hp
  by_cases hjk : j = k
  · subst hjk
    rw [if_pos rfl] at hp
    cases ht : t j with
    | none => simp [ht] at hp
    | some q =>
      simp only [ht, Option.map_some', Option.some.injEq] at hp
      subst hp
      exact hf q (h j q ht)
  · rw [if_neg hjk] at hp
    exact h j p hp

theorem quase_termina (p : Process) : quase_coerente (termina p) := Or.inl rfl

theorem quase_terminado (p : Process) :
    quase_coerente { p with state := .TERMINATED } := Or.inl rfl

theorem quase_contexto (p : Process) (ctx : Process_Context) (h : quase_coerente p) :
    quase_coerente { p with context := ctx } := h

theorem coerente_acorda (p : Process) : coerente (acorda p) := by
  unfold coerente acorda
  simp

theorem quase_receive_input {W : Type} (hw : Hw W) (w : W) (p : Process)
    (h : quase_coerente p) : quase_coerente (process_receive_input hw w p).1 := by
  unfold process_receive_input
  dsimp only
  split
  · exact h
  · exact Or.inl rfl

theorem quase_send_output {W : Type} (hw : Hw W) (w : W) (p : Process)
    (h : quase_coerente p) : quase_coerente (process_send_output hw w p).1 := by
  unfold process_send_output
  dsimp only
  split
  · exact h
  · exact Or.inl rfl

theorem so_salva_quase {W : Type} (hw : Hw W) (s : so_t W) (h : tabela_quase s.process_table) :
    tabela_quase (so_salva_estado_da_cpu hw s).process_table := by
  unfold so_salva_estado_da_cpu
  split
  · exact h
  · split
    · exact h
    · split
      · exact h
      · rename_i k _ _ proc hk
        exact tabela_quase_update_some _ _ _ h (h k proc hk)

theorem so_trata_irq_reset_quase {W : Type} (hw : Hw W) (s : so_t W) :
    tabela_quase (so_trata_irq_reset hw s).process_table := by
  have hc : (so_carrega_programa hw
      { s with
        process_counter := (process_create s.process_counter hw.D_TERM_A_TECLADO hw.D_TERM_A_TELA).2
        current_process := 0
        process_table := Function.update (fun _ => none) 0
          (some (process_create s.process_counter hw.D_TERM_A_TECLADO hw.D_TERM_A_TELA).1) }
      (some (process_create s.process_counter hw.D_TERM_A_TECLADO hw.D_TERM_A_TELA).1)
      (nome_de "init.maq")).2.process_table
      = Function.update (fun _ => none) 0
          (some (process_create s.process_counter hw.D_TERM_A_TECLADO hw.D_TERM_A_TELA).1) :=
    (so_carrega_programa_campos hw _ _ _).1
  have hnovo : ∀ c a b, coerente (process_create c a b).1 := by
    intro c a b
    unfold coerente process_create
    simp
  have h0 : tabela_quase (Function.update (fun _ => none) (0 : Fin MAX_PROCESSES)
      (some (process_create s.process_counter hw.D_TERM_A_TECLADO hw.D_TERM_A_TELA).1)) :=
    tabela_quase_update_some _ _ _ (fun _ _ h => by cases h) (Or.inr (hnovo _ _ _))
  unfold so_trata_irq_reset
  dsimp only
  split
  · show tabela_quase (so_carrega_programa hw _ _ _).2.process_table
    rw [hc]
    exact h0
  · show tabela_quase (altera (so_carrega_programa hw _ _ _).2.process_table 0 _)
    rw [hc]
    intro j p hp
    rw [altera_apply] at hp
    by_cases hj : j = 0
    · subst hj
      rw [if_pos rfl, Function.update_same] at hp
      cases hp
      right
      unfold coerente process_create
      simp
    · rw [if_neg hj] at hp
      exact h0 j p hp

theorem so_chamada_cria_proc_quase {W : Type} (hw : Hw W) (s s2 : so_t W)
    (h : tabela_quase s.process_table) (h2 : so_chamada_cria_proc hw s = some s2) :
    tabela_quase s2.process_table := by
  unfold so_chamada_cria_proc at h2
  split at h2
  · cases h2
  · rename_i k proc hk
    dsimp only at h2
    have ht : (so_carrega_programa hw
        { s with process_counter := (process_create s.process_counter
          ((procura_entrada s.process_table).tmod 4 * 4)
          ((procura_entrada s.process_table).tmod 4 * 4 + 2)).2 }
        (some (process_create s.process_counter
          ((procura_entrada s.process_table).tmod 4 * 4)
          ((procura_entrada s.process_table).tmod 4 * 4 + 2)).1)
        (nome_copiado (so_copia_str_do_processo hw s.mundo 256 proc.context.x (some proc)).2)).2.process_table
        = s.process_table := (so_carrega_programa_campos hw _ _ _).1
    split at h2
    · cases h2
      exact tabela_quase_altera _ _ _ h (fun _ hq => hq)
    · split at h2
      · cases h2
        exact tabela_quase_altera _ _ _ h (fun _ hq => hq)
      · split at h2
        · cases h2
          show tabela_quase (altera (so_carrega_programa hw _ _ _).2.process_table k _)
          rw [ht]
          exact tabela_quase_altera _ _ _ h (fun _ hq => hq)
        · split at h2
          · cases h2
          · cases h2
            show tabela_quase (altera (Function.update
              (so_carrega_programa hw _ _ _).2.process_table _ _) k _)
            rw [ht]
            refine tabela_quase_altera _ _ _ ?_ (fun _ hq => hq)
            refine tabela_quase_update_some _ _ _ h (Or.inr ?_)
            unfold coerente process_create
            simp

theorem so_trata_irq_chamada_sistema_quase {W : Type} (hw : Hw W) (s s2 : so_t W)
    (h : tabela_quase s.process_table) (h2 : so_trata_irq_chamada_sistema hw s = some s2) :
    tabela_quase s2.process_table := by
  unfold so_trata_irq_chamada_sistema at h2
  split at h2
  · cases h2
  · rename_i k proc hk
    have hv := h k proc (corrente_some hk).2
    dsimp only at h2
    split at h2
    · unfold so_chamada_le at h2
      rw [hk] at h2
      dsimp only at h2
      split at h2
      · cases h2
        exact tabela_quase_update_some _ _ _ h (Or.inl rfl)
      · split at h2
        · cases h2
          refine tabela_quase_update_some _ _ _ h (Or.inr ?_)
          unfold coerente
          simp
        · cases h2
          exact tabela_quase_update_some _ _ _ h (quase_receive_input hw _ proc hv)
    · split at h2
      · unfold so_chamada_escr at h2
        rw [hk] at h2
        dsimp only at h2
        split at h2
        · cases h2
          exact tabela_quase_update_some _ _ _ h (Or.inl rfl)
        · split at h2
          · cases h2
            refine tabela_quase_update_some _ _ _ h (Or.inr ?_)
            unfold coerente
            simp
          · cases h2
            exact tabela_quase_update_some _ _ _ h (quase_send_output hw _ proc hv)
      · split at h2
        · exact so_chamada_cria_proc_quase hw s s2 h h2
        · split at h2
          · unfold so_chamada_mata_proc at h2
            rw [hk] at h2
            dsimp only at h2
            split at h2
            · cases h2
              exact tabela_quase_altera _ _ _ h (fun p _ => quase_termina p)
            · split at h2
              · cases h2
                exact tabela_quase_altera _ _ _
                  (tabela_quase_altera _ _ _ h (fun p _ => quase_termina p)) (fun _ hq => hq)
              · cases h2
                exact tabela_quase_altera _ _ _ h (fun p _ => quase_termina p)
          · split at h2
            · unfold so_chamada_espera_proc at h2
              rw [hk] at h2
              dsimp only at h2
              split at h2
              · split at h2
                · cases h2
                  refine tabela_quase_update_some _ _ _ h (Or.inr ?_)
                  unfold coerente
                  simp
                · cases h2
                  exact tabela_quase_update_some _ _ _ h (quase_termina proc)
              · cases h2
                exact tabela_quase_update_some _ _ _ h (quase_termina proc)
            · cases h2
              exact tabela_quase_update_some _ _ _ h (quase_termina proc)

theorem so_trata_irq_quase {W : Type} (hw : Hw W) (s s2 : so_t W) (irq : Int)
    (h : tabela_quase s.process_table) (h2 : so_trata_irq hw s irq = some s2) :
    tabela_quase s2.process_table := by
  unfold so_trata_irq at h2
  split at h2
  · cases h2
    exact so_trata_irq_reset_quase hw s
  · split at h2
    · exact so_trata_irq_chamada_sistema_quase hw s s2 h h2
    · split at h2
      · unfold so_trata_irq_err_cpu at h2
        split at h2
        · split at h2
          · cases h2
          · rename_i k ps hk
            cases h2
            exact tabela_quase_update_some _ _ _ h (quase_termina ps)
        · cases h2
          exact h
      · split at h2
        · cases h2
          exact h
        · cases h2
          exact h

theorem pendencias_acorda_quase {W : Type} (hw : Hw W) (s : so_t W) (i : Fin MAX_PROCESSES)
    (h : tabela_quase s.process_table) :
    tabela_quase (pendencias_acorda hw s i).process_table := by
  unfold pendencias_acorda
  split
  · exact h
  · split
    · exact h
    · split
      · dsimp only
        split
        · exact tabela_quase_update_some _ _ _ h (Or.inr (coerente_acorda _))
        · exact h
      · dsimp only
        split
        · exact tabela_quase_update_some _ _ _ h (Or.inr (coerente_acorda _))
        · exact h
      · split
        · exact h
        · split
          · exact h
          · split
            · exact tabela_quase_update_some _ _ _ h (Or.inr (coerente_acorda _))
            · exact h
      · exact h

theorem passo_A_quase {W : Type} (hw : Hw W) (s : so_t W) (h : tabela_quase s.process_table) :
    tabela_quase (passo_A hw s).process_table := by
  unfold passo_A
  have gen : ∀ (l : List (Fin MAX_PROCESSES)) (s : so_t W), tabela_quase s.process_table →
      tabela_quase (l.foldl (pendencias_acorda hw) s).process_table := by
    intro l
    induction l with
    | nil => exact fun _ h => h
    | cons a l ih => exact fun s h => ih _ (pendencias_acorda_quase hw s a h)
  exact gen indices s h

theorem so_trata_pendencias_coerente {W : Type} (hw : Hw W) (s : so_t W)
    (h : tabela_quase s.process_table) :
    tabela_coerente (so_trata_pendencias hw s).process_table := by
  intro j p hp
  rw [so_trata_pendencias_slot] at hp
  cases hA : (passo_A hw s).process_table j with
  | none => rw [hA] at hp; cases hp
  | some q =>
    rw [hA] at hp
    dsimp only at hp
    split at hp
    · cases hp
    · rename_i hnt
      cases hp
      rcases passo_A_quase hw s h j p hA with ht | hc
      · exact absurd ht hnt
      · exact hc

theorem so_escalona_coerente {W : Type} (s : so_t W) (h : tabela_coerente s.process_table) :
    tabela_coerente (so_escalona s).process_table := by
  intro j q hq
  cases hp : s.process_table j with
  | none => rw [so_escalona_vazio s j hp] at hq; cases hq
  | some p =>
    obtain ⟨st, h1, h2⟩ := so_escalona_descritor s j p hp
    rw [h1] at hq
    cases hq
    have hc := h j p hp
    unfold coerente at hc ⊢
    rcases h2 with h2 | ⟨hpr, hst⟩
    · rw [h2]
      exact hc
    · have hk : p.blocking.kind = .NOT_BLOCKING := by
        by_contra hne
        have := hc.2 hne
        rcases hpr with h | h <;> rw [h] at this <;> cases this
      show st = .BLOCKING ↔ p.blocking.kind ≠ .NOT_BLOCKING
      constructor
      · intro hb
        rcases hst with h | h <;> rw [h] at hb <;> cases hb
      · intro hne
        exact absurd hk hne

theorem tabela_coerente_quase {t : Tabela} (h : tabela_coerente t) : tabela_quase t :=
  fun j p hp => Or.inr (h j p hp)

theorem espera_ativa_coerente {W : Type} (hw : Hw W) (n : Nat) (s s2 : so_t W)
    (h : tabela_coerente s.process_table) (he : espera_ativa hw n s = some s2) :
    tabela_coerente s2.process_table := by
  induction n generalizing s with
  | zero =>
    unfold espera_ativa at he
    split at he
    · cases he
    · cases he
      exact h
  | succ n ih =>
    unfold espera_ativa at he
    split at he
    · apply ih _ _ he
      unfold espera_passo
      exact so_escalona_coerente _
        (so_trata_pendencias_coerente hw _ (tabela_coerente_quase h))
    · cases he
      exact h

theorem so_trata_interrupcao_coerente {W : Type} (hw : Hw W) (n : Nat) (s s2 : so_t W)
    (irq r : Int) (h : tabela_quase s.process_table)
    (h2 : so_trata_interrupcao hw n s irq = some (r, s2)) :
    tabela_coerente s2.process_table := by
  unfold so_trata_interrupcao at h2
  split at h2
  · cases h2
  · rename_i s1 h1
    split at h2
    · cases h2
    · rename_i s3 h3
      have hc3 := espera_ativa_coerente hw n _ s3
        (so_escalona_coerente _ (so_trata_pendencias_coerente hw _
          (so_trata_irq_quase hw _ s1 irq (so_salva_quase hw s h) h1))) h3
      rw [(so_despacha_campos hw s3 s2 r h2).1]
      exact hc3

theorem retorno_coerente {W : Type} (hw : Hw W) (r : Int) (s : so_t W) (h : Retorno hw r s) :
    tabela_coerente s.process_table := by
  induction h with
  | primeiro w n irq r s h =>
    apply so_trata_interrupcao_coerente hw n _ s irq r _ h
    rw [so_cria_tabela]
    intro j p hp
    cases hp
  | seguinte r0 s0 w n irq r s _ h ih =>
    exact so_trata_interrupcao_coerente hw n { s0 with mundo := w } s irq r
      (tabela_coerente_quase ih) h

/-! ## The join law -/

theorem resumo_some {t t2 : Tabela} {j : Fin MAX_PROCESSES} {r : Process}
    (h : resumo (t2 j) = resumo (t j)) (hr : t2 j = some r) :
    ∃ r0, t j = some r0 ∧ r0.pid = r.pid ∧ (r0.state = .TERMINATED ↔ r.state = .TERMINATED) := by
  rw [hr] at h
  cases ht : t j with
  | none => simp [resumo, ht] at h
  | some r0 =>
    simp only [resumo, ht, Option.map_some', Option.some.injEq, Prod.mk.injEq,
      decide_eq_decide] at h
    exact ⟨r0, rfl, h.1.symm, h.2.symm⟩

theorem resumo_some_inv {t t2 : Tabela} {j : Fin MAX_PROCESSES} {r0 : Process}
    (h : resumo (t2 j) = resumo (t j)) (hr : t j = some r0) :
    ∃ r, t2 j = some r ∧ r.pid = r0.pid ∧ (r.state = .TERMINATED ↔ r0.state = .TERMINATED) := by
  rw [hr] at h
  cases ht : t2 j with
  | none => simp [resumo, ht] at h
  | some r =>
    simp only [resumo, ht, Option.map_some', Option.some.injEq, Prod.mk.injEq,
      decide_eq_decide] at h
    exact ⟨r, rfl, h.1, h.2⟩

theorem passo_A_resumo {W : Type} (hw : Hw W) (s : so_t W) (j : Fin MAX_PROCESSES) :
    resumo ((passo_A hw s).process_table j) = resumo (s.process_table j) :=
  resumo_foldl hw indices s j

theorem alvo_vivo_nao_terminado (t : Tabela) (i j : Fin MAX_PROCESSES) (joiner : Process)
    (h : espera_viva t i j joiner) : alvo_terminado t joiner.blocking.id = false := by
  obtain ⟨_, ⟨q, hq, hpid, hnt⟩, hfirst⟩ := h
  cases ha : alvo_terminado t joiner.blocking.id with
  | false => rfl
  | true =>
    obtain ⟨j2, q2, hq2, hpid2, hfirst2, hterm⟩ := (alvo_terminado_iff _ _).1 ha
    have hjj : j2 = j := by
      rcases lt_trichotomy j2 j with hlt | heq | hgt
      · exact absurd hpid2 (hfirst j2 q2 hlt hq2)
      · exact heq
      · exact absurd hpid (hfirst2 j q hgt hq)
    subst hjj
    rw [hq] at hq2
    cases hq2
    exact absurd hterm hnt

theorem so_trata_pendencias_viva {W : Type} (hw : Hw W) (s : so_t W) (i j : Fin MAX_PROCESSES)
    (joiner : Process) (hb : joiner.state = .BLOCKING) (hk : joiner.blocking.kind = .PROCESS)
    (h : espera_viva s.process_table i j joiner) :
    espera_viva (so_trata_pendencias hw s).process_table i j joiner := by
  have hvivo := alvo_vivo_nao_terminado _ i j joiner h
  obtain ⟨hi, ⟨q, hq, hpid, hnt⟩, hfirst⟩ := h
  refine ⟨?_, ?_, ?_⟩
  · rw [so_trata_pendencias_slot, passo_A_processo hw s i joiner hi hb hk, hvivo]
    simp [hb]
  · obtain ⟨q2, hq2, hpid2, hterm2⟩ := resumo_some_inv (passo_A_resumo hw s j) hq
    refine ⟨q2, ?_, hpid2.trans hpid, fun ht => hnt (hterm2.1 ht)⟩
    rw [so_trata_pendencias_slot, hq2]
    dsimp only
    rw [if_neg (fun ht => hnt (hterm2.1 ht))]
  · intro j2 r hlt hr
    rw [so_trata_pendencias_slot] at hr
    cases hA : (passo_A hw s).process_table j2 with
    | none => rw [hA] at hr; cases hr
    | some r1 =>
      rw [hA] at hr
      dsimp only at hr
      split at hr
      · cases hr
      · cases hr
        obtain ⟨r0, hr0, hp0, _⟩ := resumo_some (passo_A_resumo hw s j2) hA
        rw [← hp0]
        exact hfirst j2 r0 hlt hr0

theorem so_escalona_viva {W : Type} (s : so_t W) (i j : Fin MAX_PROCESSES)
    (joiner : Process) (hb : joiner.state = .BLOCKING)
    (h : espera_viva s.process_table i j joiner) :
    espera_viva (so_escalona s).process_table i j joiner := by
  obtain ⟨hi, ⟨q, hq, hpid, hnt⟩, hfirst⟩ := h
  refine ⟨?_, ?_, ?_⟩
  · obtain ⟨st, h1, h2⟩ := so_escalona_descritor s i joiner hi
    rcases h2 with h2 | ⟨hpr, _⟩
    · rw [h1, h2, mesmo_estado]
    · rw [hb] at hpr
      rcases hpr with h | h <;> cases h
  · obtain ⟨st, h1, h2⟩ := so_escalona_descritor s j q hq
    refine ⟨_, h1, hpid, ?_⟩
    show st ≠ .TERMINATED
    rcases h2 with h2 | ⟨_, hst⟩
    · rw [h2]; exact hnt
    · rcases hst with h | h <;> rw [h] <;> decide
  · intro j2 r hlt hr
    cases hp : s.process_table j2 with
    | none => rw [so_escalona_vazio s j2 hp] at hr; cases hr
    | some r0 =>
      obtain ⟨st, h1, _⟩ := so_escalona_descritor s j2 r0 hp
      rw [h1] at hr
      cases hr
      exact hfirst j2 r0 hlt hp

theorem espera_ativa_viva {W : Type} (hw : Hw W) (n : Nat) (s s2 : so_t W)
    (i j : Fin MAX_PROCESSES) (joiner : Process) (hb : joiner.state = .BLOCKING)
    (hk : joiner.blocking.kind = .PROCESS)
    (h : espera_viva s.process_table i j joiner) (he : espera_ativa hw n s = some s2) :
    espera_viva s2.process_table i j joiner := by
  induction n generalizing s with
  | zero =>
    unfold espera_ativa at he
    split at he
    · cases he
    · cases he
      exact h
  | succ n ih =>
    unfold espera_ativa at he
    split at he
    · apply ih _ _ he
      unfold espera_passo
      exact so_escalona_viva _ i j joiner hb
        (so_trata_pendencias_viva hw _ i j joiner hb hk h)
    · cases he
      exact h

theorem so_trata_pendencias_vazio {W : Type} (hw : Hw W) (s : so_t W) (j : Fin MAX_PROCESSES)
    (h : s.process_table j = none) : (so_trata_pendencias hw s).process_table j = none := by
  have hr := passo_A_resumo hw s j
  rw [h] at hr
  rw [so_trata_pendencias_slot]
  cases hA : (passo_A hw s).process_table j with
  | none => rfl
  | some q => simp [resumo, hA] at hr

theorem so_trata_pendencias_acordado {W : Type} (hw : Hw W) (s : so_t W)
    (i j : Fin MAX_PROCESSES) (joiner : Process)
    (h : acordado s.process_table i j joiner) :
    acordado (so_trata_pendencias hw s).process_table i j joiner := by
  obtain ⟨hj, p, hp, hst, hrest⟩ := h
  refine ⟨so_trata_pendencias_vazio hw s j hj, p, ?_, hst, hrest⟩
  apply so_trata_pendencias_mantem hw s i p hp
  · rcases hst with h | h <;> rw [h] <;> decide
  · rcases hst with h | h <;> rw [h] <;> decide

theorem so_escalona_acordado {W : Type} (s : so_t W) (i j : Fin MAX_PROCESSES)
    (joiner : Process) (h : acordado s.process_table i j joiner) :
    acordado (so_escalona s).process_table i j joiner := by
  obtain ⟨hj, p, hp, hst, hkind, hctx, hpid⟩ := h
  obtain ⟨st, h1, h2⟩ := so_escalona_descritor s i p hp
  refine ⟨so_escalona_vazio s j hj, _, h1, ?_, hkind, hctx, hpid⟩
  show st = .READY ∨ st = .RUNNING
  rcases h2 with h2 | ⟨_, h2⟩
  · rw [h2]; exact hst
  · exact h2

theorem espera_ativa_acordado {W : Type} (hw : Hw W) (n : Nat) (s s2 : so_t W)
    (i j : Fin MAX_PROCESSES) (joiner : Process)
    (h : acordado s.process_table i j joiner) (he : espera_ativa hw n s = some s2) :
    acordado s2.process_table i j joiner := by
  induction n generalizing s with
  | zero =>
    unfold espera_ativa at he
    split at he
    · cases he
    · cases he
      exact h
  | succ n ih =>
    unfold espera_ativa at he
    split at he
    · apply ih _ _ he
      unfold espera_passo
      exact so_escalona_acordado _ i j joiner (so_trata_pendencias_acordado hw _ i j joiner h)
    · cases he
      exact h

/-- The first resolution pass of the trap in which the target was terminated: the
joiner is woken and the slot of the target is emptied. -/
theorem so_trata_pendencias_junta {W : Type} (hw : Hw W) (s : so_t W)
    (i j : Fin MAX_PROCESSES) (joiner alvo : Process)
    (hi : s.process_table i = some joiner) (hb : joiner.state = .BLOCKING)
    (hk : joiner.blocking.kind = .PROCESS)
    (hj : s.process_table j = some alvo) (hpid : alvo.pid = joiner.blocking.id)
    (hfirst : ∀ j2 q, j2 < j → s.process_table j2 = some q → q.pid ≠ joiner.blocking.id)
    (ht : alvo.state = .TERMINATED) :
    acordado (so_trata_pendencias hw s).process_table i j joiner := by
  have hterm : alvo_terminado s.process_table joiner.blocking.id = true :=
    (alvo_terminado_iff _ _).2 ⟨j, alvo, hj, hpid, hfirst, ht⟩
  constructor
  · obtain ⟨q2, hq2, _, hterm2⟩ := resumo_some_inv (passo_A_resumo hw s j) hj
    rw [so_trata_pendencias_slot, hq2]
    dsimp only
    rw [if_pos (hterm2.2 ht)]
  · refine ⟨acorda joiner, ?_, Or.inl rfl, rfl, rfl, rfl⟩
    rw [so_trata_pendencias_slot, passo_A_processo hw s i joiner hi hb hk, hterm]
    rfl

/-! ## Pids are unique -/

theorem pids_distintos_update_some (t : Tabela) (k : Fin MAX_PROCESSES) (p q : Process)
    (h : pids_distintos t) (hk : t k = some p) (hq : q.pid = p.pid) :
    pids_distintos (Function.update t k (some q)) := by
  intro i j a b ha hb hab
  by_cases hik : i = k
  · by_cases hjk : j = k
    · rw [hik, hjk]
    · subst hik
      rw [Function.update_same] at ha
      rw [Function.update_noteq hjk] at hb
      cases ha
      exact h i j p b hk hb (hq.symm.trans hab)
  · rw [Function.update_noteq hik] at ha
    by_cases hjk : j = k
    · subst hjk
      rw [Function.update_same] at hb
      cases hb
      exact h i j a p ha hk (hab.trans hq)
    · rw [Function.update_noteq hjk] at hb
      exact h i j a b ha hb hab

theorem pids_distintos_update_none (t : Tabela) (k : Fin MAX_PROCESSES)
    (h : pids_distintos t) : pids_distintos (Function.update t k none) := by
  intro i j a b ha hb hab
  by_cases hik : i = k
  · subst hik
    rw [Function.update_same] at ha
    cases ha
  · rw [Function.update_noteq hik] at ha
    by_cases hjk : j = k
    · subst hjk
      rw [Function.update_same] at hb
      cases hb
    · rw [Function.update_noteq hjk] at hb
      exact h i j a b ha hb hab

theorem pids_distintos_altera (t : Tabela) (k : Fin MAX_PROCESSES) (f : Process → Process)
    (h : pids_distintos t) (hf : ∀ p, (f p).pid = p.pid) : pids_distintos (altera t k f) := by
  have hsome : ∀ i a, altera t k f i = some a → ∃ a0, t i = some a0 ∧ a0.pid = a.pid := by
    intro i a ha
    rw [altera_apply] at ha
    by_cases hik : i = k
    · subst hik
      rw [if_pos rfl] at ha
      cases ht : t i with
      | none => simp [ht] at ha
      | some a0 =>
        simp only [ht, Option.map_some', Option.some.injEq] at ha
        subst ha
        exact ⟨a0, rfl, (hf a0).symm⟩
    · rw [if_neg hik] at ha
      exact ⟨a, ha, rfl⟩
  intro i j a b ha hb hab
  obtain ⟨a0, ha0, hpa⟩ := hsome i a ha
  obtain ⟨b0, hb0, hpb⟩ := hsome j b hb
  exact h i j a0 b0 ha0 hb0 (by rw [hpa, hpb]; exact hab)

/-- A descriptor whose pid is the value of the counter can be stored in any slot:
the pids already in the table are below the counter. -/
theorem pids_distintos_update_novo (t : Tabela) (c : Int) (k : Fin MAX_PROCESSES) (q : Process)
    (h : pids_distintos t) (hb : pids_abaixo t c) (hq : q.pid = c) :
    pids_distintos (Function.update t k (some q)) := by
  intro i j a b ha hb2 hab
  by_cases hik : i = k
  · by_cases hjk : j = k
    · rw [hik, hjk]
    · subst hik
      rw [Function.update_same] at ha
      rw [Function.update_noteq hjk] at hb2
      cases ha
      have := hb j b hb2
      omega
  · rw [Function.update_noteq hik] at ha
    by_cases hjk : j = k
    · subst hjk
      rw [Function.update_same] at hb2
      cases hb2
      have := hb i a ha
      omega
    · rw [Function.update_noteq hjk] at hb2
      exact h i j a b ha hb2 hab

theorem so_salva_distintos {W : Type} (hw : Hw W) (s : so_t W)
    (h : pids_distintos s.process_table) :
    pids_distintos (so_salva_estado_da_cpu hw s).process_table := by
  unfold so_salva_estado_da_cpu
  split
  · exact h
  · split
    · exact h
    · split
      · exact h
      · rename_i k _ _ proc hk
        exact pids_distintos_update_some _ _ proc _ h hk rfl

theorem pendencias_acorda_distintos {W : Type} (hw : Hw W) (s : so_t W) (i : Fin MAX_PROCESSES)
    (h : pids_distintos s.process_table) :
    pids_distintos (pendencias_acorda hw s i).process_table := by
  unfold pendencias_acorda
  split
  · exact h
  · rename_i proc hp
    split
    · exact h
    · split
      · dsimp only
        split
        · exact pids_distintos_update_some _ _ proc _ h hp (process_receive_input_pid hw _ proc)
        · exact h
      · dsimp only
        split
        · exact pids_distintos_update_some _ _ proc _ h hp (process_send_output_pid hw _ proc)
        · exact h
      · split
        · exact h
        · split
          · exact h
          · split
            · exact pids_distintos_update_some _ _ proc _ h hp rfl
            · exact h
      · exact h

theorem pendencias_destroi_distintos {W : Type} (s : so_t W) (i : Fin MAX_PROCESSES)
    (h : pids_distintos s.process_table) :
    pids_distintos (pendencias_destroi s i).process_table := by
  unfold pendencias_destroi
  split
  · exact h
  · split
    · exact pids_distintos_update_none _ _ h
    · exact h

theorem pids_distintos_foldl {W : Type} (f : so_t W → Fin MAX_PROCESSES → so_t W)
    (hf : ∀ s i, pids_distintos s.process_table → pids_distintos (f s i).process_table)
    (l : List (Fin MAX_PROCESSES)) (s : so_t W) (h : pids_distintos s.process_table) :
    pids_distintos (l.foldl f s).process_table := by
  induction l generalizing s with
  | nil => exact h
  | cons a l ih => exact ih (f s a) (hf s a h)

theorem so_trata_pendencias_distintos {W : Type} (hw : Hw W) (s : so_t W)
    (h : pids_distintos s.process_table) :
    pids_distintos (so_trata_pendencias hw s).process_table := by
  unfold so_trata_pendencias
  apply pids_distintos_foldl pendencias_destroi (fun s i h => pendencias_destroi_distintos s i h)
  exact pids_distintos_foldl (pendencias_acorda hw)
    (fun s i h => pendencias_acorda_distintos hw s i h) indices s h

theorem so_escalona_distintos {W : Type} (s : so_t W) (h : pids_distintos s.process_table) :
    pids_distintos (so_escalona s).process_table := by
  have hreb : pids_distintos (rebaixa_anterior s) := by
    unfold rebaixa_anterior
    split
    · split
      · apply pids_distintos_altera _ _ _ h
        intro p
        unfold rebaixa
        split <;> rfl
      · exact h
    · exact h
  unfold so_escalona
  split
  · exact h
  · dsimp only
    split
    · split
      · exact pids_distintos_altera _ _ _ hreb (fun _ => rfl)
      · exact hreb
    · exact h

theorem espera_ativa_distintos {W : Type} (hw : Hw W) (n : Nat) (s s2 : so_t W)
    (h : pids_distintos s.process_table) (he : espera_ativa hw n s = some s2) :
    pids_distintos s2.process_table := by
  induction n generalizing s with
  | zero =>
    unfold espera_ativa at he
    split at he
    · cases he
    · cases he
      exact h
  | succ n ih =>
    unfold espera_ativa at he
    split at he
    · apply ih _ _ he
      unfold espera_passo
      exact so_escalona_distintos _ (so_trata_pendencias_distintos hw _ h)
    · cases he
      exact h

theorem so_trata_irq_reset_distintos {W : Type} (hw : Hw W) (s : so_t W) :
    pids_distintos (so_trata_irq_reset hw s).process_table := by
  have hc := so_carrega_programa_campos hw
      { s with
        process_counter := (process_create s.process_counter hw.D_TERM_A_TECLADO hw.D_TERM_A_TELA).2
        current_process := 0
        process_table := Function.update (fun _ => none) 0
          (some (process_create s.process_counter hw.D_TERM_A_TECLADO hw.D_TERM_A_TELA).1) }
      (some (process_create s.process_counter hw.D_TERM_A_TECLADO hw.D_TERM_A_TELA).1)
      (nome_de "init.maq")
  have ht : (so_carrega_programa hw _ _ _).2.process_table = Function.update (fun _ => none) 0
      (some (process_create s.process_counter hw.D_TERM_A_TECLADO hw.D_TERM_A_TELA).1) := hc.1
  have h0 : pids_distintos (Function.update (fun _ => none) (0 : Fin MAX_PROCESSES)
      (some (process_create s.process_counter hw.D_TERM_A_TECLADO hw.D_TERM_A_TELA).1)) :=
    pids_distintos_update_novo _ s.process_counter _ _ (fun _ _ _ _ h => by cases h)
      (fun _ _ h => by cases h) rfl
  unfold so_trata_irq_reset
  dsimp only
  split
  · show pids_distintos (so_carrega_programa hw _ _ _).2.process_table
    rw [ht]
    exact h0
  · show pids_distintos (altera (so_carrega_programa hw _ _ _).2.process_table 0 _)
    rw [ht]
    exact pids_distintos_altera _ _ _ h0 (fun _ => rfl)

theorem so_chamada_cria_proc_distintos {W : Type} (hw : Hw W) (s s2 : so_t W)
    (h : pids_distintos s.process_table)
    (hb : pids_abaixo s.process_table s.process_counter)
    (h2 : so_chamada_cria_proc hw s = some s2) :
    pids_distintos s2.process_table := by
  unfold so_chamada_cria_proc at h2
  split at h2
  · cases h2
  · rename_i k proc hk
    dsimp only at h2
    have hc := so_carrega_programa_campos hw
      { s with process_counter := (process_create s.process_counter
        ((procura_entrada s.process_table).tmod 4 * 4)
        ((procura_entrada s.process_table).tmod 4 * 4 + 2)).2 }
      (some (process_create s.process_counter
        ((procura_entrada s.process_table).tmod 4 * 4)
        ((procura_entrada s.process_table).tmod 4 * 4 + 2)).1)
      (nome_copiado (so_copia_str_do_processo hw s.mundo 256 proc.context.x (some proc)).2)
    have ht : (so_carrega_programa hw _ _ _).2.process_table = s.process_table := hc.1
    split at h2
    · cases h2
      exact pids_distintos_altera _ _ _ h (fun _ => rfl)
    · split at h2
      · cases h2
        exact pids_distintos_altera _ _ _ h (fun _ => rfl)
      · split at h2
        · cases h2
          show pids_distintos (altera (so_carrega_programa hw _ _ _).2.process_table k _)
          rw [ht]
          exact pids_distintos_altera _ _ _ h (fun _ => rfl)
        · split at h2
          · cases h2
          · cases h2
            show pids_distintos (altera (Function.update
              (so_carrega_programa hw _ _ _).2.process_table _ _) k _)
            rw [ht]
            refine pids_distintos_altera _ _ _ ?_ (fun _ => rfl)
            exact pids_distintos_update_novo _ s.process_counter _ _ h hb rfl

theorem so_trata_irq_chamada_sistema_distintos {W : Type} (hw : Hw W) (s s2 : so_t W)
    (h : pids_distintos s.process_table)
    (hb : pids_abaixo s.process_table s.process_counter)
    (h2 : so_trata_irq_chamada_sistema hw s = some s2) :
    pids_distintos s2.process_table := by
  unfold so_trata_irq_chamada_sistema at h2
  split at h2
  · cases h2
  · rename_i k proc hk
    have hkp := (corrente_some hk).2
    dsimp only at h2
    split at h2
    · unfold so_chamada_le at h2
      rw [hk] at h2
      dsimp only at h2
      split at h2
      · cases h2
        exact pids_distintos_update_some _ _ proc _ h hkp rfl
      · split at h2
        · cases h2
          exact pids_distintos_update_some _ _ proc _ h hkp rfl
        · cases h2
          exact pids_distintos_update_some _ _ proc _ h hkp
            (process_receive_input_pid hw _ proc)
    · split at h2
      · unfold so_chamada_escr at h2
        rw [hk] at h2
        dsimp only at h2
        split at h2
        · cases h2
          exact pids_distintos_update_some _ _ proc _ h hkp rfl
        · split at h2
          · cases h2
            exact pids_distintos_update_some _ _ proc _ h hkp rfl
          · cases h2
            exact pids_distintos_update_some _ _ proc _ h hkp
              (process_send_output_pid hw _ proc)
      · split at h2
        · exact so_chamada_cria_proc_distintos hw s s2 h hb h2
        · split at h2
          · unfold so_chamada_mata_proc at h2
            rw [hk] at h2
            dsimp only at h2
            split at h2
            · cases h2
              exact pids_distintos_altera _ _ _ h (fun _ => rfl)
            · split at h2
              · cases h2
                exact pids_distintos_altera _ _ _
                  (pids_distintos_altera _ _ _ h (fun _ => rfl)) (fun _ => rfl)
              · cases h2
                exact pids_distintos_altera _ _ _ h (fun _ => rfl)
          · split at h2
            · unfold so_chamada_espera_proc at h2
              rw [hk] at h2
              dsimp only at h2
              split at h2
              · split at h2
                · cases h2
                  exact pids_distintos_update_some _ _ proc _ h hkp rfl
                · cases h2
                  exact pids_distintos_update_some _ _ proc _ h hkp rfl
              · cases h2
                exact pids_distintos_update_some _ _ proc _ h hkp rfl
            · cases h2
              exact pids_distintos_update_some _ _ proc _ h hkp rfl

theorem so_trata_irq_distintos {W : Type} (hw : Hw W) (s s2 : so_t W) (irq : Int)
    (h : pids_distintos s.process_table)
    (hb : pids_abaixo s.process_table s.process_counter)
    (h2 : so_trata_irq hw s irq = some s2) :
    pids_distintos s2.process_table := by
  unfold so_trata_irq at h2
  split at h2
  · cases h2
    exact so_trata_irq_reset_distintos hw s
  · split at h2
    · exact so_trata_irq_chamada_sistema_distintos hw s s2 h hb h2
    · split at h2
      · unfold so_trata_irq_err_cpu at h2
        split at h2
        · split at h2
          · cases h2
          · rename_i k ps hk
            cases h2
            exact pids_distintos_update_some _ _ ps _ h (corrente_some hk).2 rfl
        · cases h2
          exact h
      · split at h2
        · cases h2
          exact h
        · cases h2
          exact h

theorem so_trata_interrupcao_distintos {W : Type} (hw : Hw W) (n : Nat) (s s2 : so_t W)
    (irq r : Int) (h : pids_distintos s.process_table)
    (hb : pids_abaixo s.process_table s.process_counter)
    (h2 : so_trata_interrupcao hw n s irq = some (r, s2)) :
    pids_distintos s2.process_table := by
  unfold so_trata_interrupcao at h2
  split at h2
  · cases h2
  · rename_i s1 h1
    split at h2
    · cases h2
    · rename_i s3 h3
      rw [(so_despacha_campos hw s3 s2 r h2).1]
      exact espera_ativa_distintos hw n _ s3
        (so_escalona_distintos _ (so_trata_pendencias_distintos hw _
          (so_trata_irq_distintos hw _ s1 irq (so_salva_distintos hw s h)
            (so_salva_pids hw s hb) h1))) h3

theorem so_cria_contador {W : Type} (hw : Hw W) (w : W) :
    (so_cria hw w).process_counter = 0 := by
  unfold so_cria
  dsimp only
  have h := (so_carrega_programa_campos hw
    { mundo := w, erro_interno := false, process_table := fun _ => none,
      current_process := NO_PROCESS_RUNNING, quantum := SCHEADULER_QUANTUM,
      quadro_livre := 0, process_counter := 0 } none (nome_de "trata_int.maq")).2.2.2.2
  split <;> split <;> exact h

theorem cria_em_serie_pid (l : List (Int × Int)) (c : Int) (k : Nat)
    (hk : k < (cria_em_serie l c).1.length) :
    ((cria_em_serie l c).1.get ⟨k, hk⟩).pid = c + k ∧
    (cria_em_serie l c).2 = c + l.length := by
  induction l generalizing c k with
  | nil => exact absurd hk (Nat.not_lt_zero k)
  | cons d resto ih =>
    cases k with
    | zero =>
      refine ⟨by simp [cria_em_serie, process_create], ?_⟩
      cases resto with
      | nil => simp [cria_em_serie, process_create]
      | cons d2 r2 =>
        have h2 := (ih (c + 1) 0 (by simp [cria_em_serie])).2
        simp only [cria_em_serie, process_create] at h2 ⊢
        rw [h2]
        simp only [List.length_cons]
        push_cast
        omega
    | succ k =>
      have hk2 : k < (cria_em_serie resto (c + 1)).1.length := by
        simpa [cria_em_serie, process_create] using hk
      obtain ⟨h1, h2⟩ := ih (c + 1) k hk2
      constructor
      · simp only [cria_em_serie, process_create, List.get_eq_getElem, List.getElem_cons_succ]
        simp only [List.get_eq_getElem] at h1
        rw [h1]
        push_cast
        omega
      · simp only [cria_em_serie, process_create]
        rw [h2]
        simp only [List.length_cons]
        push_cast
        omega

theorem retorno_distintos {W : Type} (hw : Hw W) (r : Int) (s : so_t W) (h : Retorno hw r s) :
    pids_distintos s.process_table := by
  induction h with
  | primeiro w n irq r s h =>
    apply so_trata_interrupcao_distintos hw n _ s irq r _ _ h
    · rw [so_cria_tabela]
      intro i j p q hp
      cases hp
    · rw [so_cria_tabela]
      intro j p hp
      cases hp
  | seguinte r0 s0 w n irq r s h0 h ih =>
    exact so_trata_interrupcao_distintos hw n { s0 with mundo := w } s irq r ih
      (retorno_pids hw r0 s0 h0) h

/-! ## The frame counter -/

theorem quadros_laco_soma (n : Nat) (q : Int) : quadros_laco n q = q + n := by
  induction n generalizing q with
  | zero => simp [quadros_laco]
  | succ n ih =>
    unfold quadros_laco
    rw [ih]
    push_cast
    omega

theorem carga_virtual_quadro {W : Type} (hw : Hw W) (s : so_t W) (programa : programa_t)
    (p : Process) :
    s.quadro_livre ≤ (so_carrega_programa_na_memoria_virtual hw s programa p).2.quadro_livre := by
  unfold so_carrega_programa_na_memoria_virtual
  dsimp only
  split <;>
  · show s.quadro_livre ≤ quadros_laco _ s.quadro_livre
    rw [quadros_laco_soma]
    omega

theorem so_carrega_programa_quadro {W : Type} (hw : Hw W) (s : so_t W)
    (processo : Option Process) (nome : List Int) :
    s.quadro_livre ≤ (so_carrega_programa hw s processo nome).2.quadro_livre := by
  unfold so_carrega_programa
  split
  · exact le_refl _
  · split
    · unfold so_carrega_programa_na_memoria_fisica
      dsimp only
      split <;> exact le_refl _
    · exact carga_virtual_quadro hw s _ _

theorem so_salva_quadro {W : Type} (hw : Hw W) (s : so_t W) :
    (so_salva_estado_da_cpu hw s).quadro_livre = s.quadro_livre := by
  unfold so_salva_estado_da_cpu
  split
  · rfl
  · split
    · rfl
    · split <;> rfl

theorem so_escalona_quadro {W : Type} (s : so_t W) :
    (so_escalona s).quadro_livre = s.quadro_livre := by
  unfold so_escalona
  split
  · rfl
  · dsimp only
    split <;> rfl

theorem espera_ativa_quadro {W : Type} (hw : Hw W) (n : Nat) (s s2 : so_t W)
    (he : espera_ativa hw n s = some s2) : s2.quadro_livre = s.quadro_livre := by
  induction n generalizing s with
  | zero =>
    unfold espera_ativa at he
    split at he
    · cases he
    · cases he
      rfl
  | succ n ih =>
    unfold espera_ativa at he
    split at he
    · rw [ih _ he]
      unfold espera_passo
      rw [so_escalona_quadro, (so_trata_pendencias_campos hw _).2.2.2.1]
    · cases he
      rfl

theorem so_despacha_quadro {W : Type} (hw : Hw W) (s s2 : so_t W) (r : Int)
    (h : so_despacha hw s = some (r, s2)) : s2.quadro_livre = s.quadro_livre := by
  unfold so_despacha at h
  split at h
  · cases h
    rfl
  · split at h
    · cases h
    · cases h
      rfl

theorem so_trata_irq_reset_quadro {W : Type} (hw : Hw W) (s : so_t W) :
    s.quadro_livre ≤ (so_trata_irq_reset hw s).quadro_livre := by
  have hc := so_carrega_programa_quadro hw
      { s with
        process_counter := (process_create s.process_counter hw.D_TERM_A_TECLADO hw.D_TERM_A_TELA).2
        current_process := 0
        process_table := Function.update (fun _ => none) 0
          (some (process_create s.process_counter hw.D_TERM_A_TECLADO hw.D_TERM_A_TELA).1) }
      (some (process_create s.process_counter hw.D_TERM_A_TECLADO hw.D_TERM_A_TELA).1)
      (nome_de "init.maq")
  unfold so_trata_irq_reset
  dsimp only
  split <;> exact hc

theorem so_chamada_cria_proc_quadro {W : Type} (hw : Hw W) (s s2 : so_t W)
    (h2 : so_chamada_cria_proc hw s = some s2) : s.quadro_livre ≤ s2.quadro_livre := by
  unfold so_chamada_cria_proc at h2
  split at h2
  · cases h2
  · rename_i k proc hk
    dsimp only at h2
    have hc := so_carrega_programa_quadro hw
      { s with process_counter := (process_create s.process_counter
        ((procura_entrada s.process_table).tmod 4 * 4)
        ((procura_entrada s.process_table).tmod 4 * 4 + 2)).2 }
      (some (process_create s.process_counter
        ((procura_entrada s.process_table).tmod 4 * 4)
        ((procura_entrada s.process_table).tmod 4 * 4 + 2)).1)
      (nome_copiado (so_copia_str_do_processo hw s.mundo 256 proc.context.x (some proc)).2)
    split at h2
    · cases h2
      exact le_refl _
    · split at h2
      · cases h2
        exact le_refl _
      · split at h2
        · cases h2
          exact hc
        · split at h2
          · cases h2
          · cases h2
            exact hc

theorem so_trata_irq_chamada_sistema_quadro {W : Type} (hw : Hw W) (s s2 : so_t W)
    (h2 : so_trata_irq_chamada_sistema hw s = some s2) : s.quadro_livre ≤ s2.quadro_livre := by
  unfold so_trata_irq_chamada_sistema at h2
  split at h2
  · cases h2
  · rename_i k proc hk
    dsimp only at h2
    split at h2
    · unfold so_chamada_le at h2
      rw [hk] at h2
      dsimp only at h2
      split at h2
      · cases h2
        exact le_refl _
      · split at h2 <;>
        · cases h2
          exact le_refl _
    · split at h2
      · unfold so_chamada_escr at h2
        rw [hk] at h2
        dsimp only at h2
        split at h2
        · cases h2
          exact le_refl _
        · split at h2 <;>
          · cases h2
            exact le_refl _
      · split at h2
        · exact so_chamada_cria_proc_quadro hw s s2 h2
        · split at h2
          · unfold so_chamada_mata_proc at h2
            rw [hk] at h2
            dsimp only at h2
            split at h2
            · cases h2
              exact le_refl _
            · split at h2 <;>
              · cases h2
                exact le_refl _
          · split at h2
            · unfold so_chamada_espera_proc at h2
              rw [hk] at h2
              dsimp only at h2
              split at h2
              · split at h2 <;>
                · cases h2
                  exact le_refl _
              · cases h2
                exact le_refl _
            · cases h2
              exact le_refl _

theorem so_trata_irq_quadro {W : Type} (hw : Hw W) (s s2 : so_t W) (irq : Int)
    (h2 : so_trata_irq hw s irq = some s2) : s.quadro_livre ≤ s2.quadro_livre := by
  unfold so_trata_irq at h2
  split at h2
  · cases h2
    exact so_trata_irq_reset_quadro hw s
  · split at h2
    · exact so_trata_irq_chamada_sistema_quadro hw s s2 h2
    · split at h2
      · unfold so_trata_irq_err_cpu at h2
        split at h2
        · split at h2
          · cases h2
          · cases h2
            exact le_refl _
        · cases h2
          exact le_refl _
      · split at h2 <;>
        · cases h2
          exact le_refl _

/-- Claim C20: the frame counter `quadro_livre` never decreases. Whenever the trap
handler returns, the value of `quadro_livre` in the state it returns is greater
than or equal to the value in the state it was invoked in; and every call of the
virtual loader, whether its write loop succeeds or fails, leaves a value greater
than or equal to the one it found. -/
theorem quadro_livre_nao_decresce {W : Type} (hw : Hw W) (n : Nat) (s s2 : so_t W)
    (irq r : Int) (h : so_trata_interrupcao hw n s irq = some (r, s2)) :
    s.quadro_livre ≤ s2.quadro_livre ∧
    ∀ (sx : so_t W) (programa : programa_t) (p : Process),
      sx.quadro_livre
        ≤ (so_carrega_programa_na_memoria_virtual hw sx programa p).2.quadro_livre := by
  refine ⟨?_, fun sx programa p => carga_virtual_quadro hw sx programa p⟩
  unfold so_trata_interrupcao at h
  split at h
  · cases h
  · rename_i s1 h1
    split at h
    · cases h
    · rename_i s3 h3
      have e1 := so_trata_irq_quadro hw _ s1 irq h1
      rw [so_salva_quadro] at e1
      have e3 := espera_ativa_quadro hw n _ s3 h3
      rw [so_escalona_quadro, (so_trata_pendencias_campos hw s1).2.2.2.1] at e3
      rw [so_despacha_quadro hw s3 s2 r h, e3]
      exact e1

/-- Claim C20 on the boot of the concrete machine: the RESET trap loads `init.maq`
(addresses 100 to 102, one page) and takes the frame counter from 10 to 11. -/
theorem quadro_livre_nao_decresce_boot :
    so_inicial.quadro_livre = 10 ∧ so_boot.quadro_livre = 11 ∧
    so_inicial.quadro_livre ≤ so_boot.quadro_livre :=
  ⟨by decide, by decide,
    (quadro_livre_nao_decresce hwT 0 so_inicial so_boot hwT.IRQ_RESET 0 boot_retorna).1⟩

/-! ## A run of three traps on the concrete machine -/

theorem retorno_criou : Retorno hwT 0 so_criou :=
  Retorno.seguinte 0 so_boot maquina_cria 0 hwT.IRQ_SISTEMA 0 so_criou retorno_boot rfl

theorem retorno_leu : Retorno hwT 0 so_leu :=
  Retorno.seguinte 0 so_criou maquina_le 0 hwT.IRQ_SISTEMA 0 so_leu retorno_criou rfl

/-- Claim C19: the pid counter starts at 0 in a freshly created kernel; a call of
`process_create` gives the new descriptor the value of the counter as its pid and
increases the counter by one, so that in a series of calls that starts with the
counter at 0 the descriptor created by call number `k + 1` has pid `k`; and in
every state reached at a return of the trap handler in a run that starts from a
freshly created kernel, two descriptors of the process table with the same pid
are in the same slot. Pids are mathematical integers: overflow is ignored. -/
theorem pids_unicos {W : Type} (hw : Hw W) (r : Int) (s : so_t W) (h : Retorno hw r s) :
    (∀ w, (so_cria hw w).process_counter = 0) ∧
    (∀ c in_dev out, (process_create c in_dev out).1.pid = c ∧
      (process_create c in_dev out).2 = c + 1) ∧
    (∀ (l : List (Int × Int)) (k : Nat) (hk : k < (cria_em_serie l 0).1.length),
      ((cria_em_serie l 0).1.get ⟨k, hk⟩).pid = k) ∧
    (∀ i j p q, s.process_table i = some p → s.process_table j = some q →
      p.pid = q.pid → i = j) := by
  refine ⟨so_cria_contador hw, fun c in_dev out => ⟨rfl, rfl⟩, ?_, retorno_distintos hw r s h⟩
  intro l k hk
  rw [(cria_em_serie_pid l 0 k hk).1]
  omega

/-- Claim C19 on the concrete machine: after the boot and one CREATE_PROC the table
holds pid 0 in slot 0 and pid 1 in slot 3, and no two slots share a pid. -/
theorem pids_unicos_criou :
    (so_criou.process_table 0).map (fun p => p.pid) = some 0 ∧
    (so_criou.process_table 3).map (fun p => p.pid) = some 1 ∧
    pids_distintos so_criou.process_table :=
  ⟨by decide, by decide, (pids_unicos hwT 0 so_criou retorno_criou).2.2.2⟩

/-- Claim C18: in every state reached at a return of the trap handler in a run that
starts from a freshly created kernel, each descriptor of the process table is
BLOCKED if and only if its blocking kind is not NOT_BLOCKING. -/
theorem bloqueado_sse_motivo {W : Type} (hw : Hw W) (r : Int) (s : so_t W)
    (h : Retorno hw r s) (j : Fin MAX_PROCESSES) (proc : Process)
    (hp : s.process_table j = some proc) :
    proc.state = .BLOCKING ↔ proc.blocking.kind ≠ .NOT_BLOCKING :=
  retorno_coerente hw r s h j proc hp

/-- Claim C18 on the concrete machine, after the boot, a CREATE_PROC and a READ that
finds no character: the descriptor of slot 0 is BLOCKED and its blocking kind is
not NOT_BLOCKING; the descriptor of slot 3 is RUNNING and its blocking kind is
NOT_BLOCKING. -/
theorem bloqueado_sse_motivo_leu :
    (∃ p, so_leu.process_table 0 = some p ∧ p.state = .BLOCKING ∧
      p.blocking.kind ≠ .NOT_BLOCKING) ∧
    (∃ q, so_leu.process_table 3 = some q ∧ q.state = .RUNNING ∧
      q.blocking.kind = .NOT_BLOCKING) := by
  have h0 : (so_leu.process_table 0).isSome = true := by decide
  have h3 : (so_leu.process_table 3).isSome = true := by decide
  obtain ⟨p, hp⟩ := Option.isSome_iff_exists.1 h0
  obtain ⟨q, hq⟩ := Option.isSome_iff_exists.1 h3
  have hs : (so_leu.process_table 0).map (fun x => x.state) = some .BLOCKING := by decide
  have hr : (so_leu.process_table 3).map (fun x => x.state) = some .RUNNING := by decide
  rw [hp] at hs
  rw [hq] at hr
  simp only [Option.map_some', Option.some.injEq] at hs hr
  refine ⟨⟨p, hp, hs, (bloqueado_sse_motivo hwT 0 so_leu retorno_leu 0 p hp).1 hs⟩,
    ⟨q, hq, hr, ?_⟩⟩
  by_contra hk
  have hb := (retorno_coerente hwT 0 so_leu retorno_leu 3 q hq).2 hk
  rw [hr] at hb
  cases hb

/-! ## Register `a` of a process that waits for another -/

theorem espera_zero_update_some (t : Tabela) (k : Fin MAX_PROCESSES) (q : Process)
    (h : espera_zero t) (hq : q.blocking.kind = .PROCESS → q.context.a = 0) :
    espera_zero (Function.update t k (some q)) := by
  intro j p hp
  by_cases hjk : j = k
  · subst hjk
    rw [Function.update_same] at hp
    cases hp
    exact hq
  · rw [Function.update_noteq hjk] at hp
    exact h j p hp

theorem espera_zero_update_none (t : Tabela) (k : Fin MAX_PROCESSES) (h : espera_zero t) :
    espera_zero (Function.update t k none) := by
  intro j p hp
  by_cases hjk : j = k
  · subst hjk
    rw [Function.update_same] at hp
    cases hp
  · rw [Function.update_noteq hjk] at hp
    exact h j p hp

theorem espera_zero_altera (t : Tabela) (k : Fin MAX_PROCESSES) (f : Process → Process)
    (h : espera_zero t)
    (hf : ∀ p, t k = some p → (p.blocking.kind = .PROCESS → p.context.a = 0) →
      (f p).blocking.kind = .PROCESS → (f p).context.a = 0) :
    espera_zero (altera t k f) := by
  intro j p hp
  rw [altera_apply] at hp
  by_cases hjk : j = k
  · subst hjk
    rw [if_pos rfl] at hp
    cases ht : t j with
    | none => simp [ht] at hp
    | some q =>
      simp only [ht, Option.map_some', Option.some.injEq] at hp
      subst hp
      exact hf q ht (h j q ht)
  · rw [if_neg hjk] at hp
    exact h j p hp

theorem so_salva_espera {W : Type} (hw : Hw W) (s : so_t W) (h : espera_zero s.process_table)
    (hc : corrente_livre s) :
    espera_zero (so_salva_estado_da_cpu hw s).process_table ∧
    corrente_livre (so_salva_estado_da_cpu hw s) := by
  unfold so_salva_estado_da_cpu
  split
  · exact ⟨h, hc⟩
  · split
    · exact ⟨h, hc⟩
    · split
      · exact ⟨h, hc⟩
      · rename_i k hk _ proc hp
        have hkind : proc.blocking.kind = .NOT_BLOCKING := by
          apply hc k proc
          unfold corrente
          rw [hk]
          dsimp only
          rw [hp]
        constructor
        · apply espera_zero_update_some _ _ _ h
          intro hq
          rw [show ({ proc with context := _ } : Process).blocking.kind = proc.blocking.kind
            from rfl, hkind] at hq
          cases hq
        · intro k2 proc2 h2
          unfold corrente at h2
          dsimp only at h2
          rw [hk] at h2
          dsimp only at h2
          rw [Function.update_same] at h2
          cases h2
          exact hkind

theorem so_trata_irq_reset_espera {W : Type} (hw : Hw W) (s : so_t W) :
    espera_zero (so_trata_irq_reset hw s).process_table := by
  have hc : (so_carrega_programa hw
      { s with
        process_counter := (process_create s.process_counter hw.D_TERM_A_TECLADO hw.D_TERM_A_TELA).2
        current_process := 0
        process_table := Function.update (fun _ => none) 0
          (some (process_create s.process_counter hw.D_TERM_A_TECLADO hw.D_TERM_A_TELA).1) }
      (some (process_create s.process_counter hw.D_TERM_A_TECLADO hw.D_TERM_A_TELA).1)
      (nome_de "init.maq")).2.process_table
      = Function.update (fun _ => none) 0
          (some (process_create s.process_counter hw.D_TERM_A_TECLADO hw.D_TERM_A_TELA).1) :=
    (so_carrega_programa_campos hw _ _ _).1
  have h0 : espera_zero (Function.update (fun _ => none) (0 : Fin MAX_PROCESSES)
      (some (process_create s.process_counter hw.D_TERM_A_TECLADO hw.D_TERM_A_TELA).1)) :=
    espera_zero_update_some _ _ _ (fun _ _ h => by cases h) (fun _ => rfl)
  unfold so_trata_irq_reset
  dsimp only
  split
  · show espera_zero (so_carrega_programa hw _ _ _).2.process_table
    rw [hc]
    exact h0
  · show espera_zero (altera (so_carrega_programa hw _ _ _).2.process_table 0 _)
    rw [hc]
    exact espera_zero_altera _ _ _ h0 (fun _ _ hp => hp)

theorem so_chamada_cria_proc_espera {W : Type} (hw : Hw W) (s s2 : so_t W)
    (h : espera_zero s.process_table) (hl : corrente_livre s)
    (h2 : so_chamada_cria_proc hw s = some s2) :
    espera_zero s2.process_table := by
  unfold so_chamada_cria_proc at h2
  split at h2
  · cases h2
  · rename_i k proc hk
    have hkp := (corrente_some hk).2
    have hkind := hl k proc hk
    dsimp only at h2
    have ht : (so_carrega_programa hw
        { s with process_counter := (process_create s.process_counter
          ((procura_entrada s.process_table).tmod 4 * 4)
          ((procura_entrada s.process_table).tmod 4 * 4 + 2)).2 }
        (some (process_create s.process_counter
          ((procura_entrada s.process_table).tmod 4 * 4)
          ((procura_entrada s.process_table).tmod 4 * 4 + 2)).1)
        (nome_copiado (so_copia_str_do_processo hw s.mundo 256 proc.context.x (some proc)).2)).2.process_table
        = s.process_table := (so_carrega_programa_campos hw _ _ _).1
    have livre : ∀ (p : Process) (v : Int), s.process_table k = some p →
        ({ p with context := { p.context with a := v } } : Process).blocking.kind = .PROCESS →
        ({ p with context := { p.context with a := v } } : Process).context.a = 0 := by
      intro p v hp hq
      rw [hkp] at hp
      cases hp
      rw [show ({ proc with context := _ } : Process).blocking.kind = proc.blocking.kind
        from rfl, hkind] at hq
      cases hq
    split at h2
    · cases h2
      exact espera_zero_altera _ _ _ h (fun p hp _ => livre p _ hp)
    · split at h2
      · cases h2
        exact espera_zero_altera _ _ _ h (fun p hp _ => livre p _ hp)
      · split at h2
        · cases h2
          show espera_zero (altera (so_carrega_programa hw _ _ _).2.process_table k _)
          rw [ht]
          exact espera_zero_altera _ _ _ h (fun p hp _ => livre p _ hp)
        · split at h2
          · cases h2
          · rename_i e he
            cases h2
            show espera_zero (altera (Function.update
              (so_carrega_programa hw _ _ _).2.process_table _ _) k _)
            rw [ht]
            refine espera_zero_altera _ _ _
              (espera_zero_update_some _ _ _ h (fun _ => rfl)) ?_
            intro p hp _ hq
            by_cases hek : k = e
            · subst hek
              rw [Function.update_same] at hp
              cases hp
              cases hq
            · rw [Function.update_noteq hek] at hp
              exact livre p _ hp hq

theorem so_trata_irq_chamada_sistema_espera {W : Type} (hw : Hw W) (s s2 : so_t W)
    (h : espera_zero s.process_table) (hl : corrente_livre s)
    (h2 : so_trata_irq_chamada_sistema hw s = some s2) :
    espera_zero s2.process_table := by
  unfold so_trata_irq_chamada_sistema at h2
  split at h2
  · cases h2
  · rename_i k proc hk
    have hkind := hl k proc hk
    have naoespera : ∀ q : Process, q.blocking.kind ≠ .PROCESS →
        q.blocking.kind = .PROCESS → q.context.a = 0 := fun q hq h => absurd h hq
    have hnp : proc.blocking.kind ≠ .PROCESS := by rw [hkind]; decide
    dsimp only at h2
    split at h2
    · unfold so_chamada_le at h2
      rw [hk] at h2
      dsimp only at h2
      split at h2
      · cases h2
        exact espera_zero_update_some _ _ _ h (naoespera _ hnp)
      · split at h2
        · cases h2
          exact espera_zero_update_some _ _ _ h (fun hq => by cases hq)
        · cases h2
          refine espera_zero_update_some _ _ _ h (naoespera _ ?_)
          unfold process_receive_input
          dsimp only
          split <;> exact hnp
    · split at h2
      · unfold so_chamada_escr at h2
        rw [hk] at h2
        dsimp only at h2
        split at h2
        · cases h2
          exact espera_zero_update_some _ _ _ h (naoespera _ hnp)
        · split at h2
          · cases h2
            exact espera_zero_update_some _ _ _ h (fun hq => by cases hq)
          · cases h2
            refine espera_zero_update_some _ _ _ h (naoespera _ ?_)
            unfold process_send_output
            dsimp only
            split <;> exact hnp
      · split at h2
        · exact so_chamada_cria_proc_espera hw s s2 h hl h2
        · split at h2
          · unfold so_chamada_mata_proc at h2
            rw [hk] at h2
            dsimp only at h2
            split at h2
            · cases h2
              exact espera_zero_altera _ _ _ h (fun _ _ hp => hp)
            · split at h2
              · cases h2
                exact espera_zero_altera _ _ _
                  (espera_zero_altera _ _ _ h (fun _ _ hp => hp)) (fun _ _ _ _ => rfl)
              · cases h2
                exact espera_zero_altera _ _ _ h (fun _ _ hp => hp)
          · split at h2
            · unfold so_chamada_espera_proc at h2
              rw [hk] at h2
              dsimp only at h2
              split at h2
              · split at h2
                · cases h2
                  exact espera_zero_update_some _ _ _ h (fun _ => rfl)
                · cases h2
                  exact espera_zero_update_some _ _ _ h (naoespera _ hnp)
              · cases h2
                exact espera_zero_update_some _ _ _ h (naoespera _ hnp)
            · cases h2
              exact espera_zero_update_some _ _ _ h (naoespera _ hnp)

theorem so_trata_irq_espera {W : Type} (hw : Hw W) (s s2 : so_t W) (irq : Int)
    (h : espera_zero s.process_table) (hl : corrente_livre s)
    (h2 : so_trata_irq hw s irq = some s2) :
    espera_zero s2.process_table := by
  unfold so_trata_irq at h2
  split at h2
  · cases h2
    exact so_trata_irq_reset_espera hw s
  · split at h2
    · exact so_trata_irq_chamada_sistema_espera hw s s2 h hl h2
    · split at h2
      · unfold so_trata_irq_err_cpu at h2
        split at h2
        · split at h2
          · cases h2
          · rename_i k ps hk
            cases h2
            exact espera_zero_update_some _ _ _ h (h k ps (corrente_some hk).2)
        · cases h2
          exact h
      · split at h2
        · cases h2
          exact h
        · cases h2
          exact h

theorem pendencias_acorda_espera {W : Type} (hw : Hw W) (s : so_t W) (i : Fin MAX_PROCESSES)
    (h : espera_zero s.process_table) :
    espera_zero (pendencias_acorda hw s i).process_table := by
  have hac : ∀ q : Process, (acorda q).blocking.kind = .PROCESS → (acorda q).context.a = 0 :=
    fun q hq => by cases hq
  unfold pendencias_acorda
  split
  · exact h
  · split
    · exact h
    · split
      · dsimp only
        split
        · exact espera_zero_update_some _ _ _ h (hac _)
        · exact h
      · dsimp only
        split
        · exact espera_zero_update_some _ _ _ h (hac _)
        · exact h
      · split
        · exact h
        · split
          · exact h
          · split
            · exact espera_zero_update_some _ _ _ h (hac _)
            · exact h
      · exact h

theorem pendencias_destroi_espera {W : Type} (s : so_t W) (i : Fin MAX_PROCESSES)
    (h : espera_zero s.process_table) :
    espera_zero (pendencias_destroi s i).process_table := by
  unfold pendencias_destroi
  split
  · exact h
  · split
    · exact espera_zero_update_none _ _ h
    · exact h

theorem espera_zero_foldl {W : Type} (f : so_t W → Fin MAX_PROCESSES → so_t W)
    (hf : ∀ s i, espera_zero s.process_table → espera_zero (f s i).process_table)
    (l : List (Fin MAX_PROCESSES)) (s : so_t W) (h : espera_zero s.process_table) :
    espera_zero (l.foldl f s).process_table := by
  induction l generalizing s with
  | nil => exact h
  | cons a l ih => exact ih (f s a) (hf s a h)

theorem so_trata_pendencias_espera {W : Type} (hw : Hw W) (s : so_t W)
    (h : espera_zero s.process_table) :
    espera_zero (so_trata_pendencias hw s).process_table := by
  unfold so_trata_pendencias
  apply espera_zero_foldl pendencias_destroi (fun s i h => pendencias_destroi_espera s i h)
  exact espera_zero_foldl (pendencias_acorda hw)
    (fun s i h => pendencias_acorda_espera hw s i h) indices s h

theorem so_escalona_espera {W : Type} (s : so_t W) (h : espera_zero s.process_table) :
    espera_zero (so_escalona s).process_table := by
  intro j q hq
  cases hp : s.process_table j with
  | none => rw [so_escalona_vazio s j hp] at hq; cases hq
  | some p =>
    obtain ⟨st, h1, _⟩ := so_escalona_descritor s j p hp
    rw [h1] at hq
    cases hq
    exact h j p hp

theorem espera_ativa_espera {W : Type} (hw : Hw W) (n : Nat) (s s2 : so_t W)
    (h : espera_zero s.process_table) (he : espera_ativa hw n s = some s2) :
    espera_zero s2.process_table := by
  induction n generalizing s with
  | zero =>
    unfold espera_ativa at he
    split at he
    · cases he
    · cases he
      exact h
  | succ n ih =>
    unfold espera_ativa at he
    split at he
    · apply ih _ _ he
      unfold espera_passo
      exact so_escalona_espera _ (so_trata_pendencias_espera hw _ h)
    · cases he
      exact h

theorem so_trata_interrupcao_espera {W : Type} (hw : Hw W) (n : Nat) (s s2 : so_t W)
    (irq r : Int) (h : espera_zero s.process_table) (hl : corrente_livre s)
    (h2 : so_trata_interrupcao hw n s irq = some (r, s2)) :
    espera_zero s2.process_table := by
  unfold so_trata_interrupcao at h2
  split at h2
  · cases h2
  · rename_i s1 h1
    split at h2
    · cases h2
    · rename_i s3 h3
      rw [(so_despacha_campos hw s3 s2 r h2).1]
      exact espera_ativa_espera hw n _ s3
        (so_escalona_espera _ (so_trata_pendencias_espera hw _
          (so_trata_irq_espera hw _ s1 irq (so_salva_espera hw s h hl).1
            (so_salva_espera hw s h hl).2 h1))) h3

theorem so_cria_corrente_livre {W : Type} (hw : Hw W) (w : W) :
    corrente_livre (so_cria hw w) := by
  intro k proc hk
  have h := (corrente_some hk).2
  rw [so_cria_tabela] at h
  cases h

theorem retorno_corrente_livre {W : Type} (hw : Hw W) (r : Int) (s : so_t W) (w : W)
    (h : Retorno hw r s) : corrente_livre { s with mundo := w } := by
  intro k proc hk
  obtain ⟨hcur, hp⟩ := corrente_some hk
  obtain ⟨⟨hs, hc⟩, _⟩ := retorno_apos hw r s h
  have hco := retorno_coerente hw r s h k proc hp
  have hrun : proc.state = .RUNNING := by
    rcases hc with hc | ⟨k2, hk2, p2, hp2, hr2⟩
    · have hcur2 : s.current_process = ((k : Nat) : Int) := hcur
      rw [hc] at hcur2
      unfold NO_PROCESS_RUNNING at hcur2
      omega
    · have hcur2 : s.current_process = ((k : Nat) : Int) := hcur
      have hkk : k2 = k := by
        apply Fin.ext
        omega
      subst hkk
      have hp3 : s.process_table k2 = some proc := hp
      rw [hp2] at hp3
      cases hp3
      exact hr2
  by_contra hne
  have hb := hco.2 hne
  rw [hrun] at hb
  cases hb

theorem retorno_espera {W : Type} (hw : Hw W) (r : Int) (s : so_t W) (h : Retorno hw r s) :
    espera_zero s.process_table := by
  induction h with
  | primeiro w n irq r s h =>
    apply so_trata_interrupcao_espera hw n _ s irq r _ (so_cria_corrente_livre hw w) h
    rw [so_cria_tabela]
    intro j p hp
    cases hp
  | seguinte r0 s0 w n irq r s h0 h ih =>
    exact so_trata_interrupcao_espera hw n { s0 with mundo := w } s irq r ih
      (retorno_corrente_livre hw r0 s0 w h0) h

/-- In a state in which a trap is taken no process that waits for another has a
non-zero register `a`, and the current process is not blocked. -/
theorem entrada_espera {W : Type} (hw : Hw W) (s : so_t W) (h : Entrada hw s) :
    espera_zero s.process_table ∧ corrente_livre s := by
  cases h with
  | primeira w =>
    refine ⟨?_, so_cria_corrente_livre hw w⟩
    rw [so_cria_tabela]
    intro j p hp
    cases hp
  | seguinte r0 s0 w h0 =>
    exact ⟨retorno_espera hw r0 s0 h0, retorno_corrente_livre hw r0 s0 w h0⟩

/-! ## The join law over a run -/

theorem retorno_espera_filho : Retorno hwT 0 so_espera_filho :=
  Retorno.seguinte 0 so_criou (maquina_espera 1) 0 hwT.IRQ_SISTEMA 0 so_espera_filho
    retorno_criou rfl

theorem retorno_dois_filhos : Retorno hwT 0 so_dois_filhos :=
  Retorno.seguinte 0 so_criou maquina_cria 0 hwT.IRQ_SISTEMA 0 so_dois_filhos retorno_criou rfl

theorem retorno_pai_le : Retorno hwT 0 so_pai_le :=
  Retorno.seguinte 0 so_dois_filhos maquina_le 0 hwT.IRQ_SISTEMA 0 so_pai_le
    retorno_dois_filhos rfl

theorem retorno_filho_espera : Retorno hwT 0 so_filho_espera :=
  Retorno.seguinte 0 so_pai_le (maquina_espera 1) 0 hwT.IRQ_SISTEMA 0 so_filho_espera
    retorno_pai_le rfl

/-- In a state in which a trap is taken the pids of the table are pairwise distinct
and below the pid counter. -/
theorem entrada_pids {W : Type} (hw : Hw W) (s : so_t W) (h : Entrada hw s) :
    pids_distintos s.process_table ∧ pids_abaixo s.process_table s.process_counter := by
  cases h with
  | primeira w =>
    rw [so_cria_tabela]
    exact ⟨fun _ _ _ _ hp => (by cases hp), fun _ _ hp => (by cases hp)⟩
  | seguinte r0 s0 w h0 =>
    exact ⟨retorno_distintos hw r0 s0 h0, retorno_pids hw r0 s0 h0⟩

/-- Claim C17, amended: take a trap of a run that starts from a freshly created
kernel, a trap that returns, and a process that is BLOCKED on a JOIN with pid `t`
when the interrupt service of that trap has run, the descriptor with pid `t` being
present at that point. If that descriptor is not TERMINATED at that point, the
joiner is unchanged, still BLOCKED on the JOIN, when the trap returns. If it is
TERMINATED at that point, then when the trap returns its slot is empty and the
joiner is READY or RUNNING, not blocked, with the registers it had, and its
register `a` is 0. -/
theorem lei_da_espera {W : Type} (hw : Hw W) (n : Nat) (s s1 s2 : so_t W) (irq r : Int)
    (i j : Fin MAX_PROCESSES) (joiner alvo : Process)
    (he : Entrada hw s)
    (h1 : so_trata_irq hw (so_salva_estado_da_cpu hw s) irq = some s1)
    (h2 : so_trata_interrupcao hw n s irq = some (r, s2))
    (hi : s1.process_table i = some joiner) (hb : joiner.state = .BLOCKING)
    (hk : joiner.blocking.kind = .PROCESS)
    (hj : s1.process_table j = some alvo) (hpid : alvo.pid = joiner.blocking.id) :
    (alvo.state ≠ .TERMINATED → s2.process_table i = some joiner) ∧
    (alvo.state = .TERMINATED →
      s2.process_table j = none ∧
      ∃ p, s2.process_table i = some p ∧ (p.state = .READY ∨ p.state = .RUNNING) ∧
        p.blocking.kind = .NOT_BLOCKING ∧ p.context = joiner.context ∧
        p.context.a = 0 ∧ p.pid = joiner.pid) := by
  obtain ⟨hz, hl⟩ := entrada_espera hw s he
  obtain ⟨hd, hab⟩ := entrada_pids hw s he
  have ha : joiner.context.a = 0 :=
    so_trata_irq_espera hw _ s1 irq (so_salva_espera hw s hz hl).1
      (so_salva_espera hw s hz hl).2 h1 i joiner hi hk
  have hd1 : pids_distintos s1.process_table :=
    so_trata_irq_distintos hw _ s1 irq (so_salva_distintos hw s hd) (so_salva_pids hw s hab) h1
  have hfirst : ∀ j2 q, j2 < j → s1.process_table j2 = some q →
      q.pid ≠ joiner.blocking.id := by
    intro j2 q hlt hq hqpid
    have := hd1 j2 j q alvo hq hj (hqpid.trans hpid.symm)
    exact absurd this (ne_of_lt hlt)
  unfold so_trata_interrupcao at h2
  rw [h1] at h2
  dsimp only at h2
  split at h2
  · cases h2
  · rename_i s3 h3
    rw [(so_despacha_campos hw s3 s2 r h2).1]
    constructor
    · intro hnt
      have hv : espera_viva s1.process_table i j joiner :=
        ⟨hi, ⟨alvo, hj, hpid, hnt⟩, hfirst⟩
      exact (espera_ativa_viva hw n _ s3 i j joiner hb hk
        (so_escalona_viva _ i j joiner hb
          (so_trata_pendencias_viva hw s1 i j joiner hb hk hv)) h3).1
    · intro ht
      obtain ⟨hvazio, p, hp, hst, hkind, hctx, hp2⟩ :=
        espera_ativa_acordado hw n _ s3 i j joiner
          (so_escalona_acordado _ i j joiner
            (so_trata_pendencias_junta hw s1 i j joiner alvo hi hb hk hj hpid hfirst ht))
          h3
      exact ⟨hvazio, p, hp, hst, hkind, hctx, by rw [hctx]; exact ha, hp2⟩

/-- Claim C17, amended, on a run of the concrete machine: after the boot pid 0 creates
pid 1 and waits for it; pid 1 runs and kills itself. When that trap returns the
slot of pid 1 is empty and pid 0 is READY or RUNNING, not blocked, with register
`a` equal to 0. -/
theorem lei_da_espera_filho :
    (so_apos { so_espera_filho with mundo := maquina_mata 0 } hwT.IRQ_SISTEMA).process_table 3
      = none ∧
    ∃ p, (so_apos { so_espera_filho with mundo := maquina_mata 0 }
        hwT.IRQ_SISTEMA).process_table 0 = some p ∧
      (p.state = .READY ∨ p.state = .RUNNING) ∧ p.blocking.kind = .NOT_BLOCKING ∧
      p.context.a = 0 ∧ p.pid = 0 := by
  obtain ⟨h1, p, h2, h3, h4, _, h5, h6⟩ :=
    (lei_da_espera hwT 0 { so_espera_filho with mundo := maquina_mata 0 }
      (so_servido { so_espera_filho with mundo := maquina_mata 0 } hwT.IRQ_SISTEMA)
      (so_apos { so_espera_filho with mundo := maquina_mata 0 } hwT.IRQ_SISTEMA)
      hwT.IRQ_SISTEMA 0 0 3
      { processo_de 0 .BLOCKING 0 with
        blocking := { kind := .PROCESS, id := 1 }
        context := { pc := 0, a := 0, x := 1, err := 0 } }
      { processo_de 1 .TERMINATED 3 with context := { pc := 0, a := 4, x := 0, err := 0 } }
      (Entrada.seguinte 0 so_espera_filho (maquina_mata 0) retorno_espera_filho)
      rfl rfl (by decide) rfl rfl (by decide) rfl).2 rfl
  exact ⟨h1, p, h2, h3, h4, h5, h6⟩

/-- Claim C17 as stated fails, on a run of the concrete machine: after the boot pid 0
creates pid 1 and pid 2 and blocks on a READ, pid 2 waits for pid 1, and pid 1
runs. Pid 2 is BLOCKED on a JOIN with pid 1. In the next trap pid 1 kills pid 2:
pid 1 is present and RUNNING at the resolution pass and at the return, and yet
pid 2 is not BLOCKED when the trap returns, its descriptor is gone. -/
theorem lei_da_espera_contra :
    Entrada hwT { so_filho_espera with mundo := maquina_mata 2 } ∧
    (so_filho_espera.process_table 2).map
        (fun p => (p.pid, p.state, p.blocking.kind, p.blocking.id))
      = some (2, .BLOCKING, .PROCESS, 1) ∧
    ((so_servido { so_filho_espera with mundo := maquina_mata 2 }
        hwT.IRQ_SISTEMA).process_table 3).map (fun p => (p.pid, p.state))
      = some (1, .RUNNING) ∧
    (so_trata_interrupcao hwT 0 { so_filho_espera with mundo := maquina_mata 2 }
        hwT.IRQ_SISTEMA).map
        (fun r => (r.1, r.2.process_table 2,
          (r.2.process_table 3).map (fun p => (p.pid, p.state))))
      = some (0, none, some (1, .RUNNING)) :=
  ⟨Entrada.seguinte 0 so_filho_espera (maquina_mata 2) retorno_filho_espera,
    by decide, by decide, by decide⟩

/-! ## Copying a string out of the memory of a process -/

theorem char_de_pequeno (v : Int) (h0 : 0 ≤ v) (h1 : v ≤ 127) : char_de v = v := by
  unfold char_de
  omega

theorem char_de_grande (v : Int) (h0 : 128 ≤ v) (h1 : v ≤ 255) : char_de v = v - 256 := by
  unfold char_de
  omega

theorem so_copia_str_achou {W : Type} (hw : Hw W) (w : W) (n : Nat) (e : Int) (k : Nat)
    (hk : k < n)
    (h0 : (hw.mmu_le w (e + k) .usuario).ok = true ∧ (hw.mmu_le w (e + k) .usuario).valor = 0)
    (hj : ∀ j, j < k → (hw.mmu_le w (e + j) .usuario).ok = true ∧
      1 ≤ (hw.mmu_le w (e + j) .usuario).valor ∧ (hw.mmu_le w (e + j) .usuario).valor ≤ 255) :
    so_copia_str_laco hw w n e
      = (true, (List.range k).map
          (fun j => char_de (hw.mmu_le w (e + (j : Nat)) .usuario).valor) ++ [0]) := by
  induction n generalizing e k with
  | zero => exact absurd hk (Nat.not_lt_zero k)
  | succ n ih =>
    unfold so_copia_str_laco
    dsimp only
    cases k with
    | zero =>
      have h00 : (hw.mmu_le w e .usuario).ok = true ∧ (hw.mmu_le w e .usuario).valor = 0 := by
        simpa using h0
      rw [if_neg (by simp [h00.1]), if_neg (by rw [h00.2]; omega), if_pos h00.2, h00.2]
      rfl
    | succ k =>
      have hprim := hj 0 (Nat.succ_pos k)
      have hprim2 : (hw.mmu_le w e .usuario).ok = true ∧ 1 ≤ (hw.mmu_le w e .usuario).valor ∧
          (hw.mmu_le w e .usuario).valor ≤ 255 := by simpa using hprim
      rw [if_neg (by simp [hprim2.1]), if_neg (by omega), if_neg (by omega)]
      have hrec := ih (e + 1) k (Nat.lt_of_succ_lt_succ hk)
        (by
          have : e + 1 + (k : Int) = e + ((k + 1 : Nat) : Int) := by push_cast; ring
          rw [this]; exact h0)
        (by
          intro j hjk
          have : e + 1 + (j : Int) = e + ((j + 1 : Nat) : Int) := by push_cast; ring
          rw [this]; exact hj (j + 1) (Nat.succ_lt_succ hjk))
      rw [hrec]
      rw [List.range_succ_eq_map]
      simp only [List.map_cons, List.map_map, List.cons_append, Nat.cast_zero, add_zero,
        Prod.mk.injEq, List.cons.injEq, true_and]
      congr 1
      apply List.map_congr_left
      intro j _
      simp only [Function.comp, Nat.succ_eq_add_one]
      have : e + 1 + (j : Int) = e + ((j + 1 : Nat) : Int) := by push_cast; ring
      rw [this]

theorem so_copia_str_falhou {W : Type} (hw : Hw W) (w : W) (n : Nat) (e : Int) (k : Nat)
    (hj : ∀ j, j < k → (hw.mmu_le w (e + j) .usuario).ok = true ∧
      1 ≤ (hw.mmu_le w (e + j) .usuario).valor ∧ (hw.mmu_le w (e + j) .usuario).valor ≤ 255)
    (hfim : k = n ∨ (k < n ∧ ((hw.mmu_le w (e + k) .usuario).ok = false ∨
      (hw.mmu_le w (e + k) .usuario).valor < 0 ∨ (hw.mmu_le w (e + k) .usuario).valor > 255))) :
    (so_copia_str_laco hw w n e).1 = false := by
  induction n generalizing e k with
  | zero => rfl
  | succ n ih =>
    unfold so_copia_str_laco
    dsimp only
    cases k with
    | zero =>
      rcases hfim with h | ⟨_, h⟩
      · cases h
      · have h2 : (hw.mmu_le w e .usuario).ok = false ∨ (hw.mmu_le w e .usuario).valor < 0 ∨
            (hw.mmu_le w e .usuario).valor > 255 := by simpa using h
        rcases h2 with h2 | h2
        · rw [if_pos h2]
        · split
          · rfl
          · rfl
    | succ k =>
      have hprim := hj 0 (Nat.succ_pos k)
      have hprim2 : (hw.mmu_le w e .usuario).ok = true ∧ 1 ≤ (hw.mmu_le w e .usuario).valor ∧
          (hw.mmu_le w e .usuario).valor ≤ 255 := by simpa using hprim
      rw [if_neg (by simp [hprim2.1]), if_neg (by omega), if_neg (by omega)]
      apply ih (e + 1) k
      · intro j hjk
        have : e + 1 + (j : Int) = e + ((j + 1 : Nat) : Int) := by push_cast; ring
        rw [this]; exact hj (j + 1) (Nat.succ_lt_succ hjk)
      · have : e + 1 + (k : Int) = e + ((k + 1 : Nat) : Int) := by push_cast; ring
        rw [this]
        rcases hfim with h | ⟨h1, h2⟩
        · exact Or.inl (Nat.succ.inj h)
        · exact Or.inr ⟨Nat.lt_of_succ_lt_succ h1, h2⟩

/-- Along the addresses `e, e + 1, ...` there is a first index, at most `n`, at which
the read does not give a character in `1..255`. -/
theorem primeiro_nao_caractere {W : Type} (hw : Hw W) (w : W) (n : Nat) (e : Int) :
    ∃ k, k ≤ n ∧
      (∀ j, j < k → (hw.mmu_le w (e + j) .usuario).ok = true ∧
        1 ≤ (hw.mmu_le w (e + j) .usuario).valor ∧ (hw.mmu_le w (e + j) .usuario).valor ≤ 255) ∧
      (k < n → ¬ ((hw.mmu_le w (e + k) .usuario).ok = true ∧
        1 ≤ (hw.mmu_le w (e + k) .usuario).valor ∧
        (hw.mmu_le w (e + k) .usuario).valor ≤ 255)) := by
  induction n with
  | zero => exact ⟨0, le_refl _, fun j hj => absurd hj (Nat.not_lt_zero j), fun h => absurd h (Nat.lt_irrefl 0)⟩
  | succ n ih =>
    obtain ⟨k, hk, h1, h2⟩ := ih
    by_cases hkn : k < n
    · exact ⟨k, Nat.le_succ_of_le hk, h1, fun _ => h2 hkn⟩
    · have hkn2 : k = n := Nat.le_antisymm hk (Nat.not_lt.1 hkn)
      subst hkn2
      by_cases hc : (hw.mmu_le w (e + k) .usuario).ok = true ∧
          1 ≤ (hw.mmu_le w (e + k) .usuario).valor ∧ (hw.mmu_le w (e + k) .usuario).valor ≤ 255
      · refine ⟨k + 1, le_refl _, ?_, fun h => absurd h (Nat.lt_irrefl _)⟩
        intro j hj
        rcases Nat.lt_succ_iff_lt_or_eq.1 hj with hlt | heq
        · exact h1 j hlt
        · rw [heq]; exact hc
      · exact ⟨k, Nat.le_succ k, h1, fun _ => hc⟩

/-- Claim C29, as the code has it: called for a process (a pointer that is not
`NULL`), `so_copia_str_do_processo` with `tam = 256` returns true if and only if
there is an index `k < 256` such that the read at `end_virt + k` gives 0 and, for
every `j < k`, the read at `end_virt + j` succeeds and gives a value in `1..255`.
When it returns true, `str[0..k]` holds those `k` values converted to `char`,
followed by 0: a value in `1..127` is stored as it is, a value `v` in `128..255` is
stored as `v - 256`, so `str` holds exactly the values read when none of them
exceeds 127.  It returns false when, after characters in `1..255` only, a read
fails or gives a value outside `0..255`, and when the first 256 reads give
characters in `1..255` only.  Called with `NULL` for the process it returns false
and stores nothing. -/
theorem copia_str_efeito {W : Type} (hw : Hw W) (w : W) (e : Int) (p : Process) :
    ((so_copia_str_do_processo hw w 256 e (some p)).1 = true ↔
      ∃ k, k < 256 ∧ zero_em hw w e k ∧ ∀ j, j < k → caractere_em hw w e j) ∧
    (∀ k, k < 256 → zero_em hw w e k → (∀ j, j < k → caractere_em hw w e j) →
      (so_copia_str_do_processo hw w 256 e (some p)).2
        = (List.range k).map
            (fun j => char_de (hw.mmu_le w (e + (j : Nat)) .usuario).valor) ++ [0]) ∧
    (∀ v : Int, (1 ≤ v ∧ v ≤ 127 → char_de v = v) ∧
      (128 ≤ v ∧ v ≤ 255 → char_de v = v - 256)) ∧
    (∀ k, k < 256 → zero_em hw w e k →
      (∀ j, j < k → caractere_em hw w e j ∧ (hw.mmu_le w (e + j) .usuario).valor ≤ 127) →
      (so_copia_str_do_processo hw w 256 e (some p)).2
        = (List.range k).map (fun j => (hw.mmu_le w (e + (j : Nat)) .usuario).valor) ++ [0]) ∧
    (∀ k, k < 256 → (∀ j, j < k → caractere_em hw w e j) →
      ((hw.mmu_le w (e + k) .usuario).ok = false ∨ (hw.mmu_le w (e + k) .usuario).valor < 0 ∨
        (hw.mmu_le w (e + k) .usuario).valor > 255) →
      (so_copia_str_do_processo hw w 256 e (some p)).1 = false) ∧
    ((∀ j, j < 256 → caractere_em hw w e j) →
      (so_copia_str_do_processo hw w 256 e (some p)).1 = false) ∧
    so_copia_str_do_processo hw w 256 e none = (false, []) := by
  have hdef : so_copia_str_do_processo hw w 256 e (some p) = so_copia_str_laco hw w 256 e := rfl
  rw [hdef]
  refine ⟨⟨?_, ?_⟩, ?_, ?_, ?_, ?_, ?_, rfl⟩
  · intro ht
    obtain ⟨k, hk, h1, h2⟩ := primeiro_nao_caractere hw w 256 e
    rcases Nat.lt_or_ge k 256 with hlt | hge
    · have hn := h2 hlt
      by_cases hz : (hw.mmu_le w (e + k) .usuario).ok = true ∧
          (hw.mmu_le w (e + k) .usuario).valor = 0
      · exact ⟨k, hlt, hz, h1⟩
      · have hf := so_copia_str_falhou hw w 256 e k h1 (Or.inr ⟨hlt, by
          by_cases hok : (hw.mmu_le w (e + k) .usuario).ok = true
          · right
            have h3 : ¬ (1 ≤ (hw.mmu_le w (e + k) .usuario).valor ∧
                (hw.mmu_le w (e + k) .usuario).valor ≤ 255) := fun h => hn ⟨hok, h⟩
            have h4 : (hw.mmu_le w (e + k) .usuario).valor ≠ 0 := fun h => hz ⟨hok, h⟩
            omega
          · left
            simpa using hok⟩)
        rw [hf] at ht
        cases ht
    · have hf := so_copia_str_falhou hw w 256 e k h1 (Or.inl (Nat.le_antisymm hk hge))
      rw [hf] at ht
      cases ht
  · rintro ⟨k, hk, h0, hj⟩
    rw [so_copia_str_achou hw w 256 e k hk h0 hj]
  · intro k hk h0 hj
    rw [so_copia_str_achou hw w 256 e k hk h0 hj]
  · intro v
    exact ⟨fun h => char_de_pequeno v (by omega) h.2, fun h => char_de_grande v h.1 h.2⟩
  · intro k hk h0 hj
    rw [so_copia_str_achou hw w 256 e k hk h0 (fun j hjk => (hj j hjk).1)]
    show List.map _ (List.range k) ++ [0] = List.map _ (List.range k) ++ [0]
    congr 1
    apply List.map_congr_left
    intro j hjm
    have hjk : j < k := List.mem_range.1 hjm
    exact char_de_pequeno _ (by have := (hj j hjk).1.2.1; omega) (hj j hjk).2
  · intro k hk hj hb
    exact so_copia_str_falhou hw w 256 e k hj (Or.inr ⟨hk, hb⟩)
  · intro hj
    exact so_copia_str_falhou hw w 256 e 256 hj (Or.inl rfl)

/-- Claim C29 on the concrete machine: the string "p1.maq" at address 200 is copied
with its final 0, exactly as read since every character is below 128, and with
no 0 anywhere in memory the copy fails. -/
theorem copia_str_efeito_nome :
    so_copia_str_do_processo hwT maquina_nome 256 200 (some (processo_de 0 .RUNNING 0))
      = (true, nome_de "p1.maq" ++ [0]) ∧
    (so_copia_str_do_processo hwT maquina_cheia 256 200 (some (processo_de 0 .RUNNING 0))).1
      = false := by
  refine ⟨?_, (copia_str_efeito hwT maquina_cheia 200 (processo_de 0 .RUNNING 0)).2.2.2.2.2.1 ?_⟩
  · have h := (copia_str_efeito hwT maquina_nome 200 (processo_de 0 .RUNNING 0)).2.2.2.1 6
      (by decide) (by decide)
      (by
        have F : ∀ j : Fin 6, caractere_em hwT maquina_nome 200 j ∧
            (hwT.mmu_le maquina_nome (200 + ((j : Nat) : Int)) .usuario).valor ≤ 127 := by decide
        exact fun j hj => F ⟨j, hj⟩)
    have h1 := ((copia_str_efeito hwT maquina_nome 200 (processo_de 0 .RUNNING 0)).1.2
      ⟨6, by decide, by decide, by
        have F : ∀ j : Fin 6, caractere_em hwT maquina_nome 200 j := by decide
        exact fun j hj => F ⟨j, hj⟩⟩)
    apply Prod.ext
    · exact h1
    · rw [h]
      decide
  · intro j _
    exact ⟨rfl, (by show (1 : Int) ≤ 65; decide), (by show (65 : Int) ≤ 255; decide)⟩

/-- Claim C29 as stated fails on the code: with the word 255 at address 200 and 0 at
address 201 the index `k = 1` is as the claim asks and the function returns true,
but `str` holds `-1, 0` and not the values read, `255, 0`. -/
theorem copia_str_efeito_contra :
    zero_em hwT maquina_ff 200 1 ∧
    (∀ j, j < 1 → caractere_em hwT maquina_ff 200 j) ∧
    so_copia_str_do_processo hwT maquina_ff 256 200 (some (processo_de 0 .RUNNING 0))
      = (true, [-1, 0]) ∧
    (List.range 1).map (fun j => (hwT.mmu_le maquina_ff (200 + ((j : Nat) : Int)) .usuario).valor)
      ++ [0] = [255, 0] ∧
    (so_copia_str_do_processo hwT maquina_ff 256 200 (some (processo_de 0 .RUNNING 0))).2
      ≠ (List.range 1).map
          (fun j => (hwT.mmu_le maquina_ff (200 + ((j : Nat) : Int)) .usuario).valor) ++ [0] := by
  have F : ∀ j : Fin 1, caractere_em hwT maquina_ff 200 j := by decide
  exact ⟨by decide, fun j hj => F ⟨j, hj⟩, by decide, by decide, by decide⟩

/-! ## The virtual loader: frames and writes -/

theorem escritas_succ (programa : programa_t) (m : Nat) (ev ef : Int) :
    escritas programa (m + 1) ev ef
      = (ef, programa.dado ev) :: escritas programa m (ev + 1) (ef + 1) := by
  unfold escritas
  rw [List.range_succ_eq_map]
  simp only [List.map_cons, List.map_map, Nat.cast_zero, add_zero, List.cons.injEq, true_and]
  apply List.map_congr_left
  intro i _
  simp only [Function.comp, Nat.succ_eq_add_one]
  push_cast
  have h1 : ef + ((i : Int) + 1) = ef + 1 + i := by ring
  have h2 : ev + ((i : Int) + 1) = ev + 1 + i := by ring
  rw [h1, h2]

/-- The copy loop on the machine with a journal: it appends to the journal the
writes of the words it has reached, all of them when it succeeds. -/
theorem carrega_laco_diario {W : Type} (hw : Hw W) (programa : programa_t) (n : Nat)
    (ev ef : Int) (w : W × List (Int × Int)) :
    ∃ m, m ≤ n ∧
      (carrega_laco (registra hw) programa n ev ef w).2.2 = w.2 ++ escritas programa m ev ef ∧
      ((carrega_laco (registra hw) programa n ev ef w).1 = true → m = n) := by
  induction n generalizing ev ef w with
  | zero => exact ⟨0, le_refl _, by simp [carrega_laco, escritas], fun _ => rfl⟩
  | succ n ih =>
    unfold carrega_laco
    cases hb : (hw.mem_escreve w.1 ef (programa.dado ev)).1 with
    | true =>
      have he : (registra hw).mem_escreve w ef (programa.dado ev)
          = (true, ((hw.mem_escreve w.1 ef (programa.dado ev)).2, w.2 ++ [(ef, programa.dado ev)])) := by
        show ((hw.mem_escreve w.1 ef (programa.dado ev)).1, _) = _
        rw [hb]
      rw [he]
      dsimp only
      obtain ⟨m, hm, h1, h2⟩ := ih (ev + 1) (ef + 1)
        ((hw.mem_escreve w.1 ef (programa.dado ev)).2, w.2 ++ [(ef, programa.dado ev)])
      refine ⟨m + 1, Nat.succ_le_succ hm, ?_, fun h => by rw [h2 h]⟩
      rw [h1, escritas_succ]
      simp
    | false =>
      have he : (registra hw).mem_escreve w ef (programa.dado ev)
          = (false, ((hw.mem_escreve w.1 ef (programa.dado ev)).2, w.2 ++ [(ef, programa.dado ev)])) := by
        show ((hw.mem_escreve w.1 ef (programa.dado ev)).1, _) = _
        rw [hb]
      rw [he]
      dsimp only
      refine ⟨1, Nat.succ_le_succ (Nat.zero_le n), ?_, fun h => by cases h⟩
      simp [escritas, List.range_succ]

theorem escritas_mem (programa : programa_t) (m : Nat) (ev ef : Int) (x : Int × Int)
    (hx : x ∈ escritas programa m ev ef) : ef ≤ x.1 ∧ x.1 < ef + m := by
  unfold escritas at hx
  simp only [List.mem_map, List.mem_range] at hx
  obtain ⟨i, hi, rfl⟩ := hx
  constructor
  · show ef ≤ ef + (i : Int)
    omega
  · show ef + (i : Int) < ef + m
    omega

/-- The pages an image covers hold at least its `n` words. -/
theorem paginas_cobrem {W : Type} (hw : Hw W) (L n : Int) (hTP : 0 < hw.TAM_PAGINA)
    (hL : 0 ≤ L) (hn : 1 ≤ n) :
    1 ≤ paginas_cobertas hw L n ∧ n ≤ paginas_cobertas hw L n * hw.TAM_PAGINA := by
  unfold paginas_cobertas
  have e1 : L.tdiv hw.TAM_PAGINA = L / hw.TAM_PAGINA :=
    Int.tdiv_eq_ediv hL (le_of_lt hTP)
  have e2 : (L + n - 1).tdiv hw.TAM_PAGINA = (L + n - 1) / hw.TAM_PAGINA :=
    Int.tdiv_eq_ediv (by omega) (le_of_lt hTP)
  rw [e1, e2]
  have a1 := Int.emod_add_ediv L hw.TAM_PAGINA
  have a2 := Int.emod_add_ediv (L + n - 1) hw.TAM_PAGINA
  have b1 := Int.emod_nonneg L (ne_of_gt hTP)
  have b2 := Int.emod_lt_of_pos (L + n - 1) hTP
  have b3 := Int.emod_nonneg (L + n - 1) (ne_of_gt hTP)
  have b4 := Int.emod_lt_of_pos L hTP
  have mono : L / hw.TAM_PAGINA ≤ (L + n - 1) / hw.TAM_PAGINA :=
    Int.ediv_le_ediv hTP (by omega)
  constructor
  · omega
  · have : ((L + n - 1) / hw.TAM_PAGINA - L / hw.TAM_PAGINA + 1) * hw.TAM_PAGINA
        = hw.TAM_PAGINA * ((L + n - 1) / hw.TAM_PAGINA) - hw.TAM_PAGINA * (L / hw.TAM_PAGINA)
          + hw.TAM_PAGINA := by ring
    rw [this]
    omega

theorem carrega_laco_sucesso {W : Type} (hw : Hw W) (programa : programa_t) (n : Nat)
    (ev ef : Int) (w : W) (hok : ∀ w a v, (hw.mem_escreve w a v).1 = true) :
    (carrega_laco hw programa n ev ef w).1 = true := by
  induction n generalizing ev ef w with
  | zero => rfl
  | succ n ih =>
    unfold carrega_laco
    have h := hok w ef (programa.dado ev)
    split
    · exact ih _ _ _
    · rename_i w1 he
      rw [he] at h
      cases h

theorem carga_virtual_resultado {W : Type} (hw : Hw W) (s : so_t W) (programa : programa_t)
    (p : Process) :
    ((so_carrega_programa_na_memoria_virtual hw s programa p).1 = programa.end_carga ∨
      (so_carrega_programa_na_memoria_virtual hw s programa p).1 = -1) ∧
    ((∀ w a v, (hw.mem_escreve w a v).1 = true) →
      (so_carrega_programa_na_memoria_virtual hw s programa p).1 = programa.end_carga) ∧
    (so_carrega_programa_na_memoria_virtual hw s programa p).2.quadro_livre
      = quadros_laco ((programa.end_carga + programa.tamanho - 1).tdiv hw.TAM_PAGINA + 1
          - programa.end_carga.tdiv hw.TAM_PAGINA).toNat s.quadro_livre := by
  unfold so_carrega_programa_na_memoria_virtual
  dsimp only
  refine ⟨?_, ?_, ?_⟩
  · split
    · exact Or.inl rfl
    · exact Or.inr rfl
  · intro hok
    have h := carrega_laco_sucesso hw programa
      (programa.end_carga + programa.tamanho - 1 + 1 - programa.end_carga).toNat
      programa.end_carga (s.quadro_livre * hw.TAM_PAGINA) s.mundo hok
    split
    · rfl
    · rename_i w1 he
      rw [he] at h
      cases h
  · split <;> rfl

theorem carga_virtual_diario {W : Type} (hw : Hw W) (s : so_t (W × List (Int × Int)))
    (programa : programa_t) (p : Process) :
    ∃ m, m ≤ programa.tamanho.toNat ∧
      (so_carrega_programa_na_memoria_virtual (registra hw) s programa p).2.mundo.2
        = s.mundo.2 ++ escritas programa m programa.end_carga
            (s.quadro_livre * hw.TAM_PAGINA) ∧
      ((so_carrega_programa_na_memoria_virtual (registra hw) s programa p).1 ≠ -1 →
        m = programa.tamanho.toNat) := by
  obtain ⟨m, hm, h1, h2⟩ := carrega_laco_diario hw programa
    (programa.end_carga + programa.tamanho - 1 + 1 - programa.end_carga).toNat
    programa.end_carga (s.quadro_livre * hw.TAM_PAGINA) s.mundo
  have hn : (programa.end_carga + programa.tamanho - 1 + 1 - programa.end_carga).toNat
      = programa.tamanho.toNat := by
    congr 1
    ring
  have h1b : (carrega_laco (registra hw) programa
      (programa.end_carga + programa.tamanho - 1 + 1 - programa.end_carga).toNat
      programa.end_carga (s.quadro_livre * (registra hw).TAM_PAGINA) s.mundo).2.2
      = s.mundo.2 ++ escritas programa m programa.end_carga (s.quadro_livre * hw.TAM_PAGINA) := h1
  have h2b : (carrega_laco (registra hw) programa
      (programa.end_carga + programa.tamanho - 1 + 1 - programa.end_carga).toNat
      programa.end_carga (s.quadro_livre * (registra hw).TAM_PAGINA) s.mundo).1 = true →
      m = (programa.end_carga + programa.tamanho - 1 + 1 - programa.end_carga).toNat := h2
  rw [hn] at hm
  refine ⟨m, hm, ?_, ?_⟩
  · unfold so_carrega_programa_na_memoria_virtual
    dsimp only
    split
    · rename_i w1 he
      rw [he] at h1b
      exact h1b
    · rename_i w1 he
      rw [he] at h1b
      exact h1b
  · intro hr
    rw [← hn]
    apply h2b
    unfold so_carrega_programa_na_memoria_virtual at hr
    dsimp only at hr
    split at hr
    · rename_i w1 he
      rw [he]
    · exact absurd rfl hr

/-- Claim C23: for an image with load address `L >= 0` and size `n >= 1`, on a machine
with a positive page size, `so_carrega_programa_na_memoria_virtual` advances the
frame counter by exactly the number of virtual pages the image covers,
`(L+n-1) / TAM_PAGINA - L / TAM_PAGINA + 1`, whether it succeeds or fails; its result
is `L` or the failure code `-1`, and it is `L` when every write succeeds; and, on the
machine that keeps a journal of the writes to physical memory, all the addresses
it writes lie inside the frames `[q0, q0 + that number)`, `q0` being the frame
counter before the call. -/
theorem carga_virtual_quadros {W : Type} (hw : Hw W) (s : so_t W)
    (sd : so_t (W × List (Int × Int))) (programa : programa_t) (p : Process)
    (hTP : 0 < hw.TAM_PAGINA) (hL : 0 ≤ programa.end_carga) (hn : 1 ≤ programa.tamanho) :
    (so_carrega_programa_na_memoria_virtual hw s programa p).2.quadro_livre
      = s.quadro_livre + paginas_cobertas hw programa.end_carga programa.tamanho ∧
    ((so_carrega_programa_na_memoria_virtual hw s programa p).1 = programa.end_carga ∨
      (so_carrega_programa_na_memoria_virtual hw s programa p).1 = -1) ∧
    ((∀ w a v, (hw.mem_escreve w a v).1 = true) →
      (so_carrega_programa_na_memoria_virtual hw s programa p).1 = programa.end_carga) ∧
    ∃ m, m ≤ programa.tamanho.toNat ∧
      (so_carrega_programa_na_memoria_virtual (registra hw) sd programa p).2.mundo.2
        = sd.mundo.2 ++ escritas programa m programa.end_carga
            (sd.quadro_livre * hw.TAM_PAGINA) ∧
      ((so_carrega_programa_na_memoria_virtual (registra hw) sd programa p).1 ≠ -1 →
        m = programa.tamanho.toNat) ∧
      ∀ x, x ∈ escritas programa m programa.end_carga (sd.quadro_livre * hw.TAM_PAGINA) →
        sd.quadro_livre * hw.TAM_PAGINA ≤ x.1 ∧
        x.1 < (sd.quadro_livre + paginas_cobertas hw programa.end_carga programa.tamanho)
          * hw.TAM_PAGINA := by
  obtain ⟨r1, r2, r3⟩ := carga_virtual_resultado hw s programa p
  obtain ⟨hc1, hc2⟩ := paginas_cobrem hw programa.end_carga programa.tamanho hTP hL hn
  refine ⟨?_, r1, r2, ?_⟩
  · rw [r3, quadros_laco_soma]
    unfold paginas_cobertas at hc1 ⊢
    have : (((programa.end_carga + programa.tamanho - 1).tdiv hw.TAM_PAGINA + 1
        - programa.end_carga.tdiv hw.TAM_PAGINA).toNat : Int)
        = (programa.end_carga + programa.tamanho - 1).tdiv hw.TAM_PAGINA + 1
          - programa.end_carga.tdiv hw.TAM_PAGINA := Int.toNat_of_nonneg (by omega)
    rw [this]
    ring
  · obtain ⟨m, hm, h1, h2⟩ := carga_virtual_diario hw sd programa p
    refine ⟨m, hm, h1, h2, ?_⟩
    intro x hx
    obtain ⟨hx1, hx2⟩ := escritas_mem programa m _ _ x hx
    refine ⟨hx1, ?_⟩
    have hm2 : (m : Int) ≤ programa.tamanho := by
      have := Int.toNat_of_nonneg (show 0 ≤ programa.tamanho by omega)
      omega
    rw [add_mul]
    omega

/-- Claim C23 on the concrete machine: pages of 10 words, the image of "p1.maq" with
load address 5 and 12 words covers pages 0 and 1; from the state after the boot,
where the frame counter is 11, the loader returns 5 and leaves the counter at 13. -/
theorem carga_virtual_quadros_p1 :
    (so_carrega_programa_na_memoria_virtual hwT so_boot imagem_p1
      (processo_de 1 .NEW 3)).2.quadro_livre = 13 ∧
    (so_carrega_programa_na_memoria_virtual hwT so_boot imagem_p1 (processo_de 1 .NEW 3)).1 = 5 :=
  ⟨(carga_virtual_quadros hwT so_boot so_boot_diario imagem_p1 (processo_de 1 .NEW 3)
      (by decide) (by decide) (by decide)).1.trans (by decide),
    (carga_virtual_quadros hwT so_boot so_boot_diario imagem_p1 (processo_de 1 .NEW 3)
      (by decide) (by decide) (by decide)).2.2.1 (fun _ _ _ => rfl)⟩

/-- Claim C22, amended: when `so_carrega_programa_na_memoria_virtual` succeeds, the
words of the image are stored one after the other from the first address of frame
`q0`, the frame counter before the call: on the machine that keeps a journal the
writes of the call are, in order, `data(v)` to the address `q0 * TAM_PAGINA + (v - L)`
for `v = L, ..., L + n - 1`, each address once.  That address is `L mod TAM_PAGINA`
below the one the page-to-frame assignment gives, `(q0 + v / TAM_PAGINA -
L / TAM_PAGINA) * TAM_PAGINA + v mod TAM_PAGINA`: the two are the same exactly when
`L` is a multiple of `TAM_PAGINA`. -/
theorem carga_virtual_dados {W : Type} (hw : Hw W) (sd : so_t (W × List (Int × Int)))
    (programa : programa_t) (p : Process)
    (hs : (so_carrega_programa_na_memoria_virtual (registra hw) sd programa p).1 ≠ -1) :
    (so_carrega_programa_na_memoria_virtual (registra hw) sd programa p).2.mundo.2
      = sd.mundo.2 ++ escritas programa programa.tamanho.toNat programa.end_carga
          (sd.quadro_livre * hw.TAM_PAGINA) ∧
    (∀ v, programa.end_carga ≤ v → v < programa.end_carga + programa.tamanho →
      (sd.quadro_livre * hw.TAM_PAGINA + (v - programa.end_carga), programa.dado v)
        ∈ escritas programa programa.tamanho.toNat programa.end_carga
            (sd.quadro_livre * hw.TAM_PAGINA)) ∧
    (∀ v : Int,
      sd.quadro_livre * hw.TAM_PAGINA + (v - programa.end_carga)
        = (sd.quadro_livre + v.tdiv hw.TAM_PAGINA
            - programa.end_carga.tdiv hw.TAM_PAGINA) * hw.TAM_PAGINA
          + v.tmod hw.TAM_PAGINA - programa.end_carga.tmod hw.TAM_PAGINA) := by
  obtain ⟨m, _, h1, h2⟩ := carga_virtual_diario hw sd programa p
  rw [h2 hs] at h1
  refine ⟨h1, ?_, ?_⟩
  · intro v hv1 hv2
    unfold escritas
    simp only [List.mem_map, List.mem_range]
    refine ⟨(v - programa.end_carga).toNat, ?_, ?_⟩
    · omega
    · have : (((v - programa.end_carga).toNat : Nat) : Int) = v - programa.end_carga :=
        Int.toNat_of_nonneg (by omega)
      rw [this]
      congr 2
      ring
  · intro v
    have a1 := Int.tmod_add_tdiv v hw.TAM_PAGINA
    have a2 := Int.tmod_add_tdiv programa.end_carga hw.TAM_PAGINA
    have : (sd.quadro_livre + v.tdiv hw.TAM_PAGINA
        - programa.end_carga.tdiv hw.TAM_PAGINA) * hw.TAM_PAGINA
        = sd.quadro_livre * hw.TAM_PAGINA + hw.TAM_PAGINA * v.tdiv hw.TAM_PAGINA
          - hw.TAM_PAGINA * programa.end_carga.tdiv hw.TAM_PAGINA := by ring
    rw [this]
    omega

/-- Claim C22, amended, on the concrete machine: the 12 words of "p1.maq", load
address 5, are written to the addresses 110 to 121 when the frame counter is 11. -/
theorem carga_virtual_dados_p1 :
    (so_carrega_programa_na_memoria_virtual (registra hwT) so_boot_diario imagem_p1
      (processo_de 1 .NEW 3)).2.mundo.2
      = [(110, 6), (111, 7), (112, 8), (113, 9), (114, 10), (115, 11), (116, 12), (117, 13),
          (118, 14), (119, 15), (120, 16), (121, 17)] :=
  (carga_virtual_dados hwT so_boot_diario imagem_p1 (processo_de 1 .NEW 3)
    (by decide)).1.trans (by decide)

/-- Claim C22 as stated fails on the concrete machine (pages of 10 words): the image of
"p1.maq" has load address 5, which is not a multiple of 10; the loader succeeds
with the frame counter at 11; for `v = 5` the address of the claim is
`(11 + 5 / 10 - 5 / 10) * 10 + 5 mod 10 = 115`, and that address then holds
`data(10) = 11`, not `data(5) = 6`. -/
theorem carga_virtual_dados_contra :
    so_boot.quadro_livre = 11 ∧
    (so_carrega_programa_na_memoria_virtual hwT so_boot imagem_p1
      (processo_de 1 .NEW 3)).1 = imagem_p1.end_carga ∧
    (so_boot.quadro_livre + (5 : Int).tdiv hwT.TAM_PAGINA
      - imagem_p1.end_carga.tdiv hwT.TAM_PAGINA) * hwT.TAM_PAGINA
        + (5 : Int).tmod hwT.TAM_PAGINA = 115 ∧
    (so_carrega_programa_na_memoria_virtual hwT so_boot imagem_p1
      (processo_de 1 .NEW 3)).2.mundo.mem 115 = 11 ∧
    imagem_p1.dado 5 = 6 := by
  refine ⟨by decide, by decide, by decide, by decide, by decide⟩

/-! ## The frame counter stays above the reserved addresses -/

theorem so_cria_quadro {W : Type} (hw : Hw W) (w : W) :
    (so_cria hw w).quadro_livre = (99 : Int).tdiv hw.TAM_PAGINA + 1 := by
  unfold so_cria
  rfl

theorem so_trata_interrupcao_quadro {W : Type} (hw : Hw W) (n : Nat) (s s2 : so_t W)
    (irq r : Int) (h : so_trata_interrupcao hw n s irq = some (r, s2)) :
    s.quadro_livre ≤ s2.quadro_livre := by
  unfold so_trata_interrupcao at h
  split at h
  · cases h
  · rename_i s1 h1
    split at h
    · cases h
    · rename_i s3 h3
      have e1 := so_trata_irq_quadro hw _ s1 irq h1
      rw [so_salva_quadro] at e1
      have e3 := espera_ativa_quadro hw n _ s3 h3
      rw [so_escalona_quadro, (so_trata_pendencias_campos hw s1).2.2.2.1] at e3
      rw [so_despacha_quadro hw s3 s2 r h, e3]
      exact e1

theorem retorno_quadro {W : Type} (hw : Hw W) (r : Int) (s : so_t W) (h : Retorno hw r s) :
    (99 : Int).tdiv hw.TAM_PAGINA + 1 ≤ s.quadro_livre := by
  induction h with
  | primeiro w n irq r s h =>
    have := so_trata_interrupcao_quadro hw n _ s irq r h
    rw [so_cria_quadro] at this
    exact this
  | seguinte r0 s0 w n irq r s _ h ih =>
    exact le_trans ih (so_trata_interrupcao_quadro hw n { s0 with mundo := w } s irq r h)

theorem entrada_quadro {W : Type} (hw : Hw W) (s : so_t W) (h : Entrada hw s) :
    (99 : Int).tdiv hw.TAM_PAGINA + 1 ≤ s.quadro_livre := by
  cases h with
  | primeira w => rw [so_cria_quadro]
  | seguinte r0 s0 w h0 => exact retorno_quadro hw r0 s0 h0

/-- With pages of at least one word, frame `99 / TAM_PAGINA + 1` is the first frame
whose first address is at least 100. -/
theorem primeiro_quadro_livre (tp : Int) (htp : 1 ≤ tp) :
    100 ≤ ((99 : Int).tdiv tp + 1) * tp ∧ ((99 : Int).tdiv tp + 1 - 1) * tp ≤ 99 := by
  have e : (99 : Int).tdiv tp = 99 / tp := Int.tdiv_eq_ediv (by decide) (by omega)
  rw [e]
  have a := Int.emod_add_ediv 99 tp
  have b1 := Int.emod_nonneg 99 (show tp ≠ 0 by omega)
  have b2 := Int.emod_lt_of_pos 99 (show 0 < tp by omega)
  have c1 : (99 / tp + 1) * tp = tp * (99 / tp) + tp := by ring
  have c2 : (99 / tp + 1 - 1) * tp = tp * (99 / tp) := by ring
  rw [c1, c2]
  constructor <;> omega

/-- Claim C24: for every page size `TAM_PAGINA >= 1`, the frame counter set by `so_cria`
is `99 / TAM_PAGINA + 1`, the smallest frame index whose first address is at least
100: `quadro_livre * TAM_PAGINA >= 100` and `(quadro_livre - 1) * TAM_PAGINA <= 99`.
In every state in which a trap is taken in a run that starts from a freshly created
kernel the first address of frame `quadro_livre` is at least 100; and a call of the
virtual loader in a state where this holds writes, on the machine that keeps a
journal, to addresses that are at least 100 only, and leaves a frame counter for
which it holds again. -/
theorem quadros_acima_de_cem {W : Type} (hw : Hw W) (htp : 1 ≤ hw.TAM_PAGINA) :
    (∀ w, (so_cria hw w).quadro_livre = (99 : Int).tdiv hw.TAM_PAGINA + 1 ∧
      100 ≤ (so_cria hw w).quadro_livre * hw.TAM_PAGINA ∧
      ((so_cria hw w).quadro_livre - 1) * hw.TAM_PAGINA ≤ 99) ∧
    (∀ s, Entrada hw s → 100 ≤ s.quadro_livre * hw.TAM_PAGINA) ∧
    (∀ (sd : so_t (W × List (Int × Int))) (programa : programa_t) (p : Process),
      100 ≤ sd.quadro_livre * hw.TAM_PAGINA →
      100 ≤ (so_carrega_programa_na_memoria_virtual (registra hw) sd programa
        p).2.quadro_livre * hw.TAM_PAGINA ∧
      ∃ novas, (so_carrega_programa_na_memoria_virtual (registra hw) sd programa p).2.mundo.2
          = sd.mundo.2 ++ novas ∧ ∀ x, x ∈ novas → 100 ≤ x.1) := by
  obtain ⟨p1, p2⟩ := primeiro_quadro_livre hw.TAM_PAGINA htp
  refine ⟨?_, ?_, ?_⟩
  · intro w
    rw [so_cria_quadro]
    exact ⟨rfl, p1, p2⟩
  · intro s hs
    have h := entrada_quadro hw s hs
    exact le_trans p1 (mul_le_mul_of_nonneg_right h (by omega))
  · intro sd programa p hq
    constructor
    · have h := carga_virtual_quadro (registra hw) sd programa p
      exact le_trans hq (mul_le_mul_of_nonneg_right h (by omega))
    · obtain ⟨m, _, h1, _⟩ := carga_virtual_diario hw sd programa p
      refine ⟨_, h1, ?_⟩
      intro x hx
      have := (escritas_mem programa m _ _ x hx).1
      omega

/-- Claim C24 on the concrete machine, pages of 10 words: the frame counter starts at
10, the first address of frame 10 is 100 and frame 9 ends at 99; after the boot
the counter is 11. -/
theorem quadros_acima_de_cem_boot :
    so_inicial.quadro_livre = 10 ∧ 100 ≤ so_inicial.quadro_livre * 10 ∧
    (so_inicial.quadro_livre - 1) * 10 ≤ 99 ∧ 100 ≤ so_boot.quadro_livre * 10 :=
  ⟨((quadros_acima_de_cem hwT (by decide)).1 maquina0).1.trans (by decide),
    ((quadros_acima_de_cem hwT (by decide)).1 maquina0).2.1,
    ((quadros_acima_de_cem hwT (by decide)).1 maquina0).2.2,
    (quadros_acima_de_cem hwT (by decide)).2.1 { so_boot with mundo := so_boot.mundo }
      (Entrada.seguinte 0 so_boot so_boot.mundo retorno_boot)⟩

/-! ## Page tables are never written -/

theorem sem_mapa_update_some (t : Tabela) (k : Fin MAX_PROCESSES) (q : Process)
    (h : sem_mapa t) (hq : q.page_table = tabpag_cria) :
    sem_mapa (Function.update t k (some q)) := by
  intro j p hp
  by_cases hjk : j = k
  · subst hjk
    rw [Function.update_same] at hp
    cases hp
    exact hq
  · rw [Function.update_noteq hjk] at hp
    exact h j p hp

theorem sem_mapa_update_none (t : Tabela) (k : Fin MAX_PROCESSES) (h : sem_mapa t) :
    sem_mapa (Function.update t k none) := by
  intro j p hp
  by_cases hjk : j = k
  · subst hjk
    rw [Function.update_same] at hp
    cases hp
  · rw [Function.update_noteq hjk] at hp
    exact h j p hp

theorem sem_mapa_altera (t : Tabela) (k : Fin MAX_PROCESSES) (f : Process → Process)
    (h : sem_mapa t) (hf : ∀ p, (f p).page_table = p.page_table) :
    sem_mapa (altera t k f) := by
  intro j p hp
  rw [altera_apply] at hp
  by_cases hjk : j = k
  · subst hjk
    rw [if_pos rfl] at hp
    cases ht : t j with
    | none => simp [ht] at hp
    | some q =>
      simp only [ht, Option.map_some', Option.some.injEq] at hp
      subst hp
      rw [hf q]
      exact h j q ht
  · rw [if_neg hjk] at hp
    exact h j p hp

theorem process_receive_input_tabpag {W : Type} (hw : Hw W) (w : W) (proc : Process) :
    (process_receive_input hw w proc).1.page_table = proc.page_table := by
  unfold process_receive_input
  dsimp only
  split <;> rfl

theorem process_send_output_tabpag {W : Type} (hw : Hw W) (w : W) (proc : Process) :
    (process_send_output hw w proc).1.page_table = proc.page_table := by
  unfold process_send_output
  dsimp only
  split <;> rfl

theorem so_salva_sem_mapa {W : Type} (hw : Hw W) (s : so_t W) (h : sem_mapa s.process_table) :
    sem_mapa (so_salva_estado_da_cpu hw s).process_table := by
  unfold so_salva_estado_da_cpu
  split
  · exact h
  · split
    · exact h
    · split
      · exact h
      · rename_i k _ _ proc hk
        exact sem_mapa_update_some _ _ _ h (h k proc hk)

theorem so_trata_irq_reset_sem_mapa {W : Type} (hw : Hw W) (s : so_t W) :
    sem_mapa (so_trata_irq_reset hw s).process_table := by
  have hc : (so_carrega_programa hw
      { s with
        process_counter := (process_create s.process_counter hw.D_TERM_A_TECLADO hw.D_TERM_A_TELA).2
        current_process := 0
        process_table := Function.update (fun _ => none) 0
          (some (process_create s.process_counter hw.D_TERM_A_TECLADO hw.D_TERM_A_TELA).1) }
      (some (process_create s.process_counter hw.D_TERM_A_TECLADO hw.D_TERM_A_TELA).1)
      (nome_de "init.maq")).2.process_table
      = Function.update (fun _ => none) 0
          (some (process_create s.process_counter hw.D_TERM_A_TECLADO hw.D_TERM_A_TELA).1) :=
    (so_carrega_programa_campos hw _ _ _).1
  have h0 : sem_mapa (Function.update (fun _ => none) (0 : Fin MAX_PROCESSES)
      (some (process_create s.process_counter hw.D_TERM_A_TECLADO hw.D_TERM_A_TELA).1)) :=
    sem_mapa_update_some _ _ _ (fun _ _ h => by cases h) rfl
  unfold so_trata_irq_reset
  dsimp only
  split
  · show sem_mapa (so_carrega_programa hw _ _ _).2.process_table
    rw [hc]
    exact h0
  · show sem_mapa (altera (so_carrega_programa hw _ _ _).2.process_table 0 _)
    rw [hc]
    exact sem_mapa_altera _ _ _ h0 (fun _ => rfl)

theorem so_chamada_cria_proc_sem_mapa {W : Type} (hw : Hw W) (s s2 : so_t W)
    (h : sem_mapa s.process_table) (h2 : so_chamada_cria_proc hw s = some s2) :
    sem_mapa s2.process_table := by
  unfold so_chamada_cria_proc at h2
  split at h2
  · cases h2
  · rename_i k proc hk
    dsimp only at h2
    have ht : (so_carrega_programa hw
        { s with process_counter := (process_create s.process_counter
          ((procura_entrada s.process_table).tmod 4 * 4)
          ((procura_entrada s.process_table).tmod 4 * 4 + 2)).2 }
        (some (process_create s.process_counter
          ((procura_entrada s.process_table).tmod 4 * 4)
          ((procura_entrada s.process_table).tmod 4 * 4 + 2)).1)
        (nome_copiado (so_copia_str_do_processo hw s.mundo 256 proc.context.x (some proc)).2)).2.process_table
        = s.process_table := (so_carrega_programa_campos hw _ _ _).1
    split at h2
    · cases h2
      exact sem_mapa_altera _ _ _ h (fun _ => rfl)
    · split at h2
      · cases h2
        exact sem_mapa_altera _ _ _ h (fun _ => rfl)
      · split at h2
        · cases h2
          show sem_mapa (altera (so_carrega_programa hw _ _ _).2.process_table k _)
          rw [ht]
          exact sem_mapa_altera _ _ _ h (fun _ => rfl)
        · split at h2
          · cases h2
          · cases h2
            show sem_mapa (altera (Function.update
              (so_carrega_programa hw _ _ _).2.process_table _ _) k _)
            rw [ht]
            exact sem_mapa_altera _ _ _ (sem_mapa_update_some _ _ _ h rfl) (fun _ => rfl)

theorem so_trata_irq_chamada_sistema_sem_mapa {W : Type} (hw : Hw W) (s s2 : so_t W)
    (h : sem_mapa s.process_table) (h2 : so_trata_irq_chamada_sistema hw s = some s2) :
    sem_mapa s2.process_table := by
  unfold so_trata_irq_chamada_sistema at h2
  split at h2
  · cases h2
  · rename_i k proc hk
    have hv : proc.page_table = tabpag_cria := h k proc (corrente_some hk).2
    dsimp only at h2
    split at h2
    · unfold so_chamada_le at h2
      rw [hk] at h2
      dsimp only at h2
      split at h2
      · cases h2
        exact sem_mapa_update_some _ _ _ h hv
      · split at h2
        · cases h2
          exact sem_mapa_update_some _ _ _ h hv
        · cases h2
          exact sem_mapa_update_some _ _ _ h
            ((process_receive_input_tabpag hw _ proc).trans hv)
    · split at h2
      · unfold so_chamada_escr at h2
        rw [hk] at h2
        dsimp only at h2
        split at h2
        · cases h2
          exact sem_mapa_update_some _ _ _ h hv
        · split at h2
          · cases h2
            exact sem_mapa_update_some _ _ _ h hv
          · cases h2
            exact sem_mapa_update_some _ _ _ h
              ((process_send_output_tabpag hw _ proc).trans hv)
      · split at h2
        · exact so_chamada_cria_proc_sem_mapa hw s s2 h h2
        · split at h2
          · unfold so_chamada_mata_proc at h2
            rw [hk] at h2
            dsimp only at h2
            split at h2
            · cases h2
              exact sem_mapa_altera _ _ _ h (fun _ => rfl)
            · split at h2
              · cases h2
                exact sem_mapa_altera _ _ _
                  (sem_mapa_altera _ _ _ h (fun _ => rfl)) (fun _ => rfl)
              · cases h2
                exact sem_mapa_altera _ _ _ h (fun _ => rfl)
          · split at h2
            · unfold so_chamada_espera_proc at h2
              rw [hk] at h2
              dsimp only at h2
              split at h2
              · split at h2
                · cases h2
                  exact sem_mapa_update_some _ _ _ h hv
                · cases h2
                  exact sem_mapa_update_some _ _ _ h hv
              · cases h2
                exact sem_mapa_update_some _ _ _ h hv
            · cases h2
              exact sem_mapa_update_some _ _ _ h hv

theorem so_trata_irq_sem_mapa {W : Type} (hw : Hw W) (s s2 : so_t W) (irq : Int)
    (h : sem_mapa s.process_table) (h2 : so_trata_irq hw s irq = some s2) :
    sem_mapa s2.process_table := by
  unfold so_trata_irq at h2
  split at h2
  · cases h2
    exact so_trata_irq_reset_sem_mapa hw s
  · split at h2
    · exact so_trata_irq_chamada_sistema_sem_mapa hw s s2 h h2
    · split at h2
      · unfold so_trata_irq_err_cpu at h2
        split at h2
        · split at h2
          · cases h2
          · rename_i k ps hk
            cases h2
            exact sem_mapa_update_some _ _ _ h (h k ps (corrente_some hk).2)
        · cases h2
          exact h
      · split at h2
        · cases h2
          exact h
        · cases h2
          exact h

theorem pendencias_acorda_sem_mapa {W : Type} (hw : Hw W) (s : so_t W) (i : Fin MAX_PROCESSES)
    (h : sem_mapa s.process_table) :
    sem_mapa (pendencias_acorda hw s i).process_table := by
  unfold pendencias_acorda
  split
  · exact h
  · rename_i proc hp
    have hv : proc.page_table = tabpag_cria := h i proc hp
    split
    · exact h
    · split
      · dsimp only
        split
        · exact sem_mapa_update_some _ _ _ h
            ((process_receive_input_tabpag hw _ proc).trans hv)
        · exact h
      · dsimp only
        split
        · exact sem_mapa_update_some _ _ _ h
            ((process_send_output_tabpag hw _ proc).trans hv)
        · exact h
      · split
        · exact h
        · split
          · exact h
          · split
            · exact sem_mapa_update_some _ _ _ h hv
            · exact h
      · exact h

theorem pendencias_destroi_sem_mapa {W : Type} (s : so_t W) (i : Fin MAX_PROCESSES)
    (h : sem_mapa s.process_table) :
    sem_mapa (pendencias_destroi s i).process_table := by
  unfold pendencias_destroi
  split
  · exact h
  · split
    · exact sem_mapa_update_none _ _ h
    · exact h

theorem sem_mapa_foldl {W : Type} (f : so_t W → Fin MAX_PROCESSES → so_t W)
    (hf : ∀ s i, sem_mapa s.process_table → sem_mapa (f s i).process_table)
    (l : List (Fin MAX_PROCESSES)) (s : so_t W) (h : sem_mapa s.process_table) :
    sem_mapa (l.foldl f s).process_table := by
  induction l generalizing s with
  | nil => exact h
  | cons a l ih => exact ih (f s a) (hf s a h)

theorem so_trata_pendencias_sem_mapa {W : Type} (hw : Hw W) (s : so_t W)
    (h : sem_mapa s.process_table) :
    sem_mapa (so_trata_pendencias hw s).process_table := by
  unfold so_trata_pendencias
  apply sem_mapa_foldl pendencias_destroi (fun s i h => pendencias_destroi_sem_mapa s i h)
  exact sem_mapa_foldl (pendencias_acorda hw)
    (fun s i h => pendencias_acorda_sem_mapa hw s i h) indices s h

theorem so_escalona_sem_mapa {W : Type} (s : so_t W) (h : sem_mapa s.process_table) :
    sem_mapa (so_escalona s).process_table := by
  intro j q hq
  cases hp : s.process_table j with
  | none => rw [so_escalona_vazio s j hp] at hq; cases hq
  | some p =>
    obtain ⟨st, h1, _⟩ := so_escalona_descritor s j p hp
    rw [h1] at hq
    cases hq
    exact h j p hp

theorem espera_ativa_sem_mapa {W : Type} (hw : Hw W) (n : Nat) (s s2 : so_t W)
    (h : sem_mapa s.process_table) (he : espera_ativa hw n s = some s2) :
    sem_mapa s2.process_table := by
  induction n generalizing s with
  | zero =>
    unfold espera_ativa at he
    split at he
    · cases he
    · cases he
      exact h
  | succ n ih =>
    unfold espera_ativa at he
    split at he
    · apply ih _ _ he
      unfold espera_passo
      exact so_escalona_sem_mapa _ (so_trata_pendencias_sem_mapa hw _ h)
    · cases he
      exact h

theorem so_trata_interrupcao_sem_mapa {W : Type} (hw : Hw W) (n : Nat) (s s2 : so_t W)
    (irq r : Int) (h : sem_mapa s.process_table)
    (h2 : so_trata_interrupcao hw n s irq = some (r, s2)) :
    sem_mapa s2.process_table := by
  unfold so_trata_interrupcao at h2
  split at h2
  · cases h2
  · rename_i s1 h1
    split at h2
    · cases h2
    · rename_i s3 h3
      rw [(so_despacha_campos hw s3 s2 r h2).1]
      exact espera_ativa_sem_mapa hw n _ s3
        (so_escalona_sem_mapa _ (so_trata_pendencias_sem_mapa hw _
          (so_trata_irq_sem_mapa hw _ s1 irq (so_salva_sem_mapa hw s h) h1))) h3

theorem retorno_sem_mapa {W : Type} (hw : Hw W) (r : Int) (s : so_t W) (h : Retorno hw r s) :
    sem_mapa s.process_table := by
  induction h with
  | primeiro w n irq r s h =>
    apply so_trata_interrupcao_sem_mapa hw n _ s irq r _ h
    rw [so_cria_tabela]
    intro j p hp
    cases hp
  | seguinte r0 s0 w n irq r s _ h ih =>
    exact so_trata_interrupcao_sem_mapa hw n { s0 with mundo := w } s irq r ih h

/-- Claim C21, what the code does instead: `so_carrega_programa_na_memoria_virtual`
leaves the process table as it found it, whatever its result, so it installs no
mapping in the page table of any descriptor (the call that would do it is
commented out in the frame loop); and in every state reached at a return of the
trap handler in a run that starts from a freshly created kernel, each descriptor
still has the page table `tabpag_cria` gave it, which maps no page. -/
theorem carga_virtual_nao_mapeia {W : Type} (hw : Hw W) (sx : so_t W) (programa : programa_t)
    (processo : Process) (r : Int) (s : so_t W) (h : Retorno hw r s) :
    (so_carrega_programa_na_memoria_virtual hw sx programa processo).2.process_table
      = sx.process_table ∧
    (∀ j p, s.process_table j = some p → p.page_table = tabpag_cria) := by
  refine ⟨?_, retorno_sem_mapa hw r s h⟩
  unfold so_carrega_programa_na_memoria_virtual
  dsimp only
  split <;> rfl

/-- Claim C21 on the concrete machine: in the boot `init.maq`, load address 100 and 3
words, is loaded for pid 0 with the frame counter at 10; when the trap has
returned the loader has succeeded (the counter is 11, pid 0 is RUNNING) and the
page table of pid 0 has no entry, page 10 is not mapped to frame 10. -/
theorem carga_virtual_nao_mapeia_boot :
    so_inicial.quadro_livre = 10 ∧ so_boot.quadro_livre = 11 ∧
    (so_boot.process_table 0).map (fun p => (p.pid, p.state, p.page_table))
      = some (0, .RUNNING, []) ∧
    (∀ j p, so_boot.process_table j = some p → p.page_table = []) :=
  ⟨by decide, by decide, by decide,
    (carga_virtual_nao_mapeia hwT so_inicial imagem_p1 (processo_de 0 .NEW 0) 0 so_boot
      retorno_boot).2⟩

/-! ## The internal-error flag -/

theorem so_escalona_erro {W : Type} (s : so_t W) :
    (so_escalona s).erro_interno = s.erro_interno := by
  unfold so_escalona
  split
  · rfl
  · dsimp only
    split <;> rfl

theorem so_trata_irq_reset_erro {W : Type} (hw : Hw W) (s : so_t W)
    (h : s.erro_interno = true) : (so_trata_irq_reset hw s).erro_interno = true := by
  have hc := (so_carrega_programa_campos hw
      { s with
        process_counter := (process_create s.process_counter hw.D_TERM_A_TECLADO hw.D_TERM_A_TELA).2
        current_process := 0
        process_table := Function.update (fun _ => none) 0
          (some (process_create s.process_counter hw.D_TERM_A_TECLADO hw.D_TERM_A_TELA).1) }
      (some (process_create s.process_counter hw.D_TERM_A_TECLADO hw.D_TERM_A_TELA).1)
      (nome_de "init.maq")).2.2.1
  unfold so_trata_irq_reset
  dsimp only
  split
  · rfl
  · exact hc.trans h

theorem so_chamada_cria_proc_erro {W : Type} (hw : Hw W) (s s2 : so_t W)
    (h2 : so_chamada_cria_proc hw s = some s2) : s2.erro_interno = s.erro_interno := by
  unfold so_chamada_cria_proc at h2
  split at h2
  · cases h2
  · rename_i k proc hk
    dsimp only at h2
    have hc := (so_carrega_programa_campos hw
      { s with process_counter := (process_create s.process_counter
        ((procura_entrada s.process_table).tmod 4 * 4)
        ((procura_entrada s.process_table).tmod 4 * 4 + 2)).2 }
      (some (process_create s.process_counter
        ((procura_entrada s.process_table).tmod 4 * 4)
        ((procura_entrada s.process_table).tmod 4 * 4 + 2)).1)
      (nome_copiado (so_copia_str_do_processo hw s.mundo 256 proc.context.x (some proc)).2)).2.2.1
    split at h2
    · cases h2
      rfl
    · split at h2
      · cases h2
        rfl
      · split at h2
        · cases h2
          exact hc
        · split at h2
          · cases h2
          · cases h2
            exact hc

theorem so_trata_irq_chamada_sistema_erro {W : Type} (hw : Hw W) (s s2 : so_t W)
    (h : s.erro_interno = true) (h2 : so_trata_irq_chamada_sistema hw s = some s2) :
    s2.erro_interno = true := by
  unfold so_trata_irq_chamada_sistema at h2
  split at h2
  · cases h2
  · rename_i k proc hk
    dsimp only at h2
    split at h2
    · unfold so_chamada_le at h2
      rw [hk] at h2
      dsimp only at h2
      split at h2
      · cases h2
        exact h
      · split at h2 <;>
        · cases h2
          exact h
    · split at h2
      · unfold so_chamada_escr at h2
        rw [hk] at h2
        dsimp only at h2
        split at h2
        · cases h2
          exact h
        · split at h2 <;>
          · cases h2
            exact h
      · split at h2
        · exact (so_chamada_cria_proc_erro hw s s2 h2).trans h
        · split at h2
          · unfold so_chamada_mata_proc at h2
            rw [hk] at h2
            dsimp only at h2
            split at h2
            · cases h2
              exact h
            · split at h2 <;>
              · cases h2
                exact h
          · split at h2
            · unfold so_chamada_espera_proc at h2
              rw [hk] at h2
              dsimp only at h2
              split at h2
              · split at h2 <;>
                · cases h2
                  exact h
              · cases h2
                exact h
            · cases h2
              rfl

theorem so_trata_irq_erro {W : Type} (hw : Hw W) (s s2 : so_t W) (irq : Int)
    (h : s.erro_interno = true) (h2 : so_trata_irq hw s irq = some s2) :
    s2.erro_interno = true := by
  unfold so_trata_irq at h2
  split at h2
  · cases h2
    exact so_trata_irq_reset_erro hw s h
  · split at h2
    · exact so_trata_irq_chamada_sistema_erro hw s s2 h h2
    · split at h2
      · unfold so_trata_irq_err_cpu at h2
        split at h2
        · split at h2
          · cases h2
          · cases h2
            rfl
        · cases h2
          rfl
      · split at h2
        · cases h2
          unfold so_trata_irq_relogio
          dsimp only
          split
          · rfl
          · exact h
        · cases h2
          rfl

theorem ocioso_erro {W : Type} (s : so_t W) (h : s.erro_interno = true) : ocioso s = false := by
  unfold ocioso
  simp [h]

theorem so_despacha_erro {W : Type} (hw : Hw W) (s : so_t W) (h : s.erro_interno = true) :
    so_despacha hw s = some (1, s) := by
  unfold so_despacha
  rw [if_pos h]

theorem so_despacha_valor {W : Type} (hw : Hw W) (s3 s4 : so_t W) (r : Int)
    (h : so_despacha hw s3 = some (r, s4)) :
    (r ≠ 0 ↔ s3.erro_interno = true) ∧ s4.erro_interno = s3.erro_interno := by
  unfold so_despacha at h
  split at h
  · rename_i he
    cases h
    exact ⟨⟨fun _ => he, fun _ => by decide⟩, rfl⟩
  · rename_i he
    split at h
    · cases h
    · cases h
      exact ⟨⟨fun h0 => absurd rfl h0, fun h1 => absurd h1 he⟩, rfl⟩

/-- A trap whose interrupt service ends with the flag set skips the idle loop and
returns 1, with the flag still set. -/
theorem so_trata_interrupcao_servico_erro {W : Type} (hw : Hw W) (n : Nat) (s s1 : so_t W)
    (irq : Int) (h1 : so_trata_irq hw (so_salva_estado_da_cpu hw s) irq = some s1)
    (e1 : s1.erro_interno = true) :
    so_trata_interrupcao hw n s irq
      = some (1, so_escalona (so_trata_pendencias hw s1)) ∧
    (so_escalona (so_trata_pendencias hw s1)).erro_interno = true ∧
    espera_ativa hw n (so_escalona (so_trata_pendencias hw s1))
      = some (so_escalona (so_trata_pendencias hw s1)) := by
  have e2 : (so_escalona (so_trata_pendencias hw s1)).erro_interno = true := by
    rw [so_escalona_erro, (so_trata_pendencias_campos hw s1).2.2.1]
    exact e1
  have e3 := espera_ativa_nao_ocioso hw n _ (ocioso_erro _ e2)
  refine ⟨?_, e2, e3⟩
  unfold so_trata_interrupcao
  rw [h1]
  dsimp only
  rw [e3]
  dsimp only
  exact so_despacha_erro hw _ e2

/-- A trap taken with the flag set skips the idle loop and returns 1, with the flag
still set, whenever its interrupt service has a result. -/
theorem so_trata_interrupcao_erro {W : Type} (hw : Hw W) (n : Nat) (s s1 : so_t W) (irq : Int)
    (h : s.erro_interno = true)
    (h1 : so_trata_irq hw (so_salva_estado_da_cpu hw s) irq = some s1) :
    so_trata_interrupcao hw n s irq
      = some (1, so_escalona (so_trata_pendencias hw s1)) ∧
    (so_escalona (so_trata_pendencias hw s1)).erro_interno = true := by
  have e0 : (so_salva_estado_da_cpu hw s).erro_interno = true :=
    (so_salva_campos hw s).2.2.trans h
  have e1 := so_trata_irq_erro hw _ s1 irq e0 h1
  exact ⟨(so_trata_interrupcao_servico_erro hw n s s1 irq h1 e1).1,
    (so_trata_interrupcao_servico_erro hw n s s1 irq h1 e1).2.1⟩

theorem so_trata_interrupcao_trava {W : Type} (hw : Hw W) (n : Nat) (s s2 : so_t W)
    (irq r : Int) (h : s.erro_interno = true)
    (h2 : so_trata_interrupcao hw n s irq = some (r, s2)) :
    s2.erro_interno = true ∧ r = 1 := by
  cases h1 : so_trata_irq hw (so_salva_estado_da_cpu hw s) irq with
  | none =>
    unfold so_trata_interrupcao at h2
    rw [h1] at h2
    cases h2
  | some s1 =>
    obtain ⟨e1, e2⟩ := so_trata_interrupcao_erro hw n s s1 irq h h1
    rw [e1] at h2
    cases h2
    exact ⟨e2, rfl⟩

theorem so_trata_interrupcao_valor {W : Type} (hw : Hw W) (n : Nat) (s s2 : so_t W)
    (irq r : Int) (h2 : so_trata_interrupcao hw n s irq = some (r, s2)) :
    (r ≠ 0 ↔ s2.erro_interno = true) := by
  unfold so_trata_interrupcao at h2
  split at h2
  · cases h2
  · split at h2
    · cases h2
    · rename_i s3 _
      obtain ⟨a, b⟩ := so_despacha_valor hw s3 s2 r h2
      rw [b]
      exact a

/-- Claim C25: the internal-error flag is a latch.  If the flag is set in a state `s0`,
every trap taken afterwards returns a non-zero value and leaves the flag set; every
return of the trap handler is non-zero if and only if the flag is set, and
`so_despacha` returns non-zero if and only if the flag is set when it runs, leaving
the flag as it is; and a trap taken with the flag set does return, skipping the idle
loop, whenever its interrupt service has a result. -/
theorem erro_interno_trava {W : Type} (hw : Hw W) (s0 : so_t W) (r : Int) (s : so_t W)
    (h : Depois hw s0 r s) :
    (s0.erro_interno = true → s.erro_interno = true ∧ r ≠ 0) ∧
    (r ≠ 0 ↔ s.erro_interno = true) ∧
    (∀ s3 r2 s4, so_despacha hw s3 = some (r2, s4) →
      (r2 ≠ 0 ↔ s3.erro_interno = true) ∧ s4.erro_interno = s3.erro_interno) ∧
    (∀ (sx s1 : so_t W) (n : Nat) (irq : Int), sx.erro_interno = true →
      so_trata_irq hw (so_salva_estado_da_cpu hw sx) irq = some s1 →
      ∃ s2, so_trata_interrupcao hw n sx irq = some (1, s2) ∧ s2.erro_interno = true) := by
  refine ⟨?_, ?_, fun s3 r2 s4 h3 => so_despacha_valor hw s3 s4 r2 h3, ?_⟩
  · intro h0
    induction h with
    | proximo w n irq r s h =>
      obtain ⟨a, b⟩ := so_trata_interrupcao_trava hw n { s0 with mundo := w } s irq r h0 h
      exact ⟨a, by rw [b]; decide⟩
    | seguinte r1 s1 w n irq r s _ h ih =>
      obtain ⟨a, b⟩ := so_trata_interrupcao_trava hw n { s1 with mundo := w } s irq r ih.1 h
      exact ⟨a, by rw [b]; decide⟩
  · cases h with
    | proximo w n irq r s h => exact so_trata_interrupcao_valor hw n _ s irq r h
    | seguinte r1 s1 w n irq r s _ h => exact so_trata_interrupcao_valor hw n _ s irq r h
  · intro sx s1 n irq hx h1
    exact ⟨_, (so_trata_interrupcao_erro hw n sx s1 irq hx h1).1,
      (so_trata_interrupcao_erro hw n sx s1 irq hx h1).2⟩

/-- Claim C25 on the concrete machine: after the boot and a CREATE_PROC, pid 0 takes a
CPU error, which sets the flag; the clock trap taken afterwards returns with the
flag still set, hence with a non-zero value. -/
theorem erro_interno_trava_falha :
    so_falhou.erro_interno = true ∧
    (so_apos so_falhou hwT.IRQ_RELOGIO).erro_interno = true ∧
    (so_trata_interrupcao hwT 0 so_falhou hwT.IRQ_RELOGIO).map (fun x => x.1) = some 1 :=
  ⟨by decide,
    ((erro_interno_trava hwT so_falhou 1 (so_apos so_falhou hwT.IRQ_RELOGIO)
      (Depois.proximo so_falhou.mundo 0 hwT.IRQ_RELOGIO 1 _ rfl)).1 (by decide)).1,
    by decide⟩

/-! ## CPU fault -/

theorem so_salva_corrente {W : Type} (hw : Hw W) (s : so_t W) (k : Fin MAX_PROCESSES)
    (p0 : Process) (hk : corrente s = some (k, p0)) :
    ∃ ctx, so_salva_estado_da_cpu hw s
      = { s with process_table :=
            Function.update s.process_table k (some { p0 with context := ctx }) } := by
  obtain ⟨hcur, hp⟩ := corrente_some hk
  have hk4 : (k : Nat) < 4 := k.isLt
  unfold so_salva_estado_da_cpu
  rw [if_neg (by rw [hcur]; unfold NO_PROCESS_RUNNING; omega), hcur, indice_coe]
  dsimp only
  rw [hp]
  exact ⟨_, rfl⟩

theorem so_trata_pendencias_recolhe {W : Type} (hw : Hw W) (s : so_t W)
    (k : Fin MAX_PROCESSES) (q : Process) (hq : s.process_table k = some q)
    (ht : q.state = .TERMINATED) : (so_trata_pendencias hw s).process_table k = none := by
  obtain ⟨q2, hq2, _, hterm⟩ := resumo_some_inv (passo_A_resumo hw s k) hq
  rw [so_trata_pendencias_slot, hq2]
  dsimp only
  rw [if_pos (hterm.2 ht)]

/-- Claim C26: CPU fault.  In every state with a current process `p0`, in slot `k`, a
trap with `IRQ_ERR_CPU` (a `case` label different from `IRQ_RESET` and
`IRQ_SISTEMA`) has a result for every bound on the idle loop, 0 included: the
service routine leaves `p0` TERMINATED, with the registers saved at trap entry,
sets the internal-error flag and changes no other slot; the idle loop is skipped;
the handler returns 1; and at trap exit slot `k` is empty and the flag is set. -/
theorem falha_de_cpu {W : Type} (hw : Hw W) (n : Nat) (s : so_t W) (k : Fin MAX_PROCESSES)
    (p0 : Process) (hk : corrente s = some (k, p0))
    (hr : hw.IRQ_ERR_CPU ≠ hw.IRQ_RESET) (hs : hw.IRQ_ERR_CPU ≠ hw.IRQ_SISTEMA) :
    ∃ s1 s2,
      so_trata_irq hw (so_salva_estado_da_cpu hw s) hw.IRQ_ERR_CPU = some s1 ∧
      (∃ ctx, s1.process_table k = some { p0 with context := ctx, state := .TERMINATED }) ∧
      (∀ j, j ≠ k → s1.process_table j = s.process_table j) ∧
      s1.erro_interno = true ∧
      espera_ativa hw n (so_escalona (so_trata_pendencias hw s1))
        = some (so_escalona (so_trata_pendencias hw s1)) ∧
      so_trata_interrupcao hw n s hw.IRQ_ERR_CPU = some (1, s2) ∧
      so_trata_interrupcao hw 0 s hw.IRQ_ERR_CPU = some (1, s2) ∧
      s2.process_table k = none ∧ s2.erro_interno = true := by
  obtain ⟨hcur, hp⟩ := corrente_some hk
  have hk4 : (k : Nat) < 4 := k.isLt
  obtain ⟨ctx, hsalva⟩ := so_salva_corrente hw s k p0 hk
  have hcor : corrente (so_salva_estado_da_cpu hw s)
      = some (k, { p0 with context := ctx }) := by
    rw [hsalva]
    apply corrente_de
    · exact hcur
    · show Function.update s.process_table k _ k = _
      rw [Function.update_same]
  have h1 : so_trata_irq hw (so_salva_estado_da_cpu hw s) hw.IRQ_ERR_CPU
      = some { so_salva_estado_da_cpu hw s with
          process_table := Function.update (so_salva_estado_da_cpu hw s).process_table k
            (some (termina { p0 with context := ctx }))
          erro_interno := true } := by
    unfold so_trata_irq
    rw [if_neg hr, if_neg hs, if_pos rfl]
    unfold so_trata_irq_err_cpu
    rw [if_pos (by
      rw [(so_salva_campos hw s).1, hcur]; unfold NO_PROCESS_RUNNING; omega), hcor]
  have hslot : ({ so_salva_estado_da_cpu hw s with
      process_table := Function.update (so_salva_estado_da_cpu hw s).process_table k
        (some (termina { p0 with context := ctx }))
      erro_interno := true } : so_t W).process_table k
      = some (termina { p0 with context := ctx }) := by
    show Function.update _ k _ k = _
    rw [Function.update_same]
  have hn := so_trata_interrupcao_servico_erro hw n s _ hw.IRQ_ERR_CPU h1 rfl
  have hz := so_trata_interrupcao_servico_erro hw 0 s _ hw.IRQ_ERR_CPU h1 rfl
  refine ⟨_, _, h1, ⟨ctx, hslot⟩, ?_, rfl, hn.2.2, hn.1, hz.1, ?_, hn.2.1⟩
  · intro j hj
    show Function.update (so_salva_estado_da_cpu hw s).process_table k _ j = _
    rw [Function.update_noteq hj, hsalva]
    show Function.update s.process_table k _ j = _
    rw [Function.update_noteq hj]
  · apply so_escalona_vazio
    exact so_trata_pendencias_recolhe hw _ k _ hslot rfl

/-- Claim C26 on the concrete machine: after the boot and a CREATE_PROC, pid 0 (slot 0)
takes a CPU error; the handler returns 1, the flag is set and slot 0 is empty. -/
theorem falha_de_cpu_criou :
    (so_trata_interrupcao hwT 0 { so_criou with mundo := maquina0 } hwT.IRQ_ERR_CPU).map
      (fun x => (x.1, x.2.erro_interno, x.2.process_table 0)) = some (1, true, none) := by
  obtain ⟨s1, s2, _, _, _, _, _, _, h0, ht, he⟩ :=
    falha_de_cpu hwT 0 { so_criou with mundo := maquina0 } 0
      { processo_de 0 .RUNNING 0 with context := { pc := 0, a := 1, x := 200, err := 0 } }
      (by decide) (by decide) (by decide)
  rw [h0]
  simp only [Option.map_some', he, ht]

/-! ## Dispatch safety -/

theorem entrada_corrente_executa {W : Type} (hw : Hw W) (s : so_t W) (h : Entrada hw s) :
    so_corrente_executa s := by
  cases h with
  | primeira w => exact so_cria_corrente_executa hw w
  | seguinte r0 s0 w h0 => exact (retorno_apos hw r0 s0 h0).1.1

/-- Claim C30: dispatch safety.  In a trap taken in a run that starts from a freshly
created kernel, whenever `so_despacha` is reached with the internal-error flag
clear, `current_process` is an index in `0..3` whose slot holds a descriptor, that
descriptor is RUNNING, and `so_despacha` returns 0: its unchecked read of
`process_table[current_process]` finds a descriptor. -/
theorem despacho_seguro {W : Type} (hw : Hw W) (n : Nat) (s s1 s3 : so_t W) (irq : Int)
    (he : Entrada hw s)
    (h1 : so_trata_irq hw (so_salva_estado_da_cpu hw s) irq = some s1)
    (h3 : espera_ativa hw n (so_escalona (so_trata_pendencias hw s1)) = some s3)
    (hf : s3.erro_interno = false) :
    ∃ (k : Fin MAX_PROCESSES) (proc : Process),
      s3.current_process = ((k : Nat) : Int) ∧ s3.process_table k = some proc ∧
      proc.state = .RUNNING ∧ corrente s3 = some (k, proc) ∧
      ∃ s2, so_despacha hw s3 = some (0, s2) := by
  have hs0 := fase_neutra_inv (so_salva_neutra hw s) (entrada_corrente_executa hw s he)
  have hs1 := so_trata_irq_corrente_executa hw _ s1 irq hs0 h1
  have hs1b := fase_neutra_inv (so_trata_pendencias_neutra hw s1) hs1
  obtain ⟨⟨_, hc⟩, ho⟩ := espera_ativa_apos hw n _ s3 (so_escalona_apos _ hs1b) h3
  rcases hc with hc | ⟨k, hk, proc, hp, hrun⟩
  · unfold ocioso at ho
    rw [hf] at ho
    simp [hc] at ho
  · have hcor := corrente_de s3 k proc hk hp
    refine ⟨k, proc, hk, hp, hrun, hcor, ?_⟩
    unfold so_despacha
    rw [if_neg (by rw [hf]; decide), hcor]
    exact ⟨_, rfl⟩

/-- Claim C30 on the concrete machine: in the clock trap taken after the boot,
`so_despacha` is reached with the flag clear, `current_process` is 0 and slot 0
holds pid 0, RUNNING. -/
theorem despacho_seguro_relogio :
    ∃ (k : Fin MAX_PROCESSES) (proc : Process),
      (so_antes_de_despachar 0 so_boot hwT.IRQ_RELOGIO).current_process = ((k : Nat) : Int) ∧
      (so_antes_de_despachar 0 so_boot hwT.IRQ_RELOGIO).process_table k = some proc ∧
      proc.state = .RUNNING := by
  obtain ⟨k, proc, h1, h2, h3, _⟩ :=
    despacho_seguro hwT 0 { so_boot with mundo := so_boot.mundo }
      (so_servido so_boot hwT.IRQ_RELOGIO) (so_antes_de_despachar 0 so_boot hwT.IRQ_RELOGIO)
      hwT.IRQ_RELOGIO (Entrada.seguinte 0 so_boot so_boot.mundo retorno_boot) rfl rfl
      (by decide)
  exact ⟨k, proc, h1, h2, h3⟩

/-! ## Saving and restoring the registers -/

theorem memoria_supervisor_hwT : memoria_supervisor hwT := by
  constructor
  · intro w a v b
    show Function.update w.mem a v b = _
    rw [Function.update_apply]
    rfl
  · intro w t b
    rfl

/-- Claim C27: save/restore idempotence.  On a machine whose supervisor accesses behave
as a memory, for every content of the save area and every current process, with
the internal-error flag clear, `so_salva_estado_da_cpu` followed by `so_despacha`
returns 0 and leaves the cells `IRQ_END_PC`, `IRQ_END_A`, `IRQ_END_X` and
`IRQ_END_erro`, and every other cell the supervisor can read, with the value they
had before. -/
theorem salva_despacha_idempotente {W : Type} (hw : Hw W) (s : so_t W)
    (k : Fin MAX_PROCESSES) (proc : Process) (hm : memoria_supervisor hw)
    (hk : corrente s = some (k, proc)) (he : s.erro_interno = false) :
    ∃ s2, so_despacha hw (so_salva_estado_da_cpu hw s) = some (0, s2) ∧
      (hw.mmu_le s2.mundo hw.IRQ_END_PC .supervisor).valor
        = (hw.mmu_le s.mundo hw.IRQ_END_PC .supervisor).valor ∧
      (hw.mmu_le s2.mundo hw.IRQ_END_A .supervisor).valor
        = (hw.mmu_le s.mundo hw.IRQ_END_A .supervisor).valor ∧
      (hw.mmu_le s2.mundo hw.IRQ_END_X .supervisor).valor
        = (hw.mmu_le s.mundo hw.IRQ_END_X .supervisor).valor ∧
      (hw.mmu_le s2.mundo hw.IRQ_END_erro .supervisor).valor
        = (hw.mmu_le s.mundo hw.IRQ_END_erro .supervisor).valor ∧
      ∀ b, (hw.mmu_le s2.mundo b .supervisor).valor
        = (hw.mmu_le s.mundo b .supervisor).valor := by
  obtain ⟨hcur, hp⟩ := corrente_some hk
  have hk4 : (k : Nat) < 4 := k.isLt
  obtain ⟨hle, htab⟩ := hm
  have hsalva : so_salva_estado_da_cpu hw s
      = { s with process_table := (Function.update s.process_table k
            (some { proc with context :=
              { pc := (hw.mmu_le s.mundo hw.IRQ_END_PC .supervisor).valor,
                a := (hw.mmu_le s.mundo hw.IRQ_END_A .supervisor).valor,
                x := (hw.mmu_le s.mundo hw.IRQ_END_X .supervisor).valor,
                err := (hw.mmu_le s.mundo hw.IRQ_END_erro .supervisor).valor } })) } := by
    unfold so_salva_estado_da_cpu
    rw [if_neg (by rw [hcur]; unfold NO_PROCESS_RUNNING; omega), hcur, indice_coe]
    dsimp only
    rw [hp]
  have hcor : corrente (so_salva_estado_da_cpu hw s)
      = some (k, { proc with context :=
              { pc := (hw.mmu_le s.mundo hw.IRQ_END_PC .supervisor).valor,
                a := (hw.mmu_le s.mundo hw.IRQ_END_A .supervisor).valor,
                x := (hw.mmu_le s.mundo hw.IRQ_END_X .supervisor).valor,
                err := (hw.mmu_le s.mundo hw.IRQ_END_erro .supervisor).valor } }) := by
    rw [hsalva]
    apply corrente_de
    · exact hcur
    · show Function.update s.process_table k _ k = _
      rw [Function.update_same]
  have hmundo : (so_salva_estado_da_cpu hw s).mundo = s.mundo := by rw [hsalva]
  have hgeral : ∀ b, (hw.mmu_le (hw.mmu_define_tabpag
      (hw.mmu_escreve (hw.mmu_escreve (hw.mmu_escreve s.mundo hw.IRQ_END_PC
          (hw.mmu_le s.mundo hw.IRQ_END_PC .supervisor).valor .supervisor).2 hw.IRQ_END_A
          (hw.mmu_le s.mundo hw.IRQ_END_A .supervisor).valor .supervisor).2 hw.IRQ_END_X
          (hw.mmu_le s.mundo hw.IRQ_END_X .supervisor).valor .supervisor).2
        proc.page_table) b .supervisor).valor
      = (hw.mmu_le s.mundo b .supervisor).valor := by
    intro b
    rw [htab, hle, hle, hle]
    by_cases h3 : b = hw.IRQ_END_X
    · rw [if_pos h3, h3]
    · rw [if_neg h3]
      by_cases h2 : b = hw.IRQ_END_A
      · rw [if_pos h2, h2]
      · rw [if_neg h2]
        by_cases h1 : b = hw.IRQ_END_PC
        · rw [if_pos h1, h1]
        · rw [if_neg h1]
  have hd : so_despacha hw (so_salva_estado_da_cpu hw s)
      = some (0, { so_salva_estado_da_cpu hw s with
          mundo := hw.mmu_define_tabpag
            (hw.mmu_escreve (hw.mmu_escreve (hw.mmu_escreve s.mundo hw.IRQ_END_PC
              (hw.mmu_le s.mundo hw.IRQ_END_PC .supervisor).valor .supervisor).2 hw.IRQ_END_A
              (hw.mmu_le s.mundo hw.IRQ_END_A .supervisor).valor .supervisor).2 hw.IRQ_END_X
              (hw.mmu_le s.mundo hw.IRQ_END_X .supervisor).valor .supervisor).2
            proc.page_table }) := by
    unfold so_despacha
    rw [if_neg (by rw [(so_salva_campos hw s).2.2, he]; decide), hcor]
    dsimp only
    rw [hmundo]
  exact ⟨_, hd, hgeral _, hgeral _, hgeral _, hgeral _, hgeral⟩

/-- Claim C27 on the concrete machine: with `pc = 7`, `a = 8`, `x = 9` and `err = 6` in
the save area and pid 0 current, saving and dispatching returns 0 and the four
cells hold 7, 8, 9 and 6 again. -/
theorem salva_despacha_idempotente_boot :
    (so_despacha hwT (so_salva_estado_da_cpu hwT { so_boot with mundo := maquina_salva })).map
      (fun x => (x.1, x.2.mundo.mem 0, x.2.mundo.mem 1, x.2.mundo.mem 2, x.2.mundo.mem 3))
      = some (0, 7, 8, 9, 6) := by
  obtain ⟨s2, h, h0, h1, h2, h3, _⟩ :=
    salva_despacha_idempotente hwT { so_boot with mundo := maquina_salva } 0
      (processo_de 0 .RUNNING 0) memoria_supervisor_hwT (by decide) (by decide)
  rw [h]
  have e0 : s2.mundo.mem 0 = 7 := h0
  have e1 : s2.mundo.mem 1 = 8 := h1
  have e2 : s2.mundo.mem 2 = 9 := h2
  have e3 : s2.mundo.mem 3 = 6 := h3
  simp only [Option.map_some', e0, e1, e2, e3]

/-! ## TERMINATED is absorbing -/

theorem terminados_ficam_refl (t : Tabela) : terminados_ficam t t :=
  fun _ p hp ht => Or.inr ⟨p, hp, ht, rfl⟩

/-- Storing anything in a slot whose descriptor is not TERMINATED. -/
theorem terminados_ficam_update_vivo (t : Tabela) (k : Fin MAX_PROCESSES) (pk : Process)
    (x : Option Process) (hk : t k = some pk) (hv : pk.state ≠ .TERMINATED) :
    terminados_ficam t (Function.update t k x) := by
  intro j p hp ht
  by_cases hjk : j = k
  · subst hjk
    rw [hk] at hp
    cases hp
    exact absurd ht hv
  · rw [Function.update_noteq hjk]
    exact Or.inr ⟨p, hp, ht, rfl⟩

/-- Storing anything in an empty slot. -/
theorem terminados_ficam_update_livre (t : Tabela) (e : Fin MAX_PROCESSES)
    (x : Option Process) (he : t e = none) :
    terminados_ficam t (Function.update t e x) := by
  intro j p hp ht
  by_cases hje : j = e
  · subst hje
    rw [he] at hp
    cases hp
  · rw [Function.update_noteq hje]
    exact Or.inr ⟨p, hp, ht, rfl⟩

/-- An assignment through a pointer that keeps the pid and keeps TERMINATED. -/
theorem terminados_ficam_altera {t t2 : Tabela} (k : Fin MAX_PROCESSES) (f : Process → Process)
    (h : terminados_ficam t t2)
    (hf : ∀ p, p.state = .TERMINATED → (f p).state = .TERMINATED ∧ (f p).pid = p.pid) :
    terminados_ficam t (altera t2 k f) := by
  intro j p hp ht
  rw [altera_apply]
  by_cases hjk : j = k
  · subst hjk
    rw [if_pos rfl]
    rcases h j p hp ht with h0 | ⟨q, hq, hqt, hqp⟩
    · left
      rw [h0]
      rfl
    · right
      rw [hq]
      exact ⟨f q, rfl, (hf q hqt).1, (hf q hqt).2.trans hqp⟩
  · rw [if_neg hjk]
    exact h j p hp ht

theorem indice_procura_livre (t : Tabela) (e : Fin MAX_PROCESSES)
    (h : indice (procura_entrada t) = some e) : t e = none := by
  by_cases hl : ∃ i, t i = none
  · obtain ⟨e2, h1, h2, _⟩ := procura_entrada_livre t hl
    rw [h1, indice_coe] at h
    cases h
    exact h2
  · have hc := procura_entrada_cheia t (fun i hi => hl ⟨i, hi⟩)
    rw [hc] at h
    cases h

theorem so_salva_terminados {W : Type} (hw : Hw W) (s : so_t W) :
    terminados_ficam s.process_table (so_salva_estado_da_cpu hw s).process_table := by
  unfold so_salva_estado_da_cpu
  split
  · exact terminados_ficam_refl _
  · split
    · exact terminados_ficam_refl _
    · split
      · exact terminados_ficam_refl _
      · rename_i k _ _ proc hk
        intro j p hp ht
        right
        by_cases hjk : j = k
        · subst hjk
          rw [hk] at hp
          cases hp
          exact ⟨_, Function.update_same _ _ _, ht, rfl⟩
        · exact ⟨p, (Function.update_noteq hjk _ _).trans hp, ht, rfl⟩

theorem so_chamada_le_terminados {W : Type} (hw : Hw W) (s s2 : so_t W)
    (hc : chamador_vivo s) (h2 : so_chamada_le hw s = some s2) :
    terminados_ficam s.process_table s2.process_table := by
  unfold so_chamada_le at h2
  split at h2
  · cases h2
  · rename_i k proc hk
    have hkp := (corrente_some hk).2
    have hv := hc k proc hk
    dsimp only at h2
    split at h2
    · cases h2
      exact terminados_ficam_update_vivo _ _ proc _ hkp hv
    · split at h2 <;>
      · cases h2
        exact terminados_ficam_update_vivo _ _ proc _ hkp hv

theorem so_chamada_escr_terminados {W : Type} (hw : Hw W) (s s2 : so_t W)
    (hc : chamador_vivo s) (h2 : so_chamada_escr hw s = some s2) :
    terminados_ficam s.process_table s2.process_table := by
  unfold so_chamada_escr at h2
  split at h2
  · cases h2
  · rename_i k proc hk
    have hkp := (corrente_some hk).2
    have hv := hc k proc hk
    dsimp only at h2
    split at h2
    · cases h2
      exact terminados_ficam_update_vivo _ _ proc _ hkp hv
    · split at h2 <;>
      · cases h2
        exact terminados_ficam_update_vivo _ _ proc _ hkp hv

theorem so_chamada_cria_proc_terminados {W : Type} (hw : Hw W) (s s2 : so_t W)
    (h2 : so_chamada_cria_proc hw s = some s2) :
    terminados_ficam s.process_table s2.process_table := by
  unfold so_chamada_cria_proc at h2
  split at h2
  · cases h2
  · rename_i k proc hk
    dsimp only at h2
    have ht : (so_carrega_programa hw
        { s with process_counter := (process_create s.process_counter
          ((procura_entrada s.process_table).tmod 4 * 4)
          ((procura_entrada s.process_table).tmod 4 * 4 + 2)).2 }
        (some (process_create s.process_counter
          ((procura_entrada s.process_table).tmod 4 * 4)
          ((procura_entrada s.process_table).tmod 4 * 4 + 2)).1)
        (nome_copiado (so_copia_str_do_processo hw s.mundo 256 proc.context.x (some proc)).2)).2.process_table
        = s.process_table := (so_carrega_programa_campos hw _ _ _).1
    split at h2
    · cases h2
      exact terminados_ficam_altera _ _ (terminados_ficam_refl _) (fun _ hp => ⟨hp, rfl⟩)
    · split at h2
      · cases h2
        exact terminados_ficam_altera _ _ (terminados_ficam_refl _) (fun _ hp => ⟨hp, rfl⟩)
      · split at h2
        · cases h2
          show terminados_ficam _ (altera (so_carrega_programa hw _ _ _).2.process_table k _)
          rw [ht]
          exact terminados_ficam_altera _ _ (terminados_ficam_refl _) (fun _ hp => ⟨hp, rfl⟩)
        · split at h2
          · cases h2
          · rename_i e he
            cases h2
            show terminados_ficam _ (altera (Function.update
              (so_carrega_programa hw _ _ _).2.process_table _ _) k _)
            rw [ht]
            exact terminados_ficam_altera _ _
              (terminados_ficam_update_livre _ _ _ (indice_procura_livre _ e he))
              (fun _ hp => ⟨hp, rfl⟩)

theorem so_chamada_mata_proc_terminados {W : Type} (s s2 : so_t W)
    (h2 : so_chamada_mata_proc s = some s2) :
    terminados_ficam s.process_table s2.process_table := by
  unfold so_chamada_mata_proc at h2
  split at h2
  · cases h2
  · dsimp only at h2
    split at h2
    · cases h2
      exact terminados_ficam_altera _ _ (terminados_ficam_refl _) (fun _ _ => ⟨rfl, rfl⟩)
    · split at h2
      · cases h2
        exact terminados_ficam_altera _ _
          (terminados_ficam_altera _ _ (terminados_ficam_refl _) (fun _ _ => ⟨rfl, rfl⟩))
          (fun _ hp => ⟨hp, rfl⟩)
      · cases h2
        exact terminados_ficam_altera _ _ (terminados_ficam_refl _) (fun _ _ => ⟨rfl, rfl⟩)

theorem so_chamada_espera_proc_terminados {W : Type} (s s2 : so_t W)
    (hc : chamador_vivo s) (h2 : so_chamada_espera_proc s = some s2) :
    terminados_ficam s.process_table s2.process_table := by
  unfold so_chamada_espera_proc at h2
  split at h2
  · cases h2
  · rename_i k proc hk
    have hkp := (corrente_some hk).2
    have hv := hc k proc hk
    dsimp only at h2
    split at h2
    · split at h2 <;>
      · cases h2
        exact terminados_ficam_update_vivo _ _ proc _ hkp hv
    · cases h2
      exact terminados_ficam_update_vivo _ _ proc _ hkp hv

theorem so_trata_irq_chamada_sistema_terminados {W : Type} (hw : Hw W) (s s2 : so_t W)
    (hc : chamador_vivo s) (h2 : so_trata_irq_chamada_sistema hw s = some s2) :
    terminados_ficam s.process_table s2.process_table := by
  unfold so_trata_irq_chamada_sistema at h2
  split at h2
  · cases h2
  · rename_i k proc hk
    dsimp only at h2
    split at h2
    · exact so_chamada_le_terminados hw s s2 hc h2
    · split at h2
      · exact so_chamada_escr_terminados hw s s2 hc h2
      · split at h2
        · exact so_chamada_cria_proc_terminados hw s s2 h2
        · split at h2
          · exact so_chamada_mata_proc_terminados s s2 h2
          · split at h2
            · exact so_chamada_espera_proc_terminados s s2 hc h2
            · cases h2
              exact terminados_ficam_update_vivo _ _ proc _ (corrente_some hk).2 (hc k proc hk)

theorem so_trata_irq_err_cpu_terminados {W : Type} (s s2 : so_t W)
    (h2 : so_trata_irq_err_cpu s = some s2) :
    terminados_ficam s.process_table s2.process_table := by
  unfold so_trata_irq_err_cpu at h2
  split at h2
  · split at h2
    · cases h2
    · rename_i k ps hk
      cases h2
      have hkp := (corrente_some hk).2
      intro j p hp ht
      right
      by_cases hjk : j = k
      · subst hjk
        rw [hkp] at hp
        cases hp
        exact ⟨_, Function.update_same _ _ _, rfl, rfl⟩
      · exact ⟨p, (Function.update_noteq hjk _ _).trans hp, ht, rfl⟩
  · cases h2
    exact terminados_ficam_refl _

theorem so_trata_irq_reset_tabela {W : Type} (hw : Hw W) (s : so_t W) (j : Fin MAX_PROCESSES) :
    (j ≠ 0 → (so_trata_irq_reset hw s).process_table j = none) ∧
    ∃ st, (so_trata_irq_reset hw s).process_table 0
      = some { (process_create s.process_counter hw.D_TERM_A_TECLADO hw.D_TERM_A_TELA).1 with
          state := st } := by
  have hc : (so_carrega_programa hw
      { s with
        process_counter := (process_create s.process_counter hw.D_TERM_A_TECLADO hw.D_TERM_A_TELA).2
        current_process := 0
        process_table := Function.update (fun _ => none) 0
          (some (process_create s.process_counter hw.D_TERM_A_TECLADO hw.D_TERM_A_TELA).1) }
      (some (process_create s.process_counter hw.D_TERM_A_TECLADO hw.D_TERM_A_TELA).1)
      (nome_de "init.maq")).2.process_table
      = Function.update (fun _ => none) 0
          (some (process_create s.process_counter hw.D_TERM_A_TECLADO hw.D_TERM_A_TELA).1) :=
    (so_carrega_programa_campos hw _ _ _).1
  unfold so_trata_irq_reset
  dsimp only
  split
  · constructor
    · intro hj
      show (so_carrega_programa hw _ _ _).2.process_table j = none
      rw [hc, Function.update_noteq hj]
    · refine ⟨.NEW, ?_⟩
      show (so_carrega_programa hw _ _ _).2.process_table 0 = _
      rw [hc, Function.update_same]
      rfl
  · constructor
    · intro hj
      show altera (so_carrega_programa hw _ _ _).2.process_table 0 _ j = none
      rw [hc, altera_apply, if_neg hj, Function.update_noteq hj]
    · refine ⟨.READY, ?_⟩
      show altera (so_carrega_programa hw _ _ _).2.process_table 0 _ 0 = _
      rw [hc, altera_apply, if_pos rfl, Function.update_same]
      rfl

theorem so_escalona_terminado {W : Type} (s : so_t W) (j : Fin MAX_PROCESSES) (p : Process)
    (hp : s.process_table j = some p) (ht : p.state = .TERMINATED) :
    (so_escalona s).process_table j = some p := by
  obtain ⟨st, h1, h2⟩ := so_escalona_descritor s j p hp
  rcases h2 with h2 | ⟨hpr, _⟩
  · rw [h1, h2, mesmo_estado]
  · rw [ht] at hpr
    rcases hpr with h | h <;> cases h

theorem entrada_chamador_executando {W : Type} (hw : Hw W) (s0 : so_t W)
    (h : Entrada hw s0) (k : Fin MAX_PROCESSES) (p : Process)
    (hk : corrente (so_salva_estado_da_cpu hw s0) = some (k, p)) : p.state = .RUNNING := by
  obtain ⟨hcur, hp⟩ := corrente_some hk
  rw [(so_salva_campos hw s0).1] at hcur
  have hex : s0.current_process = NO_PROCESS_RUNNING ∨
      ∃ k2 : Fin MAX_PROCESSES, s0.current_process = ((k2 : Nat) : Int) ∧
        executando s0.process_table k2 := by
    cases h with
    | primeira w =>
      left
      unfold so_cria
      dsimp only
      have h2 := (so_carrega_programa_campos hw
        { mundo := w, erro_interno := false, process_table := fun _ => none,
          current_process := NO_PROCESS_RUNNING, quantum := SCHEADULER_QUANTUM,
          quadro_livre := 0, process_counter := 0 } none (nome_de "trata_int.maq")).2.1
      split <;> split <;> exact h2
    | seguinte r0 s1 w h0 => exact (retorno_apos hw r0 s1 h0).1.2
  rcases hex with hno | ⟨k2, hk2, p2, hp2, hr2⟩
  · rw [hno] at hcur
    unfold NO_PROCESS_RUNNING at hcur
    omega
  · have hkk : k2 = k := by
      apply Fin.ext
      omega
    subst hkk
    obtain ⟨q, hq, _, hqs⟩ := so_salva_ocupa hw s0 k2 p2.pid .RUNNING ⟨p2, hp2, rfl, hr2⟩
    rw [hq] at hp
    cases hp
    exact hqs

/-- Claim C28: TERMINATED is absorbing.  For every kernel state: CREATE_PROC, KILL_PROC
and the service routines for a CPU error, the clock and an unknown interrupt leave
every TERMINATED descriptor in its slot, TERMINATED, and so does
`so_salva_estado_da_cpu`; READ, WRITE, WAIT_PROC and the system-call dispatcher,
which assign the state of the calling process, do so when the calling process
(the current one) is not itself TERMINATED; `so_trata_irq_reset` empties every
slot and stores in slot 0 the descriptor it creates; `so_trata_pendencias` removes
every TERMINATED descriptor, whichever process it is, and `so_escalona` leaves it
as it is.  In a run that starts from a freshly created kernel the process that is
current when an interrupt is served is RUNNING, so the condition on the calling
process holds whenever a system call is served. -/
theorem terminado_absorvente {W : Type} (hw : Hw W) (s : so_t W) :
    (∀ s2, chamador_vivo s → so_chamada_le hw s = some s2 →
      terminados_ficam s.process_table s2.process_table) ∧
    (∀ s2, chamador_vivo s → so_chamada_escr hw s = some s2 →
      terminados_ficam s.process_table s2.process_table) ∧
    (∀ s2, so_chamada_cria_proc hw s = some s2 →
      terminados_ficam s.process_table s2.process_table) ∧
    (∀ s2, so_chamada_mata_proc s = some s2 →
      terminados_ficam s.process_table s2.process_table) ∧
    (∀ s2, chamador_vivo s → so_chamada_espera_proc s = some s2 →
      terminados_ficam s.process_table s2.process_table) ∧
    (∀ s2, chamador_vivo s → so_trata_irq_chamada_sistema hw s = some s2 →
      terminados_ficam s.process_table s2.process_table) ∧
    (∀ s2, so_trata_irq_err_cpu s = some s2 →
      terminados_ficam s.process_table s2.process_table) ∧
    terminados_ficam s.process_table (so_trata_irq_relogio hw s).process_table ∧
    (∀ irq, terminados_ficam s.process_table (so_trata_irq_desconhecida s irq).process_table) ∧
    terminados_ficam s.process_table (so_salva_estado_da_cpu hw s).process_table ∧
    ((∀ j, j ≠ 0 → (so_trata_irq_reset hw s).process_table j = none) ∧
      ∃ st, (so_trata_irq_reset hw s).process_table 0
        = some { (process_create s.process_counter hw.D_TERM_A_TECLADO hw.D_TERM_A_TELA).1 with
            state := st }) ∧
    (∀ j p, s.process_table j = some p → p.state = .TERMINATED →
      (so_trata_pendencias hw s).process_table j = none ∧
      (so_escalona s).process_table j = some p) ∧
    (∀ s0, Entrada hw s0 →
      chamador_vivo (so_salva_estado_da_cpu hw s0) ∧
      ∀ k p, corrente (so_salva_estado_da_cpu hw s0) = some (k, p) → p.state = .RUNNING) := by
  refine ⟨fun s2 hc h => so_chamada_le_terminados hw s s2 hc h,
    fun s2 hc h => so_chamada_escr_terminados hw s s2 hc h,
    fun s2 h => so_chamada_cria_proc_terminados hw s s2 h,
    fun s2 h => so_chamada_mata_proc_terminados s s2 h,
    fun s2 hc h => so_chamada_espera_proc_terminados s s2 hc h,
    fun s2 hc h => so_trata_irq_chamada_sistema_terminados hw s s2 hc h,
    fun s2 h => so_trata_irq_err_cpu_terminados s s2 h,
    terminados_ficam_refl _, fun _ => terminados_ficam_refl _,
    so_salva_terminados hw s,
    ⟨fun j hj => (so_trata_irq_reset_tabela hw s j).1 hj, (so_trata_irq_reset_tabela hw s 0).2⟩,
    fun j p hp ht => ⟨so_trata_pendencias_recolhe hw s j p hp ht,
      so_escalona_terminado s j p hp ht⟩,
    fun s0 h0 => ⟨fun k p hk => ?_, fun k p hk => entrada_chamador_executando hw s0 h0 k p hk⟩⟩
  rw [entrada_chamador_executando hw s0 h0 k p hk]
  intro h
  cases h

/-- Claim C28 on the concrete machine.  With pid 0 RUNNING and current in slot 0 and
pid 2 TERMINATED in slot 2, READ called by pid 0 returns and leaves pid 2 in its
slot, TERMINATED.  After the boot `init` calls KILL_PROC with `x = 0` and kills
itself: in the state the service leaves, the calling process is the TERMINATED
descriptor of slot 0; `so_escalona` leaves it as it is and
`so_trata_pendencias` empties the slot.  The state in which that trap is taken is
a state of a run, and the process current at its service is not TERMINATED. -/
theorem terminado_absorvente_junta :
    (∃ s2, so_chamada_le hwT (so_junta .TERMINATED maquina0) = some s2 ∧
      ((s2.process_table 2).map (fun p => (p.pid, p.state)) = none ∨
        (s2.process_table 2).map (fun p => (p.pid, p.state)) = some (2, .TERMINATED))) ∧
    (corrente (so_servido { so_boot with mundo := maquina_mata 0 } hwT.IRQ_SISTEMA)).map
        (fun x => (x.1, x.2.pid, x.2.state)) = some (0, 0, .TERMINATED) ∧
    ¬ chamador_vivo (so_servido { so_boot with mundo := maquina_mata 0 } hwT.IRQ_SISTEMA) ∧
    (so_trata_pendencias hwT
      (so_servido { so_boot with mundo := maquina_mata 0 } hwT.IRQ_SISTEMA)).process_table 0
      = none ∧
    (so_escalona
      (so_servido { so_boot with mundo := maquina_mata 0 } hwT.IRQ_SISTEMA)).process_table 0
      = (so_servido { so_boot with mundo := maquina_mata 0 } hwT.IRQ_SISTEMA).process_table 0 ∧
    chamador_vivo (so_salva_estado_da_cpu hwT { so_boot with mundo := maquina_mata 0 }) := by
  have hc : chamador_vivo (so_junta .TERMINATED maquina0) := by
    intro k p hk
    have h0 : corrente (so_junta .TERMINATED maquina0)
        = some (0, processo_de 0 .RUNNING 0) := by decide
    rw [h0] at hk
    cases hk
    decide
  obtain ⟨s2, hs2⟩ := Option.isSome_iff_exists.1
    (by decide : (so_chamada_le hwT (so_junta .TERMINATED maquina0)).isSome = true)
  have hle := (terminado_absorvente hwT (so_junta .TERMINATED maquina0)).1 s2 hc hs2
    2 (processo_de 2 .TERMINATED 2) rfl rfl
  obtain ⟨p, hp⟩ := Option.isSome_iff_exists.1
    (by decide : ((so_servido { so_boot with mundo := maquina_mata 0 }
      hwT.IRQ_SISTEMA).process_table 0).isSome = true)
  have hcor : (corrente (so_servido { so_boot with mundo := maquina_mata 0 }
      hwT.IRQ_SISTEMA)).map (fun x => (x.1, x.2.pid, x.2.state))
      = some (0, 0, .TERMINATED) := by decide
  have hpt : p.state = .TERMINATED := by
    have h1 : ((so_servido { so_boot with mundo := maquina_mata 0 }
        hwT.IRQ_SISTEMA).process_table 0).map (fun q => q.state) = some .TERMINATED := by decide
    rw [hp] at h1
    exact Option.some.inj h1
  have hmorto := (terminado_absorvente hwT
    (so_servido { so_boot with mundo := maquina_mata 0 } hwT.IRQ_SISTEMA)).2.2.2.2.2.2.2.2.2.2.2.1
    0 p hp hpt
  have hvivo := ((terminado_absorvente hwT so_boot).2.2.2.2.2.2.2.2.2.2.2.2
    { so_boot with mundo := maquina_mata 0 }
    (Entrada.seguinte 0 so_boot (maquina_mata 0) retorno_boot)).1
  refine ⟨⟨s2, hs2, ?_⟩, hcor, ?_, hmorto.1, hmorto.2.trans hp.symm, hvivo⟩
  · rcases hle with h | ⟨q, hq, hqt, hqp⟩
    · left
      rw [h]
      rfl
    · right
      rw [hq]
      show some (q.pid, q.state) = some (2, .TERMINATED)
      rw [hqt, hqp]
      rfl
  · intro hv
    rcases hc0 : corrente (so_servido { so_boot with mundo := maquina_mata 0 }
        hwT.IRQ_SISTEMA) with _ | ⟨k, q⟩
    · rw [hc0] at hcor
      cases hcor
    · rw [hc0] at hcor
      have hq : q.state = .TERMINATED := by
        have := Option.some.inj hcor
        exact (Prod.mk.inj (Prod.mk.inj this).2).2
      exact hv k q hc0 hq

/-! ## The quantum stays between 1 and 2 -/

theorem so_cria_quantum {W : Type} (hw : Hw W) (w : W) : (so_cria hw w).quantum = 2 := by
  unfold so_cria
  dsimp only
  have h := (so_carrega_programa_campos hw
    { mundo := w, erro_interno := false, process_table := fun _ => none,
      current_process := NO_PROCESS_RUNNING, quantum := SCHEADULER_QUANTUM,
      quadro_livre := 0, process_counter := 0 } none (nome_de "trata_int.maq")).2.2.2.1
  split <;> split <;> exact h

theorem so_chamada_cria_proc_quantum {W : Type} (hw : Hw W) (s s2 : so_t W)
    (h2 : so_chamada_cria_proc hw s = some s2) : s2.quantum = s.quantum := by
  unfold so_chamada_cria_proc at h2
  split at h2
  · cases h2
  · rename_i k proc hk
    dsimp only at h2
    have hc := (so_carrega_programa_campos hw
      { s with process_counter := (process_create s.process_counter
        ((procura_entrada s.process_table).tmod 4 * 4)
        ((procura_entrada s.process_table).tmod 4 * 4 + 2)).2 }
      (some (process_create s.process_counter
        ((procura_entrada s.process_table).tmod 4 * 4)
        ((procura_entrada s.process_table).tmod 4 * 4 + 2)).1)
      (nome_copiado (so_copia_str_do_processo hw s.mundo 256 proc.context.x (some proc)).2)).2.2.2.1
    split at h2
    · cases h2
      rfl
    · split at h2
      · cases h2
        rfl
      · split at h2
        · cases h2
          exact hc
        · split at h2
          · cases h2
          · cases h2
            exact hc

theorem so_trata_irq_chamada_sistema_quantum {W : Type} (hw : Hw W) (s s2 : so_t W)
    (h2 : so_trata_irq_chamada_sistema hw s = some s2) : s2.quantum = s.quantum := by
  unfold so_trata_irq_chamada_sistema at h2
  split at h2
  · cases h2
  · rename_i k proc hk
    dsimp only at h2
    split at h2
    · unfold so_chamada_le at h2
      rw [hk] at h2
      dsimp only at h2
      split at h2
      · cases h2
        rfl
      · split at h2 <;>
        · cases h2
          rfl
    · split at h2
      · unfold so_chamada_escr at h2
        rw [hk] at h2
        dsimp only at h2
        split at h2
        · cases h2
          rfl
        · split at h2 <;>
          · cases h2
            rfl
      · split at h2
        · exact so_chamada_cria_proc_quantum hw s s2 h2
        · split at h2
          · unfold so_chamada_mata_proc at h2
            rw [hk] at h2
            dsimp only at h2
            split at h2
            · cases h2
              rfl
            · split at h2 <;>
              · cases h2
                rfl
          · split at h2
            · unfold so_chamada_espera_proc at h2
              rw [hk] at h2
              dsimp only at h2
              split at h2
              · split at h2 <;>
                · cases h2
                  rfl
              · cases h2
                rfl
            · cases h2
              rfl

theorem so_trata_irq_quantum {W : Type} (hw : Hw W) (s s2 : so_t W) (irq : Int)
    (h2 : so_trata_irq hw s irq = some s2) : s2.quantum ≤ s.quantum := by
  unfold so_trata_irq at h2
  split at h2
  · cases h2
    have hc := (so_carrega_programa_campos hw
      { s with
        process_counter := (process_create s.process_counter hw.D_TERM_A_TECLADO hw.D_TERM_A_TELA).2
        current_process := 0
        process_table := Function.update (fun _ => none) 0
          (some (process_create s.process_counter hw.D_TERM_A_TECLADO hw.D_TERM_A_TELA).1) }
      (some (process_create s.process_counter hw.D_TERM_A_TECLADO hw.D_TERM_A_TELA).1)
      (nome_de "init.maq")).2.2.2.1
    unfold so_trata_irq_reset
    dsimp only
    split <;> exact le_of_eq hc
  · split at h2
    · exact le_of_eq (so_trata_irq_chamada_sistema_quantum hw s s2 h2)
    · split at h2
      · unfold so_trata_irq_err_cpu at h2
        split at h2
        · split at h2
          · cases h2
          · cases h2
            exact le_refl _
        · cases h2
          exact le_refl _
      · split at h2
        · cases h2
          show s.quantum - 1 ≤ s.quantum
          omega
        · cases h2
          exact le_refl _

theorem so_escalona_quantum {W : Type} (s : so_t W) :
    (so_escalona s = s ∧ 0 < s.quantum) ∨ (so_escalona s).quantum = 2 := by
  cases hm : mantem_corrente s with
  | true =>
    left
    refine ⟨so_escalona_de_mantem s hm, ?_⟩
    unfold mantem_corrente at hm
    simp only [Bool.and_eq_true, decide_eq_true_eq] at hm
    exact hm.2
  | false =>
    right
    unfold so_escalona
    rw [if_neg (by simp [hm])]
    dsimp only
    split <;> rfl

theorem so_escalona_limites {W : Type} (s : so_t W) (h : s.quantum ≤ 2) :
    1 ≤ (so_escalona s).quantum ∧ (so_escalona s).quantum ≤ 2 := by
  rcases so_escalona_quantum s with ⟨h1, h2⟩ | h1
  · rw [h1]
    omega
  · rw [h1]
    omega

theorem espera_ativa_limites {W : Type} (hw : Hw W) (n : Nat) (s s2 : so_t W)
    (h : 1 ≤ s.quantum ∧ s.quantum ≤ 2) (he : espera_ativa hw n s = some s2) :
    1 ≤ s2.quantum ∧ s2.quantum ≤ 2 := by
  induction n generalizing s with
  | zero =>
    unfold espera_ativa at he
    split at he
    · cases he
    · cases he
      exact h
  | succ n ih =>
    unfold espera_ativa at he
    split at he
    · apply ih _ _ he
      unfold espera_passo
      apply so_escalona_limites
      rw [(so_trata_pendencias_campos hw _).2.1]
      exact h.2
    · cases he
      exact h

theorem so_trata_interrupcao_limites {W : Type} (hw : Hw W) (n : Nat) (s s2 : so_t W)
    (irq r : Int) (h : s.quantum ≤ 2)
    (h2 : so_trata_interrupcao hw n s irq = some (r, s2)) :
    1 ≤ s2.quantum ∧ s2.quantum ≤ 2 := by
  unfold so_trata_interrupcao at h2
  split at h2
  · cases h2
  · rename_i s1 h1
    split at h2
    · cases h2
    · rename_i s3 h3
      rw [(so_despacha_campos hw s3 s2 r h2).2.2.2.1]
      apply espera_ativa_limites hw n _ s3 _ h3
      apply so_escalona_limites
      rw [(so_trata_pendencias_campos hw s1).2.1]
      have e1 := so_trata_irq_quantum hw _ s1 irq h1
      rw [(so_salva_campos hw s).2.1] at e1
      omega

/-- Claim C31: at every return of the trap handler in a run that starts from a
freshly created kernel, where the quantum is 2, the quantum satisfies
`1 <= quantum <= 2`: `so_escalona` either returns at once, which it does only when
the quantum is positive, or sets the quantum to 2, and the service of a CLOCK
interrupt decrements the quantum by exactly one. -/
theorem quantum_limitado {W : Type} (hw : Hw W) (r : Int) (s : so_t W)
    (h : Retorno hw r s) :
    (1 ≤ s.quantum ∧ s.quantum ≤ 2) ∧
    (∀ w, (so_cria hw w).quantum = 2) ∧
    (∀ sx : so_t W, (so_escalona sx = sx ∧ 0 < sx.quantum) ∨ (so_escalona sx).quantum = 2) ∧
    (∀ sx : so_t W, (so_trata_irq_relogio hw sx).quantum = sx.quantum - 1) := by
  refine ⟨?_, so_cria_quantum hw, so_escalona_quantum, fun _ => rfl⟩
  induction h with
  | primeiro w n irq r s h =>
    exact so_trata_interrupcao_limites hw n _ s irq r (le_of_eq (so_cria_quantum hw w)) h
  | seguinte r0 s0 w n irq r s _ h ih =>
    exact so_trata_interrupcao_limites hw n { s0 with mundo := w } s irq r ih.2 h

/-- Claim C31 on the concrete machine: the quantum is 2 when the boot has returned and 1
when the clock trap taken next has returned. -/
theorem quantum_limitado_relogio :
    so_boot.quantum = 2 ∧ (so_apos so_boot hwT.IRQ_RELOGIO).quantum = 1 ∧
    1 ≤ (so_apos so_boot hwT.IRQ_RELOGIO).quantum ∧
    (so_apos so_boot hwT.IRQ_RELOGIO).quantum ≤ 2 :=
  ⟨by decide, by decide,
    (quantum_limitado hwT 0 (so_apos so_boot hwT.IRQ_RELOGIO)
      (Retorno.seguinte 0 so_boot so_boot.mundo 0 hwT.IRQ_RELOGIO 0 _ retorno_boot rfl)).1.1,
    (quantum_limitado hwT 0 (so_apos so_boot hwT.IRQ_RELOGIO)
      (Retorno.seguinte 0 so_boot so_boot.mundo 0 hwT.IRQ_RELOGIO 0 _ retorno_boot rfl)).1.2⟩

/-! ## The idle loop with an empty table -/

theorem so_escalona_tabela_vazia {W : Type} (s : so_t W) (h : ∀ j, s.process_table j = none) :
    so_escalona s
      = { s with current_process := NO_PROCESS_RUNNING, quantum := SCHEADULER_QUANTUM } := by
  apply so_escalona_nada
  · unfold mantem_corrente
    have : entrada s.process_table s.current_process = none := by
      cases he : entrada s.process_table s.current_process with
      | none => rfl
      | some p =>
        obtain ⟨k, _, hk⟩ := entrada_some he
        rw [h k] at hk
        cases hk
    rw [this]
    simp
  · cases hl : (escalona_laco s.process_table MAX_PROCESSES
        ((s.current_process + 1).tmod 4)).2 with
    | false => rfl
    | true =>
      obtain ⟨k, _, hk⟩ := escalona_laco_achou _ _ _ hl
      rw [h k] at hk
      cases hk

theorem so_trata_pendencias_tabela_vazia {W : Type} (hw : Hw W) (s : so_t W)
    (h : ∀ j p, s.process_table j = some p → p.state = .TERMINATED) :
    ∀ j, (so_trata_pendencias hw s).process_table j = none := by
  intro j
  cases hp : s.process_table j with
  | none => exact so_trata_pendencias_vazio hw s j hp
  | some p => exact so_trata_pendencias_recolhe hw s j p hp (h j p hp)

/-- One iteration on a state with an empty table and the flag clear. -/
theorem ocioso_depois {W : Type} (hw : Hw W) (s : so_t W)
    (h : ∀ j p, s.process_table j = some p → p.state = .TERMINATED)
    (hf : s.erro_interno = false) :
    (∀ j, (so_escalona (so_trata_pendencias hw s)).process_table j = none) ∧
    (so_escalona (so_trata_pendencias hw s)).erro_interno = false ∧
    (so_escalona (so_trata_pendencias hw s)).current_process = NO_PROCESS_RUNNING ∧
    ocioso (so_escalona (so_trata_pendencias hw s)) = true := by
  have hv := so_trata_pendencias_tabela_vazia hw s h
  have he := so_escalona_tabela_vazia _ hv
  have hf2 : (so_trata_pendencias hw s).erro_interno = false :=
    (so_trata_pendencias_campos hw s).2.2.1.trans hf
  rw [he]
  refine ⟨hv, hf2, rfl, ?_⟩
  unfold ocioso
  simp [hf2]

theorem espera_ativa_eterna {W : Type} (hw : Hw W) (n : Nat) (s : so_t W)
    (h : ∀ j, s.process_table j = none) (hf : s.erro_interno = false)
    (hc : s.current_process = NO_PROCESS_RUNNING) : espera_ativa hw n s = none := by
  have hoc : ∀ sx : so_t W, sx.erro_interno = false →
      sx.current_process = NO_PROCESS_RUNNING → ocioso sx = true := by
    intro sx a b
    unfold ocioso
    simp [a, b]
  induction n generalizing s with
  | zero =>
    unfold espera_ativa
    rw [if_pos (hoc s hf hc)]
  | succ n ih =>
    unfold espera_ativa
    rw [if_pos (hoc s hf hc)]
    obtain ⟨a, b, c, _⟩ := ocioso_depois hw { s with mundo := hw.console_tictac s.mundo }
      (fun j p hp => by
        have : s.process_table j = some p := hp
        rw [h j] at this
        cases this) hf
    exact ih (espera_passo hw s) a b c

/-- Claim C32: when the process table is empty and the internal-error flag is clear, one
iteration of the idle loop (`so_trata_pendencias` followed by `so_escalona`, after
`console_tictac`) leaves the table empty, the flag clear and `current_process`
equal to `NO_PROCESS_RUNNING`, so the condition of the loop is true again.  Hence a
trap whose interrupt service leaves only TERMINATED descriptors in the table, with
the flag clear, never returns: whatever the bound on its iterations, the idle loop
does not end. -/
theorem laco_ocioso_eterno {W : Type} (hw : Hw W) (s s1 : so_t W) (irq : Int)
    (h1 : so_trata_irq hw (so_salva_estado_da_cpu hw s) irq = some s1)
    (hf : s1.erro_interno = false)
    (ht : ∀ j p, s1.process_table j = some p → p.state = .TERMINATED) :
    (∀ n, espera_ativa hw n (so_escalona (so_trata_pendencias hw s1)) = none) ∧
    (∀ n, so_trata_interrupcao hw n s irq = none) ∧
    (∀ sx : so_t W, (∀ j, sx.process_table j = none) → sx.erro_interno = false →
      (∀ j, (so_escalona (so_trata_pendencias hw sx)).process_table j = none) ∧
      (so_escalona (so_trata_pendencias hw sx)).erro_interno = false ∧
      (so_escalona (so_trata_pendencias hw sx)).current_process = NO_PROCESS_RUNNING ∧
      ocioso (so_escalona (so_trata_pendencias hw sx)) = true ∧
      (∀ j, (espera_passo hw sx).process_table j = none) ∧
      ocioso (espera_passo hw sx) = true) := by
  obtain ⟨a, b, c, _⟩ := ocioso_depois hw s1 ht hf
  have hloop : ∀ n, espera_ativa hw n (so_escalona (so_trata_pendencias hw s1)) = none :=
    fun n => espera_ativa_eterna hw n _ a b c
  refine ⟨hloop, ?_, ?_⟩
  · intro n
    unfold so_trata_interrupcao
    rw [h1]
    dsimp only
    rw [hloop n]
  · intro sx hv hfx
    have hvt : ∀ j p, sx.process_table j = some p → p.state = .TERMINATED := by
      intro j p hp
      rw [hv j] at hp
      cases hp
    obtain ⟨a1, b1, c1, d1⟩ := ocioso_depois hw sx hvt hfx
    obtain ⟨a2, _, _, d2⟩ := ocioso_depois hw { sx with mundo := hw.console_tictac sx.mundo }
      hvt hfx
    exact ⟨a1, b1, c1, d1, a2, d2⟩

/-- Claim C32 on the concrete machine: after the boot `init` is the only process; it
calls KILL_PROC with `x = 0`.  The interrupt service has a result, and the handler
has none, whatever the bound on the iterations of the idle loop. -/
theorem laco_ocioso_eterno_init :
    (so_trata_irq hwT (so_salva_estado_da_cpu hwT { so_boot with mundo := maquina_mata 0 })
      hwT.IRQ_SISTEMA).isSome = true ∧
    ∀ n, so_trata_interrupcao hwT n { so_boot with mundo := maquina_mata 0 }
      hwT.IRQ_SISTEMA = none :=
  ⟨by decide,
    (laco_ocioso_eterno hwT { so_boot with mundo := maquina_mata 0 }
      (so_servido { so_boot with mundo := maquina_mata 0 } hwT.IRQ_SISTEMA) hwT.IRQ_SISTEMA
      rfl (by decide)
      (by
        have F : ∀ j : Fin MAX_PROCESSES,
            (((so_servido { so_boot with mundo := maquina_mata 0 }
              hwT.IRQ_SISTEMA).process_table j).map (fun p => p.state)).getD .TERMINATED
              = .TERMINATED := by decide
        intro j p hp
        have := F j
        rw [hp] at this
        exact this)).2.1⟩

/-! ## KILL_PROC and the descriptor with pid 0 -/

/-- Claim C33: the descriptor with pid 0 cannot be terminated by another process through
KILL_PROC.  For every caller whose pid is not 0 and every argument `x`,
`so_chamada_mata_proc` returns and leaves every descriptor with pid 0 as it is:
with `x = 0` it is the caller that becomes TERMINATED, and with `x != 0` the slot
`process_table_find` returns, if any, holds a descriptor whose pid is `x`. -/
theorem pid_zero_protegido {W : Type} (s : so_t W) (k : Fin MAX_PROCESSES) (proc : Process)
    (hk : corrente s = some (k, proc)) (hpid : proc.pid ≠ 0) :
    ∃ s2, so_chamada_mata_proc s = some s2 ∧
      (∀ j p, s.process_table j = some p → p.pid = 0 → s2.process_table j = some p) ∧
      (proc.context.x = 0 → s2.process_table k = some (termina proc)) ∧
      (proc.context.x ≠ 0 → ∀ t, process_table_find s.process_table proc.context.x = some t →
        ∃ q, s.process_table t = some q ∧ q.pid = proc.context.x) := by
  have hkp := (corrente_some hk).2
  have hjk : ∀ j p, s.process_table j = some p → p.pid = 0 → j ≠ k := by
    intro j p hp hp0 hjk
    subst hjk
    rw [hkp] at hp
    cases hp
    exact hpid hp0
  have hfind : ∀ t, process_table_find s.process_table proc.context.x = some t →
      ∃ q, s.process_table t = some q ∧ q.pid = proc.context.x :=
    fun t ht => (process_table_find_some _ _ t ht).1
  unfold so_chamada_mata_proc
  rw [hk]
  dsimp only
  by_cases hx : proc.context.x = 0
  · rw [if_pos hx]
    refine ⟨_, rfl, ?_, ?_, fun h => absurd hx h⟩
    · intro j p hp hp0
      show altera s.process_table k termina j = some p
      rw [altera_apply, if_neg (hjk j p hp hp0)]
      exact hp
    · intro _
      show altera s.process_table k termina k = _
      rw [altera_apply, if_pos rfl, hkp]
      rfl
  · rw [if_neg hx]
    cases hf : process_table_find s.process_table proc.context.x with
    | none =>
      dsimp only
      refine ⟨_, rfl, ?_, fun h => absurd h hx, fun _ t ht => by cases ht⟩
      intro j p hp hp0
      show altera s.process_table k termina j = some p
      rw [altera_apply, if_neg (hjk j p hp hp0)]
      exact hp
    | some t =>
      dsimp only
      refine ⟨_, rfl, ?_, fun h => absurd h hx, fun _ t2 ht2 => ?_⟩
      · intro j p hp hp0
        obtain ⟨q, hq, hqp⟩ := hfind t hf
        have hjt : j ≠ t := by
          intro hjt
          subst hjt
          rw [hq] at hp
          cases hp
          exact hx (hqp.symm.trans hp0)
        show altera (altera s.process_table t termina) k _ j = some p
        rw [altera_apply, if_neg (hjk j p hp hp0), altera_apply, if_neg hjt]
        exact hp
      · cases ht2
        exact hfind t hf

/-- Claim C33 on a run of the concrete machine: pid 0 is BLOCKED in slot 0, pid 1 runs
and calls KILL_PROC with `x = 0`.  The descriptor of pid 0 is unchanged and pid 1 is
TERMINATED. -/
theorem pid_zero_protegido_filho :
    ∃ s2, so_chamada_mata_proc
        (so_salva_estado_da_cpu hwT { so_filho_espera with mundo := maquina_mata 0 }) = some s2 ∧
      s2.process_table 0 = so_filho_espera.process_table 0 ∧
      (so_filho_espera.process_table 0).map (fun p => (p.pid, p.state))
        = some (0, .BLOCKING) ∧
      (s2.process_table 3).map (fun p => (p.pid, p.state)) = some (1, .TERMINATED) := by
  obtain ⟨s2, h, h0, hc, _⟩ :=
    pid_zero_protegido
      (so_salva_estado_da_cpu hwT { so_filho_espera with mundo := maquina_mata 0 }) 3
      { processo_de 1 .RUNNING 3 with context := { pc := 0, a := 4, x := 0, err := 0 } }
      (by decide) (by decide)
  have hsome : (so_filho_espera.process_table 0).isSome = true := by decide
  obtain ⟨p, hp⟩ := Option.isSome_iff_exists.1 hsome
  have hp0 : (so_filho_espera.process_table 0).map (fun p => p.pid) = some 0 := by decide
  rw [hp] at hp0
  simp only [Option.map_some', Option.some.injEq] at hp0
  have hp2 : (so_salva_estado_da_cpu hwT
      { so_filho_espera with mundo := maquina_mata 0 }).process_table 0 = some p := by
    rw [← hp]
    decide
  refine ⟨s2, h, ?_, by decide, ?_⟩
  · rw [h0 0 p hp2 hp0, hp]
  · rw [hc rfl]
    rfl

/-! ## CREATE_PROC and the counters -/

theorem carga_de_cria_proc_contador {W : Type} (hw : Hw W) (s : so_t W) (proc : Process) :
    (carga_de_cria_proc hw s proc).2.process_counter = s.process_counter + 1 :=
  (so_carrega_programa_campos hw _ _ _).2.2.2.2

/-- The counters and the value returned in register `a` of the caller, for each way
`so_chamada_cria_proc` can end. -/
theorem so_chamada_cria_proc_casos {W : Type} (hw : Hw W) (s : so_t W)
    (k : Fin MAX_PROCESSES) (proc : Process) (hk : corrente s = some (k, proc)) :
    ∃ s2, so_chamada_cria_proc hw s = some s2 ∧
      ((so_copia_str_do_processo hw s.mundo 256 proc.context.x (some proc)).1 = false →
        s2.process_counter = s.process_counter ∧ s2.quadro_livre = s.quadro_livre ∧
        (s2.process_table k).map (fun p => p.context.a) = some (-1)) ∧
      ((so_copia_str_do_processo hw s.mundo 256 proc.context.x (some proc)).1 = true →
        (∀ i, s.process_table i ≠ none) →
        s2.process_counter = s.process_counter ∧ s2.quadro_livre = s.quadro_livre ∧
        (s2.process_table k).map (fun p => p.context.a) = some (-1)) ∧
      ((so_copia_str_do_processo hw s.mundo 256 proc.context.x (some proc)).1 = true →
        (∃ i, s.process_table i = none) → (carga_de_cria_proc hw s proc).1 < 0 →
        s2.process_counter = s.process_counter + 1 ∧
        (s2.process_table k).map (fun p => p.context.a) = some (-1) ∧
        ∀ j, j ≠ k → s2.process_table j = s.process_table j) ∧
      ((so_copia_str_do_processo hw s.mundo 256 proc.context.x (some proc)).1 = true →
        (∃ i, s.process_table i = none) → 0 ≤ (carga_de_cria_proc hw s proc).1 →
        s2.process_counter = s.process_counter + 1 ∧
        (s2.process_table k).map (fun p => p.context.a) = some s.process_counter) := by
  have hkp := (corrente_some hk).2
  have hfalha : ∀ t : Tabela, t k = some proc →
      (altera t k (fun p => { p with context := { p.context with a := -1 } }) k).map
        (fun p => p.context.a) = some (-1) := by
    intro t ht
    rw [altera_apply, if_pos rfl, ht]
    rfl
  have htab := carga_de_cria_proc_tabela hw s proc
  have hcont := carga_de_cria_proc_contador hw s proc
  unfold carga_de_cria_proc at htab hcont
  dsimp only at htab hcont
  unfold so_chamada_cria_proc
  rw [hk]
  dsimp only
  by_cases h1 : (so_copia_str_do_processo hw s.mundo 256 proc.context.x (some proc)).1 = false
  · rw [if_pos h1]
    refine ⟨_, rfl, fun _ => ⟨rfl, rfl, hfalha _ hkp⟩, ?_, ?_, ?_⟩ <;>
    · intro h
      rw [h1] at h
      cases h
  · rw [if_neg h1]
    by_cases h2 : procura_entrada s.process_table = -1
    · rw [if_pos h2]
      have hcheia : ¬ ∃ i, s.process_table i = none := by
        intro hl
        obtain ⟨e, he, _, _⟩ := procura_entrada_livre s.process_table hl
        have := e.isLt
        rw [he] at h2
        omega
      refine ⟨_, rfl, fun h => absurd h h1, fun _ _ => ⟨rfl, rfl, hfalha _ hkp⟩,
        fun _ hl => absurd hl hcheia, fun _ hl => absurd hl hcheia⟩
    · rw [if_neg h2]
      have hlivre : ¬ ∀ i, s.process_table i ≠ none :=
        fun hc => h2 (procura_entrada_cheia _ hc)
      by_cases h3 : (carga_de_cria_proc hw s proc).1 < 0
      · have h3b := h3
        unfold carga_de_cria_proc at h3b
        dsimp only at h3b
        rw [if_pos h3b]
        refine ⟨_, rfl, fun h => absurd h h1, fun _ hc => absurd hc hlivre, ?_,
          fun _ _ hc => absurd h3 (by omega)⟩
        intro _ _ _
        refine ⟨hcont, ?_, ?_⟩
        · show (altera (so_carrega_programa hw _ _ _).2.process_table k _ k).map _ = _
          rw [htab]
          exact hfalha _ hkp
        · intro j hj
          show altera (so_carrega_programa hw _ _ _).2.process_table k _ j = _
          rw [htab, altera_apply, if_neg hj]
      · have h3b := h3
        unfold carga_de_cria_proc at h3b
        dsimp only at h3b
        rw [if_neg h3b]
        have hl : ∃ i, s.process_table i = none := by
          by_contra hn
          exact hlivre (fun i hi => hn ⟨i, hi⟩)
        obtain ⟨e, he, hnone, _⟩ := procura_entrada_livre s.process_table hl
        have hind : indice (procura_entrada s.process_table) = some e := by
          rw [he]; exact indice_coe e
        rw [hind]
        dsimp only
        refine ⟨_, rfl, fun h => absurd h h1, fun _ hc => absurd hc hlivre,
          fun _ _ hc => absurd hc h3, ?_⟩
        intro _ _ _
        refine ⟨hcont, ?_⟩
        have hke : k ≠ e := by
          intro hke
          subst hke
          rw [hnone] at hkp
          cases hkp
        show (altera (Function.update (so_carrega_programa hw _ _ _).2.process_table e _) k _
          k).map _ = _
        rw [htab, altera_apply, if_pos rfl, Function.update_noteq hke, hkp]
        rfl

/-- Claim C34: a CREATE_PROC that fails in the load step has advanced the pid counter by
one, that fails at the filename copy or for lack of a free slot leaves the pid
counter and the frame counter unchanged, and that succeeds returns the value of
the pid counter in register `a` of the caller and advances the counter by one.
Hence, when a successful CREATE_PROC is followed by one that fails in the load
step and then by a successful one, with no other change of the pid counter in
between, the second successful call returns a pid two greater than the first. -/
theorem cria_proc_contadores {W : Type} (hw : Hw W) (s : so_t W)
    (k : Fin MAX_PROCESSES) (proc : Process) (hk : corrente s = some (k, proc)) :
    ∃ s2, so_chamada_cria_proc hw s = some s2 ∧
      ((so_copia_str_do_processo hw s.mundo 256 proc.context.x (some proc)).1 = false →
        s2.process_counter = s.process_counter ∧ s2.quadro_livre = s.quadro_livre) ∧
      ((so_copia_str_do_processo hw s.mundo 256 proc.context.x (some proc)).1 = true →
        (∀ i, s.process_table i ≠ none) →
        s2.process_counter = s.process_counter ∧ s2.quadro_livre = s.quadro_livre) ∧
      ((so_copia_str_do_processo hw s.mundo 256 proc.context.x (some proc)).1 = true →
        (∃ i, s.process_table i = none) → (carga_de_cria_proc hw s proc).1 < 0 →
        s2.process_counter = s.process_counter + 1 ∧
        (s2.process_table k).map (fun p => p.context.a) = some (-1) ∧
        ∀ j, j ≠ k → s2.process_table j = s.process_table j) ∧
      ((so_copia_str_do_processo hw s.mundo 256 proc.context.x (some proc)).1 = true →
        (∃ i, s.process_table i = none) → 0 ≤ (carga_de_cria_proc hw s proc).1 →
        s2.process_counter = s.process_counter + 1 ∧
        (s2.process_table k).map (fun p => p.context.a) = some s.process_counter ∧
        ∀ (sb sb2 sc sc2 : so_t W) (kb kc : Fin MAX_PROCESSES) (pb pc : Process),
          sb.process_counter = s2.process_counter →
          corrente sb = some (kb, pb) →
          (so_copia_str_do_processo hw sb.mundo 256 pb.context.x (some pb)).1 = true →
          (∃ i, sb.process_table i = none) → (carga_de_cria_proc hw sb pb).1 < 0 →
          so_chamada_cria_proc hw sb = some sb2 →
          sc.process_counter = sb2.process_counter →
          corrente sc = some (kc, pc) →
          (so_copia_str_do_processo hw sc.mundo 256 pc.context.x (some pc)).1 = true →
          (∃ i, sc.process_table i = none) → 0 ≤ (carga_de_cria_proc hw sc pc).1 →
          so_chamada_cria_proc hw sc = some sc2 →
          (sc2.process_table kc).map (fun p => p.context.a)
            = some (s.process_counter + 2)) := by
  obtain ⟨s2, h, c1, c2, c3, c4⟩ := so_chamada_cria_proc_casos hw s k proc hk
  refine ⟨s2, h, fun a => ⟨(c1 a).1, (c1 a).2.1⟩, fun a b => ⟨(c2 a b).1, (c2 a b).2.1⟩,
    c3, ?_⟩
  intro a b c
  obtain ⟨d1, d2⟩ := c4 a b c
  refine ⟨d1, d2, ?_⟩
  intro sb sb2 sc sc2 kb kc pb pc eb hkb b1 b2 b3 hb ec hkc e1 e2 e3 hc
  obtain ⟨sb3, hb3, _, _, f3, _⟩ := so_chamada_cria_proc_casos hw sb kb pb hkb
  rw [hb] at hb3
  cases hb3
  obtain ⟨sc3, hc3, _, _, _, g4⟩ := so_chamada_cria_proc_casos hw sc kc pc hkc
  rw [hc] at hc3
  cases hc3
  rw [(g4 e1 e2 e3).2, ec, (f3 b1 b2 b3).1, eb, d1]
  congr 1
  ring

/-- Claim C34 on the concrete machine: with the pid counter at 1, a CREATE_PROC of
"p1.maq" returns 1 and leaves the counter at 2; a CREATE_PROC of a file that does
not exist returns -1 and leaves the counter at 3; the next CREATE_PROC of
"p1.maq" returns 3. -/
theorem cria_proc_contadores_chama :
    ((so_cria_proc_apos so_chama).process_table 0).map (fun p => p.context.a) = some 1 ∧
    (so_cria_proc_apos so_chama).process_counter = 2 ∧
    ((so_cria_proc_apos so_chama_sem_arquivo).process_table 0).map (fun p => p.context.a)
      = some (-1) ∧
    (so_cria_proc_apos so_chama_sem_arquivo).process_counter = 3 ∧
    ((so_cria_proc_apos so_chama_de_novo).process_table 0).map (fun p => p.context.a)
      = some 3 := by
  obtain ⟨s2, h, _, _, _, h4⟩ := cria_proc_contadores hwT so_chama 0
    { processo_de 0 .RUNNING 0 with context := { pc := 0, a := 3, x := 200, err := 0 } }
    (by decide)
  obtain ⟨d1, _, d3⟩ := h4 (by decide) ⟨1, by decide⟩ (by decide)
  have hfim := d3 so_chama_sem_arquivo (so_cria_proc_apos so_chama_sem_arquivo)
    so_chama_de_novo (so_cria_proc_apos so_chama_de_novo) 0 0
    { processo_de 0 .RUNNING 0 with context := { pc := 0, a := 1, x := 200, err := 0 } }
    { processo_de 0 .RUNNING 0 with context := { pc := 0, a := -1, x := 200, err := 0 } }
    (by rw [d1]; decide) (by decide) (by decide) ⟨1, by decide⟩ (by decide) rfl
    (by decide) (by decide) (by decide) ⟨1, by decide⟩ (by decide) rfl
  exact ⟨by decide, by decide, by decide, by decide, hfim⟩

/-! ## The queue of t1 refines a bounded FIFO list -/

theorem resto_distinto (c a i j : Int) (hij : i < j) (hj : j < i + c) :
    (a + i) % c ≠ (a + j) % c := by
  intro h
  have h2 : ((a + j) - (a + i)) % c = 0 :=
    Int.emod_eq_emod_iff_emod_sub_eq_zero.1 h.symm
  have h3 : c ∣ (a + j) - (a + i) := Int.dvd_of_emod_eq_zero h2
  have h4 : (a + j) - (a + i) = j - i := by ring
  rw [h4] at h3
  have := Int.le_of_dvd (by omega) h3
  omega

theorem conteudo_length (q : Queue) : ((conteudo q).length : Int) = max q.size 0 := by
  unfold conteudo
  simp only [List.length_map, List.length_range]
  omega

theorem queue_create_bem_formada (c : Int) (lixo : Int → Int) (hc : 1 ≤ c) :
    bem_formada (queue_create c lixo) ∧ conteudo (queue_create c lixo) = [] := by
  refine ⟨⟨hc, le_refl _, ?_, fun _ => ⟨rfl, rfl⟩, fun h => absurd h (lt_irrefl _)⟩, rfl⟩
  show (0 : Int) ≤ c
  omega

theorem queue_push_cheia (q : Queue) (v : Int) (h : q.size = q.capacity) :
    queue_push q v = some (false, q) := by
  unfold queue_push
  rw [if_pos h]

theorem queue_push_acrescenta (q : Queue) (v : Int) (hq : bem_formada q)
    (h : q.size ≠ q.capacity) :
    ∃ q2, queue_push q v = some (true, q2) ∧ bem_formada q2 ∧
      conteudo q2 = conteudo q ++ [v] ∧ q2.size = q.size + 1 ∧ q2.capacity = q.capacity := by
  obtain ⟨hc, hs0, hsc, hvazia, hcheia⟩ := hq
  have hlt : q.size < q.capacity := lt_of_le_of_ne hsc h
  by_cases hz : q.size = 0
  · obtain ⟨hf, hb⟩ := hvazia hz
    have hback : (q.back + 1).tmod q.capacity = 0 := by rw [hb]; simp
    refine ⟨{ q with front := 0, back := 0, items := Function.update q.items 0 v, size := q.size + 1 }, ?_, ?_, ?_, rfl, rfl⟩
    · unfold queue_push
      rw [if_neg h, if_neg (by omega)]
      dsimp only
      rw [hback, if_pos ⟨le_refl _, by omega⟩, if_pos hf]
    · refine ⟨hc, ?_, ?_, ?_, ?_⟩
      · show 0 ≤ q.size + 1
        omega
      · show q.size + 1 ≤ q.capacity
        omega
      · intro h0
        have : q.size + 1 = 0 := h0
        omega
      · intro _
        refine ⟨le_refl _, by show (0 : Int) < q.capacity; omega, ?_⟩
        show (0 : Int) = (0 + (q.size + 1) - 1) % q.capacity
        rw [hz]
        simp
    · unfold conteudo
      show List.map _ (List.range (q.size + 1).toNat) = List.map _ (List.range q.size.toNat) ++ [v]
      rw [hz]
      simp [List.range_succ]
  · have hpos : 0 < q.size := by omega
    obtain ⟨hf0, hfc, hb⟩ := hcheia hpos
    have hback : (q.back + 1).tmod q.capacity = (q.front + q.size) % q.capacity := by
      have hbn : 0 ≤ q.back := by rw [hb]; exact Int.emod_nonneg _ (by omega)
      rw [Int.tmod_eq_emod (by omega) (by omega), hb, Int.emod_add_emod]
      congr 1
      ring
    have hb0 : 0 ≤ (q.front + q.size) % q.capacity := Int.emod_nonneg _ (by omega)
    have hb1 : (q.front + q.size) % q.capacity < q.capacity := Int.emod_lt_of_pos _ (by omega)
    refine ⟨{ q with front := q.front, back := (q.front + q.size) % q.capacity, items := Function.update q.items ((q.front + q.size) % q.capacity) v, size := q.size + 1 }, ?_, ?_, ?_, rfl, rfl⟩
    · unfold queue_push
      rw [if_neg h, if_neg (by omega)]
      dsimp only
      rw [hback, if_pos ⟨hb0, hb1⟩, if_neg (by omega)]
    · refine ⟨hc, ?_, ?_, ?_, ?_⟩
      · show 0 ≤ q.size + 1
        omega
      · show q.size + 1 ≤ q.capacity
        omega
      · intro h0
        have : q.size + 1 = 0 := h0
        omega
      · intro _
        refine ⟨hf0, hfc, ?_⟩
        show (q.front + q.size) % q.capacity = (q.front + (q.size + 1) - 1) % q.capacity
        congr 1
        ring
    · unfold conteudo
      show List.map (fun i => Function.update q.items ((q.front + q.size) % q.capacity) v
          ((q.front + (i : Nat)) % q.capacity)) (List.range (q.size + 1).toNat)
        = List.map _ (List.range q.size.toNat) ++ [v]
      have hn : (q.size + 1).toNat = q.size.toNat + 1 := by omega
      rw [hn, List.range_succ, List.map_append]
      congr 1
      · apply List.map_congr_left
        intro i hi
        rw [List.mem_range] at hi
        rw [Function.update_noteq]
        exact resto_distinto q.capacity q.front i q.size (by omega) (by omega)
      · simp only [List.map_cons, List.map_nil, List.cons.injEq, and_true]
        have : ((q.size.toNat : Nat) : Int) = q.size := Int.toNat_of_nonneg hs0
        rw [this, Function.update_same]

theorem queue_pop_vazia (q : Queue) (h : q.size ≤ 0) : queue_pop q = none := by
  unfold queue_pop
  rw [if_pos (by omega)]

theorem queue_pop_retira (q : Queue) (hq : bem_formada q) (h : 0 < q.size) :
    ∃ x l q2, conteudo q = x :: l ∧ queue_pop q = some (x, q2) ∧ bem_formada q2 ∧
      conteudo q2 = l ∧ q2.size = q.size - 1 ∧ q2.capacity = q.capacity := by
  obtain ⟨hc, hs0, hsc, hvazia, hcheia⟩ := hq
  obtain ⟨hf0, hfc, hb⟩ := hcheia h
  have hfm : q.front % q.capacity = q.front := Int.emod_eq_of_lt hf0 hfc
  have hn : q.size.toNat = (q.size - 1).toNat + 1 := by omega
  have hcont : conteudo q = q.items q.front ::
      (List.range (q.size - 1).toNat).map
        (fun i => q.items ((q.front + 1 + (i : Nat)) % q.capacity)) := by
    unfold conteudo
    rw [hn, List.range_succ_eq_map]
    simp only [List.map_cons, List.map_map, Nat.cast_zero, add_zero, hfm, List.cons.injEq,
      true_and]
    apply List.map_congr_left
    intro i _
    simp only [Function.comp, Nat.succ_eq_add_one]
    push_cast
    congr 2
    ring
  by_cases hfb : q.front = q.back
  · have h1 : q.size = 1 := by
      by_contra hne
      have := resto_distinto q.capacity q.front 0 (q.size - 1) (by omega) (by omega)
      apply this
      rw [add_zero, hfm, ← Int.add_sub_assoc, ← hb]
      exact hfb
    refine ⟨q.items q.front, _, { q with front := -1, back := -1, size := q.size - 1 },
      hcont, ?_, ?_, ?_, rfl, rfl⟩
    · unfold queue_pop
      rw [if_neg (by omega), if_neg (by omega)]
      dsimp only
      rw [if_pos hfb]
    · refine ⟨hc, ?_, ?_, fun _ => ⟨rfl, rfl⟩, ?_⟩
      · show 0 ≤ q.size - 1
        omega
      · show q.size - 1 ≤ q.capacity
        omega
      · intro h0
        have : 0 < q.size - 1 := h0
        omega
    · unfold conteudo
      show List.map _ (List.range (q.size - 1).toNat) = _
      rw [h1]
      rfl
  · have h2 : 2 ≤ q.size := by
      by_contra hlt
      have h1 : q.size = 1 := by omega
      apply hfb
      rw [hb, h1]
      simp [hfm]
    have hfront : (q.front + 1).tmod q.capacity = (q.front + 1) % q.capacity :=
      Int.tmod_eq_emod (by omega) (by omega)
    refine ⟨q.items q.front, _,
      { q with front := (q.front + 1) % q.capacity, size := q.size - 1 },
      hcont, ?_, ?_, ?_, rfl, rfl⟩
    · unfold queue_pop
      rw [if_neg (by omega), if_neg (by omega)]
      dsimp only
      rw [if_neg hfb, hfront]
    · refine ⟨hc, ?_, ?_, ?_, ?_⟩
      · show 0 ≤ q.size - 1
        omega
      · show q.size - 1 ≤ q.capacity
        omega
      · intro h0
        have : q.size - 1 = 0 := h0
        omega
      · intro _
        refine ⟨Int.emod_nonneg _ (by omega), Int.emod_lt_of_pos _ (by omega), ?_⟩
        show q.back = ((q.front + 1) % q.capacity + (q.size - 1) - 1) % q.capacity
        have e : (q.front + 1) % q.capacity + (q.size - 1) - 1
            = (q.front + 1) % q.capacity + (q.size - 2) := by ring
        rw [hb, e, Int.emod_add_emod]
        congr 1
        ring
    · unfold conteudo
      show List.map (fun i => q.items (((q.front + 1) % q.capacity + (i : Nat)) % q.capacity))
        (List.range (q.size - 1).toNat) = _
      apply List.map_congr_left
      intro i _
      rw [Int.emod_add_emod]

theorem conteudo_comprimento (q : Queue) (hq : bem_formada q) :
    ((conteudo q).length : Int) = q.size := by
  rw [conteudo_length]
  exact max_eq_left hq.2.1

theorem queue_executa_refina (ops : List Chamada) (q : Queue) (hq : bem_formada q) :
    (queue_executa q ops).map (fun r => (conteudo r.1, r.2))
      = fila_executa q.capacity (conteudo q) ops ∧
    ∀ q2 obs, queue_executa q ops = some (q2, obs) →
      bem_formada q2 ∧ q2.capacity = q.capacity ∧
      q2.size = q.size + sucessos obs - retiradas obs := by
  induction ops generalizing q with
  | nil =>
    refine ⟨rfl, ?_⟩
    intro q2 obs h
    cases h
    exact ⟨hq, rfl, by simp [sucessos, retiradas]⟩
  | cons op resto ih =>
    have hlen := conteudo_comprimento q hq
    cases op with
    | push v =>
      by_cases hc : q.size = q.capacity
      · have hp := queue_push_cheia q v hc
        have hf : fila_push q.capacity (conteudo q) v = (false, conteudo q) := by
          unfold fila_push
          rw [if_pos (by rw [hlen]; exact hc)]
        obtain ⟨ih1, ih2⟩ := ih q hq
        constructor
        · unfold queue_executa fila_executa
          rw [hp, hf]
          dsimp only
          rw [← ih1]
          cases queue_executa q resto with
          | none => rfl
          | some r => rfl
        · intro q2 obs h
          unfold queue_executa at h
          rw [hp] at h
          dsimp only at h
          cases hr : queue_executa q resto with
          | none => rw [hr] at h; cases h
          | some r =>
            rw [hr] at h
            cases h
            obtain ⟨a, b, c⟩ := ih2 r.1 r.2 hr
            refine ⟨a, b, ?_⟩
            rw [c]
            simp [sucessos, retiradas]
      · obtain ⟨qn, hp, hqn, hcont, hsize, hcap⟩ := queue_push_acrescenta q v hq hc
        have hf : fila_push q.capacity (conteudo q) v = (true, conteudo q ++ [v]) := by
          unfold fila_push
          rw [if_neg (by rw [hlen]; exact hc)]
        obtain ⟨ih1, ih2⟩ := ih qn hqn
        rw [hcap, hcont] at ih1
        constructor
        · unfold queue_executa fila_executa
          rw [hp, hf]
          dsimp only
          rw [← ih1]
          cases queue_executa qn resto with
          | none => rfl
          | some r => rfl
        · intro q2 obs h
          unfold queue_executa at h
          rw [hp] at h
          dsimp only at h
          cases hr : queue_executa qn resto with
          | none => rw [hr] at h; cases h
          | some r =>
            rw [hr] at h
            cases h
            obtain ⟨a, b, c⟩ := ih2 r.1 r.2 hr
            refine ⟨a, b.trans hcap, ?_⟩
            rw [c, hsize]
            simp only [sucessos, retiradas]
            ring
    | pop =>
      by_cases hpos : 0 < q.size
      · obtain ⟨x, l, qn, hxl, hp, hqn, hcont, hsize, hcap⟩ := queue_pop_retira q hq hpos
        obtain ⟨ih1, ih2⟩ := ih qn hqn
        rw [hcap, hcont] at ih1
        constructor
        · unfold queue_executa fila_executa
          rw [hp, hxl]
          unfold fila_pop
          dsimp only
          rw [← ih1]
          cases queue_executa qn resto with
          | none => rfl
          | some r => rfl
        · intro q2 obs h
          unfold queue_executa at h
          rw [hp] at h
          dsimp only at h
          cases hr : queue_executa qn resto with
          | none => rw [hr] at h; cases h
          | some r =>
            rw [hr] at h
            cases h
            obtain ⟨a, b, c⟩ := ih2 r.1 r.2 hr
            refine ⟨a, b.trans hcap, ?_⟩
            rw [c, hsize]
            simp only [sucessos, retiradas]
            ring
      · have hp := queue_pop_vazia q (by omega)
        have hvazio : conteudo q = [] := by
          apply List.eq_nil_of_length_eq_zero
          have : ((conteudo q).length : Int) = 0 := by rw [hlen]; have := hq.2.1; omega
          exact_mod_cast this
        constructor
        · unfold queue_executa fila_executa
          rw [hp, hvazio]
          rfl
        · intro q2 obs h
          unfold queue_executa at h
          rw [hp] at h
          cases h

/-- Claim C35: the ring-buffer queue of t1 refines a bounded FIFO list.  For every
capacity `c >= 1`, whatever `malloc` left in the array, and every sequence of
`queue_push` and `queue_pop` calls on the queue `queue_create` returns, the calls
return what the same calls return on the FIFO list bounded by `c` that starts
empty, and the queue stands for that list (a pop on the empty queue fails the
`assert`, as it is not allowed on the empty list).  After the sequence
`queue_size` is the number of successful pushes minus the number of pops, is the
length of the list and lies in `0..c`; `queue_push` returns false and changes
nothing exactly when the size is `c`, and otherwise returns true and appends the
value; `queue_pop`, when the size is positive, returns the oldest value and
removes it. -/
theorem fila_refina (c : Int) (lixo : Int → Int) (hc : 1 ≤ c) (ops : List Chamada) :
    (queue_executa (queue_create c lixo) ops).map (fun r => (conteudo r.1, r.2))
      = fila_executa c [] ops ∧
    ∀ q obs, queue_executa (queue_create c lixo) ops = some (q, obs) →
      queue_size q = sucessos obs - retiradas obs ∧
      0 ≤ queue_size q ∧ queue_size q ≤ c ∧
      queue_size q = ((conteudo q).length : Int) ∧
      (∀ v, (queue_size q = c → queue_push q v = some (false, q)) ∧
        (queue_size q ≠ c → ∃ q2, queue_push q v = some (true, q2) ∧
          conteudo q2 = conteudo q ++ [v] ∧ queue_size q2 = queue_size q + 1)) ∧
      (0 < queue_size q → ∃ x l q2, conteudo q = x :: l ∧ queue_pop q = some (x, q2) ∧
        conteudo q2 = l ∧ queue_size q2 = queue_size q - 1) := by
  obtain ⟨hbf, hvazia⟩ := queue_create_bem_formada c lixo hc
  obtain ⟨h1, h2⟩ := queue_executa_refina ops (queue_create c lixo) hbf
  rw [hvazia] at h1
  refine ⟨h1, ?_⟩
  intro q obs h
  obtain ⟨hq, hcap, hsize⟩ := h2 q obs h
  have hcap2 : q.capacity = c := hcap
  have hsize2 : q.size = sucessos obs - retiradas obs := by
    rw [hsize]
    show (0 : Int) + sucessos obs - retiradas obs = _
    ring
  refine ⟨hsize2, hq.2.1, by rw [← hcap2]; exact hq.2.2.1,
    (conteudo_comprimento q hq).symm, ?_, ?_⟩
  · intro v
    constructor
    · intro hs
      exact queue_push_cheia q v (hs.trans hcap2.symm)
    · intro hs
      obtain ⟨q2, a, _, b, d, _⟩ := queue_push_acrescenta q v hq
        (fun hh => hs (hh.trans hcap2))
      exact ⟨q2, a, b, d⟩
  · intro hpos
    obtain ⟨x, l, q2, a, b, _, d, e, _⟩ := queue_pop_retira q hq hpos
    exact ⟨x, l, q2, a, b, d, e⟩

/-- Claim C35 on an example: capacity 2, the array full of 7s; push 1, push 2, push 3,
pop, push 4, pop, pop.  The third push is refused, the pops return 1, 2 and 4, and
the queue is empty at the end. -/
theorem fila_refina_dois :
    (queue_executa (queue_create 2 (fun _ => 7))
      [.push 1, .push 2, .push 3, .pop, .push 4, .pop, .pop]).map
        (fun r => (conteudo r.1, r.2))
      = some ([], [.push true, .push true, .push false, .pop 1, .push true, .pop 2, .pop 4]) :=
  (fila_refina 2 (fun _ => 7) (by decide)
    [.push 1, .push 2, .push 3, .pop, .push 4, .pop, .pop]).1.trans (by decide)

end SO
